import Mathlib

/-!
# snd_fmod.c : channel pool, sound registry, play and stop operations, per-frame update

A shallow embedding of `src/source/snd_fmod.c` (the FMOD sound backend of the
client) and theorems about it.

Modelling conventions.

* Pointers are handles: `Option Nat`, with `none` for `NULL`.  A `sfx_t *` is
  the index of the entry inside `known_sfx` (the C code recovers exactly this
  index by pointer subtraction in `SfxIndex` and `GrowSfxArrays`).  The growth
  of the table, which moves the entries, is also translated with a `sfx_t *`
  as an address (`GrowSfxArrays_mem`).
* `float` values are exact rationals.  The vector arithmetic and the blocks
  that call `sqrtf` are written over any ordered field of scalars, with `sqrtf`
  as a parameter: the program state instantiates them at the rationals with
  the `sqrtf` of the engine, statements about exact arithmetic at any field in
  which `sqrtf` is the exact square root.
* C strings are Lean strings of single-byte characters; `strlen` is
  `String.length`.
* The file-scope arrays are lists; a `for (i = 0; i < N; i++)` loop over an
  array is a recursion over the list of its `N` entries (or over the index,
  when several arrays are indexed together), and a returned `&array[i]` is the
  index `i`.
* The FMOD library, the file system and the allocator are outside the file.
  Their answers are given by a `Backend`: every answer may depend on the
  number of answers given so far (`Trace.clock`) and on the arguments, so a
  statement quantified over all backends covers every sequence of answers.
  Every call made to them is appended to the transcript `Trace.calls`.
* `Sys_Error` does not return: functions that may call it return `Except`.
-/

namespace SndFmod

/-! ## Constants of the file -/

def MAX_FMOD_CHANNELS : Nat := 4095
def SFX_INITIAL : Int := 256
def SFX_GROW : Int := 256
def INT_MAX : Int := 2147483647
def QU_PER_METER : ℚ := 3937 / 100
def STATIC_ATTEN_DIV : ℚ := 64
def MIN_3D_DIST : ℚ := 80
def NOMINAL_CLIP_DIST : ℚ := 1000

/-! ## Data model -/

/-- Three scalars.  The vector arithmetic of the file is written once, over
any field of scalars `K`: the program state uses the rationals, and statements
about exact real arithmetic use the same definitions over the reals. -/
structure Vec3 (K : Type) where
  x : K
  y : K
  z : K
deriving DecidableEq

/-- A `vec3_t` / `FMOD_VECTOR`. -/
abbrev vec3_t := Vec3 ℚ

def vec3_origin : vec3_t := ⟨0, 0, 0⟩

def VectorSubtract {K : Type} [Field K] (a b : Vec3 K) : Vec3 K :=
  ⟨a.x - b.x, a.y - b.y, a.z - b.z⟩

def VectorAdd {K : Type} [Field K] (a b : Vec3 K) : Vec3 K :=
  ⟨a.x + b.x, a.y + b.y, a.z + b.z⟩

def DotProduct {K : Type} [Field K] (a b : Vec3 K) : K := a.x * b.x + a.y * b.y + a.z * b.z

/-- `VectorScale`. -/
def VectorScale {K : Type} [Field K] (v : Vec3 K) (scale : K) : Vec3 K :=
  ⟨v.x * scale, v.y * scale, v.z * scale⟩

/-- The `FMOD_3D_ATTRIBUTES` block. -/
structure FMOD_3D_ATTRIBUTES where
  position : vec3_t
  velocity : vec3_t
  forward : vec3_t
  up : vec3_t
deriving DecidableEq

/-- The `FMOD_DSP_PARAMETER_3DATTRIBUTES` block handed to the spatializer. -/
structure FMOD_DSP_PARAMETER_3DATTRIBUTES where
  relative : FMOD_3D_ATTRIBUTES
  absolute : FMOD_3D_ATTRIBUTES
deriving DecidableEq

/-- The `FMOD_MODE` bits the file uses, kept symbolic. -/
inductive FMOD_MODE_FLAG where
  | FMOD_2D
  | FMOD_3D
  | FMOD_3D_LINEARROLLOFF
  | FMOD_LOOP_OFF
  | FMOD_LOOP_NORMAL
  | FMOD_OPENMEMORY
  | FMOD_CREATESAMPLE
deriving DecidableEq

/-- Integer parameter values passed to the spatializer, kept symbolic. -/
inductive DSP_INT_VALUE where
  | ATMOKY_OUTPUT_FORMAT_BINAURAL
  | FMOD_DSP_PAN_3D_ROLLOFF_LINEAR
deriving DecidableEq

/-- Indices of `enum atmokySpatializerParameterIndex` used by the file. -/
def ATMOKY_PARAMETER_MIN_DISTANCE : Nat := 0
def ATMOKY_PARAMETER_MAX_DISTANCE : Nat := 1
def ATMOKY_PARAMETER_DISTANCE_MODEL : Nat := 2
def ATMOKY_PARAMETER_ATTRIBUTES3D : Nat := 3
def ATMOKY_PARAMETER_OUTPUT_FORMAT : Nat := 4

/-- One entry of the transcript: a call made to FMOD, to the file system or to
the allocator, with its arguments and, for most calls whose result the code
reads, the answer (the result of `FMOD_Channel_Set3DAttributes`, read by the
sweep of moving sounds only, is the backend's answer at that clock). -/
inductive FmodCall where
  | Channel_IsPlaying (ch : Nat) (answer : Option Bool)
  | Channel_IsVirtual (ch : Nat) (answer : Option Bool)
  | Channel_Stop (ch : Nat)
  | Channel_RemoveDSP (ch dsp : Nat)
  | DSP_Release (dsp : Nat)
  | System_PlaySound (sound : Nat) (paused : Bool) (result : Option Nat)
  | Channel_GetMode (ch : Nat) (answer : Option (List FMOD_MODE_FLAG))
  | Channel_SetMode (ch : Nat) (mode : List FMOD_MODE_FLAG)
  | Channel_SetLoopCount (ch : Nat) (count : Int)
  | Channel_Set3DAttributes (ch : Nat) (pos vel : vec3_t)
  | Channel_Set3DMinMaxDistance (ch : Nat) (min_dist max_dist : ℚ)
  | Channel_SetVolume (ch : Nat) (vol : ℚ)
  | Channel_SetPaused (ch : Nat) (paused : Bool)
  | FS_LoadStackFile (name : String) (result : Option Nat)
  | System_CreateSound (length : Nat) (mode : List FMOD_MODE_FLAG) (result : Option Nat)
  | Sound_Set3DMinMaxDistance (sound : Nat) (min_dist max_dist : ℚ)
  | System_CreateDSPByPlugin (handle : Nat) (result : Option Nat)
  | Channel_AddDSP (ch dsp : Nat) (ok : Bool)
  | DSP_SetParameterInt (dsp index : Nat) (value : DSP_INT_VALUE)
  | DSP_SetParameterFloat (dsp index : Nat) (value : ℚ)
  | DSP_SetParameterData (dsp index : Nat) (data : FMOD_DSP_PARAMETER_3DATTRIBUTES)
  | Q_malloc (count : Int) (ok : Bool)
  | System_Set3DListenerAttributes (pos vel forward up : vec3_t)
  | System_Set3DSettings (dopplerscale distancefactor rolloffscale : ℚ)
  | System_GetMasterChannelGroup (answer : Option Nat)
  | ChannelGroup_SetVolume (group : Nat) (vol : ℚ)
  | ChannelGroup_AddDSP (group dsp : Nat) (ok : Bool)
  | ChannelGroup_RemoveDSP (group dsp : Nat)
  | System_GetChannelsPlaying
  | System_Update
  | Sound_Release (sound : Nat)
  | System_UnloadPlugin (handle : Nat)
  | System_Close
  | System_Release
  | Q_free
deriving DecidableEq

/-- The answers of the world outside the file.  The first argument of every
field is the clock: the number of answers given before this one.  `none` is a
result other than `FMOD_OK` (or a `NULL` return). -/
structure Backend where
  Channel_IsPlaying : Nat → Nat → Option Bool
  Channel_IsVirtual : Nat → Nat → Option Bool
  System_PlaySound : Nat → Nat → Option Nat
  Channel_GetMode : Nat → Nat → Option (List FMOD_MODE_FLAG)
  FS_LoadStackFile : Nat → String → Option Nat
  System_CreateSound : Nat → Nat → Option Nat
  System_CreateDSPByPlugin : Nat → Nat → Option Nat
  Channel_AddDSP : Nat → Nat → Nat → Bool
  Q_malloc : Nat → Int → Bool
  Channel_Set3DAttributes : Nat → Nat → Bool
  System_GetMasterChannelGroup : Nat → Option Nat
  ChannelGroup_AddDSP : Nat → Nat → Nat → Bool

/-- The transcript of the interaction with the backend. -/
structure Trace where
  clock : Nat
  calls : List FmodCall
deriving DecidableEq

/-- A call whose result the code does not read. -/
def Trace.emit (t : Trace) (c : FmodCall) : Trace :=
  { t with calls := t.calls ++ [c] }

/-- A call answered by the backend: the clock advances. -/
def Trace.query (t : Trace) (c : FmodCall) : Trace :=
  { clock := t.clock + 1, calls := t.calls ++ [c] }

/-- The `sfx_t` of the engine: the name and the cache pointer. -/
structure sfx_t where
  name : String
  cache : Option Nat
deriving DecidableEq

/-- The `fmod_sfx_t` of the file. -/
structure fmod_sfx_t where
  sound : Option Nat
  loaded : Bool
deriving DecidableEq

/-- The `fmod_channel_t` of the file: one slot of the pool. -/
structure fmod_channel_t where
  channel : Option Nat
  spatializer : Option Nat
  entnum : Int
  entchannel : Int
  sfx : Option Nat
  is_static : Bool
  origin_qu : vec3_t
  prev_origin_qu : vec3_t
  origin_offset : vec3_t
  have_prev_origin : Bool
deriving DecidableEq

/-- A slot after `memset(slot, 0, sizeof(*slot))`. -/
def fmod_channel_zero : fmod_channel_t :=
  { channel := none, spatializer := none, entnum := 0, entchannel := 0, sfx := none,
    is_static := false, origin_qu := vec3_origin, prev_origin_qu := vec3_origin,
    origin_offset := vec3_origin, have_prev_origin := false }

/-- An `sfx_t` after `memset` to zero. -/
def sfx_zero : sfx_t := { name := "", cache := none }

/-- An `fmod_sfx_t` after `memset` to zero. -/
def fmod_sfx_zero : fmod_sfx_t := { sound := none, loaded := false }

/-- What the file reads from the rest of the engine and from the C library:
constants of the engine headers, cvar values, the client state, the collision
model, and `sqrtf`.  A leaf pointer is a number. -/
structure Engine where
  MAX_QPATH : Nat
  MAX_EDICTS : Int
  s_nosound : ℚ
  s_precache : ℚ
  cl_playernum : Int
  cl_entities_lerp_origin : Int → vec3_t
  cl_simvel : vec3_t
  cls_state : Int
  ca_active : Int
  cls_frametime : ℚ
  s_volume : ℚ
  s_ambientlevel : ℚ
  s_ambientfade : ℚ
  s_noextraupdate : ℚ
  s_show : ℚ
  s_doppler : ℚ
  s_doppler_factor : ℚ
  s_externalizer : ℚ
  s_externalizer_amount : ℚ
  s_externalizer_character : ℚ
  CM_PointInLeaf : vec3_t → Nat
  CM_Leafnum : Nat → Int
  CM_LeafAmbientLevel : Nat → Nat → ℚ
  sqrtf : ℚ → ℚ

/-- The file-scope state of `snd_fmod.c`, with the transcript. -/
structure State where
  fmod_system : Option Nat
  fmod_initialized : Bool
  snd_initialized : Bool
  atmoky_available : Bool
  atmoky_root_handle : Nat
  atmoky_spatializer_handle : Nat
  atmoky_externalizer_handle : Nat
  atmoky_master_externalizer : Option Nat
  listener_atmoky : FMOD_3D_ATTRIBUTES
  listener_atmoky_right : vec3_t
  known_sfx : Option (List sfx_t)
  fmod_sounds : Option (List fmod_sfx_t)
  max_sfx : Int
  num_sfx : Int
  ambient_sfx : List (Option Nat)
  fmod_channels : List fmod_channel_t
  ambient_fmod_channels : List (Option Nat)
  ambient_vol : List ℚ
  total_channels : Int
  snd_blocked : Int
  listener_origin : vec3_t
  listener_forward : vec3_t
  listener_right : vec3_t
  listener_up : vec3_t
  trace : Trace

/-! ## Channel pool -/

/-- The answer `ChannelIsPlaying` derives from the backend at a given clock. -/
def reportsPlaying (β : Backend) (clock ch : Nat) : Bool :=
  match β.Channel_IsPlaying clock ch with
  | some playing => playing
  | none => false

/-- The answer `ChannelIsVirtual` derives from the backend at a given clock. -/
def reportsVirtual (β : Backend) (clock ch : Nat) : Bool :=
  match β.Channel_IsVirtual clock ch with
  | some virt => virt
  | none => false

/-- `ChannelIsPlaying`. -/
def ChannelIsPlaying (β : Backend) (t : Trace) (ch : Option Nat) : Bool × Trace :=
  match ch with
  | none => (false, t)
  | some c =>
    (reportsPlaying β t.clock c, t.query (.Channel_IsPlaying c (β.Channel_IsPlaying t.clock c)))

/-- `ChannelIsVirtual`. -/
def ChannelIsVirtual (β : Backend) (t : Trace) (ch : Option Nat) : Bool × Trace :=
  match ch with
  | none => (false, t)
  | some c =>
    (reportsVirtual β t.clock c, t.query (.Channel_IsVirtual c (β.Channel_IsVirtual t.clock c)))

/-- `Atmoky_ReleaseSpatializer` on a slot (never called with a null slot). -/
def Atmoky_ReleaseSpatializer (t : Trace) (fch : fmod_channel_t) : Trace × fmod_channel_t :=
  match fch.spatializer with
  | none => (t, fch)
  | some dsp =>
    let t1 := match fch.channel with
      | some ch => t.emit (.Channel_RemoveDSP ch dsp)
      | none => t
    (t1.emit (.DSP_Release dsp), { fch with spatializer := none })

/-- The rest of a scan, behind a slot that is kept as `fch`: a slot found
further on has its index shifted by one. -/
def scanNext (fch : fmod_channel_t) (r : Option Nat × Trace × List fmod_channel_t) :
    Option Nat × Trace × List fmod_channel_t :=
  (r.1.map (· + 1), r.2.1, fch :: r.2.2)

/-- The test of `FindChannel` and `S_StopSound` on a slot in use:
same entity, and same sub-channel unless the wildcard `-1` is asked for. -/
def slotMatches (entnum entchannel : Int) (fch : fmod_channel_t) : Bool :=
  fch.entnum == entnum && (entchannel == -1 || fch.entchannel == entchannel)

/-- The loop of `FindChannel` over the slots from the current one on. -/
def FindChannel_scan (β : Backend) (entnum entchannel : Int) :
    Trace → List fmod_channel_t → Option Nat × Trace × List fmod_channel_t
  | t, [] => (none, t, [])
  | t, fch :: rest =>
    if fch.channel = none then
      scanNext fch (FindChannel_scan β entnum entchannel t rest)
    else if fch.entnum ≠ entnum then
      scanNext fch (FindChannel_scan β entnum entchannel t rest)
    else if entchannel ≠ -1 ∧ fch.entchannel ≠ entchannel then
      scanNext fch (FindChannel_scan β entnum entchannel t rest)
    else
      let p := ChannelIsPlaying β t fch.channel
      if p.1 = false then
        let r := Atmoky_ReleaseSpatializer p.2 fch
        scanNext { r.2 with channel := none } (FindChannel_scan β entnum entchannel r.1 rest)
      else
        (some 0, p.2, fch :: rest)

/-- `FindChannel`: the index of the slot found, and the state after the scan. -/
def FindChannel (β : Backend) (s : State) (entnum entchannel : Int) : Option Nat × State :=
  let r := FindChannel_scan β entnum entchannel s.trace s.fmod_channels
  (r.1, { s with trace := r.2.1, fmod_channels := r.2.2 })

/-- The first loop of `AllocChannel`: the first slot that is free or whose
channel does not report playing. -/
def AllocChannel_scan1 (β : Backend) :
    Trace → List fmod_channel_t → Option Nat × Trace × List fmod_channel_t
  | t, [] => (none, t, [])
  | t, fch :: rest =>
    if fch.channel = none then
      (some 0, t, fch :: rest)
    else
      let p := ChannelIsPlaying β t fch.channel
      if p.1 = false then
        let r := Atmoky_ReleaseSpatializer p.2 fch
        (some 0, r.1, fmod_channel_zero :: rest)
      else
        scanNext fch (AllocChannel_scan1 β p.2 rest)

/-- The second loop of `AllocChannel`: the first slot whose channel reports
virtual is stopped and taken. -/
def AllocChannel_scan2 (β : Backend) :
    Trace → List fmod_channel_t → Option Nat × Trace × List fmod_channel_t
  | t, [] => (none, t, [])
  | t, fch :: rest =>
    match fch.channel with
    | none => scanNext fch (AllocChannel_scan2 β t rest)
    | some ch =>
      let v := ChannelIsVirtual β t (some ch)
      if v.1 = false then
        scanNext fch (AllocChannel_scan2 β v.2 rest)
      else
        let r := Atmoky_ReleaseSpatializer (v.2.emit (.Channel_Stop ch)) fch
        (some 0, r.1, fmod_channel_zero :: rest)

/-- `AllocChannel`: the index of the slot handed out, and the state after. -/
def AllocChannel (β : Backend) (s : State) : Option Nat × State :=
  let r1 := AllocChannel_scan1 β s.trace s.fmod_channels
  match r1.1 with
  | some i => (some i, { s with trace := r1.2.1, fmod_channels := r1.2.2 })
  | none =>
    let r2 := AllocChannel_scan2 β r1.2.1 r1.2.2
    (r2.1, { s with trace := r2.2.1, fmod_channels := r2.2.2 })

/-- The loop of `S_StopSound`. -/
def S_StopSound_scan (entnum entchannel : Int) :
    Trace → List fmod_channel_t → Trace × List fmod_channel_t
  | t, [] => (t, [])
  | t, fch :: rest =>
    match fch.channel with
    | none =>
      let r := S_StopSound_scan entnum entchannel t rest
      (r.1, fch :: r.2)
    | some ch =>
      if fch.entnum ≠ entnum then
        let r := S_StopSound_scan entnum entchannel t rest
        (r.1, fch :: r.2)
      else if entchannel ≠ -1 ∧ fch.entchannel ≠ entchannel then
        let r := S_StopSound_scan entnum entchannel t rest
        (r.1, fch :: r.2)
      else
        let q := Atmoky_ReleaseSpatializer (t.emit (.Channel_Stop ch)) fch
        let r := S_StopSound_scan entnum entchannel q.1 rest
        (r.1, { q.2 with channel := none } :: r.2)

/-- `S_StopSound`. -/
def S_StopSound (s : State) (entnum entchannel : Int) : State :=
  let r := S_StopSound_scan entnum entchannel s.trace s.fmod_channels
  { s with trace := r.1, fmod_channels := r.2 }

/-- The loop of `StopAllTrackedChannels`: only the transcript changes. -/
def StopAllTrackedChannels_scan : Trace → List fmod_channel_t → Trace
  | t, [] => t
  | t, fch :: rest =>
    let t1 := match fch.channel with
      | some ch => t.emit (.Channel_Stop ch)
      | none => t
    StopAllTrackedChannels_scan (Atmoky_ReleaseSpatializer t1 fch).1 rest

/-- `StopAllTrackedChannels`: the loop, then `memset` of the whole pool. -/
def StopAllTrackedChannels (s : State) : State :=
  { s with
    trace := StopAllTrackedChannels_scan s.trace s.fmod_channels
    fmod_channels := s.fmod_channels.map (fun _ => fmod_channel_zero) }

/-- The stop calls of `StopAmbientChannels`, slot after slot. -/
def StopAmbientChannels_scan : Trace → List (Option Nat) → Trace
  | t, [] => t
  | t, some ch :: rest => StopAmbientChannels_scan (t.emit (.Channel_Stop ch)) rest
  | t, none :: rest => StopAmbientChannels_scan t rest

/-- `StopAmbientChannels`. -/
def StopAmbientChannels (s : State) : State :=
  { s with
    trace := StopAmbientChannels_scan s.trace s.ambient_fmod_channels
    ambient_fmod_channels := s.ambient_fmod_channels.map (fun _ => none)
    ambient_vol := s.ambient_vol.map (fun _ => 0) }

/-- `S_StopAllSounds` (the argument `clear` is not read). -/
def S_StopAllSounds (s : State) : State :=
  if s.fmod_initialized = false then s
  else { StopAmbientChannels (StopAllTrackedChannels s) with total_channels := 0 }

/-! ## Sound registry -/

/-- A signed 32-bit result of an `int` operation (two's complement wrap):
`2147483648` is `2^31`, `4294967296` is `2^32`. -/
def wrapInt32 (x : Int) : Int := (x + 2147483648) % 4294967296 - 2147483648

/-- The first `n` entries of the old array as `memcpy` leaves them in the new
one.  Entries the old array does not have (no array, or fewer than `n` entries:
uninitialised memory in C) read as zero. -/
def copyEntries {α : Type} (zero : α) (n : Nat) (old : Option (List α)) : List α :=
  ((old.getD []).take n) ++ List.replicate (n - ((old.getD []).take n).length) zero

/-- The pointer fix-up of `GrowSfxArrays`: `idx = ptr - known_sfx`, then
`&new_known[idx]`.  A null pointer stays null.  With a `sfx_t *` kept as the
index of its entry this is the index itself; `relocateSfx_mem` is the same
fix-up on addresses. -/
def relocateSfx (p : Option Nat) : Option Nat :=
  match p with
  | some idx => some idx
  | none => none

/-- `GrowSfxArrays`.  The cast `(uint64_t)` is the remainder modulo `2^64`,
written out as `18446744073709551616`. -/
def GrowSfxArrays (β : Backend) (s : State) : Except String (Bool × State) :=
  if wrapInt32 (s.max_sfx + SFX_GROW) % 18446744073709551616 ≥ INT_MAX then
    .error "Grow SFX: exceeded maximum integer width"
  else
    let new_cap := wrapInt32 (s.max_sfx + SFX_GROW)
    let ok_known := β.Q_malloc s.trace.clock new_cap
    let t1 := s.trace.query (.Q_malloc new_cap ok_known)
    let ok_fmod := β.Q_malloc t1.clock new_cap
    let t2 := t1.query (.Q_malloc new_cap ok_fmod)
    if ok_known = false ∨ ok_fmod = false then
      .ok (false, { s with trace := t2 })
    else
      let copy := decide (s.known_sfx.isSome ∧ s.max_sfx > 0)
      let new_known :=
        copyEntries sfx_zero s.max_sfx.toNat (if copy then s.known_sfx else none)
          ++ List.replicate SFX_GROW.toNat sfx_zero
      let new_fmod :=
        copyEntries fmod_sfx_zero s.max_sfx.toNat (if copy then s.fmod_sounds else none)
          ++ List.replicate SFX_GROW.toNat fmod_sfx_zero
      .ok (true, { s with
        trace := t2
        ambient_sfx := s.ambient_sfx.map relocateSfx
        fmod_channels := s.fmod_channels.map (fun fch => { fch with sfx := relocateSfx fch.sfx })
        known_sfx := some new_known
        fmod_sounds := some new_fmod
        max_sfx := new_cap })

/-- The search loop of `S_FindName`: the first index below `n` whose entry has
the name. -/
def S_FindName_scan (name : String) : Nat → List sfx_t → Option Nat
  | 0, _ => none
  | _ + 1, [] => none
  | n + 1, e :: rest =>
    if e.name = name then some 0 else (S_FindName_scan name n rest).map (· + 1)

/-- `S_FindName`: the index of the entry, and the state after the call. -/
def S_FindName (β : Backend) (env : Engine) (s : State) (name : Option String) :
    Except String (Nat × State) :=
  match name with
  | none => .error "S_FindName: NULL"
  | some name =>
    if name.length ≥ env.MAX_QPATH then
      .error ("Sound name too long: " ++ name)
    else
      match S_FindName_scan name s.num_sfx.toNat (s.known_sfx.getD []) with
      | some i => .ok (i, s)
      | none =>
        let grown : Except String State :=
          if s.num_sfx ≥ s.max_sfx then
            match GrowSfxArrays β s with
            | .error e => .error e
            | .ok (false, _) => .error "S_FindName: couldn't grow sfx arrays"
            | .ok (true, s1) => .ok s1
          else .ok s
        match grown with
        | .error e => .error e
        | .ok s1 =>
          let idx := s1.num_sfx.toNat
          .ok (idx, { s1 with
            known_sfx := s1.known_sfx.map (fun l => l.set idx { name := name, cache := none })
            fmod_sounds := s1.fmod_sounds.map (fun l => l.set idx { sound := none, loaded := false })
            num_sfx := wrapInt32 (s1.num_sfx + 1) })

/-- `SfxIndex`. -/
def SfxIndex (s : State) (sfx : Nat) : Int :=
  if (sfx : Int) < 0 ∨ (sfx : Int) ≥ s.max_sfx then -1 else (sfx : Int)

/-- The mode `FMOD_LoadSfx` creates sounds with. -/
def loadMode (atmoky_available : Bool) : List FMOD_MODE_FLAG :=
  [.FMOD_OPENMEMORY, .FMOD_LOOP_OFF, .FMOD_CREATESAMPLE] ++
    (if atmoky_available then [.FMOD_2D] else [.FMOD_3D, .FMOD_3D_LINEARROLLOFF])

/-- Store into `fmod_sounds[idx]`. -/
def setFmodSound (s : State) (idx : Nat) (e : fmod_sfx_t) (t : Trace) : State :=
  { s with fmod_sounds := s.fmod_sounds.map (fun l => l.set idx e), trace := t }

/-- `FMOD_LoadSfx`: the sound object (`none` for `NULL`) and the state after. -/
def FMOD_LoadSfx (β : Backend) (s : State) (sfx : Option Nat) : Option Nat × State :=
  match s.fmod_system, sfx with
  | none, _ => (none, s)
  | some _, none => (none, s)
  | some _, some p =>
    if SfxIndex s p < 0 then (none, s)
    else
      let idx := (SfxIndex s p).toNat
      let entry := (s.fmod_sounds.getD []).getD idx fmod_sfx_zero
      if entry.loaded then (entry.sound, s)
      else
        let namebuf := ("sound/" ++ ((s.known_sfx.getD []).getD idx sfx_zero).name).take 255
        let data := β.FS_LoadStackFile s.trace.clock namebuf
        let t1 := s.trace.query (.FS_LoadStackFile namebuf data)
        match data with
        | none => (none, setFmodSound s idx { sound := none, loaded := true } t1)
        | some fs_filesize =>
          let mode := loadMode s.atmoky_available
          let result := β.System_CreateSound t1.clock fs_filesize
          let t2 := t1.query (.System_CreateSound fs_filesize mode result)
          match result with
          | none => (none, setFmodSound s idx { sound := none, loaded := true } t2)
          | some snd =>
            let t3 := if s.atmoky_available then t2
              else t2.emit (.Sound_Set3DMinMaxDistance snd MIN_3D_DIST NOMINAL_CLIP_DIST)
            (some snd, setFmodSound s idx { sound := some snd, loaded := true } t3)

/-! ## Spatializer attachment and play requests -/

/-- `QToAtmokyPosMeters`. -/
def QToAtmokyPosMeters (qpos : vec3_t) : vec3_t :=
  ⟨-qpos.y * (1 / QU_PER_METER), qpos.z * (1 / QU_PER_METER), qpos.x * (1 / QU_PER_METER)⟩

/-- `ComputeRelative3DAttributes`: the attributes relative to the listener. -/
def ComputeRelative3DAttributes (s : State) (abs_pos abs_vel : vec3_t) : FMOD_3D_ATTRIBUTES :=
  let delta := VectorSubtract abs_pos s.listener_atmoky.position
  let vdelta := VectorSubtract abs_vel s.listener_atmoky.velocity
  { position := ⟨DotProduct delta s.listener_atmoky_right, DotProduct delta s.listener_atmoky.up,
      DotProduct delta s.listener_atmoky.forward⟩
    velocity := ⟨DotProduct vdelta s.listener_atmoky_right, DotProduct vdelta s.listener_atmoky.up,
      DotProduct vdelta s.listener_atmoky.forward⟩
    forward := ⟨0, 0, 1⟩
    up := ⟨0, 1, 0⟩ }

/-- `Atmoky_AttachSpatializer` on the slot of index `fch` (`none` for a null
slot pointer). -/
def Atmoky_AttachSpatializer (β : Backend) (s : State) (fch : Option Nat) (channel : Option Nat)
    (origin_qu : vec3_t) (min_dist_qu max_dist_qu : ℚ) : State :=
  match fch, channel with
  | some i, some ch =>
    if s.atmoky_available = false ∨ s.atmoky_spatializer_handle = 0 then s
    else
      let got := β.Channel_GetMode s.trace.clock ch
      let t1 := s.trace.query (.Channel_GetMode ch got)
      let cmode := ((got.getD []).filter (fun f => f ≠ .FMOD_3D)) ++ [.FMOD_2D]
      let t2 := t1.emit (.Channel_SetMode ch cmode)
      let created := β.System_CreateDSPByPlugin t2.clock s.atmoky_spatializer_handle
      let t3 := t2.query (.System_CreateDSPByPlugin s.atmoky_spatializer_handle created)
      match created with
      | none => { s with trace := t3 }
      | some dsp =>
        let added := β.Channel_AddDSP t3.clock ch dsp
        let t4 := t3.query (.Channel_AddDSP ch dsp added)
        if added = false then
          { s with trace := t4.emit (.DSP_Release dsp) }
        else
          let absolute : FMOD_3D_ATTRIBUTES :=
            { position := QToAtmokyPosMeters origin_qu, velocity := ⟨0, 0, 0⟩,
              forward := ⟨0, 0, 1⟩, up := ⟨0, 1, 0⟩ }
          let a : FMOD_DSP_PARAMETER_3DATTRIBUTES :=
            { relative := ComputeRelative3DAttributes s absolute.position absolute.velocity
              absolute := absolute }
          let t5 := t4.emit (.DSP_SetParameterInt dsp ATMOKY_PARAMETER_OUTPUT_FORMAT
            .ATMOKY_OUTPUT_FORMAT_BINAURAL)
          let t6 := t5.emit (.DSP_SetParameterFloat dsp ATMOKY_PARAMETER_MIN_DISTANCE
            (min_dist_qu * (1 / QU_PER_METER)))
          let t7 := t6.emit (.DSP_SetParameterFloat dsp ATMOKY_PARAMETER_MAX_DISTANCE
            (max_dist_qu * (1 / QU_PER_METER)))
          let t8 := t7.emit (.DSP_SetParameterInt dsp ATMOKY_PARAMETER_DISTANCE_MODEL
            .FMOD_DSP_PAN_3D_ROLLOFF_LINEAR)
          let t9 := t8.emit (.DSP_SetParameterData dsp ATMOKY_PARAMETER_ATTRIBUTES3D a)
          { s with
            trace := t9
            fmod_channels := match s.fmod_channels[i]? with
              | some slot => s.fmod_channels.set i { slot with spatializer := some dsp }
              | none => s.fmod_channels }
  | _, _ => s

/-- The body of the stop-existing loop of `S_StartSound` on the slot that
`FindChannel` returned: stop the channel, release the spatializer, clear the
channel handle. -/
def S_StartSound_stopFound (s : State) (i : Nat) : State :=
  match s.fmod_channels[i]? with
  | none => s
  | some fch =>
    let t1 := match fch.channel with
      | some ch => s.trace.emit (.Channel_Stop ch)
      | none => s.trace
    let r := Atmoky_ReleaseSpatializer t1 fch
    { s with trace := r.1, fmod_channels := s.fmod_channels.set i { r.2 with channel := none } }

/-- The loop `for (;;) { fch = FindChannel(..); if (!fch) break; .. }` of
`S_StartSound`, run for at most `fuel` iterations. -/
def S_StartSound_stopExisting (β : Backend) (entnum entchannel : Int) : Nat → State → State
  | 0, s => s
  | fuel + 1, s =>
    match (FindChannel β s entnum entchannel).1 with
    | none => (FindChannel β s entnum entchannel).2
    | some i =>
      S_StartSound_stopExisting β entnum entchannel fuel
        (S_StartSound_stopFound (FindChannel β s entnum entchannel).2 i)

/-- `VALID_ENTITY`. -/
def VALID_ENTITY (env : Engine) (n : Int) : Bool := decide (n > 0 ∧ n < env.MAX_EDICTS)

/-- The slot `S_StartSound` writes for a new channel. -/
def S_StartSound_slot (env : Engine) (channel : Nat) (entnum entchannel : Int) (sfx : Option Nat)
    (origin : vec3_t) : fmod_channel_t :=
  { fmod_channel_zero with
    channel := some channel
    entnum := entnum
    entchannel := entchannel
    sfx := sfx
    is_static := false
    origin_qu := origin
    prev_origin_qu := origin
    have_prev_origin := false
    origin_offset :=
      if VALID_ENTITY env entnum = true ∧ entnum ≠ env.cl_playernum + 1 then
        VectorSubtract origin (env.cl_entities_lerp_origin entnum)
      else vec3_origin }

/-- The far distance of a sound started by `S_StartSound`. -/
def S_StartSound_max_dist (attenuation : ℚ) : ℚ :=
  if NOMINAL_CLIP_DIST / attenuation < MIN_3D_DIST then MIN_3D_DIST + 1
  else NOMINAL_CLIP_DIST / attenuation

/-- A state after a further call whose result the code does not read. -/
def State.emit (s : State) (c : FmodCall) : State := { s with trace := s.trace.emit c }

/-- A state after a further call answered by the backend. -/
def State.query (s : State) (c : FmodCall) : State := { s with trace := s.trace.query c }

/-- A state with slot `i` of the pool overwritten. -/
def State.setSlot (s : State) (i : Nat) (fch : fmod_channel_t) : State :=
  { s with fmod_channels := s.fmod_channels.set i fch }

/-- The first part of `S_StartSound` once the sound is loaded, on the state
`FMOD_LoadSfx` left: the existing sounds of the entity and sub-channel are
stopped when the sub-channel is not 0.  The loop gets one more iteration than
the pool has slots, which it never uses up. -/
def S_StartSound_beforePlay (β : Backend) (s : State) (entnum entchannel : Int) : State :=
  if entchannel ≠ 0 then
    S_StartSound_stopExisting β entnum entchannel (s.fmod_channels.length + 1) s
  else s

/-- The part of `S_StartSound` after a successful `FMOD_System_PlaySound` that
gave `channel`: the state after the call, and the index of the pool slot
`AllocChannel` gave (`none` when it gave none). -/
def S_StartSound_afterPlay (β : Backend) (env : Engine) (s : State) (channel : Nat)
    (entnum entchannel : Int) (sfx : Option Nat) (origin : vec3_t) (fvol attenuation : ℚ) :
    State × Option Nat :=
  let a := AllocChannel β s
  let s4 := match a.1 with
    | some i => a.2.setSlot i (S_StartSound_slot env channel entnum entchannel sfx origin)
    | none => a.2
  let s5 :=
    if entnum = env.cl_playernum + 1 ∨ attenuation ≤ 0 then
      s4.emit (.Channel_SetMode channel [.FMOD_2D])
    else if s4.atmoky_available = true ∧ a.1.isSome then
      Atmoky_AttachSpatializer β s4 a.1 (some channel) origin MIN_3D_DIST
        (S_StartSound_max_dist attenuation)
    else
      (s4.emit (.Channel_Set3DAttributes channel origin vec3_origin)).emit
        (.Channel_Set3DMinMaxDistance channel MIN_3D_DIST (S_StartSound_max_dist attenuation))
  ((s5.emit (.Channel_SetVolume channel fvol)).emit (.Channel_SetPaused channel false), a.1)

/-- `S_StartSound`, with a record of what the call did: `none` when the call
returned before a backend channel was created, `some (channel, fch)` when the
backend channel `channel` was created and unpaused, `fch` being the index of
the pool slot `AllocChannel` gave for it (`none` when it gave none). -/
def S_StartSound_run (β : Backend) (env : Engine) (s : State) (entnum entchannel : Int)
    (sfx : Option Nat) (origin : vec3_t) (fvol attenuation : ℚ) :
    State × Option (Nat × Option Nat) :=
  if s.fmod_initialized = false ∨ sfx = none ∨ env.s_nosound ≠ 0 then (s, none)
  else
    match (FMOD_LoadSfx β s sfx).1 with
    | none => ((FMOD_LoadSfx β s sfx).2, none)
    | some sound =>
      let s2 := S_StartSound_beforePlay β (FMOD_LoadSfx β s sfx).2 entnum entchannel
      match β.System_PlaySound s2.trace.clock sound with
      | none => (s2.query (.System_PlaySound sound true none), none)
      | some channel =>
        let r := S_StartSound_afterPlay β env (s2.query (.System_PlaySound sound true (some channel)))
          channel entnum entchannel sfx origin fvol attenuation
        (r.1, some (channel, r.2))

/-- `S_StartSound`. -/
def S_StartSound (β : Backend) (env : Engine) (s : State) (entnum entchannel : Int)
    (sfx : Option Nat) (origin : vec3_t) (fvol attenuation : ℚ) : State :=
  (S_StartSound_run β env s entnum entchannel sfx origin fvol attenuation).1

/-! ## Listener vectors -/

/-- `QToAtmokyVelMeters`. -/
def QToAtmokyVelMeters (qvel : vec3_t) : vec3_t :=
  ⟨-qvel.y * (1 / QU_PER_METER), qvel.z * (1 / QU_PER_METER), qvel.x * (1 / QU_PER_METER)⟩

/-- `QToAtmokyDir`. -/
def QToAtmokyDir (qdir : vec3_t) : vec3_t := ⟨-qdir.y, qdir.z, qdir.x⟩

/-- `FMOD_Cross`. -/
def FMOD_Cross {K : Type} [Field K] (a b : Vec3 K) : Vec3 K :=
  ⟨a.y * b.z - a.z * b.y, a.z * b.x - a.x * b.z, a.x * b.y - a.y * b.x⟩

/-- `NormalizeInPlace`: the value returned and the vector as the call leaves
it.  The literal `1e-6f` is one millionth. -/
def NormalizeInPlace {K : Type} [LinearOrderedField K] (sqrtf : K → K) (v : Vec3 K) :
    Bool × Vec3 K :=
  if v.x * v.x + v.y * v.y + v.z * v.z < 1 / 1000000 then (false, v)
  else
    let len := 1 / sqrtf (v.x * v.x + v.y * v.y + v.z * v.z)
    (true, ⟨v.x * len, v.y * len, v.z * len⟩)

/-- `OrthonormalizeFmodVectors`: the up vector as the call leaves it (the
forward vector is only read). -/
def OrthonormalizeFmodVectors {K : Type} [LinearOrderedField K] (sqrtf : K → K)
    (fwd up : Vec3 K) : Vec3 K :=
  let dot := fwd.x * up.x + fwd.y * up.y + fwd.z * up.z
  (NormalizeInPlace sqrtf ⟨up.x - dot * fwd.x, up.y - dot * fwd.y, up.z - dot * fwd.z⟩).2

/-- The statements of `S_Update` that turn a forward and an up vector into the
basis given to the backend: `if (!NormalizeInPlace(&fwd) ||
!NormalizeInPlace(&up))` the defaults, else `OrthonormalizeFmodVectors`.
`S_Update` has them twice, for the Atmoky listener and for the FMOD listener. -/
def S_Update_basis {K : Type} [LinearOrderedField K] (sqrtf : K → K) (fwd up : Vec3 K) :
    Vec3 K × Vec3 K :=
  if (NormalizeInPlace sqrtf fwd).1 = false then (⟨0, 0, 1⟩, ⟨0, 1, 0⟩)
  else if (NormalizeInPlace sqrtf up).1 = false then (⟨0, 0, 1⟩, ⟨0, 1, 0⟩)
  else
    ((NormalizeInPlace sqrtf fwd).2,
      OrthonormalizeFmodVectors sqrtf (NormalizeInPlace sqrtf fwd).2 (NormalizeInPlace sqrtf up).2)

/-! ## Per-frame sweeps of the pool -/

def MAX_SOUND_VELOCITY_QU {K : Type} [Field K] : K := 3000

def TELEPORT_DIST_QU {K : Type} [Field K] : K := 1000

/-- The velocity block of `S_UpdateMovingSounds` (`if (fch->have_prev_origin &&
cls.frametime > 0.0f) .. else VectorClear(vel_qu)`): the velocity `vel_qu`, and
`fch->have_prev_origin` as the block leaves it. -/
def S_UpdateMovingSounds_velocity {K : Type} [LinearOrderedField K] (sqrtf : K → K)
    (have_prev_origin : Bool) (frametime : K) (cur_origin prev_origin_qu : Vec3 K) :
    Vec3 K × Bool :=
  if have_prev_origin = true ∧ frametime > 0 then
    let move := VectorSubtract cur_origin prev_origin_qu
    let dist_sq := DotProduct move move
    if dist_sq > 1000 * 1000 then
      (⟨0, 0, 0⟩, false)
    else
      let vel_qu := VectorScale move (1 / frametime)
      let speed_sq := DotProduct vel_qu vel_qu
      if speed_sq > 3000 * 3000 then
        (VectorScale vel_qu (3000 / sqrtf speed_sq), have_prev_origin)
      else
        (vel_qu, have_prev_origin)
  else
    (⟨0, 0, 0⟩, have_prev_origin)

/-- The velocity block of `Atmoky_UpdateSpatializers`: the velocity `cur_vel`,
and `fch->have_prev_origin` as the block leaves it. -/
def Atmoky_UpdateSpatializers_velocity {K : Type} [LinearOrderedField K] (sqrtf : K → K)
    (have_prev_origin : Bool) (frametime : K) (cur_origin prev_origin_qu : Vec3 K) :
    Vec3 K × Bool :=
  if have_prev_origin = true ∧ frametime > 0 then
    let move := VectorSubtract cur_origin prev_origin_qu
    let dist_sq := DotProduct move move
    if dist_sq > TELEPORT_DIST_QU * TELEPORT_DIST_QU then
      (⟨0, 0, 0⟩, false)
    else
      let cur_vel := VectorScale move (1 / frametime)
      let speed_sq := DotProduct cur_vel cur_vel
      if speed_sq > MAX_SOUND_VELOCITY_QU * MAX_SOUND_VELOCITY_QU then
        (VectorScale cur_vel (MAX_SOUND_VELOCITY_QU / sqrtf speed_sq), have_prev_origin)
      else
        (cur_vel, have_prev_origin)
  else
    (⟨0, 0, 0⟩, have_prev_origin)

/-- The rest of a sweep, behind a slot that is left as `fch`. -/
def sweepNext (fch : fmod_channel_t) (r : Trace × List fmod_channel_t) :
    Trace × List fmod_channel_t :=
  (r.1, fch :: r.2)

/-- The slot as the end of a sweep iteration leaves it: the velocity block has
stored its flag, then `origin_qu` and `prev_origin_qu` take `cur_origin` and
`have_prev_origin = true` is stored. -/
def sweepStore (fch : fmod_channel_t) (cur_origin : vec3_t) (flag : Bool) : fmod_channel_t :=
  { { fch with have_prev_origin := flag } with
    origin_qu := cur_origin
    prev_origin_qu := cur_origin
    have_prev_origin := true }

/-- The loop of `S_UpdateMovingSounds` over the slots from the current one on.
`FMOD_ERRCHECK` leaves the function: the slots behind are not visited. -/
def S_UpdateMovingSounds_scan (β : Backend) (env : Engine) :
    Trace → List fmod_channel_t → Trace × List fmod_channel_t
  | t, [] => (t, [])
  | t, fch :: rest =>
    match fch.channel with
    | none => sweepNext fch (S_UpdateMovingSounds_scan β env t rest)
    | some ch =>
      if fch.spatializer ≠ none then
        sweepNext fch (S_UpdateMovingSounds_scan β env t rest)
      else
        let p := ChannelIsPlaying β t (some ch)
        if p.1 = false then
          sweepNext { fch with channel := none } (S_UpdateMovingSounds_scan β env p.2 rest)
        else if fch.is_static = true then
          sweepNext fch (S_UpdateMovingSounds_scan β env p.2 rest)
        else if fch.entnum ≤ 0 ∨ fch.entnum ≥ env.MAX_EDICTS then
          sweepNext fch (S_UpdateMovingSounds_scan β env p.2 rest)
        else if fch.entnum = env.cl_playernum + 1 then
          sweepNext fch (S_UpdateMovingSounds_scan β env p.2 rest)
        else
          let t1 := p.2.query (.Channel_GetMode ch (β.Channel_GetMode p.2.clock ch))
          match β.Channel_GetMode p.2.clock ch with
          | none => (t1, fch :: rest)
          | some ch_mode =>
            if FMOD_MODE_FLAG.FMOD_3D ∉ ch_mode then
              sweepNext fch (S_UpdateMovingSounds_scan β env t1 rest)
            else
              let cur_origin :=
                VectorAdd (env.cl_entities_lerp_origin fch.entnum) fch.origin_offset
              let v := S_UpdateMovingSounds_velocity env.sqrtf fch.have_prev_origin
                env.cls_frametime cur_origin fch.prev_origin_qu
              let t2 := t1.query (.Channel_Set3DAttributes ch cur_origin v.1)
              if β.Channel_Set3DAttributes t1.clock ch = false then
                (t2, sweepStore fch cur_origin v.2 :: rest)
              else
                sweepNext (sweepStore fch cur_origin v.2) (S_UpdateMovingSounds_scan β env t2 rest)

/-- `S_UpdateMovingSounds`. -/
def S_UpdateMovingSounds (β : Backend) (env : Engine) (s : State) : State :=
  let r := S_UpdateMovingSounds_scan β env s.trace s.fmod_channels
  { s with trace := r.1, fmod_channels := r.2 }

/-- The attribute block `Atmoky_UpdateSpatializers` hands to a spatializer. -/
def Atmoky_UpdateSpatializers_attributes (s : State) (cur_origin cur_vel : vec3_t) :
    FMOD_DSP_PARAMETER_3DATTRIBUTES :=
  { relative :=
      ComputeRelative3DAttributes s (QToAtmokyPosMeters cur_origin) (QToAtmokyVelMeters cur_vel)
    absolute :=
      { position := QToAtmokyPosMeters cur_origin, velocity := QToAtmokyVelMeters cur_vel,
        forward := ⟨0, 0, 1⟩, up := ⟨0, 1, 0⟩ } }

/-- The loop of `Atmoky_UpdateSpatializers` over the slots from the current
one on; `s` is the state the function was entered in (the loop reads the
listener from it). -/
def Atmoky_UpdateSpatializers_scan (β : Backend) (env : Engine) (s : State) :
    Trace → List fmod_channel_t → Trace × List fmod_channel_t
  | t, [] => (t, [])
  | t, fch :: rest =>
    match fch.channel, fch.spatializer with
    | some ch, some dsp =>
      let p := ChannelIsPlaying β t (some ch)
      if p.1 = false then
        let r := Atmoky_ReleaseSpatializer p.2 fch
        sweepNext { r.2 with channel := none } (Atmoky_UpdateSpatializers_scan β env s r.1 rest)
      else
        let cur_origin :=
          if fch.is_static = false ∧ VALID_ENTITY env fch.entnum = true then
            VectorAdd (env.cl_entities_lerp_origin fch.entnum) fch.origin_offset
          else fch.origin_qu
        let v := Atmoky_UpdateSpatializers_velocity env.sqrtf fch.have_prev_origin
          env.cls_frametime cur_origin fch.prev_origin_qu
        let t1 := p.2.emit (.DSP_SetParameterData dsp ATMOKY_PARAMETER_ATTRIBUTES3D
          (Atmoky_UpdateSpatializers_attributes s cur_origin v.1))
        sweepNext (sweepStore fch cur_origin v.2) (Atmoky_UpdateSpatializers_scan β env s t1 rest)
    | _, _ => sweepNext fch (Atmoky_UpdateSpatializers_scan β env s t rest)

/-- `Atmoky_UpdateSpatializers`. -/
def Atmoky_UpdateSpatializers (β : Backend) (env : Engine) (s : State) : State :=
  if s.atmoky_available = false then s
  else
    let r := Atmoky_UpdateSpatializers_scan β env s s.trace s.fmod_channels
    { s with trace := r.1, fmod_channels := r.2 }

/-! ## Ambient sounds -/

/-- The volume step of `S_UpdateAmbientSounds`: `ambient_vol[i]` after the
statements that move it towards `target`. -/
def S_UpdateAmbientSounds_fade (env : Engine) (vol target : ℚ) : ℚ :=
  if vol < target then
    (if vol + env.cls_frametime * env.s_ambientfade > target then target
     else vol + env.cls_frametime * env.s_ambientfade)
  else if vol > target then
    (if vol - env.cls_frametime * env.s_ambientfade < target then target
     else vol - env.cls_frametime * env.s_ambientfade)
  else vol

/-- The target volume of ambient slot `i` in `leaf`. -/
def S_UpdateAmbientSounds_target (env : Engine) (leaf i : Nat) : ℚ :=
  if env.s_ambientlevel * env.CM_LeafAmbientLevel leaf i < 8 then 0
  else env.s_ambientlevel * env.CM_LeafAmbientLevel leaf i

/-- The first statements of the loop body of `S_UpdateAmbientSounds` for slot
`i`: the state once the volume of the slot has made its step and
`ChannelIsPlaying` has been asked about the channel of the slot. -/
def S_UpdateAmbientSounds_faded (β : Backend) (env : Engine) (leaf : Nat) (s : State) (i : Nat) :
    State :=
  { s with
    ambient_vol := s.ambient_vol.set i (S_UpdateAmbientSounds_fade env (s.ambient_vol.getD i 0)
      (S_UpdateAmbientSounds_target env leaf i))
    trace := (ChannelIsPlaying β s.trace (s.ambient_fmod_channels.getD i none)).2 }

/-- The statements of the loop body of `S_UpdateAmbientSounds` that start the
loop of slot `i` with the loaded sound `snd` and give it the volume `vol`, on
the state `FMOD_LoadSfx` left. -/
def S_UpdateAmbientSounds_start (β : Backend) (s : State) (i snd : Nat) (vol : ℚ) : State :=
  match β.System_PlaySound s.trace.clock snd with
  | none =>
    { s.query (.System_PlaySound snd true none) with
      ambient_fmod_channels := s.ambient_fmod_channels.set i none }
  | some ch =>
    let s1 := { s.query (.System_PlaySound snd true (some ch)) with
      ambient_fmod_channels := s.ambient_fmod_channels.set i (some ch) }
    (((s1.emit (.Channel_SetMode ch [.FMOD_2D, .FMOD_LOOP_NORMAL])).emit
      (.Channel_SetLoopCount ch (-1))).emit (.Channel_SetPaused ch false)).emit
      (.Channel_SetVolume ch (vol / 255))

/-- The body of the main loop of `S_UpdateAmbientSounds` for slot `i`. -/
def S_UpdateAmbientSounds_slot (β : Backend) (env : Engine) (leaf : Nat) (s : State) (i : Nat) :
    State :=
  match s.ambient_sfx.getD i none with
  | none => s
  | some sfx =>
    let vol := S_UpdateAmbientSounds_fade env (s.ambient_vol.getD i 0)
      (S_UpdateAmbientSounds_target env leaf i)
    let s1 := S_UpdateAmbientSounds_faded β env leaf s i
    if (ChannelIsPlaying β s.trace (s.ambient_fmod_channels.getD i none)).1 = false then
      match (FMOD_LoadSfx β s1 (some sfx)).1 with
      | none => (FMOD_LoadSfx β s1 (some sfx)).2
      | some snd => S_UpdateAmbientSounds_start β (FMOD_LoadSfx β s1 (some sfx)).2 i snd vol
    else
      match s.ambient_fmod_channels.getD i none with
      | some ch => s1.emit (.Channel_SetVolume ch (vol / 255))
      | none => s1

/-- The main loop of `S_UpdateAmbientSounds`: `n` more slots from slot `i` on. -/
def S_UpdateAmbientSounds_loop (β : Backend) (env : Engine) (leaf : Nat) :
    Nat → Nat → State → State
  | 0, _, s => s
  | n + 1, i, s =>
    S_UpdateAmbientSounds_loop β env leaf n (i + 1) (S_UpdateAmbientSounds_slot β env leaf s i)

/-- The calls of the loop of `S_UpdateAmbientSounds` that silences every
ambient channel. -/
def S_UpdateAmbientSounds_mute : Trace → List (Option Nat) → Trace
  | t, [] => t
  | t, some ch :: rest => S_UpdateAmbientSounds_mute (t.emit (.Channel_SetVolume ch 0)) rest
  | t, none :: rest => S_UpdateAmbientSounds_mute t rest

/-- `S_UpdateAmbientSounds`.  `NUM_AMBIENTS` is the number of ambient slots. -/
def S_UpdateAmbientSounds (β : Backend) (env : Engine) (s : State) : State :=
  if env.cls_state ≠ env.ca_active then StopAmbientChannels s
  else if env.CM_Leafnum (env.CM_PointInLeaf s.listener_origin) = 0 ∨ env.s_ambientlevel = 0 then
    { s with
      trace := S_UpdateAmbientSounds_mute s.trace s.ambient_fmod_channels
      ambient_vol := s.ambient_vol.map (fun _ => 0) }
  else
    S_UpdateAmbientSounds_loop β env (env.CM_PointInLeaf s.listener_origin)
      s.ambient_sfx.length 0 s

/-! ## Externalizer -/

def ATMOKY_EXTERNALIZER_AMOUNT : Nat := 0
def ATMOKY_EXTERNALIZER_CHARACTER : Nat := 1

/-- `Atmoky_AttachExternalizer`. -/
def Atmoky_AttachExternalizer (β : Backend) (env : Engine) (s : State) : State :=
  if s.atmoky_available = false ∨ s.atmoky_externalizer_handle = 0 ∨ s.fmod_system = none then s
  else if env.s_externalizer = 0 then s
  else if s.atmoky_master_externalizer ≠ none then s
  else
    let s1 := s.query (.System_CreateDSPByPlugin s.atmoky_externalizer_handle
      (β.System_CreateDSPByPlugin s.trace.clock s.atmoky_externalizer_handle))
    match β.System_CreateDSPByPlugin s.trace.clock s.atmoky_externalizer_handle with
    | none => { s1 with atmoky_master_externalizer := none }
    | some dsp =>
      let s2 := s1.query (.System_GetMasterChannelGroup
        (β.System_GetMasterChannelGroup s1.trace.clock))
      match β.System_GetMasterChannelGroup s1.trace.clock with
      | none => { s2.emit (.DSP_Release dsp) with atmoky_master_externalizer := none }
      | some master =>
        let s3 := s2.query (.ChannelGroup_AddDSP master dsp
          (β.ChannelGroup_AddDSP s2.trace.clock master dsp))
        if β.ChannelGroup_AddDSP s2.trace.clock master dsp = false then
          { s3.emit (.DSP_Release dsp) with atmoky_master_externalizer := none }
        else
          { (s3.emit (.DSP_SetParameterFloat dsp ATMOKY_EXTERNALIZER_AMOUNT
              env.s_externalizer_amount)).emit
              (.DSP_SetParameterFloat dsp ATMOKY_EXTERNALIZER_CHARACTER
                env.s_externalizer_character) with
            atmoky_master_externalizer := some dsp }

/-- `Atmoky_DetachExternalizer`. -/
def Atmoky_DetachExternalizer (β : Backend) (s : State) : State :=
  match s.atmoky_master_externalizer with
  | none => s
  | some dsp =>
    let s1 := match s.fmod_system with
      | none => s
      | some _ =>
        let s0 := s.query (.System_GetMasterChannelGroup
          (β.System_GetMasterChannelGroup s.trace.clock))
        match β.System_GetMasterChannelGroup s.trace.clock with
        | some master => s0.emit (.ChannelGroup_RemoveDSP master dsp)
        | none => s0
    { s1.emit (.DSP_Release dsp) with atmoky_master_externalizer := none }

/-- `Atmoky_UpdateExternalizer`. -/
def Atmoky_UpdateExternalizer (β : Backend) (env : Engine) (s : State) : State :=
  if env.s_externalizer = 0 ∧ s.atmoky_master_externalizer ≠ none then
    Atmoky_DetachExternalizer β s
  else
    let s1 :=
      if env.s_externalizer ≠ 0 ∧ s.atmoky_master_externalizer = none then
        Atmoky_AttachExternalizer β env s
      else s
    match s1.atmoky_master_externalizer with
    | none => s1
    | some dsp =>
      (s1.emit (.DSP_SetParameterFloat dsp ATMOKY_EXTERNALIZER_AMOUNT
        env.s_externalizer_amount)).emit
        (.DSP_SetParameterFloat dsp ATMOKY_EXTERNALIZER_CHARACTER env.s_externalizer_character)

/-! ## The public operations besides `S_StartSound` and the stops -/

/-- `S_PrecacheSound`: the handle returned (`none` for `NULL`) and the state
after the call. -/
def S_PrecacheSound (β : Backend) (env : Engine) (s : State) (name : Option String) :
    Except String (Option Nat × State) :=
  if s.fmod_initialized = false ∨ env.s_nosound ≠ 0 then .ok (none, s)
  else
    match S_FindName β env s name with
    | .error e => .error e
    | .ok (sfx, s1) =>
      if env.s_precache ≠ 0 then .ok (some sfx, (FMOD_LoadSfx β s1 (some sfx)).2)
      else .ok (some sfx, s1)

/-- `S_TouchSound`. -/
def S_TouchSound (β : Backend) (env : Engine) (s : State) (name : Option String) :
    Except String State :=
  if s.fmod_initialized = false then .ok s
  else
    match S_FindName β env s name with
    | .error e => .error e
    | .ok (_, s1) => .ok s1

/-- The far distance of a sound started by `S_StaticSound`. -/
def S_StaticSound_max_dist (attenuation : ℚ) : ℚ :=
  if attenuation > 0 then
    (if NOMINAL_CLIP_DIST * STATIC_ATTEN_DIV / attenuation < MIN_3D_DIST then MIN_3D_DIST + 1
     else NOMINAL_CLIP_DIST * STATIC_ATTEN_DIV / attenuation)
  else 100000

/-- The slot `S_StaticSound` writes when the spatializer plugin is available. -/
def S_StaticSound_slot_atmoky (channel : Nat) (sfx : Option Nat) (origin : vec3_t) :
    fmod_channel_t :=
  { fmod_channel_zero with
    channel := some channel
    entnum := 0
    entchannel := 0
    sfx := sfx
    is_static := true
    origin_qu := origin
    prev_origin_qu := origin
    have_prev_origin := true }

/-- The slot `S_StaticSound` writes when the plugin is not available. -/
def S_StaticSound_slot (channel : Nat) (sfx : Option Nat) : fmod_channel_t :=
  { fmod_channel_zero with
    channel := some channel
    entnum := 0
    entchannel := 0
    sfx := sfx
    is_static := true }

/-- The part of `S_StaticSound` after a successful `FMOD_System_PlaySound` that
gave `channel`. -/
def S_StaticSound_afterPlay (β : Backend) (s : State) (channel : Nat) (sfx : Option Nat)
    (origin : vec3_t) (vol attenuation : ℚ) : State :=
  if s.atmoky_available = true then
    let s2 := (s.emit (.Channel_SetMode channel [.FMOD_2D, .FMOD_LOOP_NORMAL])).emit
      (.Channel_SetLoopCount channel (-1))
    let s3 := match (AllocChannel β s2).1 with
      | some i =>
        Atmoky_AttachSpatializer β
          ((AllocChannel β s2).2.setSlot i (S_StaticSound_slot_atmoky channel sfx origin))
          (some i) (some channel) origin MIN_3D_DIST (S_StaticSound_max_dist attenuation)
      | none => (AllocChannel β s2).2
    (s3.emit (.Channel_SetVolume channel (vol / 255))).emit (.Channel_SetPaused channel false)
  else
    let s2 := (((((s.emit (.Channel_SetMode channel
      [.FMOD_3D, .FMOD_3D_LINEARROLLOFF, .FMOD_LOOP_NORMAL])).emit
      (.Channel_SetLoopCount channel (-1))).emit
      (.Channel_Set3DAttributes channel origin ⟨0, 0, 0⟩)).emit
      (.Channel_Set3DMinMaxDistance channel MIN_3D_DIST (S_StaticSound_max_dist attenuation))).emit
      (.Channel_SetVolume channel (vol / 255))).emit (.Channel_SetPaused channel false)
    match (AllocChannel β s2).1 with
    | some i => (AllocChannel β s2).2.setSlot i (S_StaticSound_slot channel sfx)
    | none => (AllocChannel β s2).2

/-- `S_StaticSound`. -/
def S_StaticSound (β : Backend) (s : State) (sfx : Option Nat) (origin : vec3_t)
    (vol attenuation : ℚ) : State :=
  if s.fmod_initialized = false ∨ sfx = none then s
  else
    match (FMOD_LoadSfx β s sfx).1 with
    | none => (FMOD_LoadSfx β s sfx).2
    | some sound =>
      let s1 := (FMOD_LoadSfx β s sfx).2
      match β.System_PlaySound s1.trace.clock sound with
      | none => s1.query (.System_PlaySound sound true none)
      | some channel =>
        S_StaticSound_afterPlay β (s1.query (.System_PlaySound sound true (some channel)))
          channel sfx origin vol attenuation

/-- The first part of `S_Update`, behind its guard: the listener is stored and
given to the backend, the 3D settings and the master volume are set. -/
def S_Update_listener (β : Backend) (env : Engine) (s : State)
    (origin forward right up : vec3_t) : State :=
  let s1 := { s with
    listener_origin := origin
    listener_forward := forward
    listener_right := right
    listener_up := up }
  let s2 :=
    if s1.atmoky_available = true then
      let basis := S_Update_basis env.sqrtf (QToAtmokyDir forward) (QToAtmokyDir up)
      { s1 with
        listener_atmoky :=
          { position := QToAtmokyPosMeters origin
            velocity :=
              if env.cls_state = env.ca_active then QToAtmokyVelMeters env.cl_simvel
              else ⟨0, 0, 0⟩
            forward := basis.1
            up := basis.2 }
        listener_atmoky_right := FMOD_Cross basis.2 basis.1 }
    else s1
  let fbasis := S_Update_basis env.sqrtf forward up
  let fvel : vec3_t := if env.cls_state = env.ca_active then env.cl_simvel else ⟨0, 0, 0⟩
  let s3 := (s2.emit (.System_Set3DListenerAttributes origin fvel fbasis.1 fbasis.2)).emit
    (.System_Set3DSettings (if env.s_doppler ≠ 0 then env.s_doppler_factor else 0)
      QU_PER_METER 1)
  let s4 := s3.query (.System_GetMasterChannelGroup
    (β.System_GetMasterChannelGroup s3.trace.clock))
  match β.System_GetMasterChannelGroup s3.trace.clock with
  | some master => s4.emit (.ChannelGroup_SetVolume master env.s_volume)
  | none => s4

/-- `S_Update`. -/
def S_Update (β : Backend) (env : Engine) (s : State) (origin forward right up : vec3_t) :
    State :=
  if s.fmod_initialized = false ∨ s.snd_blocked > 0 then s
  else
    let s6 := S_UpdateMovingSounds β env
      (S_UpdateAmbientSounds β env (S_Update_listener β env s origin forward right up))
    let s7 :=
      if s6.atmoky_available = true then
        Atmoky_UpdateExternalizer β env (Atmoky_UpdateSpatializers β env s6)
      else s6
    let s8 := if env.s_show ≠ 0 then s7.emit .System_GetChannelsPlaying else s7
    s8.emit .System_Update

/-- `S_ExtraUpdate`. -/
def S_ExtraUpdate (env : Engine) (s : State) : State :=
  if s.fmod_initialized = false ∨ env.s_noextraupdate ≠ 0 ∨ s.snd_blocked > 0 then s
  else s.emit .System_Update

/-- The loop of `S_Shutdown` that releases the sounds of the first `n`
entries of the table. -/
def S_Shutdown_release : Nat → Trace → List fmod_sfx_t → Trace × List fmod_sfx_t
  | 0, t, l => (t, l)
  | _ + 1, t, [] => (t, [])
  | n + 1, t, e :: rest =>
    let t1 := match e.sound with
      | some snd => t.emit (.Sound_Release snd)
      | none => t
    ((S_Shutdown_release n t1 rest).1, fmod_sfx_zero :: (S_Shutdown_release n t1 rest).2)

/-- `S_Shutdown`. -/
def S_Shutdown (β : Backend) (s : State) : State :=
  if s.fmod_initialized = false then s
  else
    let s1 := StopAmbientChannels (StopAllTrackedChannels s)
    let r := S_Shutdown_release s1.num_sfx.toNat s1.trace (s1.fmod_sounds.getD [])
    let s2 := { s1 with trace := r.1, fmod_sounds := s1.fmod_sounds.map (fun _ => r.2) }
    let s3 := Atmoky_DetachExternalizer β s2
    let s4 := if s3.atmoky_root_handle ≠ 0 then
        { s3.emit (.System_UnloadPlugin s3.atmoky_root_handle) with atmoky_root_handle := 0 }
      else s3
    let s5 := { s4 with
      atmoky_available := false
      atmoky_spatializer_handle := 0
      atmoky_externalizer_handle := 0 }
    let s6 := match s5.fmod_system with
      | some _ => { (s5.emit .System_Close).emit .System_Release with fmod_system := none }
      | none => s5
    let s7 := match s6.known_sfx with
      | some _ => { s6.emit .Q_free with known_sfx := none }
      | none => s6
    let s8 := match s7.fmod_sounds with
      | some _ => { s7.emit .Q_free with fmod_sounds := none }
      | none => s7
    { s8 with max_sfx := 0, num_sfx := 0, fmod_initialized := false, snd_initialized := false }

/-! ## Concrete engine, backends and states -/

/-- An engine with the usual Quake limits and the default cvar values, sound
enabled, the local player being entity 1 and every entity at the origin; the
client is active, a frame lasts a tenth of a second, the listener is in leaf 3
where every ambient level is 100; `sqrtf` is the integer square root of the
integer part. -/
def engineQuake : Engine :=
  { MAX_QPATH := 64, MAX_EDICTS := 512, s_nosound := 0, s_precache := 1, cl_playernum := 0,
    cl_entities_lerp_origin := fun _ => vec3_origin
    cl_simvel := vec3_origin
    cls_state := 4
    ca_active := 4
    cls_frametime := 1 / 10
    s_volume := 7 / 10
    s_ambientlevel := 3 / 10
    s_ambientfade := 100
    s_noextraupdate := 0
    s_show := 0
    s_doppler := 1
    s_doppler_factor := 1
    s_externalizer := 1
    s_externalizer_amount := 50
    s_externalizer_character := 50
    CM_PointInLeaf := fun _ => 3
    CM_Leafnum := fun leaf => leaf
    CM_LeafAmbientLevel := fun _ _ => 100
    sqrtf := fun x => (Nat.sqrt x.floor.toNat : ℚ) }

/-- A backend in which every channel plays and is audible, every file is found
and every call succeeds; played sounds get channel 5000. -/
def backendLive : Backend :=
  { Channel_IsPlaying := fun _ _ => some true
    Channel_IsVirtual := fun _ _ => some false
    System_PlaySound := fun _ _ => some 5000
    Channel_GetMode := fun _ _ => some [.FMOD_3D]
    FS_LoadStackFile := fun _ _ => some 1024
    System_CreateSound := fun _ _ => some 77
    System_CreateDSPByPlugin := fun _ _ => some 900
    Channel_AddDSP := fun _ _ _ => true
    Q_malloc := fun _ _ => true
    Channel_Set3DAttributes := fun _ _ => true
    System_GetMasterChannelGroup := fun _ => some 1
    ChannelGroup_AddDSP := fun _ _ _ => true }

/-- A backend like `backendLive` in which no channel plays any more. -/
def backendSilent : Backend :=
  { backendLive with Channel_IsPlaying := fun _ _ => some false }

/-- A backend like `backendLive` whose allocator and file system fail. -/
def backendPoor : Backend :=
  { backendLive with
    Q_malloc := fun _ _ => false
    FS_LoadStackFile := fun _ _ => none }

/-- The state `S_Init` leaves: the two ambient sounds interned and loaded, the
pool of `MAX_FMOD_CHANNELS` slots empty, four ambient slots. -/
def stateReady : State :=
  { fmod_system := some 1
    fmod_initialized := true
    snd_initialized := true
    atmoky_available := false
    atmoky_root_handle := 0
    atmoky_spatializer_handle := 0
    atmoky_externalizer_handle := 0
    atmoky_master_externalizer := none
    listener_atmoky := ⟨vec3_origin, vec3_origin, ⟨0, 0, 1⟩, ⟨0, 1, 0⟩⟩
    listener_atmoky_right := ⟨1, 0, 0⟩
    known_sfx := some (⟨"ambience/water1.wav", none⟩ :: ⟨"ambience/wind2.wav", none⟩ ::
      List.replicate 254 sfx_zero)
    fmod_sounds := some (⟨some 11, true⟩ :: ⟨some 12, true⟩ :: List.replicate 254 fmod_sfx_zero)
    max_sfx := 256
    num_sfx := 2
    ambient_sfx := [some 0, some 1, none, none]
    fmod_channels := List.replicate MAX_FMOD_CHANNELS fmod_channel_zero
    ambient_fmod_channels := [none, none, none, none]
    ambient_vol := [0, 0, 0, 0]
    total_channels := 0
    snd_blocked := 0
    listener_origin := vec3_origin
    listener_forward := ⟨1, 0, 0⟩
    listener_right := ⟨0, -1, 0⟩
    listener_up := ⟨0, 0, 1⟩
    trace := ⟨0, []⟩ }

/-- A slot in use: backend channel `ch` started by entity `e` on sub-channel
`c`, playing the first sound of the registry. -/
def slotOf (ch : Nat) (e c : Int) : fmod_channel_t :=
  { fmod_channel_zero with channel := some ch, entnum := e, entchannel := c, sfx := some 0 }

/-- The ready state with three sounds tracked: entity 5 on sub-channels 1 and
2 (the second through a spatializer), entity 7 on sub-channel 1; water
ambience running. -/
def stateBusy : State :=
  { stateReady with
    fmod_channels := slotOf 101 5 1 :: { slotOf 102 5 2 with spatializer := some 901 } ::
      slotOf 103 7 1 :: List.replicate 4092 fmod_channel_zero
    ambient_fmod_channels := [some 201, none, none, none]
    ambient_vol := [40, 0, 0, 0] }

/-- A pool with every slot in use: slot `i` tracks channel `i + 1`, a
fire-and-forget sound of entity 3. -/
@[irreducible] def poolFull : List fmod_channel_t :=
  (List.range MAX_FMOD_CHANNELS).map (fun i => slotOf (i + 1) 3 0)

/-- The ready state with every slot of the pool in use. -/
def stateFull : State := { stateReady with fmod_channels := poolFull }

/-- The ready state with slot 0 tracking channel 1 of entity 5, sub-channel 1,
and every other slot free. -/
def stateOne : State :=
  { stateReady with
    fmod_channels := slotOf 1 5 1 :: List.replicate 4094 fmod_channel_zero }

/-- A name of exactly 64 characters. -/
def name64 : String := "sound/weapons/0123456789012345678901234567890123456789abcdef.wav"

/-- The ready state with a third sound interned and not loaded yet. -/
def stateThree : State :=
  { stateReady with
    known_sfx := some (⟨"ambience/water1.wav", none⟩ :: ⟨"ambience/wind2.wav", none⟩ ::
      ⟨"misc/menu1.wav", none⟩ :: List.replicate 253 sfx_zero)
    num_sfx := 3 }

/-- The state before `S_Init`: every file-scope variable zero or null. -/
def stateCold : State :=
  { stateReady with
    fmod_system := none
    fmod_initialized := false
    snd_initialized := false
    known_sfx := none
    fmod_sounds := none
    max_sfx := 0
    num_sfx := 0
    ambient_sfx := [none, none, none, none] }

/-- The engine of `engineQuake` while the client is not active (in the menu or
connecting). -/
def engineMenu : Engine := { engineQuake with cls_state := 0 }

/-- The engine of `engineQuake` with the listener outside the map: in leaf 0. -/
def engineVoid : Engine := { engineQuake with CM_PointInLeaf := fun _ => 0 }

/-- The engine of `engineQuake` in a leaf without ambient sound: every ambient
level is 0. -/
def engineQuiet : Engine := { engineQuake with CM_LeafAmbientLevel := fun _ _ => 0 }

/-- A tracked sound of entity 5 on sub-channel 1, backend channel 1, emitted
at the origin, with a previous position recorded. -/
def slotMoving : fmod_channel_t := { slotOf 1 5 1 with have_prev_origin := true }

/-- The ready state with `slotMoving` in slot 0 and every other slot free. -/
def stateMoving : State :=
  { stateReady with fmod_channels := slotMoving :: List.replicate 4094 fmod_channel_zero }

/-- The state of `stateMoving` with the spatializer plugin available and
spatializer 900 attached to the sound. -/
def stateSpatial : State :=
  { stateReady with
    atmoky_available := true
    fmod_channels := { slotMoving with spatializer := some 900 } ::
      List.replicate 4094 fmod_channel_zero }

/-- The engine of `engineQuake` in a frame in which every entity is at
`(2000, 0, 0)`. -/
def engineJump : Engine :=
  { engineQuake with cl_entities_lerp_origin := fun _ => ⟨2000, 0, 0⟩ }

/-- The engine of `engineQuake` in a frame in which every entity is at
`(2010, 0, 0)`. -/
def engineStep : Engine :=
  { engineQuake with cl_entities_lerp_origin := fun _ => ⟨2010, 0, 0⟩ }

/-! ## Predicates used in the statements -/

/-- A report "not playing" is written into the transcript as an answer that
is an error or `false`. -/
def answeredNotPlaying (c : FmodCall) (ch : Nat) : Prop :=
  c = .Channel_IsPlaying ch none ∨ c = .Channel_IsPlaying ch (some false)

/-- What the first loop of `AllocChannel` did when it returns slot `i`. -/
structure Scan1Some (β : Backend) (t : Trace) (l : List fmod_channel_t) (i : Nat)
    (r : Option Nat × Trace × List fmod_channel_t) : Prop where
  before : ∀ (j : Nat) (fj : fmod_channel_t), j < i → l[j]? = some fj →
    ∃ ch, fj.channel = some ch ∧ reportsPlaying β (t.clock + j) ch = true
  slot : ∃ fch, l[i]? = some fch ∧
    ((fch.channel = none ∧ r.2.2 = l.set i fch) ∨
      (∃ ch, fch.channel = some ch ∧ reportsPlaying β (t.clock + i) ch = false ∧
        r.2.2 = l.set i fmod_channel_zero))
  calls : ∃ extra, r.2.1.calls = t.calls ++ extra ∧ ∀ ch, FmodCall.Channel_Stop ch ∉ extra

/-- What the first loop of `AllocChannel` did when it returns no slot. -/
structure Scan1None (β : Backend) (t : Trace) (l : List fmod_channel_t)
    (r : Option Nat × Trace × List fmod_channel_t) : Prop where
  all : ∀ (j : Nat) (fj : fmod_channel_t), l[j]? = some fj →
    ∃ ch, fj.channel = some ch ∧ reportsPlaying β (t.clock + j) ch = true
  pool : r.2.2 = l
  clock : r.2.1.clock = t.clock + l.length
  calls : ∃ extra, r.2.1.calls = t.calls ++ extra ∧ ∀ ch, FmodCall.Channel_Stop ch ∉ extra

/-- What the second loop of `AllocChannel` did when it returns slot `i`, on a
pool whose slots are all in use. -/
structure Scan2Some (β : Backend) (t : Trace) (l : List fmod_channel_t) (i : Nat)
    (r : Option Nat × Trace × List fmod_channel_t) : Prop where
  before : ∀ (j : Nat) (fj : fmod_channel_t), j < i → l[j]? = some fj →
    ∃ ch, fj.channel = some ch ∧ reportsVirtual β (t.clock + j) ch = false
  slot : ∃ fch ch, l[i]? = some fch ∧ fch.channel = some ch ∧
    reportsVirtual β (t.clock + i) ch = true ∧ r.2.2 = l.set i fmod_channel_zero ∧
    FmodCall.Channel_Stop ch ∈ r.2.1.calls
  calls : ∃ extra, r.2.1.calls = t.calls ++ extra

/-- What the second loop of `AllocChannel` did when it returns no slot, on a
pool whose slots are all in use. -/
structure Scan2None (β : Backend) (t : Trace) (l : List fmod_channel_t)
    (r : Option Nat × Trace × List fmod_channel_t) : Prop where
  all : ∀ (j : Nat) (fj : fmod_channel_t), l[j]? = some fj →
    ∃ ch, fj.channel = some ch ∧ reportsVirtual β (t.clock + j) ch = false
  pool : r.2.2 = l
  clock : r.2.1.clock = t.clock + l.length
  calls : ∃ extra, r.2.1.calls = t.calls ++ extra ∧ ∀ ch, FmodCall.Channel_Stop ch ∉ extra

/-- The registry as the code keeps it: `0 <= num_sfx <= max_sfx <= INT_MAX`,
both arrays hold `max_sfx` entries, and they are allocated once `max_sfx` is
positive. -/
structure RegistryWF (s : State) : Prop where
  num_nonneg : 0 ≤ s.num_sfx
  num_le_max : s.num_sfx ≤ s.max_sfx
  max_le : s.max_sfx ≤ INT_MAX
  known_length : (s.known_sfx.getD []).length = s.max_sfx.toNat
  sounds_length : (s.fmod_sounds.getD []).length = s.max_sfx.toNat
  known_some : 0 < s.max_sfx → s.known_sfx ≠ none
  sounds_some : 0 < s.max_sfx → s.fmod_sounds ≠ none

/-- The table can grow: `GrowSfxArrays` returns true. -/
def CanGrow (β : Backend) (s : State) : Prop :=
  ∃ s1, GrowSfxArrays β s = .ok (true, s1)


/-- The file name `FMOD_LoadSfx` asks the file system for. -/
def loadName (s : State) (p : Nat) : String :=
  ("sound/" ++ ((s.known_sfx.getD []).getD p sfx_zero).name).take 255

/-- The load of entry `p` fails: the file is missing, or the file is there and
the backend does not create a sound from it. -/
def LoadFails (β : Backend) (s : State) (p : Nat) : Prop :=
  β.FS_LoadStackFile s.trace.clock (loadName s p) = none ∨
    ∃ size, β.FS_LoadStackFile s.trace.clock (loadName s p) = some size ∧
      β.System_CreateSound (s.trace.clock + 1) size = none

/-- The slot `new` is the slot `old` released: `old` was in use and matched
`(e, c)`; its channel was stopped (`FMOD_Channel_Stop` is in the transcript,
or the backend had answered that it was not playing); its spatializer, if it
had one, was released; `new` is `old` with both handles null. -/
def Released (e c : Int) (calls : List FmodCall) (old new : fmod_channel_t) : Prop :=
  ∃ och, old.channel = some och ∧ slotMatches e c old = true ∧
    new = { old with channel := none, spatializer := none } ∧
    (FmodCall.Channel_Stop och ∈ calls ∨ ∃ a ∈ calls, answeredNotPlaying a och) ∧
    ∀ dsp, old.spatializer = some dsp → FmodCall.DSP_Release dsp ∈ calls

/-- A slot is what it was, or it was released. -/
def KeptOrReleased (e c : Int) (calls : List FmodCall) (old new : fmod_channel_t) : Prop :=
  new = old ∨ Released e c calls old new

/-- The number of slots in use. -/
def inUseCount (l : List fmod_channel_t) : Nat :=
  l.countP (fun f => f.channel.isSome)

/-- The slot `new` is the slot `old` reclaimed by a lookup: `old` was in use
and matched `(e, c)`, the backend answered in `extra` that its channel is not
playing, its spatializer (if any) was released in `extra`, and `new` is `old`
with both handles null. -/
def Reclaimed (e c : Int) (extra : List FmodCall) (old new : fmod_channel_t) : Prop :=
  ∃ och, old.channel = some och ∧ slotMatches e c old = true ∧
    new = { old with channel := none, spatializer := none } ∧
    (∃ a ∈ extra, answeredNotPlaying a och) ∧
    ∀ dsp, old.spatializer = some dsp → FmodCall.DSP_Release dsp ∈ extra

/-- A slot is what it was, or it was reclaimed. -/
def KeptOrReclaimed (e c : Int) (extra : List FmodCall) (old new : fmod_channel_t) : Prop :=
  new = old ∨ Reclaimed e c extra old new

/-- The calls `FMOD_LoadSfx` makes: to the file system and to create the sound. -/
def isLoadCall : FmodCall → Bool
  | .FS_LoadStackFile _ _ => true
  | .System_CreateSound _ _ _ => true
  | .Sound_Set3DMinMaxDistance _ _ _ => true
  | _ => false

/-- The calls that start the loop of an ambient slot on channel `ch` with
sound `snd` at volume `vol`. -/
def ambientStartCalls (snd ch : Nat) (vol : ℚ) : List FmodCall :=
  [.System_PlaySound snd true (some ch), .Channel_SetMode ch [.FMOD_2D, .FMOD_LOOP_NORMAL],
    .Channel_SetLoopCount ch (-1), .Channel_SetPaused ch false, .Channel_SetVolume ch (vol / 255)]

/-- The states reached from a state whose pool is empty (the
`MAX_FMOD_CHANNELS` slots zeroed) by any sequence of the operations that use
the pool, each with any backend, any engine state and any arguments.  `fill`
is a caller that writes the slot `AllocChannel` returned. -/
inductive PoolReachable : State → Prop
  | empty (s : State)
      (h : s.fmod_channels = List.replicate MAX_FMOD_CHANNELS fmod_channel_zero) :
      PoolReachable s
  | alloc (β : Backend) (s : State) : PoolReachable s → PoolReachable (AllocChannel β s).2
  | fill (β : Backend) (s : State) (i : Nat) (fch : fmod_channel_t) :
      PoolReachable s → (AllocChannel β s).1 = some i →
      PoolReachable ((AllocChannel β s).2.setSlot i fch)
  | find (β : Backend) (s : State) (entnum entchannel : Int) :
      PoolReachable s → PoolReachable (FindChannel β s entnum entchannel).2
  | start (β : Backend) (env : Engine) (s : State) (entnum entchannel : Int)
      (sfx : Option Nat) (origin : vec3_t) (fvol attenuation : ℚ) :
      PoolReachable s →
      PoolReachable (S_StartSound β env s entnum entchannel sfx origin fvol attenuation)
  | static (β : Backend) (s : State) (sfx : Option Nat) (origin : vec3_t)
      (vol attenuation : ℚ) :
      PoolReachable s → PoolReachable (S_StaticSound β s sfx origin vol attenuation)
  | stop (s : State) (entnum entchannel : Int) :
      PoolReachable s → PoolReachable (S_StopSound s entnum entchannel)
  | stopAll (s : State) : PoolReachable s → PoolReachable (S_StopAllSounds s)
  | moving (β : Backend) (env : Engine) (s : State) :
      PoolReachable s → PoolReachable (S_UpdateMovingSounds β env s)
  | spatializers (β : Backend) (env : Engine) (s : State) :
      PoolReachable s → PoolReachable (Atmoky_UpdateSpatializers β env s)
  | update (β : Backend) (env : Engine) (s : State) (origin forward right up : vec3_t) :
      PoolReachable s → PoolReachable (S_Update β env s origin forward right up)

/-- The subsystem is not initialised: `fmod_initialized` is false and no slot
of the pool is in use.  The pool is zeroed memory before `S_Init`, a failed
`S_Init` does not touch it, `S_Shutdown` zeroes it, and no operation fills a
slot while `fmod_initialized` is false. -/
def Uninitialised (s : State) : Prop :=
  s.fmod_initialized = false ∧ ∀ fch ∈ s.fmod_channels, fch.channel = none

/-! ## What the per-frame sweeps do to a slot -/

/-- What `S_UpdateMovingSounds` does to a slot, `calls` being calls of the
sweep: the slot is left as it is; or it had no spatializer, the backend
answered that its channel is not playing, and its channel handle is null; or
it is a slot without spatializer of a valid entity other than the local
player, not static, and it is swept: the position `lerp_origin +
origin_offset` and the velocity of the velocity block were given to the
backend and the slot is stored with that position. -/
def MovingSwept (env : Engine) (calls : List FmodCall) (old new : fmod_channel_t) : Prop :=
  new = old ∨
  (∃ ch a, old.channel = some ch ∧ old.spatializer = none ∧ a ∈ calls ∧
    answeredNotPlaying a ch ∧ new = { old with channel := none }) ∨
  (∃ ch, old.channel = some ch ∧ old.spatializer = none ∧ old.is_static = false ∧
    VALID_ENTITY env old.entnum = true ∧ old.entnum ≠ env.cl_playernum + 1 ∧
    FmodCall.Channel_Set3DAttributes ch
      (VectorAdd (env.cl_entities_lerp_origin old.entnum) old.origin_offset)
      (S_UpdateMovingSounds_velocity env.sqrtf old.have_prev_origin env.cls_frametime
        (VectorAdd (env.cl_entities_lerp_origin old.entnum) old.origin_offset)
        old.prev_origin_qu).1 ∈ calls ∧
    new = sweepStore old (VectorAdd (env.cl_entities_lerp_origin old.entnum) old.origin_offset)
      (S_UpdateMovingSounds_velocity env.sqrtf old.have_prev_origin env.cls_frametime
        (VectorAdd (env.cl_entities_lerp_origin old.entnum) old.origin_offset)
        old.prev_origin_qu).2)

/-- The position `Atmoky_UpdateSpatializers` computes for a slot. -/
def Atmoky_UpdateSpatializers_origin (env : Engine) (fch : fmod_channel_t) : vec3_t :=
  if fch.is_static = false ∧ VALID_ENTITY env fch.entnum = true then
    VectorAdd (env.cl_entities_lerp_origin fch.entnum) fch.origin_offset
  else fch.origin_qu

/-- What `Atmoky_UpdateSpatializers`, entered in state `s`, does to a slot,
`calls` being calls of the sweep: the slot is left as it is; or it had a
spatializer, the backend answered that its channel is not playing, the
spatializer was released and both handles are null; or it has a spatializer
and is swept: the attributes of its position and velocity were given to the
spatializer and the slot is stored with that position. -/
def SpatialSwept (env : Engine) (s : State) (calls : List FmodCall)
    (old new : fmod_channel_t) : Prop :=
  new = old ∨
  (∃ ch dsp a, old.channel = some ch ∧ old.spatializer = some dsp ∧ a ∈ calls ∧
    answeredNotPlaying a ch ∧ FmodCall.DSP_Release dsp ∈ calls ∧
    new = { old with channel := none, spatializer := none }) ∨
  (∃ ch dsp, old.channel = some ch ∧ old.spatializer = some dsp ∧
    FmodCall.DSP_SetParameterData dsp ATMOKY_PARAMETER_ATTRIBUTES3D
      (Atmoky_UpdateSpatializers_attributes s (Atmoky_UpdateSpatializers_origin env old)
        (Atmoky_UpdateSpatializers_velocity env.sqrtf old.have_prev_origin env.cls_frametime
          (Atmoky_UpdateSpatializers_origin env old) old.prev_origin_qu).1) ∈ calls ∧
    new = sweepStore old (Atmoky_UpdateSpatializers_origin env old)
      (Atmoky_UpdateSpatializers_velocity env.sqrtf old.have_prev_origin env.cls_frametime
        (Atmoky_UpdateSpatializers_origin env old) old.prev_origin_qu).2)

/-- A sweep that turned the pool `l` into `r.2` and the transcript `t` into
`r.1`: the transcript grew by calls `extra`, every slot is related to what it
was by `R extra`, and every answer "not playing" in `extra` is the answer for
the channel of a slot that the sweep left with both handles null. -/
def SweepSpec (R : List FmodCall → fmod_channel_t → fmod_channel_t → Prop) (t : Trace)
    (l : List fmod_channel_t) (r : Trace × List fmod_channel_t) : Prop :=
  ∃ extra, r.1.calls = t.calls ++ extra ∧ List.Forall₂ (R extra) l r.2 ∧
    ∀ a ch, a ∈ extra → answeredNotPlaying a ch →
      ∃ (k : Nat) (f g : fmod_channel_t), l[k]? = some f ∧ f.channel = some ch ∧
        r.2[k]? = some g ∧ g.channel = none ∧ g.spatializer = none

/-- A backend like `backendLive` that reports every channel in 2D mode. -/
def backendFlat : Backend :=
  { backendLive with Channel_GetMode := fun _ _ => some [.FMOD_2D] }

/-- The transcript `t` continues the calls `base` without asking whether a
channel is playing. -/
def AsksNothing (base : List FmodCall) (t : Trace) : Prop :=
  ∃ extra, t.calls = base ++ extra ∧ ∀ c ans, FmodCall.Channel_IsPlaying c ans ∉ extra

/-- The number of slots in use that match `(entnum, entchannel)`. -/
def matchCount (entnum entchannel : Int) (l : List fmod_channel_t) : Nat :=
  l.countP (fun f => f.channel.isSome && slotMatches entnum entchannel f)

/-- The number of times the stop-existing loop of `S_StartSound` runs its body
(`FindChannel` found a slot, which is stopped and freed) before `FindChannel`
returns null, when that happens within `fuel` calls of `FindChannel`; `none`
when it does not. -/
def S_StartSound_stopExisting_iterations (β : Backend) (entnum entchannel : Int) :
    Nat → State → Option Nat
  | 0, _ => none
  | fuel + 1, s =>
    match (FindChannel β s entnum entchannel).1 with
    | none => some 0
    | some i =>
      (S_StartSound_stopExisting_iterations β entnum entchannel fuel
        (S_StartSound_stopFound (FindChannel β s entnum entchannel).2 i)).map (fun k => k + 1)

/-! ## The registry from `S_Init` on -/

/-- The statements of `S_Init` that allocate the registry:
`if (!known_sfx) { known_sfx = Q_malloc(..); fmod_sounds = Q_malloc(..);
if (!known_sfx || !fmod_sounds) Sys_Error(..); memset both to zero;
max_sfx = SFX_INITIAL; num_sfx = 0; }`. -/
def S_Init_registry (β : Backend) (s : State) : Except String State :=
  match s.known_sfx with
  | some _ => .ok s
  | none =>
    let ok_known := β.Q_malloc s.trace.clock SFX_INITIAL
    let t1 := s.trace.query (.Q_malloc SFX_INITIAL ok_known)
    let ok_fmod := β.Q_malloc t1.clock SFX_INITIAL
    let t2 := t1.query (.Q_malloc SFX_INITIAL ok_fmod)
    if ok_known = false ∨ ok_fmod = false then
      .error "S_Init: couldn't allocate sfx arrays"
    else
      .ok { s with
        trace := t2
        known_sfx := some (List.replicate SFX_INITIAL.toNat sfx_zero)
        fmod_sounds := some (List.replicate SFX_INITIAL.toNat fmod_sfx_zero)
        max_sfx := SFX_INITIAL
        num_sfx := 0 }

/-- The states reached from a successful `S_Init` that found the registry
unallocated (as it is before the first `S_Init` and after `S_Shutdown`) by
successful calls of `S_FindName`, each with any backend, engine and name. -/
inductive RegistryReachable : State → Prop
  | init (β : Backend) (s0 s : State) :
      s0.known_sfx = none → S_Init_registry β s0 = .ok s → RegistryReachable s
  | find (β : Backend) (env : Engine) (s s1 : State) (name : Option String) (i : Nat) :
      RegistryReachable s → S_FindName β env s name = .ok (i, s1) → RegistryReachable s1

/-- The state `s1` is the state `s` after any number of successful calls of
`S_FindName`. -/
inductive RegistryLater (s : State) : State → Prop
  | here : RegistryLater s s
  | find (β : Backend) (env : Engine) (s1 s2 : State) (name : Option String) (i : Nat) :
      RegistryLater s s1 → S_FindName β env s1 name = .ok (i, s2) → RegistryLater s s2

/-- The state `S_Init` leaves the registry in when it starts from `stateCold`
with `backendLive`: 256 zeroed entries, none interned. -/
def stateInit : State :=
  { stateCold with
    trace := ⟨2, [.Q_malloc 256 true, .Q_malloc 256 true]⟩
    known_sfx := some (List.replicate 256 sfx_zero)
    fmod_sounds := some (List.replicate 256 fmod_sfx_zero)
    max_sfx := 256
    num_sfx := 0 }

/-! ## No spatializer is orphaned -/

/-- A slot goes from `old` to `new` without orphaning a spatializer, `calls`
being the calls made meanwhile: if `old` had no spatializer while free, `new`
has none while free; and a spatializer that `old` had and `new` does not have
any more was released in `calls`. -/
def SlotTidy (calls : List FmodCall) (old new : fmod_channel_t) : Prop :=
  ((old.channel = none → old.spatializer = none) →
    new.channel = none → new.spatializer = none) ∧
  ∀ dsp, old.spatializer = some dsp → new.spatializer ≠ some dsp →
    FmodCall.DSP_Release dsp ∈ calls

/-- The transcript went from `t` to `t1` by more calls and the pool from `l`
to `l1`, slot by slot, without orphaning a spatializer. -/
def Tidy (t : Trace) (l : List fmod_channel_t) (t1 : Trace) (l1 : List fmod_channel_t) : Prop :=
  ∃ extra, t1.calls = t.calls ++ extra ∧ List.Forall₂ (SlotTidy extra) l l1

/-- One operation of the subsystem on the pool, with any backend, engine
state and arguments. -/
inductive PoolStep : State → State → Prop
  | alloc (β : Backend) (s : State) : PoolStep s (AllocChannel β s).2
  | find (β : Backend) (s : State) (entnum entchannel : Int) :
      PoolStep s (FindChannel β s entnum entchannel).2
  | start (β : Backend) (env : Engine) (s : State) (entnum entchannel : Int)
      (sfx : Option Nat) (origin : vec3_t) (fvol attenuation : ℚ) :
      PoolStep s (S_StartSound β env s entnum entchannel sfx origin fvol attenuation)
  | static (β : Backend) (s : State) (sfx : Option Nat) (origin : vec3_t)
      (vol attenuation : ℚ) : PoolStep s (S_StaticSound β s sfx origin vol attenuation)
  | stop (s : State) (entnum entchannel : Int) : PoolStep s (S_StopSound s entnum entchannel)
  | stopAll (s : State) : PoolStep s (S_StopAllSounds s)
  | moving (β : Backend) (env : Engine) (s : State) : PoolStep s (S_UpdateMovingSounds β env s)
  | spatializers (β : Backend) (env : Engine) (s : State) :
      PoolStep s (Atmoky_UpdateSpatializers β env s)
  | update (β : Backend) (env : Engine) (s : State) (origin forward right up : vec3_t) :
      PoolStep s (S_Update β env s origin forward right up)
  | shutdown (β : Backend) (s : State) : PoolStep s (S_Shutdown β s)

/-- The states reached from a state whose pool is empty (every slot zeroed)
by any sequence of operations of `PoolStep`. -/
inductive OpsReachable : State → Prop
  | empty (s : State)
      (h : s.fmod_channels = List.replicate MAX_FMOD_CHANNELS fmod_channel_zero) :
      OpsReachable s
  | step (s s1 : State) : OpsReachable s → PoolStep s s1 → OpsReachable s1

/-- The state `s1` continues the transcript of `s` and its pool comes from the
pool of `s` without orphaning a spatializer. -/
def TidyStep (s s1 : State) : Prop :=
  Tidy s.trace s.fmod_channels s1.trace s1.fmod_channels

/-- No free slot of the pool has a spatializer. -/
def NoOrphan (l : List fmod_channel_t) : Prop :=
  ∀ f ∈ l, f.channel = none → f.spatializer = none

/-! ## Registry growth on addresses

In the definitions above a `sfx_t *` is the index of its entry, and the
pointer fix-up of `GrowSfxArrays` does not show.  Here the same function is
translated with a `sfx_t *` as an address: `none` is `NULL`, `some a` is the
address `a` in bytes.  The fields `ambient_sfx` and `fmod_channels[i].sfx` of
the state hold such addresses, `SfxLayout` says where the table lies, and the
list `State.known_sfx` remains the content of the table.  A pointer that does
not point to an element of the table (a stale pointer into a freed table, a
pointer taken while `known_sfx` was null) is an address like any other. -/

/-- Where the registry lies in memory: the value of the pointer `known_sfx`
(the address of the first entry, `none` when it is null) and `sizeof(sfx_t)`. -/
structure SfxLayout where
  known_sfx : Option Nat
  sizeof_sfx_t : Nat
deriving DecidableEq

/-- The address a pointer holds; the null pointer holds 0. -/
def addressOf (p : Option Nat) : Int :=
  match p with
  | some a => (a : Int)
  | none => 0

/-- The pointer `&known_sfx[k]`, for a table that is allocated. -/
def entryAddress (lay : SfxLayout) (k : Nat) : Option Nat :=
  lay.known_sfx.map (fun base => base + k * lay.sizeof_sfx_t)

/-- The entry `*p` a pointer reads: the element of the table at that
address, nothing when `p` is null or is not the address of an element of the
table `known_sfx` points to. -/
def sfxAt (lay : SfxLayout) (s : State) (p : Option Nat) : Option sfx_t :=
  match p, lay.known_sfx, s.known_sfx with
  | some a, some base, some table =>
    if base ≤ a ∧ (a - base) % lay.sizeof_sfx_t = 0 then
      table[(a - base) / lay.sizeof_sfx_t]?
    else none
  | _, _, _ => none

/-- The pointer fix-up of `GrowSfxArrays` on addresses:
`idx = (int)(ptr - known_sfx)`, then `&new_known[idx]`.  The difference of two
`sfx_t *` is the difference of the addresses divided by `sizeof(sfx_t)`; a
null pointer stays null.  For a pointer that does not point into the table
the difference is not defined by C: here the quotient is rounded down, and an
address that would be negative is 0. -/
def relocateSfx_mem (lay : SfxLayout) (new_known : Nat) (p : Option Nat) : Option Nat :=
  match p with
  | some a =>
    let idx := wrapInt32 (((a : Int) - addressOf lay.known_sfx) / (lay.sizeof_sfx_t : Int))
    some ((new_known : Int) + idx * (lay.sizeof_sfx_t : Int)).toNat
  | none => none

/-- `GrowSfxArrays` on addresses.  `place c` is the address of the block the
allocator hands out for the request it answers at clock `c`, when it succeeds.
The old table is freed: after the call `known_sfx` points to the new block
only. -/
def GrowSfxArrays_mem (β : Backend) (place : Nat → Nat) (lay : SfxLayout) (s : State) :
    Except String (Bool × SfxLayout × State) :=
  if wrapInt32 (s.max_sfx + SFX_GROW) % 18446744073709551616 ≥ INT_MAX then
    .error "Grow SFX: exceeded maximum integer width"
  else
    let new_cap := wrapInt32 (s.max_sfx + SFX_GROW)
    let ok_known := β.Q_malloc s.trace.clock new_cap
    let new_known := place s.trace.clock
    let t1 := s.trace.query (.Q_malloc new_cap ok_known)
    let ok_fmod := β.Q_malloc t1.clock new_cap
    let t2 := t1.query (.Q_malloc new_cap ok_fmod)
    if ok_known = false ∨ ok_fmod = false then
      .ok (false, lay, { s with trace := t2 })
    else
      let copy := decide (lay.known_sfx.isSome ∧ s.max_sfx > 0)
      let new_table :=
        copyEntries sfx_zero s.max_sfx.toNat (if copy then s.known_sfx else none)
          ++ List.replicate SFX_GROW.toNat sfx_zero
      let new_fmod :=
        copyEntries fmod_sfx_zero s.max_sfx.toNat (if copy then s.fmod_sounds else none)
          ++ List.replicate SFX_GROW.toNat fmod_sfx_zero
      .ok (true, { lay with known_sfx := some new_known }, { s with
        trace := t2
        ambient_sfx := s.ambient_sfx.map (relocateSfx_mem lay new_known)
        fmod_channels :=
          s.fmod_channels.map (fun fch => { fch with sfx := relocateSfx_mem lay new_known fch.sfx })
        known_sfx := some new_table
        fmod_sounds := some new_fmod
        max_sfx := new_cap })

/-- The index of the entry a pointer stands for: `ptr - known_sfx`. -/
def indexOfSfx (lay : SfxLayout) (p : Option Nat) : Option Nat :=
  match p with
  | some a => some (((a : Int) - addressOf lay.known_sfx) / (lay.sizeof_sfx_t : Int)).toNat
  | none => none

/-- The state read through the layout: every `sfx_t *` replaced by the index
of its entry. -/
def indexView (lay : SfxLayout) (s : State) : State :=
  { s with
    ambient_sfx := s.ambient_sfx.map (indexOfSfx lay)
    fmod_channels := s.fmod_channels.map (fun fch => { fch with sfx := indexOfSfx lay fch.sfx }) }

/-- A pointer is null or points to one of the `max_sfx` entries of the table. -/
def ValidSfxPtr (lay : SfxLayout) (s : State) (p : Option Nat) : Prop :=
  p = none ∨ ∃ k : Nat, (k : Int) < s.max_sfx ∧ lay.known_sfx ≠ none ∧ p = entryAddress lay k

/-- The layout of the ready registry: 256 entries of 72 bytes at address 4096. -/
def layoutReady : SfxLayout := { known_sfx := some 4096, sizeof_sfx_t := 72 }

/-- The ready state with its references as addresses: the ambient slots point
to entries 0 and 1, pool slot 0 tracks a sound that points to entry 1. -/
def stateReadyMem : State :=
  { stateReady with
    ambient_sfx := [some 4096, some 4168, none, none]
    fmod_channels :=
      { slotOf 1 5 1 with sfx := some 4168 } :: List.replicate 4094 fmod_channel_zero }

/-! ## Theorems -/

theorem Trace.emit_calls (t : Trace) (c : FmodCall) : (t.emit c).calls = t.calls ++ [c] := rfl
theorem Trace.emit_clock (t : Trace) (c : FmodCall) : (t.emit c).clock = t.clock := rfl
theorem Trace.query_calls (t : Trace) (c : FmodCall) : (t.query c).calls = t.calls ++ [c] := rfl
theorem Trace.query_clock (t : Trace) (c : FmodCall) : (t.query c).clock = t.clock + 1 := rfl

theorem slotMatches_iff (e c : Int) (fch : fmod_channel_t) :
    slotMatches e c fch = true ↔ fch.entnum = e ∧ (c = -1 ∨ fch.entchannel = c) := by
  simp [slotMatches]

theorem slotMatches_false_iff (e c : Int) (fch : fmod_channel_t) :
    slotMatches e c fch = false ↔ (fch.entnum ≠ e ∨ (c ≠ -1 ∧ fch.entchannel ≠ c)) := by
  rw [← Bool.not_eq_true, slotMatches_iff]
  constructor
  · intro h
    by_cases h1 : fch.entnum = e
    · right
      constructor
      · intro hc; exact h ⟨h1, Or.inl hc⟩
      · intro hc; exact h ⟨h1, Or.inr hc⟩
    · left; exact h1
  · rintro (h | ⟨h1, h2⟩) ⟨h3, h4⟩
    · exact h h3
    · rcases h4 with h4 | h4
      · exact h1 h4
      · exact h2 h4

theorem S_StopSound_scan_skip (e c : Int) (t : Trace) (fch : fmod_channel_t)
    (rest : List fmod_channel_t) (h : fch.channel = none ∨ slotMatches e c fch = false) :
    S_StopSound_scan e c t (fch :: rest) =
      ((S_StopSound_scan e c t rest).1, fch :: (S_StopSound_scan e c t rest).2) := by
  rcases h with h | h
  · simp [S_StopSound_scan, h]
  · rw [slotMatches_false_iff] at h
    cases hch : fch.channel with
    | none => simp [S_StopSound_scan, hch]
    | some ch =>
      rcases h with h | h
      · simp [S_StopSound_scan, hch, h]
      · by_cases h1 : fch.entnum = e
        · simp [S_StopSound_scan, hch, h1, h.1, h.2]
        · simp [S_StopSound_scan, hch, h1]

theorem S_StopSound_scan_hit (e c : Int) (t : Trace) (fch : fmod_channel_t)
    (rest : List fmod_channel_t) (ch : Nat) (hch : fch.channel = some ch)
    (h : slotMatches e c fch = true) :
    S_StopSound_scan e c t (fch :: rest) =
      ((S_StopSound_scan e c (Atmoky_ReleaseSpatializer (t.emit (.Channel_Stop ch)) fch).1 rest).1,
        { (Atmoky_ReleaseSpatializer (t.emit (.Channel_Stop ch)) fch).2 with channel := none } ::
          (S_StopSound_scan e c
            (Atmoky_ReleaseSpatializer (t.emit (.Channel_Stop ch)) fch).1 rest).2) := by
  rw [slotMatches_iff] at h
  rcases h with ⟨h1, h2⟩
  rcases h2 with h2 | h2
  · simp [S_StopSound_scan, hch, h1, h2]
  · simp [S_StopSound_scan, hch, h1, h2]

theorem Atmoky_ReleaseSpatializer_snd (t : Trace) (fch : fmod_channel_t) :
    (Atmoky_ReleaseSpatializer t fch).2 = { fch with spatializer := none } := by
  unfold Atmoky_ReleaseSpatializer
  cases h : fch.spatializer with
  | none => cases fch; simp_all
  | some dsp => simp

theorem Atmoky_ReleaseSpatializer_none (t : Trace) (fch : fmod_channel_t)
    (h : fch.spatializer = none) : Atmoky_ReleaseSpatializer t fch = (t, fch) := by
  unfold Atmoky_ReleaseSpatializer
  simp [h]

theorem Atmoky_ReleaseSpatializer_clock (t : Trace) (fch : fmod_channel_t) :
    (Atmoky_ReleaseSpatializer t fch).1.clock = t.clock := by
  unfold Atmoky_ReleaseSpatializer
  cases fch.spatializer with
  | none => rfl
  | some dsp => cases fch.channel <;> rfl

/-- The transcript only grows: the old calls are a prefix of the new ones. -/
theorem Atmoky_ReleaseSpatializer_calls (t : Trace) (fch : fmod_channel_t) :
    ∃ extra, (Atmoky_ReleaseSpatializer t fch).1.calls = t.calls ++ extra ∧
      (∀ dsp, fch.spatializer = some dsp → FmodCall.DSP_Release dsp ∈ extra) ∧
      (∀ ch, FmodCall.Channel_Stop ch ∉ extra) := by
  unfold Atmoky_ReleaseSpatializer
  cases hs : fch.spatializer with
  | none => exact ⟨[], by simp⟩
  | some dsp =>
    cases hc : fch.channel with
    | none => exact ⟨[.DSP_Release dsp], by simp [Trace.emit]⟩
    | some ch =>
      exact ⟨[.Channel_RemoveDSP ch dsp, .DSP_Release dsp], by simp [Trace.emit]⟩

theorem S_StopSound_scan_length (e c : Int) (t : Trace) (l : List fmod_channel_t) :
    (S_StopSound_scan e c t l).2.length = l.length := by
  induction l generalizing t with
  | nil => simp [S_StopSound_scan]
  | cons fch rest ih =>
    by_cases h : fch.channel = none ∨ slotMatches e c fch = false
    · rw [S_StopSound_scan_skip e c t fch rest h]; simp [ih]
    · push_neg at h
      obtain ⟨ch, hch⟩ := Option.ne_none_iff_exists'.mp h.1
      rw [S_StopSound_scan_hit e c t fch rest ch hch (by simpa using h.2)]; simp [ih]

/-- Nothing in use matches: the loop of `S_StopSound` changes nothing. -/
theorem S_StopSound_scan_noop (e c : Int) (t : Trace) (l : List fmod_channel_t)
    (h : ∀ fch ∈ l, fch.channel ≠ none → slotMatches e c fch = false) :
    S_StopSound_scan e c t l = (t, l) := by
  induction l generalizing t with
  | nil => simp [S_StopSound_scan]
  | cons fch rest ih =>
    have hf : fch.channel = none ∨ slotMatches e c fch = false := by
      by_cases hc : fch.channel = none
      · exact Or.inl hc
      · exact Or.inr (h fch (List.mem_cons_self _ _) hc)
    rw [S_StopSound_scan_skip e c t fch rest hf,
      ih t (fun f hf2 => h f (List.mem_cons_of_mem _ hf2))]

/-- After the loop of `S_StopSound` nothing in use matches. -/
theorem S_StopSound_scan_after (e c : Int) (t : Trace) (l : List fmod_channel_t) :
    ∀ fch ∈ (S_StopSound_scan e c t l).2, fch.channel ≠ none → slotMatches e c fch = false := by
  induction l generalizing t with
  | nil => simp [S_StopSound_scan]
  | cons fch rest ih =>
    by_cases h : fch.channel = none ∨ slotMatches e c fch = false
    · rw [S_StopSound_scan_skip e c t fch rest h]
      intro f hf hne
      rcases List.mem_cons.mp hf with rfl | hf
      · rcases h with h | h
        · exact absurd h hne
        · exact h
      · exact ih t f hf hne
    · push_neg at h
      obtain ⟨ch, hch⟩ := Option.ne_none_iff_exists'.mp h.1
      rw [S_StopSound_scan_hit e c t fch rest ch hch (by simpa using h.2)]
      intro f hf hne
      rcases List.mem_cons.mp hf with rfl | hf
      · exact absurd rfl hne
      · exact ih _ f hf hne

/-- Slots that are free or do not match are left as they were, at their index. -/
theorem S_StopSound_scan_frame (e c : Int) (t : Trace) (l : List fmod_channel_t) (i : Nat)
    (fch : fmod_channel_t) (hi : l[i]? = some fch)
    (h : fch.channel = none ∨ slotMatches e c fch = false) :
    (S_StopSound_scan e c t l).2[i]? = some fch := by
  induction l generalizing t i with
  | nil => simp at hi
  | cons f rest ih =>
    have key : ∀ t2 (g : fmod_channel_t) (t3 : Trace),
        (i = 0 → g = fch) → (g :: (S_StopSound_scan e c t2 rest).2)[i]? = some fch := by
      intro t2 g t3 hg
      cases i with
      | zero => simp [hg rfl]
      | succ j =>
        simp only [List.getElem?_cons_succ] at hi ⊢
        exact ih t2 j hi
    by_cases hf : f.channel = none ∨ slotMatches e c f = false
    · rw [S_StopSound_scan_skip e c t f rest hf]
      exact key t f t (fun h0 => by subst h0; simpa using hi)
    · push_neg at hf
      obtain ⟨ch, hch⟩ := Option.ne_none_iff_exists'.mp hf.1
      rw [S_StopSound_scan_hit e c t f rest ch hch (by simpa using hf.2)]
      refine key _ _ t (fun h0 => ?_)
      subst h0
      simp only [List.getElem?_cons_zero, Option.some.injEq] at hi
      subst hi
      rcases h with h | h
      · exact absurd h hf.1
      · exact absurd h (by simpa using hf.2)

/-- Every channel of a matching slot in use is stopped and its spatializer
released, and the old calls stay in front. -/
theorem S_StopSound_scan_calls (e c : Int) (t : Trace) (l : List fmod_channel_t) :
    ∃ extra, (S_StopSound_scan e c t l).1.calls = t.calls ++ extra ∧
      (S_StopSound_scan e c t l).1.clock = t.clock ∧
      ∀ fch ∈ l, ∀ ch, fch.channel = some ch → slotMatches e c fch = true →
        FmodCall.Channel_Stop ch ∈ extra ∧
          ∀ dsp, fch.spatializer = some dsp → FmodCall.DSP_Release dsp ∈ extra := by
  induction l generalizing t with
  | nil => exact ⟨[], by simp [S_StopSound_scan]⟩
  | cons f rest ih =>
    by_cases hf : f.channel = none ∨ slotMatches e c f = false
    · rw [S_StopSound_scan_skip e c t f rest hf]
      obtain ⟨extra, h1, h2, h3⟩ := ih t
      refine ⟨extra, h1, h2, ?_⟩
      intro fch hfch ch hch hm
      rcases List.mem_cons.mp hfch with rfl | hfch
      · rcases hf with hf | hf
        · rw [hf] at hch; cases hch
        · rw [hf] at hm; cases hm
      · exact h3 fch hfch ch hch hm
    · push_neg at hf
      obtain ⟨ch0, hch0⟩ := Option.ne_none_iff_exists'.mp hf.1
      rw [S_StopSound_scan_hit e c t f rest ch0 hch0 (by simpa using hf.2)]
      obtain ⟨ex1, hr1, hr2, hr3⟩ := Atmoky_ReleaseSpatializer_calls (t.emit (.Channel_Stop ch0)) f
      obtain ⟨extra, h1, h2, h3⟩ := ih (Atmoky_ReleaseSpatializer (t.emit (.Channel_Stop ch0)) f).1
      refine ⟨[.Channel_Stop ch0] ++ ex1 ++ extra, ?_, ?_, ?_⟩
      · simp only [h1, hr1, Trace.emit_calls, List.append_assoc]
      · simp only [h2, Atmoky_ReleaseSpatializer_clock, Trace.emit_clock]
      · intro fch hfch ch hch hm
        rcases List.mem_cons.mp hfch with rfl | hfch
        · rw [hch0] at hch
          cases hch
          refine ⟨by simp, fun dsp hd => ?_⟩
          have := hr2 dsp hd
          simp [this]
        · obtain ⟨a, b⟩ := h3 fch hfch ch hch hm
          refine ⟨by simp [a], fun dsp hd => ?_⟩
          have := b dsp hd
          simp [this]

/-- C5: after `S_StopSound(e, -1)` no slot in use has entity `e`, whatever its
sub-channel; the pool keeps its size and every slot whose entity differs from
`e` is exactly the slot it was, at the same index (handle, spatializer, source
ids, positions and flags); the channels of the slots of `e` were stopped. -/
theorem S_StopSound_wildcard_releases_entity (s : State) (e : Int) :
    (∀ fch ∈ (S_StopSound s e (-1)).fmod_channels, fch.channel ≠ none → fch.entnum ≠ e) ∧
    (S_StopSound s e (-1)).fmod_channels.length = s.fmod_channels.length ∧
    (∀ (i : Nat) (fch : fmod_channel_t), s.fmod_channels[i]? = some fch → fch.entnum ≠ e →
      (S_StopSound s e (-1)).fmod_channels[i]? = some fch) ∧
    (∀ fch ∈ s.fmod_channels, ∀ ch, fch.channel = some ch → fch.entnum = e →
      FmodCall.Channel_Stop ch ∈ (S_StopSound s e (-1)).trace.calls) := by
  refine ⟨?_, ?_, ?_, ?_⟩
  · intro fch hf hne
    have := S_StopSound_scan_after e (-1) s.trace s.fmod_channels fch hf hne
    rw [slotMatches_false_iff] at this
    rcases this with h | h
    · exact h
    · exact absurd rfl h.1
  · exact S_StopSound_scan_length e (-1) s.trace s.fmod_channels
  · intro i fch hi hne
    exact S_StopSound_scan_frame e (-1) s.trace s.fmod_channels i fch hi
      (Or.inr ((slotMatches_false_iff e (-1) fch).mpr (Or.inl hne)))
  · intro fch hf ch hch he
    obtain ⟨extra, h1, _, h3⟩ := S_StopSound_scan_calls e (-1) s.trace s.fmod_channels
    have := (h3 fch hf ch hch ((slotMatches_iff e (-1) fch).mpr ⟨he, Or.inl rfl⟩)).1
    show FmodCall.Channel_Stop ch ∈ (S_StopSound_scan e (-1) s.trace s.fmod_channels).1.calls
    rw [h1]
    exact List.mem_append_right _ this

/-- C6: when no slot in use matches `(e, c)` (`c` may be the wildcard `-1`),
`S_StopSound(e, c)` returns the state it was given: same pool, same transcript
(no stop, no spatializer release); and for every state a second
`S_StopSound(e, c)` in a row changes nothing the first one left. -/
theorem S_StopSound_idempotent (s : State) (e c : Int) :
    ((∀ fch ∈ s.fmod_channels, fch.channel ≠ none → slotMatches e c fch = false) →
      S_StopSound s e c = s) ∧
    S_StopSound (S_StopSound s e c) e c = S_StopSound s e c := by
  have noop : ∀ s : State,
      (∀ fch ∈ s.fmod_channels, fch.channel ≠ none → slotMatches e c fch = false) →
      S_StopSound s e c = s := by
    intro s h
    unfold S_StopSound
    rw [S_StopSound_scan_noop e c s.trace s.fmod_channels h]
  exact ⟨noop s, noop _ (S_StopSound_scan_after e c s.trace s.fmod_channels)⟩

/-- C6 at a concrete state: entity 9 tracks nothing in `stateBusy`. -/
theorem S_StopSound_idempotent_witness :
    (∀ fch ∈ stateBusy.fmod_channels, fch.channel ≠ none → slotMatches 9 (-1) fch = false) ∧
    S_StopSound stateBusy 9 (-1) = stateBusy := by
  have h : ∀ fch ∈ stateBusy.fmod_channels, fch.channel ≠ none →
      slotMatches 9 (-1) fch = false := by
    intro fch hf hne
    simp only [stateBusy, List.mem_cons, List.mem_replicate] at hf
    rcases hf with rfl | rfl | rfl | ⟨_, rfl⟩
    · decide
    · decide
    · decide
    · exact absurd rfl hne
  exact ⟨h, (S_StopSound_idempotent stateBusy 9 (-1)).1 h⟩

theorem StopAllTrackedChannels_scan_calls (t : Trace) (l : List fmod_channel_t) :
    ∃ extra, (StopAllTrackedChannels_scan t l).calls = t.calls ++ extra ∧
      (StopAllTrackedChannels_scan t l).clock = t.clock ∧
      ∀ fch ∈ l, (∀ ch, fch.channel = some ch → FmodCall.Channel_Stop ch ∈ extra) ∧
        (∀ dsp, fch.spatializer = some dsp → FmodCall.DSP_Release dsp ∈ extra) := by
  induction l generalizing t with
  | nil => exact ⟨[], by simp [StopAllTrackedChannels_scan]⟩
  | cons f rest ih =>
    simp only [StopAllTrackedChannels_scan]
    cases hch : f.channel with
    | none =>
      obtain ⟨ex1, hr1, hr2, _⟩ := Atmoky_ReleaseSpatializer_calls t f
      obtain ⟨extra, h1, h2, h3⟩ := ih (Atmoky_ReleaseSpatializer t f).1
      refine ⟨ex1 ++ extra, ?_, ?_, ?_⟩
      · simp only [h1, hr1, List.append_assoc]
      · simp only [h2, Atmoky_ReleaseSpatializer_clock]
      · intro fch hfch
        rcases List.mem_cons.mp hfch with rfl | hfch
        · refine ⟨fun ch h => ?_, fun dsp hd => ?_⟩
          · rw [hch] at h; cases h
          · have := hr2 dsp hd
            simp [this]
        · obtain ⟨a, b⟩ := h3 fch hfch
          exact ⟨fun ch h => by simp [a ch h], fun dsp hd => by simp [b dsp hd]⟩
    | some ch0 =>
      obtain ⟨ex1, hr1, hr2, _⟩ := Atmoky_ReleaseSpatializer_calls (t.emit (.Channel_Stop ch0)) f
      obtain ⟨extra, h1, h2, h3⟩ :=
        ih (Atmoky_ReleaseSpatializer (t.emit (.Channel_Stop ch0)) f).1
      refine ⟨[.Channel_Stop ch0] ++ ex1 ++ extra, ?_, ?_, ?_⟩
      · simp only [h1, hr1, Trace.emit_calls, List.append_assoc]
      · simp only [h2, Atmoky_ReleaseSpatializer_clock, Trace.emit_clock]
      · intro fch hfch
        rcases List.mem_cons.mp hfch with rfl | hfch
        · refine ⟨fun ch h => ?_, fun dsp hd => ?_⟩
          · rw [hch] at h; cases h; simp
          · have := hr2 dsp hd
            simp [this]
        · obtain ⟨a, b⟩ := h3 fch hfch
          exact ⟨fun ch h => by simp [a ch h], fun dsp hd => by simp [b dsp hd]⟩

theorem StopAmbientChannels_scan_calls (t : Trace) (l : List (Option Nat)) :
    ∃ extra, (StopAmbientChannels_scan t l).calls = t.calls ++ extra ∧
      (StopAmbientChannels_scan t l).clock = t.clock ∧
      ∀ ch, some ch ∈ l → FmodCall.Channel_Stop ch ∈ extra := by
  induction l generalizing t with
  | nil => exact ⟨[], by simp [StopAmbientChannels_scan]⟩
  | cons c rest ih =>
    cases c with
    | none =>
      obtain ⟨extra, h1, h2, h3⟩ := ih t
      refine ⟨extra, by simpa [StopAmbientChannels_scan] using h1,
        by simpa [StopAmbientChannels_scan] using h2, ?_⟩
      intro ch hch
      rcases List.mem_cons.mp hch with h | h
      · cases h
      · exact h3 ch h
    | some ch0 =>
      obtain ⟨extra, h1, h2, h3⟩ := ih (t.emit (.Channel_Stop ch0))
      refine ⟨[.Channel_Stop ch0] ++ extra, ?_, ?_, ?_⟩
      · simp only [StopAmbientChannels_scan, h1, Trace.emit_calls, List.append_assoc]
      · simp only [StopAmbientChannels_scan, h2, Trace.emit_clock]
      · intro ch hch
        rcases List.mem_cons.mp hch with h | h
        · cases h; simp
        · simp [h3 ch h]

/-- C7: on an initialised subsystem, after `S_StopAllSounds` every pool slot
is the zeroed slot (null channel, no spatializer, every field zero), every
ambient slot has a null channel and volume 0 (the arrays keep their sizes),
and every channel the pool or an ambient slot tracked before the call has had
`FMOD_Channel_Stop` called on it, every spatializer `FMOD_DSP_Release`. -/
theorem S_StopAllSounds_frees_everything (s : State) (h : s.fmod_initialized = true) :
    (∀ fch ∈ (S_StopAllSounds s).fmod_channels, fch = fmod_channel_zero) ∧
    (S_StopAllSounds s).fmod_channels.length = s.fmod_channels.length ∧
    (∀ c ∈ (S_StopAllSounds s).ambient_fmod_channels, c = none) ∧
    (S_StopAllSounds s).ambient_fmod_channels.length = s.ambient_fmod_channels.length ∧
    (∀ v ∈ (S_StopAllSounds s).ambient_vol, v = 0) ∧
    (S_StopAllSounds s).ambient_vol.length = s.ambient_vol.length ∧
    (∀ fch ∈ s.fmod_channels, ∀ ch, fch.channel = some ch →
      FmodCall.Channel_Stop ch ∈ (S_StopAllSounds s).trace.calls) ∧
    (∀ fch ∈ s.fmod_channels, ∀ dsp, fch.spatializer = some dsp →
      FmodCall.DSP_Release dsp ∈ (S_StopAllSounds s).trace.calls) ∧
    (∀ ch, some ch ∈ s.ambient_fmod_channels →
      FmodCall.Channel_Stop ch ∈ (S_StopAllSounds s).trace.calls) := by
  obtain ⟨ex1, p1, _, p3⟩ := StopAllTrackedChannels_scan_calls s.trace s.fmod_channels
  obtain ⟨ex2, a1, _, a3⟩ := StopAmbientChannels_scan_calls
    (StopAllTrackedChannels_scan s.trace s.fmod_channels) s.ambient_fmod_channels
  have hcalls : (S_StopAllSounds s).trace.calls = s.trace.calls ++ ex1 ++ ex2 := by
    simp [S_StopAllSounds, h, StopAmbientChannels, StopAllTrackedChannels, a1, p1]
  refine ⟨?_, ?_, ?_, ?_, ?_, ?_, ?_, ?_, ?_⟩
  · intro fch hf
    simp [S_StopAllSounds, h, StopAmbientChannels, StopAllTrackedChannels] at hf
    exact hf.2
  · simp [S_StopAllSounds, h, StopAmbientChannels, StopAllTrackedChannels]
  · intro c hc
    simp [S_StopAllSounds, h, StopAmbientChannels, StopAllTrackedChannels] at hc
    exact hc.2
  · simp [S_StopAllSounds, h, StopAmbientChannels, StopAllTrackedChannels]
  · intro v hv
    simp [S_StopAllSounds, h, StopAmbientChannels, StopAllTrackedChannels] at hv
    exact hv.2
  · simp [S_StopAllSounds, h, StopAmbientChannels, StopAllTrackedChannels]
  · intro fch hf ch hch
    rw [hcalls]
    simp [(p3 fch hf).1 ch hch]
  · intro fch hf dsp hd
    rw [hcalls]
    simp [(p3 fch hf).2 dsp hd]
  · intro ch hch
    rw [hcalls]
    simp [a3 ch hch]

/-- C7 at a concrete state: `stateBusy` is initialised, and its three channels,
its spatializer and its ambient channel are stopped and released. -/
theorem S_StopAllSounds_frees_everything_witness :
    stateBusy.fmod_initialized = true ∧
    (∀ fch ∈ (S_StopAllSounds stateBusy).fmod_channels, fch = fmod_channel_zero) ∧
    FmodCall.Channel_Stop 103 ∈ (S_StopAllSounds stateBusy).trace.calls ∧
    FmodCall.DSP_Release 901 ∈ (S_StopAllSounds stateBusy).trace.calls ∧
    FmodCall.Channel_Stop 201 ∈ (S_StopAllSounds stateBusy).trace.calls := by
  have key := S_StopAllSounds_frees_everything stateBusy rfl
  refine ⟨rfl, key.1, ?_, ?_, ?_⟩
  · exact key.2.2.2.2.2.2.1 (slotOf 103 7 1)
      (List.mem_cons_of_mem _ (List.mem_cons_of_mem _ (List.mem_cons_self _ _))) 103 rfl
  · exact key.2.2.2.2.2.2.2.1 { slotOf 102 5 2 with spatializer := some 901 }
      (List.mem_cons_of_mem _ (List.mem_cons_self _ _)) 901 rfl
  · exact key.2.2.2.2.2.2.2.2 201 (List.mem_cons_self _ _)

theorem ChannelIsPlaying_some (β : Backend) (t : Trace) (ch : Nat) :
    ChannelIsPlaying β t (some ch) =
      (reportsPlaying β t.clock ch,
        t.query (.Channel_IsPlaying ch (β.Channel_IsPlaying t.clock ch))) := rfl

theorem ChannelIsVirtual_some (β : Backend) (t : Trace) (ch : Nat) :
    ChannelIsVirtual β t (some ch) =
      (reportsVirtual β t.clock ch,
        t.query (.Channel_IsVirtual ch (β.Channel_IsVirtual t.clock ch))) := rfl

theorem reportsPlaying_false_answer (β : Backend) (clock ch : Nat)
    (h : reportsPlaying β clock ch = false) :
    answeredNotPlaying (.Channel_IsPlaying ch (β.Channel_IsPlaying clock ch)) ch := by
  unfold reportsPlaying at h
  unfold answeredNotPlaying
  cases hq : β.Channel_IsPlaying clock ch with
  | none => exact Or.inl rfl
  | some p =>
    rw [hq] at h
    simp only at h
    subst h
    exact Or.inr rfl

theorem AllocChannel_scan1_free (β : Backend) (t : Trace) (fch : fmod_channel_t)
    (rest : List fmod_channel_t) (h : fch.channel = none) :
    AllocChannel_scan1 β t (fch :: rest) = (some 0, t, fch :: rest) := by
  simp [AllocChannel_scan1, h]

theorem AllocChannel_scan1_stale (β : Backend) (t : Trace) (fch : fmod_channel_t)
    (rest : List fmod_channel_t) (ch : Nat) (h : fch.channel = some ch)
    (hp : reportsPlaying β t.clock ch = false) :
    AllocChannel_scan1 β t (fch :: rest) =
      (some 0,
        (Atmoky_ReleaseSpatializer
          (t.query (.Channel_IsPlaying ch (β.Channel_IsPlaying t.clock ch))) fch).1,
        fmod_channel_zero :: rest) := by
  simp [AllocChannel_scan1, h, ChannelIsPlaying_some, hp]

theorem AllocChannel_scan1_live (β : Backend) (t : Trace) (fch : fmod_channel_t)
    (rest : List fmod_channel_t) (ch : Nat) (h : fch.channel = some ch)
    (hp : reportsPlaying β t.clock ch = true) :
    AllocChannel_scan1 β t (fch :: rest) =
      scanNext fch (AllocChannel_scan1 β
        (t.query (.Channel_IsPlaying ch (β.Channel_IsPlaying t.clock ch))) rest) := by
  simp [AllocChannel_scan1, h, ChannelIsPlaying_some, hp]

theorem AllocChannel_scan1_spec (β : Backend) (t : Trace) (l : List fmod_channel_t) :
    (∀ i, (AllocChannel_scan1 β t l).1 = some i →
      Scan1Some β t l i (AllocChannel_scan1 β t l)) ∧
    ((AllocChannel_scan1 β t l).1 = none → Scan1None β t l (AllocChannel_scan1 β t l)) := by
  induction l generalizing t with
  | nil =>
    refine ⟨fun i h => by simp [AllocChannel_scan1] at h, fun _ => ?_⟩
    exact ⟨fun j fj h => by simp at h, rfl, rfl, [], by simp [AllocChannel_scan1], by simp⟩
  | cons fch rest ih =>
    cases hch : fch.channel with
    | none =>
      rw [AllocChannel_scan1_free β t fch rest hch]
      refine ⟨fun i h => ?_, fun h => by simp at h⟩
      simp only [Option.some.injEq] at h
      subst h
      exact ⟨fun j fj hj => absurd hj (Nat.not_lt_zero j),
        ⟨fch, by simp, Or.inl ⟨hch, by simp⟩⟩, [], by simp, by simp⟩
    | some ch =>
      cases hp : reportsPlaying β t.clock ch with
      | false =>
        rw [AllocChannel_scan1_stale β t fch rest ch hch hp]
        refine ⟨fun i h => ?_, fun h => by simp at h⟩
        simp only [Option.some.injEq] at h
        subst h
        obtain ⟨ex, hex, _, hstop⟩ := Atmoky_ReleaseSpatializer_calls
          (t.query (.Channel_IsPlaying ch (β.Channel_IsPlaying t.clock ch))) fch
        refine ⟨fun j fj hj => absurd hj (Nat.not_lt_zero j),
          ⟨fch, by simp, Or.inr ⟨ch, hch, by simpa using hp, by simp⟩⟩,
          [.Channel_IsPlaying ch (β.Channel_IsPlaying t.clock ch)] ++ ex, ?_, ?_⟩
        · simp only [hex, Trace.query_calls, List.append_assoc]
        · intro c hc
          rcases List.mem_append.mp hc with h | h
          · simp at h
          · exact hstop c h
      | true =>
        rw [AllocChannel_scan1_live β t fch rest ch hch hp]
        obtain ⟨ihs, ihn⟩ :=
          ih (t.query (.Channel_IsPlaying ch (β.Channel_IsPlaying t.clock ch)))
        generalize AllocChannel_scan1 β
          (t.query (.Channel_IsPlaying ch (β.Channel_IsPlaying t.clock ch))) rest = r at ihs ihn
        refine ⟨fun i h => ?_, fun h => ?_⟩
        · simp only [scanNext, Option.map_eq_some'] at h
          obtain ⟨k, hk, rfl⟩ := h
          obtain ⟨hb, ⟨f, hf, hslot⟩, ⟨ex, hex, hstop⟩⟩ := ihs k hk
          refine ⟨?_, ⟨f, by simpa using hf, ?_⟩, ?_⟩
          · intro j fj hj hlj
            cases j with
            | zero =>
              simp only [List.getElem?_cons_zero, Option.some.injEq] at hlj
              subst hlj
              exact ⟨ch, hch, by simpa using hp⟩
            | succ j =>
              simp only [List.getElem?_cons_succ] at hlj
              obtain ⟨c, hc1, hc2⟩ := hb j fj (by omega) hlj
              refine ⟨c, hc1, ?_⟩
              rw [← hc2, Trace.query_clock]
              congr 1
              omega
          · rcases hslot with ⟨h1, h2⟩ | ⟨c, h1, h2, h3⟩
            · exact Or.inl ⟨h1, by simp [scanNext, h2]⟩
            · refine Or.inr ⟨c, h1, ?_, by simp [scanNext, h3]⟩
              rw [← h2, Trace.query_clock]
              congr 1
              omega
          · refine ⟨[.Channel_IsPlaying ch (β.Channel_IsPlaying t.clock ch)] ++ ex, ?_, ?_⟩
            · simp only [scanNext, hex, Trace.query_calls, List.append_assoc]
            · intro c hc
              rcases List.mem_append.mp hc with h | h
              · simp at h
              · exact hstop c h
        · simp only [scanNext, Option.map_eq_none'] at h
          obtain ⟨ha, hpool, hclock, ⟨ex, hex, hstop⟩⟩ := ihn h
          refine ⟨?_, by simp [scanNext, hpool], ?_, ?_⟩
          · intro j fj hlj
            cases j with
            | zero =>
              simp only [List.getElem?_cons_zero, Option.some.injEq] at hlj
              subst hlj
              exact ⟨ch, hch, by simpa using hp⟩
            | succ j =>
              simp only [List.getElem?_cons_succ] at hlj
              obtain ⟨c, hc1, hc2⟩ := ha j fj hlj
              refine ⟨c, hc1, ?_⟩
              rw [← hc2, Trace.query_clock]
              congr 1
              omega
          · simp only [scanNext, hclock, Trace.query_clock, List.length_cons]
            omega
          · refine ⟨[.Channel_IsPlaying ch (β.Channel_IsPlaying t.clock ch)] ++ ex, ?_, ?_⟩
            · simp only [scanNext, hex, Trace.query_calls, List.append_assoc]
            · intro c hc
              rcases List.mem_append.mp hc with h | h
              · simp at h
              · exact hstop c h

theorem AllocChannel_scan2_free (β : Backend) (t : Trace) (fch : fmod_channel_t)
    (rest : List fmod_channel_t) (h : fch.channel = none) :
    AllocChannel_scan2 β t (fch :: rest) = scanNext fch (AllocChannel_scan2 β t rest) := by
  simp [AllocChannel_scan2, h]

theorem AllocChannel_scan2_audible (β : Backend) (t : Trace) (fch : fmod_channel_t)
    (rest : List fmod_channel_t) (ch : Nat) (h : fch.channel = some ch)
    (hv : reportsVirtual β t.clock ch = false) :
    AllocChannel_scan2 β t (fch :: rest) =
      scanNext fch (AllocChannel_scan2 β
        (t.query (.Channel_IsVirtual ch (β.Channel_IsVirtual t.clock ch))) rest) := by
  simp [AllocChannel_scan2, h, ChannelIsVirtual_some, hv]

theorem AllocChannel_scan2_virtual (β : Backend) (t : Trace) (fch : fmod_channel_t)
    (rest : List fmod_channel_t) (ch : Nat) (h : fch.channel = some ch)
    (hv : reportsVirtual β t.clock ch = true) :
    AllocChannel_scan2 β t (fch :: rest) =
      (some 0,
        (Atmoky_ReleaseSpatializer
          ((t.query (.Channel_IsVirtual ch (β.Channel_IsVirtual t.clock ch))).emit
            (.Channel_Stop ch)) fch).1,
        fmod_channel_zero :: rest) := by
  simp [AllocChannel_scan2, h, ChannelIsVirtual_some, hv]

theorem AllocChannel_scan2_spec (β : Backend) (t : Trace) (l : List fmod_channel_t)
    (hall : ∀ fch ∈ l, fch.channel ≠ none) :
    (∀ i, (AllocChannel_scan2 β t l).1 = some i →
      Scan2Some β t l i (AllocChannel_scan2 β t l)) ∧
    ((AllocChannel_scan2 β t l).1 = none → Scan2None β t l (AllocChannel_scan2 β t l)) := by
  induction l generalizing t with
  | nil =>
    refine ⟨fun i h => by simp [AllocChannel_scan2] at h, fun _ => ?_⟩
    exact ⟨fun j fj h => by simp at h, rfl, rfl, [], by simp [AllocChannel_scan2], by simp⟩
  | cons fch rest ih =>
    obtain ⟨ch, hch⟩ := Option.ne_none_iff_exists'.mp (hall fch (List.mem_cons_self _ _))
    have hrest : ∀ f ∈ rest, f.channel ≠ none := fun f hf => hall f (List.mem_cons_of_mem _ hf)
    cases hv : reportsVirtual β t.clock ch with
    | true =>
      rw [AllocChannel_scan2_virtual β t fch rest ch hch hv]
      refine ⟨fun i h => ?_, fun h => by simp at h⟩
      simp only [Option.some.injEq] at h
      subst h
      obtain ⟨ex, hex, _, _⟩ := Atmoky_ReleaseSpatializer_calls
        ((t.query (.Channel_IsVirtual ch (β.Channel_IsVirtual t.clock ch))).emit
          (.Channel_Stop ch)) fch
      refine ⟨fun j fj hj => absurd hj (Nat.not_lt_zero j),
        ⟨fch, ch, by simp, hch, by simpa using hv, by simp, ?_⟩, ?_⟩
      · simp only [hex, Trace.emit_calls, Trace.query_calls]
        simp
      · exact ⟨[.Channel_IsVirtual ch (β.Channel_IsVirtual t.clock ch), .Channel_Stop ch] ++ ex,
          by simp only [hex, Trace.emit_calls, Trace.query_calls, List.append_assoc,
            List.singleton_append, List.cons_append, List.nil_append]⟩
    | false =>
      rw [AllocChannel_scan2_audible β t fch rest ch hch hv]
      obtain ⟨ihs, ihn⟩ :=
        ih (t.query (.Channel_IsVirtual ch (β.Channel_IsVirtual t.clock ch))) hrest
      generalize AllocChannel_scan2 β
        (t.query (.Channel_IsVirtual ch (β.Channel_IsVirtual t.clock ch))) rest = r at ihs ihn
      have head : ∀ (n : Nat) (P : Nat → fmod_channel_t → Prop),
          (∀ (j : Nat) (fj : fmod_channel_t), P j fj →
            rest[j]? = some fj → ∃ c, fj.channel = some c ∧
              reportsVirtual β
                ((t.query (.Channel_IsVirtual ch (β.Channel_IsVirtual t.clock ch))).clock + j) c
                = false) →
          ∀ (j : Nat) (fj : fmod_channel_t), (∀ k, j = k + 1 → P k fj) →
            (fch :: rest)[j]? = some fj →
            ∃ c, fj.channel = some c ∧ reportsVirtual β (t.clock + j) c = false := by
        intro n P hP j fj hPj hlj
        cases j with
        | zero =>
          simp only [List.getElem?_cons_zero, Option.some.injEq] at hlj
          subst hlj
          exact ⟨ch, hch, by simpa using hv⟩
        | succ j =>
          simp only [List.getElem?_cons_succ] at hlj
          obtain ⟨c, hc1, hc2⟩ := hP j fj (hPj j rfl) hlj
          refine ⟨c, hc1, ?_⟩
          rw [← hc2, Trace.query_clock]
          congr 1
          omega
      refine ⟨fun i h => ?_, fun h => ?_⟩
      · simp only [scanNext, Option.map_eq_some'] at h
        obtain ⟨k, hk, rfl⟩ := h
        obtain ⟨hb, ⟨f, c, hf, h1, h2, h3, h4⟩, ⟨ex, hex⟩⟩ := ihs k hk
        refine ⟨?_, ⟨f, c, by simpa using hf, h1, ?_, by simp [scanNext, h3],
          by simpa [scanNext] using h4⟩, ?_⟩
        · intro j fj hj hlj
          exact head 0 (fun a _ => a < k) (fun a fa ha hla => hb a fa ha hla) j fj
            (fun a ha => by omega) hlj
        · rw [← h2, Trace.query_clock]
          congr 1
          omega
        · exact ⟨[.Channel_IsVirtual ch (β.Channel_IsVirtual t.clock ch)] ++ ex,
            by simp only [scanNext, hex, Trace.query_calls, List.append_assoc]⟩
      · simp only [scanNext, Option.map_eq_none'] at h
        obtain ⟨ha, hpool, hclock, ⟨ex, hex, hstop⟩⟩ := ihn h
        refine ⟨?_, by simp [scanNext, hpool], ?_, ?_⟩
        · intro j fj hlj
          exact head 0 (fun _ _ => True) (fun a fa _ hla => ha a fa hla) j fj
            (fun _ _ => trivial) hlj
        · simp only [scanNext, hclock, Trace.query_clock, List.length_cons]
          omega
        · refine ⟨[.Channel_IsVirtual ch (β.Channel_IsVirtual t.clock ch)] ++ ex, ?_, ?_⟩
          · simp only [scanNext, hex, Trace.query_calls, List.append_assoc]
          · intro c hc
            rcases List.mem_append.mp hc with h | h
            · simp at h
            · exact hstop c h

theorem getElem?_set_self_of_some {α : Type} (l : List α) (i : Nat) (a b : α)
    (h : l[i]? = some a) : (l.set i b)[i]? = some b := by
  have hi : i < l.length := by
    by_contra hn
    rw [List.getElem?_eq_none (by omega)] at h
    cases h
  simp [List.getElem?_set, hi]

/-- C3: `AllocChannel` returns no slot if and only if every slot of the pool
holds a non-null channel that reports playing when the first loop asks (slot
`i` is the `i`-th question of the call) and reports not virtual when the
second loop asks (the `N + i`-th question, `N` the number of slots); what a
channel reports is what `ChannelIsPlaying` and `ChannelIsVirtual` return.  In
every other case it returns a slot, and the slot returned has a null channel
handle when `AllocChannel` returns: its previous channel is no longer tracked.
When no slot is returned the pool is unchanged. -/
theorem AllocChannel_none_iff (β : Backend) (s : State) :
    ((AllocChannel β s).1 = none ↔
      ∀ (i : Nat) (fch : fmod_channel_t), s.fmod_channels[i]? = some fch →
        ∃ ch, fch.channel = some ch ∧
          reportsPlaying β (s.trace.clock + i) ch = true ∧
          reportsVirtual β (s.trace.clock + s.fmod_channels.length + i) ch = false) ∧
    (∀ i, (AllocChannel β s).1 = some i →
      ∃ fch, (AllocChannel β s).2.fmod_channels[i]? = some fch ∧ fch.channel = none) ∧
    ((AllocChannel β s).1 = none → (AllocChannel β s).2.fmod_channels = s.fmod_channels) := by
  obtain ⟨h1s, h1n⟩ := AllocChannel_scan1_spec β s.trace s.fmod_channels
  cases hr1 : (AllocChannel_scan1 β s.trace s.fmod_channels).1 with
  | some k =>
    have hA : AllocChannel β s = (some k,
        { s with trace := (AllocChannel_scan1 β s.trace s.fmod_channels).2.1,
                 fmod_channels := (AllocChannel_scan1 β s.trace s.fmod_channels).2.2 }) := by
      simp [AllocChannel, hr1]
    obtain ⟨hb, ⟨f, hf, hslot⟩, _⟩ := h1s k hr1
    rw [hA]
    refine ⟨⟨fun h => by simp at h, fun h => ?_⟩, fun i hi => ?_, fun h => by simp at h⟩
    · exfalso
      obtain ⟨ch, hch, hp, _⟩ := h k f hf
      rcases hslot with ⟨h0, _⟩ | ⟨c, h0, h1, _⟩
      · rw [h0] at hch; cases hch
      · rw [h0] at hch; cases hch; rw [h1] at hp; cases hp
    · simp only [Option.some.injEq] at hi
      subst hi
      rcases hslot with ⟨h0, h1⟩ | ⟨c, _, _, h1⟩
      · exact ⟨f, by simp only [h1]; exact getElem?_set_self_of_some _ _ _ _ hf, h0⟩
      · exact ⟨fmod_channel_zero,
          by simp only [h1]; exact getElem?_set_self_of_some _ _ _ _ hf, rfl⟩
  | none =>
    obtain ⟨ha, hpool, hclock, _⟩ := h1n hr1
    have hall : ∀ fch ∈ (AllocChannel_scan1 β s.trace s.fmod_channels).2.2,
        fch.channel ≠ none := by
      intro fch hf
      rw [hpool] at hf
      obtain ⟨j, hj⟩ := List.mem_iff_getElem?.mp hf
      obtain ⟨ch, hch, _⟩ := ha j fch hj
      simp [hch]
    obtain ⟨h2s, h2n⟩ := AllocChannel_scan2_spec β
      (AllocChannel_scan1 β s.trace s.fmod_channels).2.1
      (AllocChannel_scan1 β s.trace s.fmod_channels).2.2 hall
    have hA : AllocChannel β s =
        ((AllocChannel_scan2 β (AllocChannel_scan1 β s.trace s.fmod_channels).2.1
            (AllocChannel_scan1 β s.trace s.fmod_channels).2.2).1,
          { s with
            trace := (AllocChannel_scan2 β (AllocChannel_scan1 β s.trace s.fmod_channels).2.1
              (AllocChannel_scan1 β s.trace s.fmod_channels).2.2).2.1,
            fmod_channels :=
              (AllocChannel_scan2 β (AllocChannel_scan1 β s.trace s.fmod_channels).2.1
                (AllocChannel_scan1 β s.trace s.fmod_channels).2.2).2.2 }) := by
      simp [AllocChannel, hr1]
    rw [hA]
    generalize AllocChannel_scan2 β (AllocChannel_scan1 β s.trace s.fmod_channels).2.1
      (AllocChannel_scan1 β s.trace s.fmod_channels).2.2 = r2 at h2s h2n
    rw [hpool] at h2s h2n
    refine ⟨⟨fun h => ?_, fun h => ?_⟩, fun i hi => ?_, fun h => ?_⟩
    · obtain ⟨hv, _, _, _⟩ := h2n h
      intro i fch hi
      obtain ⟨ch, hch, hp⟩ := ha i fch hi
      obtain ⟨c, hc, hq⟩ := hv i fch hi
      rw [hch] at hc
      cases hc
      rw [hclock] at hq
      exact ⟨ch, hch, hp, hq⟩
    · cases hr2 : r2.1 with
      | none => rfl
      | some k =>
        exfalso
        obtain ⟨_, ⟨f, c, hf, hc, hv, _, _⟩, _⟩ := h2s k hr2
        obtain ⟨ch, hch, _, hq⟩ := h k f hf
        rw [hc] at hch
        cases hch
        rw [hclock, hq] at hv
        cases hv
    · obtain ⟨_, ⟨f, c, hf, _, _, hset, _⟩, _⟩ := h2s i hi
      exact ⟨fmod_channel_zero,
        by simp only [hset]; exact getElem?_set_self_of_some _ _ _ _ hf, rfl⟩
    · exact (h2n h).pool

/-- C4, as the code has it: free and stale slots are one tier, scanned in
index order.  If slot `i` is free or its channel reports not playing, and
every slot before it is in use and reports playing, `AllocChannel` returns
slot `i` and stops no channel.  A channel is force-stopped only when every
slot of the pool is in use and reported playing to the first loop. -/
theorem AllocChannel_preference (β : Backend) (s : State) :
    (∀ (i : Nat) (fch : fmod_channel_t), s.fmod_channels[i]? = some fch →
      (fch.channel = none ∨
        ∃ ch, fch.channel = some ch ∧ reportsPlaying β (s.trace.clock + i) ch = false) →
      (∀ (j : Nat) (fj : fmod_channel_t), j < i → s.fmod_channels[j]? = some fj →
        ∃ ch, fj.channel = some ch ∧ reportsPlaying β (s.trace.clock + j) ch = true) →
      (AllocChannel β s).1 = some i ∧
        ∀ ch, FmodCall.Channel_Stop ch ∈ (AllocChannel β s).2.trace.calls →
          FmodCall.Channel_Stop ch ∈ s.trace.calls) ∧
    (∀ ch, FmodCall.Channel_Stop ch ∈ (AllocChannel β s).2.trace.calls →
      FmodCall.Channel_Stop ch ∉ s.trace.calls →
      ∀ (j : Nat) (fj : fmod_channel_t), s.fmod_channels[j]? = some fj →
        ∃ c, fj.channel = some c ∧ reportsPlaying β (s.trace.clock + j) c = true) := by
  obtain ⟨h1s, h1n⟩ := AllocChannel_scan1_spec β s.trace s.fmod_channels
  cases hr1 : (AllocChannel_scan1 β s.trace s.fmod_channels).1 with
  | some k =>
    have hA : AllocChannel β s = (some k,
        { s with trace := (AllocChannel_scan1 β s.trace s.fmod_channels).2.1,
                 fmod_channels := (AllocChannel_scan1 β s.trace s.fmod_channels).2.2 }) := by
      simp [AllocChannel, hr1]
    obtain ⟨hb, ⟨f, hf, hslot⟩, ⟨ex, hex, hstop⟩⟩ := h1s k hr1
    have nostop : ∀ ch, FmodCall.Channel_Stop ch ∈ (AllocChannel β s).2.trace.calls →
        FmodCall.Channel_Stop ch ∈ s.trace.calls := by
      intro ch hch
      rw [hA] at hch
      simp only [hex] at hch
      rcases List.mem_append.mp hch with h | h
      · exact h
      · exact absurd h (hstop ch)
    refine ⟨fun i fch hi hfree hbefore => ⟨?_, nostop⟩, fun ch h1 h2 => absurd (nostop ch h1) h2⟩
    rw [hA]
    show some k = some i
    congr 1
    rcases Nat.lt_trichotomy k i with hlt | heq | hgt
    · exfalso
      obtain ⟨c, hc, hp⟩ := hbefore k f hlt hf
      rcases hslot with ⟨h0, _⟩ | ⟨c2, h0, h1, _⟩
      · rw [h0] at hc; cases hc
      · rw [h0] at hc; cases hc; rw [h1] at hp; cases hp
    · exact heq
    · exfalso
      obtain ⟨c, hc, hp⟩ := hb i fch hgt hi
      rcases hfree with h0 | ⟨c2, h0, h1⟩
      · rw [h0] at hc; cases hc
      · rw [h0] at hc; cases hc; rw [h1] at hp; cases hp
  | none =>
    obtain ⟨ha, _, _, _⟩ := h1n hr1
    refine ⟨fun i fch hi hfree _ => ?_, fun _ _ _ => ha⟩
    exfalso
    obtain ⟨c, hc, hp⟩ := ha i fch hi
    rcases hfree with h0 | ⟨c2, h0, h1⟩
    · rw [h0] at hc; cases hc
    · rw [h0] at hc; cases hc; rw [h1] at hp; cases hp

theorem AllocChannel_fst_of_scan1 (β : Backend) (s : State) (i : Nat)
    (h : (AllocChannel_scan1 β s.trace s.fmod_channels).1 = some i) :
    (AllocChannel β s).1 = some i := by
  simp [AllocChannel, h]

/-- C4 as stated fails: in `stateOne` slot 1 is structurally free, yet with a
backend that reports channel 1 as not playing `AllocChannel` returns slot 0,
which was in use (a stale slot reclaimed while a free slot exists). -/
theorem AllocChannel_free_before_stale_counterexample :
    stateOne.fmod_channels[1]? = some fmod_channel_zero ∧
    fmod_channel_zero.channel = none ∧
    stateOne.fmod_channels[0]? = some (slotOf 1 5 1) ∧
    (slotOf 1 5 1).channel = some 1 ∧
    (AllocChannel backendSilent stateOne).1 = some 0 := by
  refine ⟨?_, rfl, ?_, rfl, ?_⟩
  · show (slotOf 1 5 1 :: List.replicate 4094 fmod_channel_zero)[1]? = some fmod_channel_zero
    rw [List.getElem?_cons_succ, List.getElem?_replicate]
    simp
  · show (slotOf 1 5 1 :: List.replicate 4094 fmod_channel_zero)[0]? = some (slotOf 1 5 1)
    rw [List.getElem?_cons_zero]
  · exact AllocChannel_fst_of_scan1 backendSilent stateOne 0
      (congrArg Prod.fst (AllocChannel_scan1_stale backendSilent stateOne.trace (slotOf 1 5 1)
        (List.replicate 4094 fmod_channel_zero) 1 rfl rfl))

/-! ### Sound registry -/

theorem S_FindName_scan_none_iff (name : String) (n : Nat) (l : List sfx_t) :
    S_FindName_scan name n l = none ↔
      ∀ (j : Nat) (e : sfx_t), j < n → l[j]? = some e → e.name ≠ name := by
  induction l generalizing n with
  | nil =>
    cases n <;> simp [S_FindName_scan]
  | cons a rest ih =>
    cases n with
    | zero => simp [S_FindName_scan]
    | succ n =>
      by_cases ha : a.name = name
      · simp only [S_FindName_scan, ha, if_true]
        constructor
        · intro h; cases h
        · intro h
          exact absurd ha (h 0 a (Nat.succ_pos n) (by simp))
      · simp only [S_FindName_scan, ha, if_false, Option.map_eq_none', ih n]
        constructor
        · intro h j e hj hl
          cases j with
          | zero =>
            simp only [List.getElem?_cons_zero, Option.some.injEq] at hl
            subst hl
            exact ha
          | succ j =>
            simp only [List.getElem?_cons_succ] at hl
            exact h j e (by omega) hl
        · intro h j e hj hl
          exact h (j + 1) e (by omega) (by simpa using hl)

theorem S_FindName_scan_some_iff (name : String) (n : Nat) (l : List sfx_t) (i : Nat) :
    S_FindName_scan name n l = some i ↔
      i < n ∧ (∃ e, l[i]? = some e ∧ e.name = name) ∧
        ∀ (j : Nat) (e : sfx_t), j < i → l[j]? = some e → e.name ≠ name := by
  induction l generalizing n i with
  | nil =>
    cases n <;> simp [S_FindName_scan]
  | cons a rest ih =>
    cases n with
    | zero => simp [S_FindName_scan]
    | succ n =>
      by_cases ha : a.name = name
      · simp only [S_FindName_scan, ha, if_true, Option.some.injEq]
        constructor
        · intro h
          subst h
          exact ⟨Nat.succ_pos n, ⟨a, by simp, ha⟩, fun j e hj => absurd hj (Nat.not_lt_zero j)⟩
        · rintro ⟨_, _, h⟩
          cases i with
          | zero => rfl
          | succ i => exact absurd ha (h 0 a (Nat.succ_pos i) (by simp))
      · simp only [S_FindName_scan, ha, if_false, Option.map_eq_some']
        constructor
        · rintro ⟨k, hk, rfl⟩
          obtain ⟨h1, ⟨e, he1, he2⟩, h3⟩ := (ih n k).mp hk
          refine ⟨by omega, ⟨e, by simpa using he1, he2⟩, ?_⟩
          intro j e2 hj hl
          cases j with
          | zero =>
            simp only [List.getElem?_cons_zero, Option.some.injEq] at hl
            subst hl
            exact ha
          | succ j =>
            simp only [List.getElem?_cons_succ] at hl
            exact h3 j e2 (by omega) hl
        · rintro ⟨h1, ⟨e, he1, he2⟩, h3⟩
          cases i with
          | zero =>
            simp only [List.getElem?_cons_zero, Option.some.injEq] at he1
            subst he1
            exact absurd he2 ha
          | succ i =>
            refine ⟨i, (ih n i).mpr ⟨by omega, ⟨e, by simpa using he1, he2⟩, ?_⟩, rfl⟩
            intro j e2 hj hl
            exact h3 (j + 1) e2 (by omega) (by simpa using hl)

theorem wrapInt32_of_range (x : Int) (h1 : -2147483648 ≤ x) (h2 : x < 2147483648) :
    wrapInt32 x = x := by
  unfold wrapInt32
  omega

theorem copyEntries_full {α : Type} (zero : α) (n : Nat) (l : List α) (h : l.length = n) :
    copyEntries zero n (some l) = l := by
  subst h
  unfold copyEntries
  simp

theorem copyEntries_zero {α : Type} (zero : α) (old : Option (List α)) :
    copyEntries zero 0 old = [] := by
  unfold copyEntries
  simp

/-- What a successful `GrowSfxArrays` leaves, on a well-formed registry. -/
theorem GrowSfxArrays_ok (β : Backend) (s s1 : State) (hwf : RegistryWF s)
    (h : GrowSfxArrays β s = .ok (true, s1)) :
    s1.known_sfx = some ((s.known_sfx.getD []) ++ List.replicate 256 sfx_zero) ∧
    s1.fmod_sounds = some ((s.fmod_sounds.getD []) ++ List.replicate 256 fmod_sfx_zero) ∧
    s1.max_sfx = s.max_sfx + 256 ∧ s1.num_sfx = s.num_sfx ∧
    s.max_sfx + 256 < INT_MAX := by
  have hmax0 : 0 ≤ s.max_sfx := le_trans hwf.num_nonneg hwf.num_le_max
  have hmaxle := hwf.max_le
  unfold GrowSfxArrays at h
  split at h
  · cases h
  · rename_i hcheck
    have hlt : s.max_sfx + 256 < INT_MAX := by
      by_contra hn
      apply hcheck
      unfold wrapInt32 SFX_GROW
      unfold INT_MAX at hn hmaxle ⊢
      omega
    have hw : wrapInt32 (s.max_sfx + SFX_GROW) = s.max_sfx + 256 := by
      unfold INT_MAX at hlt
      exact wrapInt32_of_range _ (by unfold SFX_GROW; omega) (by unfold SFX_GROW; omega)
    simp only [hw] at h
    split at h
    · cases h
    · simp only [Except.ok.injEq, Prod.mk.injEq, true_and] at h
      subst h
      have hk : copyEntries sfx_zero s.max_sfx.toNat
          (if decide (s.known_sfx.isSome ∧ s.max_sfx > 0) = true then s.known_sfx else none)
          = s.known_sfx.getD [] := by
        by_cases hpos : 0 < s.max_sfx
        · obtain ⟨l, hl⟩ := Option.ne_none_iff_exists'.mp (hwf.known_some hpos)
          have := hwf.known_length
          simp only [hl, Option.getD_some] at this
          simp [hl, hpos, copyEntries_full _ _ _ this]
        · have h0 : s.max_sfx = 0 := by omega
          have := hwf.known_length
          rw [h0] at this
          simp only [Int.toNat_zero, List.length_eq_zero] at this
          rw [h0, this]
          exact copyEntries_zero _ _
      have hf : copyEntries fmod_sfx_zero s.max_sfx.toNat
          (if decide (s.known_sfx.isSome ∧ s.max_sfx > 0) = true then s.fmod_sounds else none)
          = s.fmod_sounds.getD [] := by
        by_cases hpos : 0 < s.max_sfx
        · obtain ⟨l, hl⟩ := Option.ne_none_iff_exists'.mp (hwf.sounds_some hpos)
          obtain ⟨l2, hl2⟩ := Option.ne_none_iff_exists'.mp (hwf.known_some hpos)
          have := hwf.sounds_length
          simp only [hl, Option.getD_some] at this
          simp [hl, hl2, hpos, copyEntries_full _ _ _ this]
        · have h0 : s.max_sfx = 0 := by omega
          have := hwf.sounds_length
          rw [h0] at this
          simp only [Int.toNat_zero, List.length_eq_zero] at this
          rw [h0, this]
          exact copyEntries_zero _ _
      refine ⟨?_, ?_, rfl, rfl, hlt⟩
      · simp only [hk]; rfl
      · simp only [hf]; rfl

/-- The state `S_FindName` works on when it needs a new entry: the state
itself when there is room, the grown state otherwise. -/
theorem S_FindName_room (β : Backend) (s sg : State) (hwf : RegistryWF s)
    (hg : (s.num_sfx < s.max_sfx ∧ sg = s) ∨
      (s.max_sfx ≤ s.num_sfx ∧ GrowSfxArrays β s = .ok (true, sg))) :
    ∃ kl sl, sg.known_sfx = some kl ∧ sg.fmod_sounds = some sl ∧
      s.num_sfx.toNat < kl.length ∧ s.num_sfx.toNat < sl.length ∧
      sg.num_sfx = s.num_sfx ∧ s.num_sfx + 1 ≤ INT_MAX ∧
      (∀ j : Nat, j < s.num_sfx.toNat → kl[j]? = (s.known_sfx.getD [])[j]?) ∧
      (∀ j : Nat, j < s.num_sfx.toNat → sl[j]? = (s.fmod_sounds.getD [])[j]?) := by
  have h0 := hwf.num_nonneg
  have h1 := hwf.num_le_max
  have h2 := hwf.max_le
  rcases hg with ⟨hlt, rfl⟩ | ⟨hge, hgrow⟩
  · have hpos : 0 < sg.max_sfx := by omega
    obtain ⟨kl, hkl⟩ := Option.ne_none_iff_exists'.mp (hwf.known_some hpos)
    obtain ⟨sl, hsl⟩ := Option.ne_none_iff_exists'.mp (hwf.sounds_some hpos)
    have hk := hwf.known_length
    have hs := hwf.sounds_length
    simp only [hkl, hsl, Option.getD_some] at hk hs
    refine ⟨kl, sl, hkl, hsl, by omega, by omega, rfl, by omega, ?_, ?_⟩
    · intro j _
      rw [hkl]
      rfl
    · intro j _
      rw [hsl]
      rfl
  · obtain ⟨g1, g2, g3, g4, g5⟩ := GrowSfxArrays_ok β s sg hwf hgrow
    have hk := hwf.known_length
    have hs := hwf.sounds_length
    refine ⟨_, _, g1, g2, ?_, ?_, g4, by omega, ?_, ?_⟩
    · simp only [List.length_append, List.length_replicate, hk]; omega
    · simp only [List.length_append, List.length_replicate, hs]; omega
    · intro j hj
      rw [List.getElem?_append_left (by omega)]
    · intro j hj
      rw [List.getElem?_append_left (by omega)]

/-- `S_FindName` on a name that is not interned yet, once room is there. -/
theorem S_FindName_new (β : Backend) (env : Engine) (s sg : State) (name : String)
    (hlen : name.length < env.MAX_QPATH)
    (hscan : S_FindName_scan name s.num_sfx.toNat (s.known_sfx.getD []) = none)
    (hg : (s.num_sfx < s.max_sfx ∧ sg = s) ∨
      (s.max_sfx ≤ s.num_sfx ∧ GrowSfxArrays β s = .ok (true, sg))) :
    S_FindName β env s (some name) = .ok (sg.num_sfx.toNat, { sg with
      known_sfx := sg.known_sfx.map (fun l => l.set sg.num_sfx.toNat { name := name, cache := none })
      fmod_sounds := sg.fmod_sounds.map
        (fun l => l.set sg.num_sfx.toNat { sound := none, loaded := false })
      num_sfx := wrapInt32 (sg.num_sfx + 1) }) := by
  unfold S_FindName
  simp only [ge_iff_le, Nat.not_le.mpr hlen, if_false, hscan]
  rcases hg with ⟨hlt, rfl⟩ | ⟨hge, hgrow⟩
  · simp only [Int.not_le.mpr hlt, if_false]
  · simp only [hge, if_true, hgrow]

/-- C8: on a well-formed registry, for a name shorter than `MAX_QPATH`, when
the call is not fatal (the name is interned already, or the table has room, or
it can grow): `S_FindName(name)` returns a handle `i` whose entry has the
name, and a second `S_FindName(name)` returns the same handle `i` and leaves
the state exactly as the first call left it (no entry added, no name or load
state changed).  If the name was interned already the first call changes
nothing either.  If it was not, the handle is the old `num_sfx`, `num_sfx`
grows by exactly one, the new entry has a null sound and load-attempted
false, and the entries below it are the ones the table had. -/
theorem S_FindName_dedup (β : Backend) (env : Engine) (s : State) (name : String)
    (hwf : RegistryWF s) (hlen : name.length < env.MAX_QPATH)
    (hroom : S_FindName_scan name s.num_sfx.toNat (s.known_sfx.getD []) ≠ none ∨
      s.num_sfx < s.max_sfx ∨ CanGrow β s) :
    ∃ i s1, S_FindName β env s (some name) = .ok (i, s1) ∧
      S_FindName β env s1 (some name) = .ok (i, s1) ∧
      (∃ e, (s1.known_sfx.getD [])[i]? = some e ∧ e.name = name) ∧
      (S_FindName_scan name s.num_sfx.toNat (s.known_sfx.getD []) ≠ none → s1 = s) ∧
      (S_FindName_scan name s.num_sfx.toNat (s.known_sfx.getD []) = none →
        (i : Int) = s.num_sfx ∧ s1.num_sfx = s.num_sfx + 1 ∧
        (s1.fmod_sounds.getD [])[i]? = some { sound := none, loaded := false } ∧
        (∀ j : Nat, j < i → (s1.known_sfx.getD [])[j]? = (s.known_sfx.getD [])[j]?) ∧
        (∀ j : Nat, j < i → (s1.fmod_sounds.getD [])[j]? = (s.fmod_sounds.getD [])[j]?)) := by
  cases hscan : S_FindName_scan name s.num_sfx.toNat (s.known_sfx.getD []) with
  | some i =>
    have hcall : S_FindName β env s (some name) = .ok (i, s) := by
      unfold S_FindName
      simp only [ge_iff_le, Nat.not_le.mpr hlen, if_false, hscan]
    obtain ⟨_, he, _⟩ := (S_FindName_scan_some_iff name _ _ i).mp hscan
    exact ⟨i, s, hcall, hcall, he, fun _ => rfl, fun h => by cases h⟩
  | none =>
    have hg : ∃ sg, (s.num_sfx < s.max_sfx ∧ sg = s) ∨
        (s.max_sfx ≤ s.num_sfx ∧ GrowSfxArrays β s = .ok (true, sg)) := by
      by_cases hlt : s.num_sfx < s.max_sfx
      · exact ⟨s, Or.inl ⟨hlt, rfl⟩⟩
      · rcases hroom with h | h | ⟨sg, h⟩
        · exact absurd hscan h
        · exact absurd h hlt
        · exact ⟨sg, Or.inr ⟨by omega, h⟩⟩
    obtain ⟨sg, hg⟩ := hg
    obtain ⟨kl, sl, hkl, hsl, hk, hs, hnum, hmax, hkeep, hskeep⟩ := S_FindName_room β s sg hwf hg
    have h0 := hwf.num_nonneg
    have hw : wrapInt32 (sg.num_sfx + 1) = s.num_sfx + 1 := by
      rw [hnum]
      unfold INT_MAX at hmax
      exact wrapInt32_of_range _ (by omega) (by omega)
    have hcall := S_FindName_new β env s sg name hlen hscan hg
    rw [hw, hnum, hkl, hsl] at hcall
    simp only [Option.map_some'] at hcall
    refine ⟨_, _, hcall, ?_, ?_, fun h => absurd rfl h, fun _ => ?_⟩
    · unfold S_FindName
      simp only [ge_iff_le, Nat.not_le.mpr hlen, if_false, Option.getD_some]
      have : S_FindName_scan name (s.num_sfx + 1).toNat
          (kl.set s.num_sfx.toNat { name := name, cache := none }) = some s.num_sfx.toNat := by
        rw [S_FindName_scan_some_iff]
        refine ⟨by omega, ⟨{ name := name, cache := none }, by simp [List.getElem?_set, hk], rfl⟩, ?_⟩
        intro j e hj hl
        rw [List.getElem?_set_ne (by omega), hkeep j hj] at hl
        exact (S_FindName_scan_none_iff name _ _).mp hscan j e hj hl
      simp only [this]
    · exact ⟨{ name := name, cache := none }, by simp [List.getElem?_set, hk], rfl⟩
    · refine ⟨by simp [Int.toNat_of_nonneg h0], rfl, by simp [List.getElem?_set, hs], ?_, ?_⟩
      · intro j hj
        simp only [Option.getD_some]
        rw [List.getElem?_set_ne (by omega), hkeep j hj]
      · intro j hj
        simp only [Option.getD_some]
        rw [List.getElem?_set_ne (by omega), hskeep j hj]

/-- C10, as the code has it: `S_FindName` is fatal exactly when the name is
null, or its length is at least `MAX_QPATH`, or the name is not interned while
the table is full (`num_sfx >= max_sfx`) and cannot grow; for every other input
it returns a handle. -/
theorem S_FindName_fatal_iff (β : Backend) (env : Engine) (s : State) (name : Option String) :
    ((∃ msg, S_FindName β env s name = .error msg) ↔
      (name = none ∨ (∃ n, name = some n ∧ env.MAX_QPATH ≤ n.length) ∨
        (∃ n, name = some n ∧
          S_FindName_scan n s.num_sfx.toNat (s.known_sfx.getD []) = none ∧
          s.max_sfx ≤ s.num_sfx ∧ ¬ CanGrow β s))) ∧
    ((¬ ∃ msg, S_FindName β env s name = .error msg) →
      ∃ i s1, S_FindName β env s name = .ok (i, s1)) := by
  constructor
  · cases name with
    | none => simp [S_FindName]
    | some n =>
      by_cases hlen : env.MAX_QPATH ≤ n.length
      · simp [S_FindName, hlen]
      · cases hscan : S_FindName_scan n s.num_sfx.toNat (s.known_sfx.getD []) with
        | some i => simp [S_FindName, hlen, hscan]
        | none =>
          by_cases hfull : s.max_sfx ≤ s.num_sfx
          · cases hgrow : GrowSfxArrays β s with
            | error e => simp [S_FindName, hlen, hscan, hfull, hgrow, CanGrow]
            | ok r =>
              obtain ⟨b, sg⟩ := r
              cases b with
              | false => simp [S_FindName, hlen, hscan, hfull, hgrow, CanGrow]
              | true => simp [S_FindName, hlen, hscan, hfull, hgrow, CanGrow]
          · simp [S_FindName, hlen, hscan, hfull]
  · intro h
    cases hr : S_FindName β env s name with
    | error e => exact absurd ⟨e, hr⟩ h
    | ok r => exact ⟨r.1, r.2, rfl⟩

theorem RegistryWF_stateReady : RegistryWF stateReady where
  num_nonneg := by decide
  num_le_max := by decide
  max_le := by decide
  known_length := by
    show (_ :: _ :: List.replicate 254 sfx_zero).length = 256
    simp only [List.length_cons, List.length_replicate]
  sounds_length := by
    show (_ :: _ :: List.replicate 254 fmod_sfx_zero).length = 256
    simp only [List.length_cons, List.length_replicate]
  known_some := fun _ => Option.some_ne_none _
  sounds_some := fun _ => Option.some_ne_none _

theorem RegistryWF_stateCold : RegistryWF stateCold where
  num_nonneg := by decide
  num_le_max := by decide
  max_le := by decide
  known_length := rfl
  sounds_length := rfl
  known_some := fun h => absurd h (by decide)
  sounds_some := fun h => absurd h (by decide)

theorem CanGrow_stateCold : CanGrow backendLive stateCold := by
  unfold CanGrow GrowSfxArrays
  have h : ¬ (wrapInt32 (stateCold.max_sfx + SFX_GROW) % 18446744073709551616 ≥ INT_MAX) := by
    decide
  rw [if_neg h]
  exact ⟨_, rfl⟩

/-- C8 at concrete states: a new name in the ready registry, which has room;
and a new name in the registry before `S_Init`, which is empty and grows. -/
theorem S_FindName_dedup_witness :
    RegistryWF stateReady ∧ "misc/menu1.wav".length < engineQuake.MAX_QPATH ∧
    (∃ i s1, S_FindName backendLive engineQuake stateReady (some "misc/menu1.wav") = .ok (i, s1) ∧
      S_FindName backendLive engineQuake s1 (some "misc/menu1.wav") = .ok (i, s1) ∧
      ∃ e, (s1.known_sfx.getD [])[i]? = some e ∧ e.name = "misc/menu1.wav") ∧
    RegistryWF stateCold ∧ CanGrow backendLive stateCold ∧
    (∃ i s1, S_FindName backendLive engineQuake stateCold (some "misc/menu1.wav") = .ok (i, s1) ∧
      S_FindName backendLive engineQuake s1 (some "misc/menu1.wav") = .ok (i, s1) ∧
      s1.num_sfx = 1) := by
  have hlen : "misc/menu1.wav".length < engineQuake.MAX_QPATH := by decide
  obtain ⟨i, s1, h1, h2, h3, _⟩ :=
    S_FindName_dedup backendLive engineQuake stateReady "misc/menu1.wav" RegistryWF_stateReady
      hlen (Or.inr (Or.inl (by decide)))
  obtain ⟨j, s3, g1, g2, _, _, g5⟩ :=
    S_FindName_dedup backendLive engineQuake stateCold "misc/menu1.wav" RegistryWF_stateCold
      hlen (Or.inr (Or.inr CanGrow_stateCold))
  exact ⟨RegistryWF_stateReady, hlen, ⟨i, s1, h1, h2, h3⟩, RegistryWF_stateCold,
    CanGrow_stateCold, ⟨j, s3, g1, g2, (g5 rfl).2.1⟩⟩

/-- C10 at a concrete state: before `S_Init` the table is full (0 of 0
entries) and, with an allocator that fails, cannot grow: `S_FindName` of a new
name is fatal; with an allocator that succeeds it returns a handle. -/
theorem S_FindName_fatal_iff_witness :
    (∃ msg, S_FindName backendPoor engineQuake stateCold (some "misc/menu1.wav") = .error msg) ∧
    (∃ i s1, S_FindName backendLive engineQuake stateCold (some "misc/menu1.wav") = .ok (i, s1)) := by
  have hscan : S_FindName_scan "misc/menu1.wav" stateCold.num_sfx.toNat
      (stateCold.known_sfx.getD []) = none := rfl
  have hfull : stateCold.max_sfx ≤ stateCold.num_sfx := by decide
  constructor
  · refine (S_FindName_fatal_iff backendPoor engineQuake stateCold (some "misc/menu1.wav")).1.mpr
      (Or.inr (Or.inr ⟨"misc/menu1.wav", rfl, hscan, hfull, ?_⟩))
    rintro ⟨s1, h⟩
    unfold GrowSfxArrays at h
    have hcheck : ¬ (wrapInt32 (stateCold.max_sfx + SFX_GROW) % 18446744073709551616 ≥ INT_MAX) := by
      decide
    rw [if_neg hcheck] at h
    simp only [backendPoor, true_or, if_true, Except.ok.injEq, Prod.mk.injEq,
      Bool.false_eq_true, false_and] at h
  · refine (S_FindName_fatal_iff backendLive engineQuake stateCold (some "misc/menu1.wav")).2 ?_
    intro hfatal
    rcases (S_FindName_fatal_iff backendLive engineQuake stateCold
      (some "misc/menu1.wav")).1.mp hfatal with h | ⟨n, hn, hl⟩ | ⟨n, hn, _, _, hg⟩
    · cases h
    · simp only [Option.some.injEq] at hn
      subst hn
      exact absurd hl (by decide)
    · exact hg CanGrow_stateCold

/-- C10 as stated fails: `name64` has exactly `MAX_QPATH = 64` characters, so
its length does not exceed the maximum, it is not null and the ready registry
has room (2 of 256 entries used), yet `S_FindName` is fatal. -/
theorem S_FindName_length_counterexample :
    name64.length = engineQuake.MAX_QPATH ∧
    ¬ (engineQuake.MAX_QPATH < name64.length) ∧
    stateReady.num_sfx < stateReady.max_sfx ∧
    S_FindName backendLive engineQuake stateReady (some name64) =
      .error ("Sound name too long: " ++ name64) := by
  refine ⟨by decide, by decide, by decide, ?_⟩
  have h : name64.length ≥ engineQuake.MAX_QPATH := by decide
  simp only [S_FindName, h, if_true]

theorem SfxIndex_valid (s : State) (p : Nat) (h : (p : Int) < s.max_sfx) :
    SfxIndex s p = (p : Int) := by
  unfold SfxIndex
  have : ¬ ((p : Int) < 0 ∨ (p : Int) ≥ s.max_sfx) := by omega
  simp only [this, if_false]

/-- C9: on a subsystem with a backend system object, for a valid handle `p`
with entry `e` in `fmod_sounds`.  If load-attempted is already true,
`FMOD_LoadSfx` returns the cached sound (null or not) and the state it was
given, transcript included: no file read, no create-sound call, registry
unchanged.  If it is false, after the call the entry has load-attempted true
and caches exactly the returned sound, which is null exactly when the load
failed (file missing or create-sound failed); and a second call returns the
same sound and changes nothing more. -/
theorem FMOD_LoadSfx_idempotent (β : Backend) (s : State) (p : Nat) (e : fmod_sfx_t)
    (hsys : s.fmod_system ≠ none) (hidx : (p : Int) < s.max_sfx)
    (he : (s.fmod_sounds.getD [])[p]? = some e) :
    (e.loaded = true → FMOD_LoadSfx β s (some p) = (e.sound, s)) ∧
    (e.loaded = false →
      (∃ e1, ((FMOD_LoadSfx β s (some p)).2.fmod_sounds.getD [])[p]? = some e1 ∧
        e1.loaded = true ∧ e1.sound = (FMOD_LoadSfx β s (some p)).1) ∧
      ((FMOD_LoadSfx β s (some p)).1 = none ↔ LoadFails β s p) ∧
      FMOD_LoadSfx β (FMOD_LoadSfx β s (some p)).2 (some p) = FMOD_LoadSfx β s (some p)) := by
  obtain ⟨sys, hsys⟩ := Option.ne_none_iff_exists'.mp hsys
  have hI := SfxIndex_valid s p hidx
  have hnn : ¬ ((p : Int) < 0) := by omega
  have hentry : (s.fmod_sounds.getD []).getD p fmod_sfx_zero = e := by
    rw [List.getD_eq_getElem?_getD, he]; rfl
  obtain ⟨l, hl⟩ : ∃ l, s.fmod_sounds = some l := by
    cases h : s.fmod_sounds with
    | none => rw [h] at he; simp at he
    | some l => exact ⟨l, rfl⟩
  have hp : p < l.length := by
    rw [hl] at he
    simp only [Option.getD_some] at he
    by_contra hn
    rw [List.getElem?_eq_none (by omega)] at he
    cases he
  -- the cached path, on any state with the same registry shape
  have cached : ∀ (s2 : State) (e2 : fmod_sfx_t), s2.fmod_system = some sys →
      s2.max_sfx = s.max_sfx → (s2.fmod_sounds.getD [])[p]? = some e2 → e2.loaded = true →
      FMOD_LoadSfx β s2 (some p) = (e2.sound, s2) := by
    intro s2 e2 h1 h2 h3 h4
    have hI2 : SfxIndex s2 p = (p : Int) := SfxIndex_valid s2 p (by rw [h2]; exact hidx)
    have hentry2 : (s2.fmod_sounds.getD []).getD p fmod_sfx_zero = e2 := by
      rw [List.getD_eq_getElem?_getD, h3]; rfl
    unfold FMOD_LoadSfx
    simp only [h1, hI2, hnn, if_false, Int.toNat_ofNat, hentry2, h4, if_true]
  refine ⟨fun hloaded => cached s e hsys rfl he hloaded, fun hnot => ?_⟩
  -- the state after a first call that stores `e1`
  have stored : ∀ (e1 : fmod_sfx_t) (t : Trace), e1.loaded = true →
      ((setFmodSound s p e1 t).fmod_sounds.getD [])[p]? = some e1 ∧
      FMOD_LoadSfx β (setFmodSound s p e1 t) (some p) = (e1.sound, setFmodSound s p e1 t) := by
    intro e1 t h1
    have hget : ((setFmodSound s p e1 t).fmod_sounds.getD [])[p]? = some e1 := by
      simp [setFmodSound, hl, List.getElem?_set, hp]
    exact ⟨hget, cached _ e1 hsys rfl hget h1⟩
  have hunf : FMOD_LoadSfx β s (some p) =
      match β.FS_LoadStackFile s.trace.clock (loadName s p) with
      | none => (none, setFmodSound s p { sound := none, loaded := true }
          (s.trace.query (.FS_LoadStackFile (loadName s p) none)))
      | some size =>
        match β.System_CreateSound (s.trace.clock + 1) size with
        | none => (none, setFmodSound s p { sound := none, loaded := true }
            ((s.trace.query (.FS_LoadStackFile (loadName s p) (some size))).query
              (.System_CreateSound size (loadMode s.atmoky_available) none)))
        | some snd => (some snd, setFmodSound s p { sound := some snd, loaded := true }
            (if s.atmoky_available then
              (s.trace.query (.FS_LoadStackFile (loadName s p) (some size))).query
                (.System_CreateSound size (loadMode s.atmoky_available) (some snd))
            else ((s.trace.query (.FS_LoadStackFile (loadName s p) (some size))).query
                (.System_CreateSound size (loadMode s.atmoky_available) (some snd))).emit
                  (.Sound_Set3DMinMaxDistance snd MIN_3D_DIST NOMINAL_CLIP_DIST))) := by
    unfold FMOD_LoadSfx
    simp only [hsys, hI, hnn, if_false, Int.toNat_ofNat, hentry, hnot, loadName,
      Trace.query_clock]
    cases β.FS_LoadStackFile s.trace.clock
        (("sound/" ++ ((s.known_sfx.getD []).getD p sfx_zero).name).take 255) with
    | none => rfl
    | some size =>
      simp only
      cases β.System_CreateSound (s.trace.clock + 1) size with
      | none => rfl
      | some snd => rfl
  rw [hunf]
  unfold LoadFails
  cases hfile : β.FS_LoadStackFile s.trace.clock (loadName s p) with
  | none =>
    simp only
    obtain ⟨a, b⟩ := stored { sound := none, loaded := true }
      (s.trace.query (.FS_LoadStackFile (loadName s p) none)) rfl
    exact ⟨⟨_, a, rfl, rfl⟩, by simp, b⟩
  | some size =>
    simp only
    cases hcreate : β.System_CreateSound (s.trace.clock + 1) size with
    | none =>
      simp only
      obtain ⟨a, b⟩ := stored { sound := none, loaded := true }
        ((s.trace.query (.FS_LoadStackFile (loadName s p) (some size))).query
          (.System_CreateSound size (loadMode s.atmoky_available) none)) rfl
      exact ⟨⟨_, a, rfl, rfl⟩, by simp [hcreate], b⟩
    | some snd =>
      simp only
      obtain ⟨a, b⟩ := stored { sound := some snd, loaded := true }
        (if s.atmoky_available then
          (s.trace.query (.FS_LoadStackFile (loadName s p) (some size))).query
            (.System_CreateSound size (loadMode s.atmoky_available) (some snd))
        else ((s.trace.query (.FS_LoadStackFile (loadName s p) (some size))).query
            (.System_CreateSound size (loadMode s.atmoky_available) (some snd))).emit
              (.Sound_Set3DMinMaxDistance snd MIN_3D_DIST NOMINAL_CLIP_DIST)) rfl
      exact ⟨⟨_, a, rfl, rfl⟩, by simp [hcreate], b⟩

/-- C9 at a concrete state: entry 2 of `stateThree` is interned and not loaded
yet; after the first load a second one returns the same and changes nothing;
entry 0 is loaded already and answered from the cache. -/
theorem FMOD_LoadSfx_idempotent_witness :
    stateThree.fmod_system ≠ none ∧ ((2 : Nat) : Int) < stateThree.max_sfx ∧
    (stateThree.fmod_sounds.getD [])[2]? = some fmod_sfx_zero ∧
    FMOD_LoadSfx backendLive (FMOD_LoadSfx backendLive stateThree (some 2)).2 (some 2) =
      FMOD_LoadSfx backendLive stateThree (some 2) ∧
    FMOD_LoadSfx backendLive stateThree (some 0) = (some 11, stateThree) := by
  have h1 : stateThree.fmod_system ≠ none := Option.some_ne_none _
  have h2 : ((2 : Nat) : Int) < stateThree.max_sfx := by decide
  have h0 : ((0 : Nat) : Int) < stateThree.max_sfx := by decide
  have h3 : (stateThree.fmod_sounds.getD [])[2]? = some fmod_sfx_zero := by
    show (_ :: _ :: List.replicate 254 fmod_sfx_zero)[2]? = some fmod_sfx_zero
    rw [List.getElem?_cons_succ, List.getElem?_cons_succ, List.getElem?_replicate]
    simp
  have h4 : (stateThree.fmod_sounds.getD [])[0]? = some ⟨some 11, true⟩ := by
    show (_ :: _ :: List.replicate 254 fmod_sfx_zero)[0]? = some ⟨some 11, true⟩
    rw [List.getElem?_cons_zero]
  exact ⟨h1, h2, h3,
    ((FMOD_LoadSfx_idempotent backendLive stateThree 2 fmod_sfx_zero h1 h2 h3).2 rfl).2.2,
    (FMOD_LoadSfx_idempotent backendLive stateThree 0 ⟨some 11, true⟩ h1 h0 h4).1 rfl⟩

/-! ### `FindChannel` and the stop-existing loop -/

theorem FindChannel_scan_skip (β : Backend) (e c : Int) (t : Trace) (fch : fmod_channel_t)
    (rest : List fmod_channel_t) (h : fch.channel = none ∨ slotMatches e c fch = false) :
    FindChannel_scan β e c t (fch :: rest) = scanNext fch (FindChannel_scan β e c t rest) := by
  rcases h with h | h
  · simp [FindChannel_scan, h]
  · rw [slotMatches_false_iff] at h
    by_cases hch : fch.channel = none
    · simp [FindChannel_scan, hch]
    · rcases h with h | h
      · simp [FindChannel_scan, hch, h]
      · by_cases h1 : fch.entnum = e
        · simp [FindChannel_scan, hch, h1, h.1, h.2]
        · simp [FindChannel_scan, hch, h1]

theorem FindChannel_scan_gc (β : Backend) (e c : Int) (t : Trace) (fch : fmod_channel_t)
    (rest : List fmod_channel_t) (ch : Nat) (hch : fch.channel = some ch)
    (hm : slotMatches e c fch = true) (hp : reportsPlaying β t.clock ch = false) :
    FindChannel_scan β e c t (fch :: rest) =
      scanNext { fch with channel := none, spatializer := none }
        (FindChannel_scan β e c
          (Atmoky_ReleaseSpatializer
            (t.query (.Channel_IsPlaying ch (β.Channel_IsPlaying t.clock ch))) fch).1 rest) := by
  rw [slotMatches_iff] at hm
  have h2 : ¬ (c ≠ -1 ∧ fch.entchannel ≠ c) := by
    rintro ⟨a, b⟩
    rcases hm.2 with h | h
    · exact a h
    · exact b h
  simp only [FindChannel_scan, hch, hm.1, h2, ChannelIsPlaying_some, hp,
    Atmoky_ReleaseSpatializer_snd]
  simp

theorem FindChannel_scan_hit (β : Backend) (e c : Int) (t : Trace) (fch : fmod_channel_t)
    (rest : List fmod_channel_t) (ch : Nat) (hch : fch.channel = some ch)
    (hm : slotMatches e c fch = true) (hp : reportsPlaying β t.clock ch = true) :
    FindChannel_scan β e c t (fch :: rest) =
      (some 0, t.query (.Channel_IsPlaying ch (β.Channel_IsPlaying t.clock ch)), fch :: rest) := by
  rw [slotMatches_iff] at hm
  have h2 : ¬ (c ≠ -1 ∧ fch.entchannel ≠ c) := by
    rintro ⟨a, b⟩
    rcases hm.2 with h | h
    · exact a h
    · exact b h
  simp only [FindChannel_scan, hch, hm.1, h2, ChannelIsPlaying_some, hp]
  simp

theorem KeptOrReleased.mono {e c : Int} {calls extra : List FmodCall}
    {old new : fmod_channel_t} (h : KeptOrReleased e c calls old new) :
    KeptOrReleased e c (calls ++ extra) old new := by
  rcases h with h | ⟨och, h1, h2, h3, h4, h5⟩
  · exact Or.inl h
  · refine Or.inr ⟨och, h1, h2, h3, ?_, fun dsp hd => List.mem_append_left _ (h5 dsp hd)⟩
    rcases h4 with h4 | ⟨a, ha, hb⟩
    · exact Or.inl (List.mem_append_left _ h4)
    · exact Or.inr ⟨a, List.mem_append_left _ ha, hb⟩

theorem Forall₂_KeptOrReleased_mono {e c : Int} {calls extra : List FmodCall}
    {l l2 : List fmod_channel_t} (h : List.Forall₂ (KeptOrReleased e c calls) l l2) :
    List.Forall₂ (KeptOrReleased e c (calls ++ extra)) l l2 :=
  h.imp (fun _ _ hab => hab.mono)

theorem Forall₂_KeptOrReleased_refl (e c : Int) (calls : List FmodCall)
    (l : List fmod_channel_t) : List.Forall₂ (KeptOrReleased e c calls) l l := by
  induction l with
  | nil => exact List.Forall₂.nil
  | cons a l ih => exact List.Forall₂.cons (Or.inl rfl) ih

theorem Forall₂_KeptOrReleased_trans {e c : Int} {calls : List FmodCall}
    {l1 l2 l3 : List fmod_channel_t} (h12 : List.Forall₂ (KeptOrReleased e c calls) l1 l2)
    (h23 : List.Forall₂ (KeptOrReleased e c calls) l2 l3) :
    List.Forall₂ (KeptOrReleased e c calls) l1 l3 := by
  induction h12 generalizing l3 with
  | nil => cases h23; exact List.Forall₂.nil
  | cons hab _ ih =>
    cases h23 with
    | cons hbc htl =>
      refine List.Forall₂.cons ?_ (ih htl)
      rcases hbc with hbc | ⟨och, h1, h2, h3, h4, h5⟩
      · rw [hbc]; exact hab
      · rcases hab with hab | ⟨_, _, _, h6, _⟩
        · subst hab
          exact Or.inr ⟨och, h1, h2, h3, h4, h5⟩
        · rw [h6] at h1
          cases h1

theorem Forall₂_getElem? {α β : Type} {R : α → β → Prop} {l : List α} {l2 : List β}
    (h : List.Forall₂ R l l2) (j : Nat) (a : α) (ha : l[j]? = some a) :
    ∃ b, l2[j]? = some b ∧ R a b := by
  induction h generalizing j with
  | nil => simp at ha
  | cons hab _ ih =>
    cases j with
    | zero =>
      simp only [List.getElem?_cons_zero, Option.some.injEq] at ha
      subst ha
      exact ⟨_, by simp, hab⟩
    | succ j =>
      simp only [List.getElem?_cons_succ] at ha ⊢
      exact ih j ha

theorem inUseCount_le_of_Forall₂ {e c : Int} {calls : List FmodCall}
    {l l2 : List fmod_channel_t} (h : List.Forall₂ (KeptOrReleased e c calls) l l2) :
    inUseCount l2 ≤ inUseCount l := by
  unfold inUseCount
  induction h with
  | nil => simp
  | @cons a b l l2 hab _ ih =>
    rcases hab with hab | ⟨och, h1, _, h3, _⟩
    · subst hab
      simp only [List.countP_cons]
      omega
    · have hb : b.channel = none := by rw [h3]
      simp only [List.countP_cons, hb, h1, Option.isSome_none, Option.isSome_some]
      simp
      omega

/-- What the loop of `FindChannel` does. -/
theorem FindChannel_scan_spec (β : Backend) (e c : Int) (t : Trace) (l : List fmod_channel_t) :
    (∃ extra, (FindChannel_scan β e c t l).2.1.calls = t.calls ++ extra ∧
      ∀ ch, FmodCall.Channel_Stop ch ∉ extra) ∧
    List.Forall₂ (KeptOrReleased e c (FindChannel_scan β e c t l).2.1.calls) l
      (FindChannel_scan β e c t l).2.2 ∧
    ((FindChannel_scan β e c t l).1 = none →
      ∀ f ∈ (FindChannel_scan β e c t l).2.2, f.channel ≠ none → slotMatches e c f = false) ∧
    (∀ i, (FindChannel_scan β e c t l).1 = some i →
      ∃ f ch, (FindChannel_scan β e c t l).2.2[i]? = some f ∧ f.channel = some ch ∧
        slotMatches e c f = true) := by
  induction l generalizing t with
  | nil =>
    refine ⟨⟨[], by simp [FindChannel_scan], by simp⟩, ?_, ?_, ?_⟩
    · simp only [FindChannel_scan]; exact List.Forall₂.nil
    · simp [FindChannel_scan]
    · simp [FindChannel_scan]
  | cons fch rest ih =>
    by_cases hskip : fch.channel = none ∨ slotMatches e c fch = false
    · rw [FindChannel_scan_skip β e c t fch rest hskip]
      obtain ⟨⟨ex, hex, hstop⟩, hrel, hnone, hsome⟩ := ih t
      refine ⟨⟨ex, hex, hstop⟩, List.Forall₂.cons (Or.inl rfl) hrel, ?_, ?_⟩
      · intro h f hf hne
        simp only [scanNext, Option.map_eq_none'] at h
        rcases List.mem_cons.mp hf with rfl | hf
        · rcases hskip with h1 | h1
          · exact absurd h1 hne
          · exact h1
        · exact hnone h f hf hne
      · intro i h
        simp only [scanNext, Option.map_eq_some'] at h
        obtain ⟨k, hk, rfl⟩ := h
        obtain ⟨f, ch, h1, h2, h3⟩ := hsome k hk
        exact ⟨f, ch, by simpa [scanNext] using h1, h2, h3⟩
    · push_neg at hskip
      obtain ⟨ch, hch⟩ := Option.ne_none_iff_exists'.mp hskip.1
      have hm : slotMatches e c fch = true := by simpa using hskip.2
      cases hp : reportsPlaying β t.clock ch with
      | true =>
        rw [FindChannel_scan_hit β e c t fch rest ch hch hm hp]
        refine ⟨⟨[.Channel_IsPlaying ch (β.Channel_IsPlaying t.clock ch)], rfl, by simp⟩,
          Forall₂_KeptOrReleased_refl _ _ _ _, fun h => by simp at h, fun i h => ?_⟩
        simp only [Option.some.injEq] at h
        subst h
        exact ⟨fch, ch, by simp, hch, hm⟩
      | false =>
        rw [FindChannel_scan_gc β e c t fch rest ch hch hm hp]
        obtain ⟨ex1, hr1, hr2, hr3⟩ := Atmoky_ReleaseSpatializer_calls
          (t.query (.Channel_IsPlaying ch (β.Channel_IsPlaying t.clock ch))) fch
        obtain ⟨⟨ex, hex, hstop⟩, hrel, hnone, hsome⟩ := ih (Atmoky_ReleaseSpatializer
          (t.query (.Channel_IsPlaying ch (β.Channel_IsPlaying t.clock ch))) fch).1
        have hcalls : (FindChannel_scan β e c (Atmoky_ReleaseSpatializer
            (t.query (.Channel_IsPlaying ch (β.Channel_IsPlaying t.clock ch))) fch).1 rest).2.1.calls
            = t.calls ++ ([.Channel_IsPlaying ch (β.Channel_IsPlaying t.clock ch)] ++ ex1 ++ ex) := by
          simp only [hex, hr1, Trace.query_calls, List.append_assoc]
        refine ⟨⟨_, hcalls, ?_⟩, List.Forall₂.cons (Or.inr ⟨ch, hch, hm, rfl, Or.inr ?_, ?_⟩) hrel,
          ?_, ?_⟩
        · intro c2 hc2
          rcases List.mem_append.mp hc2 with h | h
          · rcases List.mem_append.mp h with h | h
            · simp at h
            · exact hr3 c2 h
          · exact hstop c2 h
        · refine ⟨.Channel_IsPlaying ch (β.Channel_IsPlaying t.clock ch), ?_,
            reportsPlaying_false_answer β t.clock ch hp⟩
          simp only [scanNext, hcalls]
          simp
        · intro dsp hd
          simp only [scanNext, hcalls]
          have := hr2 dsp hd
          simp [this]
        · intro h f hf hne
          simp only [scanNext, Option.map_eq_none'] at h
          rcases List.mem_cons.mp hf with rfl | hf
          · exact absurd rfl hne
          · exact hnone h f hf hne
        · intro i h
          simp only [scanNext, Option.map_eq_some'] at h
          obtain ⟨k, hk, rfl⟩ := h
          obtain ⟨f, ch2, h1, h2, h3⟩ := hsome k hk
          exact ⟨f, ch2, by simpa [scanNext] using h1, h2, h3⟩

theorem Forall₂_set {α : Type} {R : α → α → Prop} (hrefl : ∀ a, R a a) (l : List α) (i : Nat)
    (a x : α) (ha : l[i]? = some a) (hR : R a x) : List.Forall₂ R l (l.set i x) := by
  induction l generalizing i with
  | nil => simp at ha
  | cons b l ih =>
    cases i with
    | zero =>
      simp only [List.getElem?_cons_zero, Option.some.injEq] at ha
      subst ha
      simp only [List.set_cons_zero]
      exact List.Forall₂.cons hR (List.forall₂_same.mpr (fun a _ => hrefl a))
    | succ i =>
      simp only [List.getElem?_cons_succ] at ha
      simp only [List.set_cons_succ]
      exact List.Forall₂.cons (hrefl b) (ih i ha)

theorem inUseCount_set_free (l : List fmod_channel_t) (i : Nat) (a x : fmod_channel_t)
    (ha : l[i]? = some a) (hin : a.channel ≠ none) (hx : x.channel = none) :
    inUseCount (l.set i x) + 1 = inUseCount l := by
  unfold inUseCount
  induction l generalizing i with
  | nil => simp at ha
  | cons b l ih =>
    cases i with
    | zero =>
      simp only [List.getElem?_cons_zero, Option.some.injEq] at ha
      subst ha
      obtain ⟨ch, hch⟩ := Option.ne_none_iff_exists'.mp hin
      simp [List.countP_cons, hx, hch]
    | succ i =>
      simp only [List.getElem?_cons_succ] at ha
      simp only [List.set_cons_succ, List.countP_cons]
      have := ih i ha
      omega

theorem inUseCount_le_length (l : List fmod_channel_t) : inUseCount l ≤ l.length :=
  List.countP_le_length _

/-- What the body of the stop-existing loop does to the slot `FindChannel`
returned. -/
theorem S_StartSound_stopFound_spec (e c : Int) (s : State) (i : Nat) (f : fmod_channel_t)
    (ch : Nat) (hi : s.fmod_channels[i]? = some f) (hch : f.channel = some ch)
    (hm : slotMatches e c f = true) :
    (∃ extra, (S_StartSound_stopFound s i).trace.calls = s.trace.calls ++ extra) ∧
    List.Forall₂ (KeptOrReleased e c (S_StartSound_stopFound s i).trace.calls) s.fmod_channels
      (S_StartSound_stopFound s i).fmod_channels ∧
    inUseCount (S_StartSound_stopFound s i).fmod_channels + 1 = inUseCount s.fmod_channels := by
  obtain ⟨ex1, hr1, hr2, _⟩ := Atmoky_ReleaseSpatializer_calls (s.trace.emit (.Channel_Stop ch)) f
  have hst : S_StartSound_stopFound s i =
      { s with
        trace := (Atmoky_ReleaseSpatializer (s.trace.emit (.Channel_Stop ch)) f).1
        fmod_channels := s.fmod_channels.set i { f with channel := none, spatializer := none } } := by
    unfold S_StartSound_stopFound
    simp only [hi, hch, Atmoky_ReleaseSpatializer_snd]
  rw [hst]
  have hcalls : (Atmoky_ReleaseSpatializer (s.trace.emit (.Channel_Stop ch)) f).1.calls =
      s.trace.calls ++ ([.Channel_Stop ch] ++ ex1) := by
    simp only [hr1, Trace.emit_calls, List.append_assoc]
  refine ⟨⟨_, hcalls⟩, ?_, ?_⟩
  · refine @Forall₂_set fmod_channel_t (KeptOrReleased e c _) (fun a => Or.inl rfl) _ i f _ hi
      (Or.inr ⟨ch, hch, hm, rfl, Or.inl ?_, ?_⟩)
    · simp only [hcalls]; simp
    · intro dsp hd
      have := hr2 dsp hd
      simp only [hcalls]
      simp [this]
  · exact inUseCount_set_free _ i f _ hi (by simp [hch]) rfl

/-- The stop-existing loop of `S_StartSound`, given more iterations than
slots are in use: it ends through `FindChannel` finding nothing, so no slot in
use matches `(e, c)` afterwards; every slot is what it was or was released. -/
theorem S_StartSound_stopExisting_spec (β : Backend) (e c : Int) :
    ∀ (fuel : Nat) (s : State), inUseCount s.fmod_channels < fuel →
      (∃ extra, (S_StartSound_stopExisting β e c fuel s).trace.calls = s.trace.calls ++ extra) ∧
      List.Forall₂ (KeptOrReleased e c (S_StartSound_stopExisting β e c fuel s).trace.calls)
        s.fmod_channels (S_StartSound_stopExisting β e c fuel s).fmod_channels ∧
      (∀ f ∈ (S_StartSound_stopExisting β e c fuel s).fmod_channels,
        f.channel ≠ none → slotMatches e c f = false) := by
  intro fuel
  induction fuel with
  | zero => intro s h; exact absurd h (Nat.not_lt_zero _)
  | succ fuel ih =>
    intro s hfuel
    obtain ⟨⟨ex, hex, _⟩, hrel, hnone, hsome⟩ :=
      FindChannel_scan_spec β e c s.trace s.fmod_channels
    cases hr : (FindChannel β s e c).1 with
    | none =>
      have hst : S_StartSound_stopExisting β e c (fuel + 1) s = (FindChannel β s e c).2 := by
        simp only [S_StartSound_stopExisting, hr]
      rw [hst]
      exact ⟨⟨ex, hex⟩, hrel, hnone hr⟩
    | some i =>
      have hst : S_StartSound_stopExisting β e c (fuel + 1) s =
          S_StartSound_stopExisting β e c fuel
            (S_StartSound_stopFound (FindChannel β s e c).2 i) := by
        simp only [S_StartSound_stopExisting, hr]
      rw [hst]
      obtain ⟨f, ch, hf, hch, hm⟩ := hsome i hr
      obtain ⟨⟨ex2, hex2⟩, hrel2, hcount⟩ :=
        S_StartSound_stopFound_spec e c (FindChannel β s e c).2 i f ch hf hch hm
      have hle := inUseCount_le_of_Forall₂ hrel
      have hlt : inUseCount (S_StartSound_stopFound (FindChannel β s e c).2 i).fmod_channels
          < fuel := by
        have h1 : inUseCount (FindChannel β s e c).2.fmod_channels ≤
            inUseCount s.fmod_channels := hle
        omega
      obtain ⟨⟨ex3, hex3⟩, hrel3, hnone3⟩ :=
        ih (S_StartSound_stopFound (FindChannel β s e c).2 i) hlt
      have hex' : (FindChannel β s e c).2.trace.calls = s.trace.calls ++ ex := hex
      refine ⟨⟨ex ++ ex2 ++ ex3, ?_⟩, ?_, hnone3⟩
      · rw [hex3, hex2, hex']
        simp only [List.append_assoc]
      · have r1 : List.Forall₂ (KeptOrReleased e c
            (S_StartSound_stopExisting β e c fuel
              (S_StartSound_stopFound (FindChannel β s e c).2 i)).trace.calls)
            s.fmod_channels (FindChannel β s e c).2.fmod_channels := by
          rw [hex3, hex2]
          rw [List.append_assoc]
          exact Forall₂_KeptOrReleased_mono hrel
        have r2 : List.Forall₂ (KeptOrReleased e c
            (S_StartSound_stopExisting β e c fuel
              (S_StartSound_stopFound (FindChannel β s e c).2 i)).trace.calls)
            (FindChannel β s e c).2.fmod_channels
            (S_StartSound_stopFound (FindChannel β s e c).2 i).fmod_channels := by
          rw [hex3]
          exact Forall₂_KeptOrReleased_mono hrel2
        exact Forall₂_KeptOrReleased_trans (Forall₂_KeptOrReleased_trans r1 r2) hrel3

/-! ### Frames of the steps of `S_StartSound` -/

theorem setFmodSound_frame (s : State) (idx : Nat) (e : fmod_sfx_t) (t : Trace) :
    (setFmodSound s idx e t).fmod_channels = s.fmod_channels ∧
    (setFmodSound s idx e t).trace = t ∧
    (setFmodSound s idx e t).atmoky_available = s.atmoky_available ∧
    (setFmodSound s idx e t).fmod_initialized = s.fmod_initialized :=
  ⟨rfl, rfl, rfl, rfl⟩

/-- `FMOD_LoadSfx` leaves the pool alone and only adds calls, none of them a
stop. -/
theorem FMOD_LoadSfx_frame (β : Backend) (s : State) (sfx : Option Nat) :
    (FMOD_LoadSfx β s sfx).2.fmod_channels = s.fmod_channels ∧
    ∃ extra, (FMOD_LoadSfx β s sfx).2.trace.calls = s.trace.calls ++ extra ∧
      ∀ k, FmodCall.Channel_Stop k ∉ extra := by
  unfold FMOD_LoadSfx
  split
  · exact ⟨rfl, [], by simp, by simp⟩
  · exact ⟨rfl, [], by simp, by simp⟩
  · split
    · exact ⟨rfl, [], by simp, by simp⟩
    · simp only
      split
      · exact ⟨rfl, [], by simp, by simp⟩
      · split
        · exact ⟨rfl, [_], rfl, by simp⟩
        · split
          · refine ⟨rfl, ?_⟩
            simp only [setFmodSound_frame, Trace.query_calls, List.append_assoc]
            exact ⟨_, rfl, by simp⟩
          · refine ⟨rfl, ?_⟩
            simp only [setFmodSound_frame]
            split
            · simp only [Trace.query_calls, List.append_assoc]
              exact ⟨_, rfl, by simp⟩
            · simp only [Trace.query_calls, Trace.emit_calls, List.append_assoc]
              exact ⟨_, rfl, by simp⟩

/-- A handle whose load was attempted is answered from the cache. -/
theorem FMOD_LoadSfx_cached (β : Backend) (s : State) (p : Nat) (e : fmod_sfx_t)
    (hsys : s.fmod_system ≠ none) (hidx : (p : Int) < s.max_sfx)
    (he : (s.fmod_sounds.getD [])[p]? = some e) (hl : e.loaded = true) :
    FMOD_LoadSfx β s (some p) = (e.sound, s) := by
  obtain ⟨sys, hsys⟩ := Option.ne_none_iff_exists'.mp hsys
  have hI : SfxIndex s p = (p : Int) := by
    unfold SfxIndex
    have : ¬ ((p : Int) < 0 ∨ (p : Int) ≥ s.max_sfx) := by omega
    simp only [this, if_false]
  have hnn : ¬ ((p : Int) < 0) := by omega
  have hentry : (s.fmod_sounds.getD []).getD p fmod_sfx_zero = e := by
    rw [List.getD_eq_getElem?_getD, he]; rfl
  unfold FMOD_LoadSfx
  simp only [hsys, hI, hnn, if_false, Int.toNat_ofNat, hentry, hl, if_true]

/-- `AllocChannel` only adds calls; the slot it returns has a null channel,
every other slot is untouched; when it returns none the pool is untouched. -/
theorem AllocChannel_frame (β : Backend) (s : State) :
    (∃ extra, (AllocChannel β s).2.trace.calls = s.trace.calls ++ extra) ∧
    (∀ i, (AllocChannel β s).1 = some i →
      ∃ a x, s.fmod_channels[i]? = some a ∧ x.channel = none ∧
        (AllocChannel β s).2.fmod_channels = s.fmod_channels.set i x) ∧
    ((AllocChannel β s).1 = none → (AllocChannel β s).2.fmod_channels = s.fmod_channels) := by
  obtain ⟨h1s, h1n⟩ := AllocChannel_scan1_spec β s.trace s.fmod_channels
  cases hr1 : (AllocChannel_scan1 β s.trace s.fmod_channels).1 with
  | some k =>
    have hA : AllocChannel β s = (some k,
        { s with trace := (AllocChannel_scan1 β s.trace s.fmod_channels).2.1,
                 fmod_channels := (AllocChannel_scan1 β s.trace s.fmod_channels).2.2 }) := by
      simp [AllocChannel, hr1]
    obtain ⟨_, ⟨f, hf, hslot⟩, ⟨ex, hex, _⟩⟩ := h1s k hr1
    rw [hA]
    refine ⟨⟨ex, hex⟩, fun i hi => ?_, fun h => by simp at h⟩
    simp only [Option.some.injEq] at hi
    subst hi
    rcases hslot with ⟨h0, h1⟩ | ⟨c, _, _, h1⟩
    · exact ⟨f, f, hf, h0, h1⟩
    · exact ⟨f, fmod_channel_zero, hf, rfl, h1⟩
  | none =>
    obtain ⟨ha, hpool, _, ⟨ex1, hex1, _⟩⟩ := h1n hr1
    have hall : ∀ fch ∈ (AllocChannel_scan1 β s.trace s.fmod_channels).2.2,
        fch.channel ≠ none := by
      intro fch hf
      rw [hpool] at hf
      obtain ⟨j, hj⟩ := List.mem_iff_getElem?.mp hf
      obtain ⟨ch, hch, _⟩ := ha j fch hj
      simp [hch]
    obtain ⟨h2s, h2n⟩ := AllocChannel_scan2_spec β
      (AllocChannel_scan1 β s.trace s.fmod_channels).2.1
      (AllocChannel_scan1 β s.trace s.fmod_channels).2.2 hall
    have hA : AllocChannel β s =
        ((AllocChannel_scan2 β (AllocChannel_scan1 β s.trace s.fmod_channels).2.1
            (AllocChannel_scan1 β s.trace s.fmod_channels).2.2).1,
          { s with
            trace := (AllocChannel_scan2 β (AllocChannel_scan1 β s.trace s.fmod_channels).2.1
              (AllocChannel_scan1 β s.trace s.fmod_channels).2.2).2.1,
            fmod_channels :=
              (AllocChannel_scan2 β (AllocChannel_scan1 β s.trace s.fmod_channels).2.1
                (AllocChannel_scan1 β s.trace s.fmod_channels).2.2).2.2 }) := by
      simp [AllocChannel, hr1]
    rw [hA]
    generalize AllocChannel_scan2 β (AllocChannel_scan1 β s.trace s.fmod_channels).2.1
      (AllocChannel_scan1 β s.trace s.fmod_channels).2.2 = r2 at h2s h2n
    rw [hpool] at h2s h2n
    refine ⟨?_, fun i hi => ?_, fun h => (h2n h).pool⟩
    · cases hr2 : r2.1 with
      | none =>
        obtain ⟨_, _, _, ⟨ex2, hex2, _⟩⟩ := h2n hr2
        exact ⟨ex1 ++ ex2, by simp only [hex2, hex1, List.append_assoc]⟩
      | some k =>
        obtain ⟨_, _, ⟨ex2, hex2⟩⟩ := h2s k hr2
        exact ⟨ex1 ++ ex2, by simp only [hex2, hex1, List.append_assoc]⟩
    · obtain ⟨_, ⟨f, c, hf, _, _, hset, _⟩, _⟩ := h2s i hi
      exact ⟨f, fmod_channel_zero, hf, rfl, hset⟩

theorem AllocChannel_scan1_live_all (β : Backend) (t : Trace) (l : List fmod_channel_t)
    (h : ∀ f ∈ l, ∃ ch, f.channel = some ch ∧ ∀ k, reportsPlaying β k ch = true) :
    ∃ t2, AllocChannel_scan1 β t l = (none, t2, l) ∧ t.clock ≤ t2.clock ∧
      ∃ extra, t2.calls = t.calls ++ extra ∧ ∀ ch, FmodCall.Channel_Stop ch ∉ extra := by
  induction l generalizing t with
  | nil => exact ⟨t, rfl, le_refl _, [], by simp, by simp⟩
  | cons f rest ih =>
    obtain ⟨ch, hch, hp⟩ := h f (List.mem_cons_self _ _)
    rw [AllocChannel_scan1_live β t f rest ch hch (hp _)]
    obtain ⟨t2, h2, hc, ex, hex, hstop⟩ :=
      ih (t.query (.Channel_IsPlaying ch (β.Channel_IsPlaying t.clock ch)))
        (fun g hg => h g (List.mem_cons_of_mem _ hg))
    refine ⟨t2, by rw [h2]; rfl, ?_, [.Channel_IsPlaying ch (β.Channel_IsPlaying t.clock ch)] ++ ex,
      ?_, ?_⟩
    · rw [Trace.query_clock] at hc; omega
    · rw [hex, Trace.query_calls, List.append_assoc]
    · intro c hc2
      rcases List.mem_append.mp hc2 with h3 | h3
      · simp at h3
      · exact hstop c h3

theorem AllocChannel_scan2_audible_all (β : Backend) (t : Trace) (l : List fmod_channel_t)
    (h : ∀ f ∈ l, ∃ ch, f.channel = some ch ∧ ∀ k, reportsVirtual β k ch = false) :
    ∃ t2, AllocChannel_scan2 β t l = (none, t2, l) ∧ t.clock ≤ t2.clock ∧
      ∃ extra, t2.calls = t.calls ++ extra ∧ ∀ ch, FmodCall.Channel_Stop ch ∉ extra := by
  induction l generalizing t with
  | nil => exact ⟨t, rfl, le_refl _, [], by simp, by simp⟩
  | cons f rest ih =>
    obtain ⟨ch, hch, hp⟩ := h f (List.mem_cons_self _ _)
    rw [AllocChannel_scan2_audible β t f rest ch hch (hp _)]
    obtain ⟨t2, h2, hc, ex, hex, hstop⟩ :=
      ih (t.query (.Channel_IsVirtual ch (β.Channel_IsVirtual t.clock ch)))
        (fun g hg => h g (List.mem_cons_of_mem _ hg))
    refine ⟨t2, by rw [h2]; rfl, ?_, [.Channel_IsVirtual ch (β.Channel_IsVirtual t.clock ch)] ++ ex,
      ?_, ?_⟩
    · rw [Trace.query_clock] at hc; omega
    · rw [hex, Trace.query_calls, List.append_assoc]
    · intro c hc2
      rcases List.mem_append.mp hc2 with h3 | h3
      · simp at h3
      · exact hstop c h3

/-- A pool whose channels all play and are audible whenever asked: no slot for
`AllocChannel`, which asks its questions and changes nothing else. -/
theorem AllocChannel_full (β : Backend) (s : State)
    (h : ∀ f ∈ s.fmod_channels, ∃ ch, f.channel = some ch ∧
      ∀ k, reportsPlaying β k ch = true ∧ reportsVirtual β k ch = false) :
    ∃ t2, AllocChannel β s = (none, { s with trace := t2 }) ∧
      ∃ extra, t2.calls = s.trace.calls ++ extra ∧ ∀ ch, FmodCall.Channel_Stop ch ∉ extra := by
  obtain ⟨t1, h1, _, ex1, hex1, hs1⟩ := AllocChannel_scan1_live_all β s.trace s.fmod_channels
    (fun f hf => by obtain ⟨ch, a, b⟩ := h f hf; exact ⟨ch, a, fun k => (b k).1⟩)
  obtain ⟨t2, h2, _, ex2, hex2, hs2⟩ := AllocChannel_scan2_audible_all β t1 s.fmod_channels
    (fun f hf => by obtain ⟨ch, a, b⟩ := h f hf; exact ⟨ch, a, fun k => (b k).2⟩)
  refine ⟨t2, ?_, ex1 ++ ex2, by rw [hex2, hex1, List.append_assoc], ?_⟩
  · simp only [AllocChannel, h1, h2]
  · intro c hc
    rcases List.mem_append.mp hc with h3 | h3
    · exact hs1 c h3
    · exact hs2 c h3

/-- `Atmoky_AttachSpatializer` only adds calls, and touches at most the
spatializer handle of the slot it is given. -/
theorem Atmoky_AttachSpatializer_frame (β : Backend) (s : State) (i ch : Nat)
    (origin : vec3_t) (mn mx : ℚ) :
    (∃ extra, (Atmoky_AttachSpatializer β s (some i) (some ch) origin mn mx).trace.calls =
      s.trace.calls ++ extra ∧ ∀ c, FmodCall.Channel_Stop c ∉ extra) ∧
    ((Atmoky_AttachSpatializer β s (some i) (some ch) origin mn mx).fmod_channels =
        s.fmod_channels ∨
      ∃ slot dsp, s.fmod_channels[i]? = some slot ∧
        (Atmoky_AttachSpatializer β s (some i) (some ch) origin mn mx).fmod_channels =
          s.fmod_channels.set i { slot with spatializer := some dsp }) := by
  unfold Atmoky_AttachSpatializer
  simp only
  split
  · exact ⟨⟨[], by simp, by simp⟩, Or.inl rfl⟩
  · split
    · refine ⟨?_, Or.inl rfl⟩
      simp only [Trace.query_calls, Trace.emit_calls, List.append_assoc]
      exact ⟨_, rfl, by simp⟩
    · split
      · refine ⟨?_, Or.inl rfl⟩
        simp only [Trace.query_calls, Trace.emit_calls, List.append_assoc]
        exact ⟨_, rfl, by simp⟩
      · refine ⟨?_, ?_⟩
        · simp only [Trace.query_calls, Trace.emit_calls, List.append_assoc]
          exact ⟨_, rfl, by simp⟩
        · cases hs : s.fmod_channels[i]? with
          | none => exact Or.inl rfl
          | some slot => exact Or.inr ⟨slot, _, rfl, rfl⟩

/-! ### `S_StartSound` -/

theorem State.emit_fmod_channels (s : State) (c : FmodCall) :
    (s.emit c).fmod_channels = s.fmod_channels := rfl

theorem State.emit_trace (s : State) (c : FmodCall) : (s.emit c).trace = s.trace.emit c := rfl

theorem State.query_fmod_channels (s : State) (c : FmodCall) :
    (s.query c).fmod_channels = s.fmod_channels := rfl

theorem State.query_trace (s : State) (c : FmodCall) : (s.query c).trace = s.trace.query c := rfl

theorem State.setSlot_fmod_channels (s : State) (i : Nat) (f : fmod_channel_t) :
    (s.setSlot i f).fmod_channels = s.fmod_channels.set i f := rfl

theorem State.setSlot_trace (s : State) (i : Nat) (f : fmod_channel_t) :
    (s.setSlot i f).trace = s.trace := rfl

/-- The part of `S_StartSound` after the play call: the slot `AllocChannel`
gave (if any) is written with the new channel and the source ids, no other
slot changes, no channel is stopped, and the last call unpauses the channel. -/
theorem S_StartSound_afterPlay_spec (β : Backend) (env : Engine) (s : State) (ch : Nat)
    (e c : Int) (sfx : Option Nat) (origin : vec3_t) (fvol att : ℚ) :
    (S_StartSound_afterPlay β env s ch e c sfx origin fvol att).2 = (AllocChannel β s).1 ∧
    (∃ extra, (S_StartSound_afterPlay β env s ch e c sfx origin fvol att).1.trace.calls =
      (AllocChannel β s).2.trace.calls ++ extra ++ [.Channel_SetPaused ch false] ∧
      ∀ k, FmodCall.Channel_Stop k ∉ extra) ∧
    ((AllocChannel β s).1 = none →
      (S_StartSound_afterPlay β env s ch e c sfx origin fvol att).1.fmod_channels =
        (AllocChannel β s).2.fmod_channels) ∧
    (∀ i, (AllocChannel β s).1 = some i →
      ∃ y, y.channel = some ch ∧ y.entnum = e ∧ y.entchannel = c ∧
        (S_StartSound_afterPlay β env s ch e c sfx origin fvol att).1.fmod_channels =
          (AllocChannel β s).2.fmod_channels.set i y) := by
  obtain ⟨_, hsome, _⟩ := AllocChannel_frame β s
  refine ⟨rfl, ?_⟩
  unfold S_StartSound_afterPlay
  simp only
  cases ha : (AllocChannel β s).1 with
  | none =>
    simp only [Option.isSome_none, Bool.false_eq_true, and_false, if_false]
    refine ⟨?_, fun _ => ?_, fun i hi => by cases hi⟩
    · split
      · exact ⟨[.Channel_SetMode ch [.FMOD_2D], .Channel_SetVolume ch fvol],
          by simp [State.emit_trace, Trace.emit_calls], by simp⟩
      · exact ⟨[.Channel_Set3DAttributes ch origin vec3_origin,
          .Channel_Set3DMinMaxDistance ch MIN_3D_DIST (S_StartSound_max_dist att),
          .Channel_SetVolume ch fvol],
          by simp [State.emit_trace, Trace.emit_calls], by simp⟩
    · split
      · simp only [State.emit_fmod_channels]
      · simp only [State.emit_fmod_channels]
  | some i =>
    obtain ⟨a, x, hai, _, hset⟩ := hsome i ha
    have hlen : i < (AllocChannel β s).2.fmod_channels.length := by
      rw [hset, List.length_set]
      by_contra hn
      rw [List.getElem?_eq_none (by omega)] at hai
      cases hai
    simp only [Option.isSome_some, and_true]
    refine ⟨?_, fun h => Option.noConfusion h, fun j hj => ?_⟩
    · split
      · exact ⟨[.Channel_SetMode ch [.FMOD_2D], .Channel_SetVolume ch fvol],
          by simp [State.emit_trace, Trace.emit_calls, State.setSlot_trace], by simp⟩
      · split
        · obtain ⟨⟨ex, hex, hstop⟩, _⟩ := Atmoky_AttachSpatializer_frame β
            ((AllocChannel β s).2.setSlot i (S_StartSound_slot env ch e c sfx origin)) i ch origin
            MIN_3D_DIST (S_StartSound_max_dist att)
          refine ⟨ex ++ [.Channel_SetVolume ch fvol], ?_, ?_⟩
          · simp only [State.emit_trace, Trace.emit_calls, hex, State.setSlot_trace,
              List.append_assoc]
          · intro k hk
            rcases List.mem_append.mp hk with h | h
            · exact hstop k h
            · simp at h
        · exact ⟨[.Channel_Set3DAttributes ch origin vec3_origin,
            .Channel_Set3DMinMaxDistance ch MIN_3D_DIST (S_StartSound_max_dist att),
            .Channel_SetVolume ch fvol],
            by simp [State.emit_trace, Trace.emit_calls, State.setSlot_trace], by simp⟩
    · simp only [Option.some.injEq] at hj
      subst hj
      split
      · exact ⟨S_StartSound_slot env ch e c sfx origin, rfl, rfl, rfl, by
          simp only [State.emit_fmod_channels, State.setSlot_fmod_channels]⟩
      · split
        · obtain ⟨_, hpool⟩ := Atmoky_AttachSpatializer_frame β
            ((AllocChannel β s).2.setSlot i (S_StartSound_slot env ch e c sfx origin)) i ch origin
            MIN_3D_DIST (S_StartSound_max_dist att)
          rcases hpool with hpool | ⟨slot, dsp, hslot, hpool⟩
          · exact ⟨S_StartSound_slot env ch e c sfx origin, rfl, rfl, rfl, by
              simp only [State.emit_fmod_channels, hpool, State.setSlot_fmod_channels]⟩
          · simp only [State.setSlot_fmod_channels, List.getElem?_set, hlen, if_true,
              Option.some.injEq] at hslot
            subst hslot
            refine ⟨{ S_StartSound_slot env ch e c sfx origin with spatializer := some dsp },
              rfl, rfl, rfl, ?_⟩
            simp only [State.emit_fmod_channels, hpool, State.setSlot_fmod_channels,
              List.set_set]
        · exact ⟨S_StartSound_slot env ch e c sfx origin, rfl, rfl, rfl, by
            simp only [State.emit_fmod_channels, State.setSlot_fmod_channels]⟩

/-- A call of `S_StartSound` that created channel `ch`, taken apart. -/
theorem S_StartSound_run_started (β : Backend) (env : Engine) (s s2 : State) (e c : Int)
    (sfx : Option Nat) (origin : vec3_t) (fvol att : ℚ) (ch : Nat) (fch : Option Nat)
    (h : S_StartSound_run β env s e c sfx origin fvol att = (s2, some (ch, fch))) :
    ∃ snd, s.fmod_initialized = true ∧ env.s_nosound = 0 ∧
      (FMOD_LoadSfx β s sfx).1 = some snd ∧
      β.System_PlaySound (S_StartSound_beforePlay β (FMOD_LoadSfx β s sfx).2 e c).trace.clock snd
        = some ch ∧
      S_StartSound_afterPlay β env
        ((S_StartSound_beforePlay β (FMOD_LoadSfx β s sfx).2 e c).query
          (.System_PlaySound snd true (some ch))) ch e c sfx origin fvol att = (s2, fch) := by
  unfold S_StartSound_run at h
  split at h
  · cases h
  · rename_i hguard
    push_neg at hguard
    split at h
    · cases h
    · rename_i snd hsnd
      simp only at h
      split at h
      · cases h
      · rename_i channel hplay
        simp only [Prod.mk.injEq, Option.some.injEq] at h
        obtain ⟨h1, h2, h3⟩ := h
        subst h2
        exact ⟨snd, by simpa using hguard.1, hguard.2.2, hsnd, hplay, Prod.ext h1 h3⟩

/-- The call of `S_StartSound`, put together from its parts. -/
theorem S_StartSound_run_eq (β : Backend) (env : Engine) (s : State) (e c : Int)
    (p : Nat) (origin : vec3_t) (fvol att : ℚ) (snd ch : Nat)
    (hinit : s.fmod_initialized = true) (hns : env.s_nosound = 0)
    (hload : (FMOD_LoadSfx β s (some p)).1 = some snd)
    (hplay : β.System_PlaySound
      (S_StartSound_beforePlay β (FMOD_LoadSfx β s (some p)).2 e c).trace.clock snd = some ch) :
    S_StartSound_run β env s e c (some p) origin fvol att =
      ((S_StartSound_afterPlay β env
          ((S_StartSound_beforePlay β (FMOD_LoadSfx β s (some p)).2 e c).query
            (.System_PlaySound snd true (some ch))) ch e c (some p) origin fvol att).1,
        some (ch, (S_StartSound_afterPlay β env
          ((S_StartSound_beforePlay β (FMOD_LoadSfx β s (some p)).2 e c).query
            (.System_PlaySound snd true (some ch))) ch e c (some p) origin fvol att).2)) := by
  unfold S_StartSound_run
  have hg : ¬ (s.fmod_initialized = false ∨ (some p : Option Nat) = none ∨ env.s_nosound ≠ 0) := by
    simp [hinit, hns]
  simp only [hg, if_false, hload, hplay]

/-- The first slot in use that matches and whose channel reports playing is
the one `FindChannel` returns. -/
theorem FindChannel_scan_finds (β : Backend) (e c : Int) (t : Trace) (l : List fmod_channel_t)
    (i : Nat) (f : fmod_channel_t) (ch : Nat) (hi : l[i]? = some f) (hch : f.channel = some ch)
    (hm : slotMatches e c f = true) (hp : reportsPlaying β t.clock ch = true)
    (hbefore : ∀ (j : Nat) (fj : fmod_channel_t), j < i → l[j]? = some fj →
      fj.channel = none ∨ slotMatches e c fj = false) :
    (FindChannel_scan β e c t l).1 = some i := by
  induction l generalizing i with
  | nil => simp at hi
  | cons g rest ih =>
    cases i with
    | zero =>
      simp only [List.getElem?_cons_zero, Option.some.injEq] at hi
      subst hi
      rw [FindChannel_scan_hit β e c t g rest ch hch hm hp]
    | succ i =>
      simp only [List.getElem?_cons_succ] at hi
      rw [FindChannel_scan_skip β e c t g rest (hbefore 0 g (Nat.succ_pos i) (by simp))]
      simp only [scanNext]
      rw [ih i hi (fun j fj hj hl => hbefore (j + 1) fj (by omega) (by simpa using hl))]
      rfl

/-- Nothing in use matches: `FindChannel` finds nothing and changes nothing. -/
theorem FindChannel_scan_noop (β : Backend) (e c : Int) (t : Trace) (l : List fmod_channel_t)
    (h : ∀ f ∈ l, f.channel ≠ none → slotMatches e c f = false) :
    FindChannel_scan β e c t l = (none, t, l) := by
  induction l with
  | nil => rfl
  | cons g rest ih =>
    have hg : g.channel = none ∨ slotMatches e c g = false := by
      by_cases hc : g.channel = none
      · exact Or.inl hc
      · exact Or.inr (h g (List.mem_cons_self _ _) hc)
    rw [FindChannel_scan_skip β e c t g rest hg, ih (fun f hf => h f (List.mem_cons_of_mem _ hf))]
    rfl

theorem S_StartSound_beforePlay_noop (β : Backend) (s : State) (e c : Int)
    (h : c ≠ 0 → ∀ f ∈ s.fmod_channels, f.channel ≠ none → slotMatches e c f = false) :
    S_StartSound_beforePlay β s e c = s := by
  unfold S_StartSound_beforePlay
  by_cases hc : c ≠ 0
  · rw [if_pos hc]
    simp only [S_StartSound_stopExisting, FindChannel,
      FindChannel_scan_noop β e c s.trace s.fmod_channels (h hc)]
  · rw [if_neg hc]

theorem mem_of_grows {c : FmodCall} {l l2 extra : List FmodCall} (h : l2 = l ++ extra)
    (hc : c ∈ l) : c ∈ l2 := by
  rw [h]
  exact List.mem_append_left _ hc

/-- C1, as the code has it: for every pool state, entity `e` and sub-channel
`c` other than 0, once `S_StartSound(e, c, ..)` completes having created the
backend channel `ch` and obtained the pool slot `i` for it from
`AllocChannel`, and `ch` reports playing when asked next: `FindChannel(e, c)`
finds slot `i`; a slot in use has entity `e` and sub-channel `c` exactly when
it is slot `i`, which holds `ch`; and every slot that tracked `(e, c)` before
the call has had its channel stopped (`FMOD_Channel_Stop` was called on it, or
the backend had answered that it was not playing), its spatializer released,
and, unless it is slot `i`, now has a null channel and no spatializer. -/
theorem S_StartSound_one_per_subchannel (β : Backend) (env : Engine) (s s2 : State)
    (e c : Int) (sfx : Option Nat) (origin : vec3_t) (fvol att : ℚ) (ch i : Nat)
    (hc : c ≠ 0)
    (hrun : S_StartSound_run β env s e c sfx origin fvol att = (s2, some (ch, some i)))
    (hplaying : reportsPlaying β s2.trace.clock ch = true) :
    (FindChannel β s2 e c).1 = some i ∧
    (∀ (j : Nat) (f : fmod_channel_t), s2.fmod_channels[j]? = some f →
      ((f.channel ≠ none ∧ f.entnum = e ∧ f.entchannel = c) ↔ j = i)) ∧
    (∃ f, s2.fmod_channels[i]? = some f ∧ f.channel = some ch) ∧
    (∀ (j : Nat) (old : fmod_channel_t) (och : Nat), s.fmod_channels[j]? = some old →
      old.channel = some och → old.entnum = e → old.entchannel = c →
      (FmodCall.Channel_Stop och ∈ s2.trace.calls ∨
        ∃ a ∈ s2.trace.calls, answeredNotPlaying a och) ∧
      (∀ dsp, old.spatializer = some dsp → FmodCall.DSP_Release dsp ∈ s2.trace.calls) ∧
      (j ≠ i → ∃ f, s2.fmod_channels[j]? = some f ∧ f.channel = none ∧ f.spatializer = none)) := by
  obtain ⟨snd, _, _, _, _, hafter⟩ :=
    S_StartSound_run_started β env s s2 e c sfx origin fvol att ch (some i) hrun
  obtain ⟨hLpool, exL, hexL, _⟩ := FMOD_LoadSfx_frame β s sfx
  -- the stop-existing loop
  have hB : S_StartSound_beforePlay β (FMOD_LoadSfx β s sfx).2 e c =
      S_StartSound_stopExisting β e c ((FMOD_LoadSfx β s sfx).2.fmod_channels.length + 1)
        (FMOD_LoadSfx β s sfx).2 := by
    unfold S_StartSound_beforePlay
    rw [if_pos hc]
  obtain ⟨⟨exB, hexB⟩, hrel, hnomatch⟩ := S_StartSound_stopExisting_spec β e c
    ((FMOD_LoadSfx β s sfx).2.fmod_channels.length + 1) (FMOD_LoadSfx β s sfx).2
    (Nat.lt_succ_of_le (inUseCount_le_length _))
  rw [← hB] at hexB hrel hnomatch
  generalize S_StartSound_beforePlay β (FMOD_LoadSfx β s sfx).2 e c = sB at hexB hrel hnomatch hafter
  rw [hLpool] at hrel
  -- the allocation and the rest
  obtain ⟨hfch, ⟨exP, hexP, _⟩, _, hsome⟩ := S_StartSound_afterPlay_spec β env
    (sB.query (.System_PlaySound snd true (some ch))) ch e c sfx origin fvol att
  rw [hafter] at hfch hexP hsome
  simp only at hfch hexP hsome
  obtain ⟨⟨exA, hexA⟩, hAsome, _⟩ :=
    AllocChannel_frame β (sB.query (.System_PlaySound snd true (some ch)))
  obtain ⟨a, x, hai, _, hAset⟩ := hAsome i hfch.symm
  obtain ⟨y, hy1, hy2, hy3, hpool⟩ := hsome i hfch.symm
  rw [hAset, State.query_fmod_channels, List.set_set] at hpool
  rw [State.query_fmod_channels] at hai
  have hilen : i < sB.fmod_channels.length := by
    by_contra hn
    rw [List.getElem?_eq_none (by omega)] at hai
    cases hai
  have hcalls : ∃ extra, s2.trace.calls = sB.trace.calls ++ extra := by
    refine ⟨[.System_PlaySound snd true (some ch)] ++ exA ++ exP ++ [.Channel_SetPaused ch false], ?_⟩
    rw [hexP, hexA, State.query_trace, Trace.query_calls]
    simp only [List.append_assoc]
  obtain ⟨exS, hexS⟩ := hcalls
  have hym : slotMatches e c y = true := (slotMatches_iff e c y).mpr ⟨hy2, Or.inr hy3⟩
  have hother : ∀ (j : Nat) (f : fmod_channel_t), j ≠ i → s2.fmod_channels[j]? = some f →
      f ∈ sB.fmod_channels := by
    intro j f hji hf
    rw [hpool, List.getElem?_set_ne (Ne.symm hji)] at hf
    exact List.mem_iff_getElem?.mpr ⟨j, hf⟩
  refine ⟨?_, ?_, ⟨y, by rw [hpool]; simp [List.getElem?_set, hilen], hy1⟩, ?_⟩
  · refine FindChannel_scan_finds β e c s2.trace s2.fmod_channels i y ch
      (by rw [hpool]; simp [List.getElem?_set, hilen]) hy1 hym hplaying ?_
    intro j fj hj hfj
    have hmem := hother j fj (by omega) hfj
    by_cases hfree : fj.channel = none
    · exact Or.inl hfree
    · exact Or.inr (hnomatch fj hmem hfree)
  · intro j f hf
    constructor
    · rintro ⟨h1, h2, h3⟩
      by_contra hji
      have := hnomatch f (hother j f hji hf) h1
      rw [(slotMatches_iff e c f).mpr ⟨h2, Or.inr h3⟩] at this
      cases this
    · intro hji
      subst hji
      rw [hpool] at hf
      simp only [List.getElem?_set, hilen, if_true, Option.some.injEq] at hf
      subst hf
      exact ⟨by simp [hy1], hy2, hy3⟩
  · intro j old och hold hoch he hcc
    obtain ⟨new, hnew, hkr⟩ := Forall₂_getElem? hrel j old hold
    have holdm : slotMatches e c old = true := (slotMatches_iff e c old).mpr ⟨he, Or.inr hcc⟩
    rcases hkr with hkept | ⟨och2, h1, _, h3, h4, h5⟩
    · exfalso
      subst hkept
      have := hnomatch new (List.mem_iff_getElem?.mpr ⟨j, hnew⟩) (by simp [hoch])
      rw [holdm] at this
      cases this
    · rw [hoch] at h1
      cases h1
      refine ⟨?_, fun dsp hd => mem_of_grows hexS (h5 dsp hd), fun hji => ?_⟩
      · rcases h4 with h4 | ⟨a2, ha2, hb2⟩
        · exact Or.inl (mem_of_grows hexS h4)
        · exact Or.inr ⟨a2, mem_of_grows hexS ha2, hb2⟩
      · refine ⟨new, ?_, by rw [h3], by rw [h3]⟩
        rw [hpool, List.getElem?_set_ne (Ne.symm hji)]
        exact hnew

/-- A full pool of live, audible channels none of which matches `(e, c)`:
`S_StartSound` gets no slot and leaves the pool as it was; its calls are the
play call among calls that are not stops, then the unpause of the channel. -/
theorem S_StartSound_run_full (β : Backend) (env : Engine) (s : State) (e c : Int) (p : Nat)
    (origin : vec3_t) (fvol att : ℚ) (snd ch : Nat)
    (hinit : s.fmod_initialized = true) (hns : env.s_nosound = 0)
    (hload : (FMOD_LoadSfx β s (some p)).1 = some snd)
    (hfull : ∀ f ∈ s.fmod_channels, ∃ k, f.channel = some k ∧
      ∀ t, reportsPlaying β t k = true ∧ reportsVirtual β t k = false)
    (huntracked : ∀ f ∈ s.fmod_channels, slotMatches e c f = false)
    (hplay : β.System_PlaySound (FMOD_LoadSfx β s (some p)).2.trace.clock snd = some ch) :
    (S_StartSound_run β env s e c (some p) origin fvol att).2 = some (ch, none) ∧
    (S_StartSound β env s e c (some p) origin fvol att).fmod_channels = s.fmod_channels ∧
    ∃ extra, (S_StartSound β env s e c (some p) origin fvol att).trace.calls =
        s.trace.calls ++ extra ++ [.Channel_SetPaused ch false] ∧
      FmodCall.System_PlaySound snd true (some ch) ∈ extra ∧
      ∀ k, FmodCall.Channel_Stop k ∉ extra := by
  obtain ⟨hLpool, exL, hexL, hstopL⟩ := FMOD_LoadSfx_frame β s (some p)
  have hB : S_StartSound_beforePlay β (FMOD_LoadSfx β s (some p)).2 e c =
      (FMOD_LoadSfx β s (some p)).2 :=
    S_StartSound_beforePlay_noop β _ e c
      (fun _ f hf _ => huntracked f (by rw [hLpool] at hf; exact hf))
  have hrun := S_StartSound_run_eq β env s e c p origin fvol att snd ch hinit hns hload
    (by rw [hB]; exact hplay)
  rw [hB] at hrun
  obtain ⟨tA, hA, exA, hexA, hstopA⟩ := AllocChannel_full β
    ((FMOD_LoadSfx β s (some p)).2.query (.System_PlaySound snd true (some ch)))
    (by rw [State.query_fmod_channels, hLpool]; exact hfull)
  obtain ⟨hfch, ⟨exP, hexP, hstopP⟩, hnone, _⟩ := S_StartSound_afterPlay_spec β env
    ((FMOD_LoadSfx β s (some p)).2.query (.System_PlaySound snd true (some ch))) ch e c (some p)
    origin fvol att
  have hA1 : (AllocChannel β
      ((FMOD_LoadSfx β s (some p)).2.query (.System_PlaySound snd true (some ch)))).1 = none := by
    rw [hA]
  refine ⟨?_, ?_, exL ++ [.System_PlaySound snd true (some ch)] ++ exA ++ exP, ?_, ?_, ?_⟩
  · rw [hrun]
    simp only [hfch, hA1]
  · unfold S_StartSound
    rw [hrun]
    simp only
    rw [hnone hA1, hA]
    simp only [State.query_fmod_channels, hLpool]
  · unfold S_StartSound
    rw [hrun]
    simp only
    rw [hexP, hA]
    simp only
    rw [hexA, State.query_trace, Trace.query_calls, hexL]
    simp only [List.append_assoc]
  · simp
  · intro k hk
    simp only [List.mem_append, List.mem_singleton] at hk
    rcases hk with ((hk | hk) | hk) | hk
    · exact hstopL k hk
    · cases hk
    · exact hstopA k hk
    · exact hstopP k hk

/-- C2, as the code has it: when no slot is reclaimable (every slot holds a
channel that reports playing and not virtual whenever asked) and no slot
tracks the source, a play request whose sound loads and whose play call
succeeds is not tracked but is still started: `AllocChannel` gives no slot,
the pool is left exactly as it was, no channel is stopped, and the new backend
channel is unpaused (it plays untracked). -/
theorem S_StartSound_pool_full (β : Backend) (env : Engine) (s : State) (e c : Int) (p : Nat)
    (origin : vec3_t) (fvol att : ℚ) (snd ch : Nat)
    (hinit : s.fmod_initialized = true) (hns : env.s_nosound = 0)
    (hload : (FMOD_LoadSfx β s (some p)).1 = some snd)
    (hfull : ∀ f ∈ s.fmod_channels, ∃ k, f.channel = some k ∧
      ∀ t, reportsPlaying β t k = true ∧ reportsVirtual β t k = false)
    (huntracked : ∀ f ∈ s.fmod_channels, slotMatches e c f = false)
    (hplay : β.System_PlaySound (FMOD_LoadSfx β s (some p)).2.trace.clock snd = some ch) :
    (S_StartSound_run β env s e c (some p) origin fvol att).2 = some (ch, none) ∧
    (S_StartSound β env s e c (some p) origin fvol att).fmod_channels = s.fmod_channels ∧
    FmodCall.System_PlaySound snd true (some ch) ∈
      (S_StartSound β env s e c (some p) origin fvol att).trace.calls ∧
    FmodCall.Channel_SetPaused ch false ∈
      (S_StartSound β env s e c (some p) origin fvol att).trace.calls ∧
    (∀ k, FmodCall.Channel_Stop k ∈
        (S_StartSound β env s e c (some p) origin fvol att).trace.calls →
      FmodCall.Channel_Stop k ∈ s.trace.calls) := by
  obtain ⟨h1, h2, extra, hcalls, hplayed, hnostop⟩ :=
    S_StartSound_run_full β env s e c p origin fvol att snd ch hinit hns hload hfull huntracked
      hplay
  refine ⟨h1, h2, ?_, ?_, ?_⟩
  · rw [hcalls]
    exact List.mem_append_left _ (List.mem_append_right _ hplayed)
  · rw [hcalls]
    exact List.mem_append_right _ (List.mem_singleton.mpr rfl)
  · intro k hk
    rw [hcalls] at hk
    rcases List.mem_append.mp hk with hk | hk
    · rcases List.mem_append.mp hk with hk | hk
      · exact hk
      · exact absurd hk (hnostop k)
    · rw [List.mem_singleton] at hk
      cases hk

/-! ### The full pool, concretely -/

theorem stateFull_load :
    FMOD_LoadSfx backendLive stateFull (some 0) = (some 11, stateFull) := by
  have h4 : (stateFull.fmod_sounds.getD [])[0]? = some ⟨some 11, true⟩ := by
    show (_ :: _ :: List.replicate 254 fmod_sfx_zero)[0]? = some ⟨some 11, true⟩
    rw [List.getElem?_cons_zero]
  exact FMOD_LoadSfx_cached backendLive stateFull 0 ⟨some 11, true⟩ (Option.some_ne_none _)
    (by decide) h4 rfl

theorem stateFull_slots (f : fmod_channel_t) (hf : f ∈ stateFull.fmod_channels) :
    ∃ i, f = slotOf (i + 1) 3 0 := by
  have hf2 : f ∈ poolFull := hf
  unfold poolFull at hf2
  obtain ⟨i, _, hi⟩ := List.mem_map.mp hf2
  exact ⟨i, hi.symm⟩

theorem stateFull_live (f : fmod_channel_t) (hf : f ∈ stateFull.fmod_channels) :
    ∃ k, f.channel = some k ∧
      ∀ t, reportsPlaying backendLive t k = true ∧ reportsVirtual backendLive t k = false := by
  obtain ⟨i, rfl⟩ := stateFull_slots f hf
  exact ⟨i + 1, rfl, fun _ => ⟨rfl, rfl⟩⟩

theorem stateFull_untracked (f : fmod_channel_t) (hf : f ∈ stateFull.fmod_channels) :
    slotMatches 9 1 f = false := by
  obtain ⟨i, rfl⟩ := stateFull_slots f hf
  rfl

/-- C2 at a concrete state: the full pool, a play request of entity 9 on
sub-channel 1. -/
theorem S_StartSound_pool_full_witness :
    stateFull.fmod_initialized = true ∧ engineQuake.s_nosound = 0 ∧
    (FMOD_LoadSfx backendLive stateFull (some 0)).1 = some 11 ∧
    (S_StartSound_run backendLive engineQuake stateFull 9 1 (some 0) vec3_origin 1 1).2 =
      some (5000, none) ∧
    (S_StartSound backendLive engineQuake stateFull 9 1 (some 0) vec3_origin 1 1).fmod_channels =
      stateFull.fmod_channels := by
  have hload : (FMOD_LoadSfx backendLive stateFull (some 0)).1 = some 11 := by
    rw [stateFull_load]
  have key := S_StartSound_pool_full backendLive engineQuake stateFull 9 1 0 vec3_origin 1 1 11
    5000 rfl rfl hload stateFull_live stateFull_untracked rfl
  exact ⟨rfl, rfl, hload, key.1, key.2.1⟩

/-- C2 as stated fails: in the full pool every slot holds a channel that plays
and is not virtual, `AllocChannel` returns none and entity 9 tracks nothing;
yet `S_StartSound(9, 1, ..)` has the backend create channel 5000 and unpauses
it, and never stops it: a new backend channel is left playing. -/
theorem S_StartSound_unpaused_counterexample :
    (∀ f ∈ stateFull.fmod_channels, ∃ k, f.channel = some k ∧
      ∀ t, reportsPlaying backendLive t k = true ∧ reportsVirtual backendLive t k = false) ∧
    (AllocChannel backendLive stateFull).1 = none ∧
    (∀ f ∈ stateFull.fmod_channels, f.entnum ≠ 9) ∧
    FmodCall.System_PlaySound 11 true (some 5000) ∈
      (S_StartSound backendLive engineQuake stateFull 9 1 (some 0) vec3_origin 1 1).trace.calls ∧
    FmodCall.Channel_SetPaused 5000 false ∈
      (S_StartSound backendLive engineQuake stateFull 9 1 (some 0) vec3_origin 1 1).trace.calls ∧
    FmodCall.Channel_Stop 5000 ∉
      (S_StartSound backendLive engineQuake stateFull 9 1 (some 0) vec3_origin 1 1).trace.calls := by
  have hload : (FMOD_LoadSfx backendLive stateFull (some 0)).1 = some 11 := by
    rw [stateFull_load]
  obtain ⟨_, _, extra, hcalls, hplayed, hnostop⟩ :=
    S_StartSound_run_full backendLive engineQuake stateFull 9 1 0 vec3_origin 1 1 11 5000 rfl rfl
      hload stateFull_live stateFull_untracked rfl
  obtain ⟨tA, hA, _⟩ := AllocChannel_full backendLive stateFull stateFull_live
  refine ⟨stateFull_live, by rw [hA], ?_, ?_, ?_, ?_⟩
  · intro f hf
    obtain ⟨i, rfl⟩ := stateFull_slots f hf
    show (3 : Int) ≠ 9
    decide
  · rw [hcalls]
    exact List.mem_append_left _ (List.mem_append_right _ hplayed)
  · rw [hcalls]
    exact List.mem_append_right _ (List.mem_singleton.mpr rfl)
  · rw [hcalls]
    intro hk
    rcases List.mem_append.mp hk with hk | hk
    · rcases List.mem_append.mp hk with hk | hk
      · exact absurd hk (List.not_mem_nil _)
      · exact hnostop 5000 hk
    · rw [List.mem_singleton] at hk
      cases hk

/-- C1 as stated fails: in the full pool `S_StartSound(9, 1, ..)` completes
having started the sound (subsystem initialised, `s_nosound` off, the sound
loads, the play call gives channel 5000, which is unpaused and reports
playing), but no slot was free for it: afterwards `FindChannel(9, 1)` finds
nothing and no slot in use has entity 9. -/
theorem S_StartSound_untracked_counterexample :
    stateFull.fmod_initialized = true ∧ engineQuake.s_nosound = 0 ∧
    (FMOD_LoadSfx backendLive stateFull (some 0)).1 = some 11 ∧
    (S_StartSound_run backendLive engineQuake stateFull 9 1 (some 0) vec3_origin 1 1).2 =
      some (5000, none) ∧
    FmodCall.Channel_SetPaused 5000 false ∈
      (S_StartSound backendLive engineQuake stateFull 9 1 (some 0) vec3_origin 1 1).trace.calls ∧
    (∀ t, reportsPlaying backendLive t 5000 = true) ∧
    (FindChannel backendLive
      (S_StartSound backendLive engineQuake stateFull 9 1 (some 0) vec3_origin 1 1) 9 1).1 = none ∧
    (∀ f ∈ (S_StartSound backendLive engineQuake stateFull 9 1 (some 0) vec3_origin 1
      1).fmod_channels, f.entnum ≠ 9) := by
  have hload : (FMOD_LoadSfx backendLive stateFull (some 0)).1 = some 11 := by
    rw [stateFull_load]
  obtain ⟨h1, hpool, extra, hcalls, _, _⟩ :=
    S_StartSound_run_full backendLive engineQuake stateFull 9 1 0 vec3_origin 1 1 11 5000 rfl rfl
      hload stateFull_live stateFull_untracked rfl
  refine ⟨rfl, rfl, hload, h1, ?_, fun _ => rfl, ?_, ?_⟩
  · rw [hcalls]
    exact List.mem_append_right _ (List.mem_singleton.mpr rfl)
  · unfold FindChannel
    simp only
    rw [hpool, FindChannel_scan_noop backendLive 9 1 _ _
      (fun f hf _ => stateFull_untracked f hf)]
  · intro f hf
    rw [hpool] at hf
    obtain ⟨i, rfl⟩ := stateFull_slots f hf
    show (3 : Int) ≠ 9
    decide

/-! ### A sound replaced on its sub-channel, concretely -/

/-- Nothing in use matches: `FindChannel` returns none and the state it was
given. -/
theorem FindChannel_noop (β : Backend) (s : State) (e c : Int)
    (h : ∀ g ∈ s.fmod_channels, g.channel ≠ none → slotMatches e c g = false) :
    FindChannel β s e c = (none, s) := by
  unfold FindChannel
  rw [FindChannel_scan_noop β e c s.trace s.fmod_channels h]

/-- The stop-existing loop on a pool whose first slot is the only one in use. -/
theorem S_StartSound_stopExisting_single (β : Backend) (e c : Int) (s : State)
    (f : fmod_channel_t) (rest : List fmod_channel_t) (ch fuel : Nat)
    (hpool : s.fmod_channels = f :: rest) (hch : f.channel = some ch)
    (hm : slotMatches e c f = true) (hp : reportsPlaying β s.trace.clock ch = true)
    (hrest : ∀ g ∈ rest, g.channel = none) :
    (S_StartSound_stopExisting β e c (fuel + 2) s).fmod_channels =
      { f with channel := none, spatializer := none } :: rest := by
  have h1 : FindChannel β s e c = (some 0,
      { s with trace := s.trace.query (.Channel_IsPlaying ch (β.Channel_IsPlaying s.trace.clock ch)),
               fmod_channels := f :: rest }) := by
    unfold FindChannel
    rw [hpool, FindChannel_scan_hit β e c s.trace f rest ch hch hm hp]
  have h2 : (S_StartSound_stopFound (FindChannel β s e c).2 0).fmod_channels =
      { f with channel := none, spatializer := none } :: rest := by
    rw [h1]
    simp only [S_StartSound_stopFound, List.getElem?_cons_zero, hch,
      Atmoky_ReleaseSpatializer_snd, List.set_cons_zero]
  have h3 : ∀ g ∈ (S_StartSound_stopFound (FindChannel β s e c).2 0).fmod_channels,
      g.channel ≠ none → slotMatches e c g = false := by
    intro g hg hne
    rw [h2] at hg
    rcases List.mem_cons.mp hg with rfl | hg
    · exact absurd rfl hne
    · exact absurd (hrest g hg) hne
  have h4 : S_StartSound_stopExisting β e c (fuel + 2) s =
      (FindChannel β (S_StartSound_stopFound (FindChannel β s e c).2 0) e c).2 := by
    have ha : (FindChannel β s e c).1 = some 0 := by rw [h1]
    have hb : (FindChannel β (S_StartSound_stopFound (FindChannel β s e c).2 0) e c).1 = none := by
      rw [FindChannel_noop β _ e c h3]
    simp only [S_StartSound_stopExisting, ha, hb]
  rw [h4, FindChannel_noop β _ e c h3, h2]

theorem stateOne_load :
    FMOD_LoadSfx backendLive stateOne (some 0) = (some 11, stateOne) := by
  have h4 : (stateOne.fmod_sounds.getD [])[0]? = some ⟨some 11, true⟩ := by
    show (_ :: _ :: List.replicate 254 fmod_sfx_zero)[0]? = some ⟨some 11, true⟩
    rw [List.getElem?_cons_zero]
  exact FMOD_LoadSfx_cached backendLive stateOne 0 ⟨some 11, true⟩ (Option.some_ne_none _)
    (by decide) h4 rfl

theorem stateOne_beforePlay :
    (S_StartSound_beforePlay backendLive stateOne 5 1).fmod_channels =
      { slotOf 1 5 1 with channel := none, spatializer := none } ::
        List.replicate 4094 fmod_channel_zero := by
  have hlen : stateOne.fmod_channels.length + 1 = 4094 + 2 := by
    show (slotOf 1 5 1 :: List.replicate 4094 fmod_channel_zero).length + 1 = 4094 + 2
    rw [List.length_cons, List.length_replicate]
  unfold S_StartSound_beforePlay
  rw [if_pos (by decide), hlen]
  exact S_StartSound_stopExisting_single backendLive 5 1 stateOne (slotOf 1 5 1)
    (List.replicate 4094 fmod_channel_zero) 1 4094 rfl rfl rfl rfl
    (fun g hg => by rw [(List.mem_replicate.mp hg).2]; rfl)

/-- In `stateOne`, a second sound of entity 5 on sub-channel 1 is created as
channel 5000 and gets slot 0. -/
theorem stateOne_run :
    (S_StartSound_run backendLive engineQuake stateOne 5 1 (some 0) vec3_origin 1 1).2 =
      some (5000, some 0) := by
  have hload : (FMOD_LoadSfx backendLive stateOne (some 0)).1 = some 11 := by
    rw [stateOne_load]
  have hrun := S_StartSound_run_eq backendLive engineQuake stateOne 5 1 0 vec3_origin 1 1 11 5000
    rfl rfl hload rfl
  rw [hrun]
  simp only [stateOne_load]
  obtain ⟨hfch, _⟩ := S_StartSound_afterPlay_spec backendLive engineQuake
    ((S_StartSound_beforePlay backendLive stateOne 5 1).query (.System_PlaySound 11 true (some 5000)))
    5000 5 1 (some 0) vec3_origin 1 1
  rw [hfch]
  have h0 := AllocChannel_fst_of_scan1 backendLive
    ((S_StartSound_beforePlay backendLive stateOne 5 1).query (.System_PlaySound 11 true (some 5000)))
    0 (by
      rw [State.query_fmod_channels, stateOne_beforePlay]
      rw [AllocChannel_scan1_free backendLive _ _ _ rfl])
  rw [h0]

/-- C1 at a concrete state: `stateOne` tracks channel 1 for entity 5,
sub-channel 1; the second `S_StartSound(5, 1, ..)` creates channel 5000 in
slot 0, `FindChannel(5, 1)` finds slot 0, and channel 1 was stopped. -/
theorem S_StartSound_one_per_subchannel_witness :
    (S_StartSound_run backendLive engineQuake stateOne 5 1 (some 0) vec3_origin 1 1).2 =
      some (5000, some 0) ∧
    (FindChannel backendLive
      (S_StartSound backendLive engineQuake stateOne 5 1 (some 0) vec3_origin 1 1) 5 1).1 =
      some 0 ∧
    (FmodCall.Channel_Stop 1 ∈
        (S_StartSound backendLive engineQuake stateOne 5 1 (some 0) vec3_origin 1 1).trace.calls ∨
      ∃ a ∈ (S_StartSound backendLive engineQuake stateOne 5 1 (some 0) vec3_origin 1
          1).trace.calls, answeredNotPlaying a 1) := by
  have hrun : S_StartSound_run backendLive engineQuake stateOne 5 1 (some 0) vec3_origin 1 1 =
      (S_StartSound backendLive engineQuake stateOne 5 1 (some 0) vec3_origin 1 1,
        some (5000, some 0)) := Prod.ext rfl stateOne_run
  have key := S_StartSound_one_per_subchannel backendLive engineQuake stateOne
    (S_StartSound backendLive engineQuake stateOne 5 1 (some 0) vec3_origin 1 1) 5 1 (some 0)
    vec3_origin 1 1 5000 0 (by decide) hrun rfl
  have hslot : stateOne.fmod_channels[0]? = some (slotOf 1 5 1) := by
    show (slotOf 1 5 1 :: List.replicate 4094 fmod_channel_zero)[0]? = some (slotOf 1 5 1)
    rw [List.getElem?_cons_zero]
  exact ⟨stateOne_run, key.1, (key.2.2.2 0 (slotOf 1 5 1) 1 hslot rfl rfl rfl).1⟩

/-! ### Growth of the registry -/

theorem relocateSfx_id (p : Option Nat) : relocateSfx p = p := by
  cases p <;> rfl

/-- Growth succeeds when the new capacity stays below `INT_MAX` and both
allocations succeed. -/
theorem GrowSfxArrays_succeeds (β : Backend) (s : State) (hwf : RegistryWF s)
    (hroom : s.max_sfx + SFX_GROW < INT_MAX)
    (hknown : β.Q_malloc s.trace.clock (s.max_sfx + SFX_GROW) = true)
    (hsounds : β.Q_malloc (s.trace.clock + 1) (s.max_sfx + SFX_GROW) = true) :
    ∃ s1, GrowSfxArrays β s = .ok (true, s1) := by
  have hmax0 : 0 ≤ s.max_sfx := le_trans hwf.num_nonneg hwf.num_le_max
  have hw : wrapInt32 (s.max_sfx + SFX_GROW) = s.max_sfx + SFX_GROW := by
    unfold INT_MAX at hroom
    unfold SFX_GROW at hroom ⊢
    exact wrapInt32_of_range _ (by omega) (by omega)
  have hcheck : ¬ (wrapInt32 (s.max_sfx + SFX_GROW) % 18446744073709551616 ≥ INT_MAX) := by
    rw [hw]
    unfold INT_MAX at hroom ⊢
    unfold SFX_GROW at hroom ⊢
    omega
  unfold GrowSfxArrays
  rw [if_neg hcheck]
  simp only [hw, Trace.query_clock, hknown, hsounds, Bool.true_eq_false, or_self, if_false]
  exact ⟨_, rfl⟩

/-- With references as indexes, growth leaves every reference as it was. -/
theorem GrowSfxArrays_refs (β : Backend) (s s1 : State)
    (h : GrowSfxArrays β s = .ok (true, s1)) :
    s1.ambient_sfx = s.ambient_sfx ∧ s1.fmod_channels = s.fmod_channels ∧
    s1.ambient_fmod_channels = s.ambient_fmod_channels ∧ s1.ambient_vol = s.ambient_vol := by
  unfold GrowSfxArrays at h
  split at h
  · cases h
  · dsimp only at h
    split at h
    · cases h
    · simp only [Except.ok.injEq, Prod.mk.injEq, true_and] at h
      subst h
      refine ⟨?_, ?_, rfl, rfl⟩
      · show s.ambient_sfx.map relocateSfx = s.ambient_sfx
        rw [show relocateSfx = id from funext relocateSfx_id]
        exact List.map_id _
      · show s.fmod_channels.map (fun fch => { fch with sfx := relocateSfx fch.sfx })
          = s.fmod_channels
        have : (fun fch : fmod_channel_t => { fch with sfx := relocateSfx fch.sfx }) = id := by
          funext fch
          rw [relocateSfx_id]
          rfl
        rw [this]
        exact List.map_id _

/-- The tables after a growth, on a well-formed registry, when the new
capacity stays below `INT_MAX` and both allocations succeed: `GrowSfxArrays`
returns true and each table has exactly `SFX_GROW` more entries; for every
index below the old capacity the entry of the new table (name, cache pointer,
sound, load state) is the entry of the old table, the entries from the old
capacity on are zeroed, and `num_sfx` is unchanged. -/
theorem GrowSfxArrays_tables (β : Backend) (s : State) (hwf : RegistryWF s)
    (hroom : s.max_sfx + SFX_GROW < INT_MAX)
    (hknown : β.Q_malloc s.trace.clock (s.max_sfx + SFX_GROW) = true)
    (hsounds : β.Q_malloc (s.trace.clock + 1) (s.max_sfx + SFX_GROW) = true) :
    ∃ s1 known sounds, GrowSfxArrays β s = .ok (true, s1) ∧
      s1.known_sfx = some known ∧ s1.fmod_sounds = some sounds ∧
      s1.max_sfx = s.max_sfx + SFX_GROW ∧
      (known.length : Int) = s1.max_sfx ∧ (sounds.length : Int) = s1.max_sfx ∧
      (∀ i : Nat, (i : Int) < s.max_sfx →
        known[i]? = (s.known_sfx.getD [])[i]? ∧ sounds[i]? = (s.fmod_sounds.getD [])[i]? ∧
        known[i]? ≠ none ∧ sounds[i]? ≠ none) ∧
      (∀ i : Nat, s.max_sfx ≤ (i : Int) → (i : Int) < s1.max_sfx →
        known[i]? = some sfx_zero ∧ sounds[i]? = some fmod_sfx_zero) ∧
      s1.num_sfx = s.num_sfx := by
  obtain ⟨s1, h⟩ := GrowSfxArrays_succeeds β s hwf hroom hknown hsounds
  obtain ⟨hk, hf, hmax, hnum, _⟩ := GrowSfxArrays_ok β s s1 hwf h
  have hmax0 : 0 ≤ s.max_sfx := le_trans hwf.num_nonneg hwf.num_le_max
  have hkl := hwf.known_length
  have hsl := hwf.sounds_length
  refine ⟨s1, _, _, h, hk, hf, by rw [hmax]; rfl, ?_, ?_, ?_, ?_, hnum⟩
  · rw [List.length_append, List.length_replicate, hkl, hmax]
    push_cast
    rw [Int.toNat_of_nonneg hmax0]
  · rw [List.length_append, List.length_replicate, hsl, hmax]
    push_cast
    rw [Int.toNat_of_nonneg hmax0]
  · intro i hi
    have hik : i < (s.known_sfx.getD []).length := by rw [hkl]; omega
    have his : i < (s.fmod_sounds.getD []).length := by rw [hsl]; omega
    refine ⟨List.getElem?_append_left hik, List.getElem?_append_left his, ?_, ?_⟩
    · rw [List.getElem?_append_left hik, List.getElem?_eq_getElem hik]
      exact Option.some_ne_none _
    · rw [List.getElem?_append_left his, List.getElem?_eq_getElem his]
      exact Option.some_ne_none _
  · intro i hlo hhi
    rw [hmax] at hhi
    have hik : (s.known_sfx.getD []).length ≤ i := by rw [hkl]; omega
    have his : (s.fmod_sounds.getD []).length ≤ i := by rw [hsl]; omega
    refine ⟨?_, ?_⟩
    · rw [List.getElem?_append_right hik, List.getElem?_replicate, if_pos (by rw [hkl]; omega)]
    · rw [List.getElem?_append_right his, List.getElem?_replicate, if_pos (by rw [hsl]; omega)]

/-! ### `FindChannel` as a garbage-collection pass -/

theorem KeptOrReclaimed_grow {e c : Int} (pre : List FmodCall) {extra : List FmodCall}
    (post : List FmodCall) {old new : fmod_channel_t} (h : KeptOrReclaimed e c extra old new) :
    KeptOrReclaimed e c (pre ++ extra ++ post) old new := by
  rcases h with h | ⟨och, h1, h2, h3, ⟨a, ha, hb⟩, h5⟩
  · exact Or.inl h
  · refine Or.inr ⟨och, h1, h2, h3, ⟨a, ?_, hb⟩, fun dsp hd => ?_⟩
    · exact List.mem_append_left _ (List.mem_append_right _ ha)
    · exact List.mem_append_left _ (List.mem_append_right _ (h5 dsp hd))

/-- The calls of `Atmoky_ReleaseSpatializer` are calls that detach or release
a DSP. -/
theorem Atmoky_ReleaseSpatializer_kinds (t : Trace) (fch : fmod_channel_t) :
    ∃ extra, (Atmoky_ReleaseSpatializer t fch).1.calls = t.calls ++ extra ∧
      (∀ dsp, fch.spatializer = some dsp → FmodCall.DSP_Release dsp ∈ extra) ∧
      (∀ a ∈ extra, (∃ ch dsp, a = FmodCall.Channel_RemoveDSP ch dsp) ∨
        ∃ dsp, a = FmodCall.DSP_Release dsp) := by
  unfold Atmoky_ReleaseSpatializer
  cases hs : fch.spatializer with
  | none => exact ⟨[], by simp⟩
  | some dsp =>
    cases hc : fch.channel with
    | none =>
      refine ⟨[.DSP_Release dsp], by simp [Trace.emit_calls], by simp, ?_⟩
      intro a ha
      simp only [List.mem_singleton] at ha
      exact Or.inr ⟨dsp, ha⟩
    | some ch =>
      refine ⟨[.Channel_RemoveDSP ch dsp, .DSP_Release dsp], by simp [Trace.emit_calls],
        by simp, ?_⟩
      intro a ha
      simp only [List.mem_cons, List.mem_singleton, List.not_mem_nil, or_false] at ha
      rcases ha with ha | ha
      · exact Or.inl ⟨ch, dsp, ha⟩
      · exact Or.inr ⟨dsp, ha⟩

/-- What the loop of `FindChannel` does, in terms of the calls it adds. -/
theorem FindChannel_scan_lazy (β : Backend) (e c : Int) (t : Trace) (l : List fmod_channel_t) :
    ∃ extra, (FindChannel_scan β e c t l).2.1.calls = t.calls ++ extra ∧
      (∀ ch, FmodCall.Channel_Stop ch ∉ extra) ∧
      (∀ ch ans, FmodCall.Channel_IsPlaying ch ans ∈ extra →
        ∃ f ∈ l, f.channel = some ch ∧ slotMatches e c f = true) ∧
      List.Forall₂ (KeptOrReclaimed e c extra) l (FindChannel_scan β e c t l).2.2 ∧
      ((FindChannel_scan β e c t l).1 = none →
        ∀ f ∈ (FindChannel_scan β e c t l).2.2, f.channel ≠ none → slotMatches e c f = false) ∧
      (∀ i, (FindChannel_scan β e c t l).1 = some i →
        ∃ f ch, l[i]? = some f ∧ (FindChannel_scan β e c t l).2.2[i]? = some f ∧
          f.channel = some ch ∧ slotMatches e c f = true ∧
          extra.getLast? = some (.Channel_IsPlaying ch (some true)) ∧
          (∀ (j : Nat) (f2 : fmod_channel_t), j < i →
            (FindChannel_scan β e c t l).2.2[j]? = some f2 →
            f2.channel ≠ none → slotMatches e c f2 = false) ∧
          (∀ j : Nat, i < j → (FindChannel_scan β e c t l).2.2[j]? = l[j]?)) := by
  induction l generalizing t with
  | nil =>
    refine ⟨[], by simp [FindChannel_scan], by simp, by simp, ?_, by simp [FindChannel_scan],
      by simp [FindChannel_scan]⟩
    simp only [FindChannel_scan]
    exact List.Forall₂.nil
  | cons fch rest ih =>
    by_cases hskip : fch.channel = none ∨ slotMatches e c fch = false
    · rw [FindChannel_scan_skip β e c t fch rest hskip]
      obtain ⟨ex, hex, hstop, hask, hrel, hnone, hsome⟩ := ih t
      refine ⟨ex, hex, hstop, ?_, List.Forall₂.cons (Or.inl rfl) hrel, ?_, ?_⟩
      · intro ch ans h
        obtain ⟨f, hf, h1, h2⟩ := hask ch ans h
        exact ⟨f, List.mem_cons_of_mem _ hf, h1, h2⟩
      · intro h f hf hne
        simp only [scanNext, Option.map_eq_none'] at h
        rcases List.mem_cons.mp hf with rfl | hf
        · rcases hskip with h1 | h1
          · exact absurd h1 hne
          · exact h1
        · exact hnone h f hf hne
      · intro i h
        simp only [scanNext, Option.map_eq_some'] at h
        obtain ⟨k, hk, rfl⟩ := h
        obtain ⟨f, ch, h0, h1, h2, h3, h4, h5, h6⟩ := hsome k hk
        refine ⟨f, ch, by simpa using h0, by simpa [scanNext] using h1, h2, h3, h4, ?_, ?_⟩
        · intro j f2 hj hf2 hne
          cases j with
          | zero =>
            simp only [scanNext, List.getElem?_cons_zero, Option.some.injEq] at hf2
            subst hf2
            rcases hskip with h1 | h1
            · exact absurd h1 hne
            · exact h1
          | succ j =>
            simp only [scanNext, List.getElem?_cons_succ] at hf2
            exact h5 j f2 (by omega) hf2 hne
        · intro j hj
          cases j with
          | zero => omega
          | succ j =>
            simp only [scanNext, List.getElem?_cons_succ]
            exact h6 j (by omega)
    · push_neg at hskip
      obtain ⟨ch, hch⟩ := Option.ne_none_iff_exists'.mp hskip.1
      have hm : slotMatches e c fch = true := by simpa using hskip.2
      cases hp : reportsPlaying β t.clock ch with
      | true =>
        rw [FindChannel_scan_hit β e c t fch rest ch hch hm hp]
        have hans : β.Channel_IsPlaying t.clock ch = some true := by
          unfold reportsPlaying at hp
          cases hq : β.Channel_IsPlaying t.clock ch with
          | none => simp [hq] at hp
          | some b => simp only [hq] at hp; rw [hp]
        refine ⟨[.Channel_IsPlaying ch (β.Channel_IsPlaying t.clock ch)], rfl, by simp, ?_, ?_,
          fun h => by simp at h, fun i h => ?_⟩
        · intro ch2 ans h
          simp only [List.mem_singleton, FmodCall.Channel_IsPlaying.injEq] at h
          exact ⟨fch, List.mem_cons_self _ _, by rw [h.1]; exact hch, hm⟩
        · exact List.Forall₂.cons (Or.inl rfl) (List.forall₂_same.mpr (fun _ _ => Or.inl rfl))
        · simp only [Option.some.injEq] at h
          subst h
          refine ⟨fch, ch, by simp, by simp, hch, hm, by simp [hans], ?_, fun j _ => rfl⟩
          intro j f2 hj
          omega
      | false =>
        rw [FindChannel_scan_gc β e c t fch rest ch hch hm hp]
        obtain ⟨ex1, hr1, hr2, hr3⟩ := Atmoky_ReleaseSpatializer_kinds
          (t.query (.Channel_IsPlaying ch (β.Channel_IsPlaying t.clock ch))) fch
        obtain ⟨ex, hex, hstop, hask, hrel, hnone, hsome⟩ := ih (Atmoky_ReleaseSpatializer
          (t.query (.Channel_IsPlaying ch (β.Channel_IsPlaying t.clock ch))) fch).1
        have hcalls : (FindChannel_scan β e c (Atmoky_ReleaseSpatializer
            (t.query (.Channel_IsPlaying ch (β.Channel_IsPlaying t.clock ch))) fch).1 rest).2.1.calls
            = t.calls ++ ([.Channel_IsPlaying ch (β.Channel_IsPlaying t.clock ch)] ++ ex1 ++ ex) := by
          simp only [hex, hr1, Trace.query_calls, List.append_assoc]
        refine ⟨_, hcalls, ?_, ?_, List.Forall₂.cons (Or.inr ⟨ch, hch, hm, rfl, ?_, ?_⟩) ?_,
          ?_, ?_⟩
        · intro c2 hc2
          rcases List.mem_append.mp hc2 with h | h
          · rcases List.mem_append.mp h with h | h
            · simp at h
            · rcases hr3 _ h with ⟨_, _, h⟩ | ⟨_, h⟩ <;> cases h
          · exact hstop c2 h
        · intro ch2 ans h
          rcases List.mem_append.mp h with h | h
          · rcases List.mem_append.mp h with h | h
            · simp only [List.mem_singleton, FmodCall.Channel_IsPlaying.injEq] at h
              exact ⟨fch, List.mem_cons_self _ _, by rw [h.1]; exact hch, hm⟩
            · rcases hr3 _ h with ⟨_, _, h⟩ | ⟨_, h⟩ <;> cases h
          · obtain ⟨f, hf, h1, h2⟩ := hask ch2 ans h
            exact ⟨f, List.mem_cons_of_mem _ hf, h1, h2⟩
        · exact ⟨.Channel_IsPlaying ch (β.Channel_IsPlaying t.clock ch), by simp,
            reportsPlaying_false_answer β t.clock ch hp⟩
        · intro dsp hd
          have := hr2 dsp hd
          simp [this]
        · have := hrel.imp (fun a b (hab : KeptOrReclaimed e c ex a b) =>
            KeptOrReclaimed_grow ([.Channel_IsPlaying ch (β.Channel_IsPlaying t.clock ch)]
              ++ ex1) [] hab)
          simpa using this
        · intro h f hf hne
          simp only [scanNext, Option.map_eq_none'] at h
          rcases List.mem_cons.mp hf with rfl | hf
          · exact absurd rfl hne
          · exact hnone h f hf hne
        · intro i h
          simp only [scanNext, Option.map_eq_some'] at h
          obtain ⟨k, hk, rfl⟩ := h
          obtain ⟨f, ch2, h0, h1, h2, h3, h4, h5, h6⟩ := hsome k hk
          refine ⟨f, ch2, by simpa using h0, by simpa [scanNext] using h1, h2, h3, ?_, ?_, ?_⟩
          · rw [List.getLast?_append, h4]
            rfl
          · intro j f2 hj hf2 hne
            cases j with
            | zero =>
              simp only [scanNext, List.getElem?_cons_zero, Option.some.injEq] at hf2
              subst hf2
              exact absurd rfl hne
            | succ j =>
              simp only [scanNext, List.getElem?_cons_succ] at hf2
              exact h5 j f2 (by omega) hf2 hne
          · intro j hj
            cases j with
            | zero => omega
            | succ j =>
              simp only [scanNext, List.getElem?_cons_succ]
              exact h6 j (by omega)

/-- C17, as the code has it: `FindChannel` asks the backend only about in-use
slots of the requested entity and sub-channel.  Every such slot scanned before
the function returns whose channel is answered "not playing" is reclaimed
(spatializer released, both handles null); every other slot (free, or of
another entity or sub-channel) stays as it is, whether or not its channel has
finished; no channel is stopped.  When no slot is returned, no in-use slot of
the requested source remains.  A returned slot is unchanged by the call, is in
use, has the requested entnum, has the requested entchannel unless the
wildcard `-1` was asked for, the last call of the scan is the backend
answering "playing" for its channel, no in-use slot of the requested source
remains before it, and the slots behind it are untouched. -/
theorem FindChannel_lazy_gc (β : Backend) (s : State) (e c : Int) :
    ∃ extra, (FindChannel β s e c).2.trace.calls = s.trace.calls ++ extra ∧
      (∀ ch, FmodCall.Channel_Stop ch ∉ extra) ∧
      (∀ ch ans, FmodCall.Channel_IsPlaying ch ans ∈ extra →
        ∃ f ∈ s.fmod_channels, f.channel = some ch ∧ slotMatches e c f = true) ∧
      List.Forall₂ (KeptOrReclaimed e c extra) s.fmod_channels
        (FindChannel β s e c).2.fmod_channels ∧
      (∀ (j : Nat) (f : fmod_channel_t), s.fmod_channels[j]? = some f →
        f.channel = none ∨ slotMatches e c f = false →
        (FindChannel β s e c).2.fmod_channels[j]? = some f) ∧
      ((FindChannel β s e c).1 = none →
        ∀ f ∈ (FindChannel β s e c).2.fmod_channels, f.channel ≠ none →
          slotMatches e c f = false) ∧
      (∀ i, (FindChannel β s e c).1 = some i →
        ∃ f ch, s.fmod_channels[i]? = some f ∧
          (FindChannel β s e c).2.fmod_channels[i]? = some f ∧
          f.channel = some ch ∧ f.entnum = e ∧ (c = -1 ∨ f.entchannel = c) ∧
          extra.getLast? = some (.Channel_IsPlaying ch (some true)) ∧
          (∀ (j : Nat) (f2 : fmod_channel_t), j < i →
            (FindChannel β s e c).2.fmod_channels[j]? = some f2 →
            f2.channel ≠ none → slotMatches e c f2 = false) ∧
          (∀ j : Nat, i < j →
            (FindChannel β s e c).2.fmod_channels[j]? = s.fmod_channels[j]?)) := by
  obtain ⟨ex, hex, hstop, hask, hrel, hnone, hsome⟩ :=
    FindChannel_scan_lazy β e c s.trace s.fmod_channels
  refine ⟨ex, hex, hstop, hask, hrel, ?_, hnone, ?_⟩
  · intro j f hj hfree
    obtain ⟨b, hb, hab⟩ := Forall₂_getElem? hrel j f hj
    rcases hab with hab | ⟨och, h1, h2, _⟩
    · rw [← hab]
      exact hb
    · rcases hfree with h | h
      · rw [h] at h1
        cases h1
      · rw [h] at h2
        cases h2
  · intro i hi
    obtain ⟨f, ch, h0, h1, h2, h3, h4, h5, h6⟩ := hsome i hi
    exact ⟨f, ch, h0, h1, h2, ((slotMatches_iff e c f).mp h3).1, ((slotMatches_iff e c f).mp h3).2,
      h4, h5, h6⟩

/-- C17 as stated fails: in `stateBusy` three slots are in use, and with
`backendSilent` each of their channels has finished playing.  A lookup for
entity 9 scans the whole pool and returns nothing, yet it reclaims none of the
three slots and does not ask the backend anything: the state is unchanged. -/
theorem FindChannel_other_entity_counterexample :
    (∀ clock ch, reportsPlaying backendSilent clock ch = false) ∧
    stateBusy.fmod_channels[0]? = some (slotOf 101 5 1) ∧
    stateBusy.fmod_channels[2]? = some (slotOf 103 7 1) ∧
    FindChannel backendSilent stateBusy 9 1 = (none, stateBusy) := by
  have h : ∀ fch ∈ stateBusy.fmod_channels, fch.channel ≠ none →
      slotMatches 9 1 fch = false := by
    intro fch hf hne
    simp only [stateBusy, List.mem_cons, List.mem_replicate] at hf
    rcases hf with rfl | rfl | rfl | ⟨_, rfl⟩
    · decide
    · decide
    · decide
    · exact absurd rfl hne
  refine ⟨fun _ _ => rfl, ?_, ?_, FindChannel_noop backendSilent stateBusy 9 1 h⟩
  · show (slotOf 101 5 1 :: _)[0]? = _
    rw [List.getElem?_cons_zero]
  · show (_ :: _ :: slotOf 103 7 1 :: _)[2]? = _
    rw [List.getElem?_cons_succ, List.getElem?_cons_succ, List.getElem?_cons_zero]

/-! ### Ambient sounds -/

/-- `FMOD_LoadSfx` changes nothing but the sound table and the transcript, to
which it adds only calls that load a sound. -/
theorem FMOD_LoadSfx_only (β : Backend) (s : State) (sfx : Option Nat) :
    ∃ sounds t extra, (FMOD_LoadSfx β s sfx).2 = { s with fmod_sounds := sounds, trace := t } ∧
      t.calls = s.trace.calls ++ extra ∧ ∀ a ∈ extra, isLoadCall a = true := by
  unfold FMOD_LoadSfx
  split
  · exact ⟨_, _, [], rfl, by simp, by simp⟩
  · exact ⟨_, _, [], rfl, by simp, by simp⟩
  · split
    · exact ⟨_, _, [], rfl, by simp, by simp⟩
    · simp only
      split
      · exact ⟨_, _, [], rfl, by simp, by simp⟩
      · split
        · exact ⟨_, _, [_], rfl, rfl, by simp [isLoadCall]⟩
        · split
          · refine ⟨_, _, _, rfl, List.append_assoc _ _ _, ?_⟩
            simp [isLoadCall]
          · split
            · refine ⟨_, _, _, rfl, List.append_assoc _ _ _, ?_⟩
              simp [isLoadCall]
            · refine ⟨_, _, _, rfl,
                (List.append_assoc _ _ _).trans (List.append_assoc _ _ _), ?_⟩
              simp [isLoadCall]

theorem S_UpdateAmbientSounds_slot_none (β : Backend) (env : Engine) (leaf : Nat) (s : State)
    (i : Nat) (h : s.ambient_sfx.getD i none = none) :
    S_UpdateAmbientSounds_slot β env leaf s i = s := by
  unfold S_UpdateAmbientSounds_slot
  rw [h]

/-- The loop body of `S_UpdateAmbientSounds` on a slot whose channel reports
playing: the volume is stepped and given to the channel. -/
theorem S_UpdateAmbientSounds_slot_playing (β : Backend) (env : Engine) (leaf : Nat) (s : State)
    (i sfx : Nat) (hsfx : s.ambient_sfx.getD i none = some sfx)
    (hp : (ChannelIsPlaying β s.trace (s.ambient_fmod_channels.getD i none)).1 = true) :
    ∃ ch, s.ambient_fmod_channels.getD i none = some ch ∧
      S_UpdateAmbientSounds_slot β env leaf s i =
        (S_UpdateAmbientSounds_faded β env leaf s i).emit
          (.Channel_SetVolume ch (S_UpdateAmbientSounds_fade env (s.ambient_vol.getD i 0)
            (S_UpdateAmbientSounds_target env leaf i) / 255)) := by
  cases hc : s.ambient_fmod_channels.getD i none with
  | none =>
    rw [hc] at hp
    simp [ChannelIsPlaying] at hp
  | some ch =>
    refine ⟨ch, rfl, ?_⟩
    unfold S_UpdateAmbientSounds_slot
    rw [hsfx]
    simp only [hc]
    rw [hc] at hp
    rw [if_neg (by rw [hp]; simp)]

/-- The loop body of `S_UpdateAmbientSounds` on a slot whose channel does not
report playing (or that has no channel), when the sound does not load. -/
theorem S_UpdateAmbientSounds_slot_noload (β : Backend) (env : Engine) (leaf : Nat) (s : State)
    (i sfx : Nat) (hsfx : s.ambient_sfx.getD i none = some sfx)
    (hp : (ChannelIsPlaying β s.trace (s.ambient_fmod_channels.getD i none)).1 = false)
    (hl : (FMOD_LoadSfx β (S_UpdateAmbientSounds_faded β env leaf s i) (some sfx)).1 = none) :
    S_UpdateAmbientSounds_slot β env leaf s i =
      (FMOD_LoadSfx β (S_UpdateAmbientSounds_faded β env leaf s i) (some sfx)).2 := by
  unfold S_UpdateAmbientSounds_slot
  rw [hsfx]
  simp only [hp, if_true]
  rw [hl]

/-- The loop body of `S_UpdateAmbientSounds` on a slot whose channel does not
report playing (or that has no channel), when the sound loads. -/
theorem S_UpdateAmbientSounds_slot_load (β : Backend) (env : Engine) (leaf : Nat) (s : State)
    (i sfx snd : Nat) (hsfx : s.ambient_sfx.getD i none = some sfx)
    (hp : (ChannelIsPlaying β s.trace (s.ambient_fmod_channels.getD i none)).1 = false)
    (hl : (FMOD_LoadSfx β (S_UpdateAmbientSounds_faded β env leaf s i) (some sfx)).1 = some snd) :
    S_UpdateAmbientSounds_slot β env leaf s i =
      S_UpdateAmbientSounds_start β
        (FMOD_LoadSfx β (S_UpdateAmbientSounds_faded β env leaf s i) (some sfx)).2 i snd
        (S_UpdateAmbientSounds_fade env (s.ambient_vol.getD i 0)
          (S_UpdateAmbientSounds_target env leaf i)) := by
  unfold S_UpdateAmbientSounds_slot
  rw [hsfx]
  simp only [hp, if_true]
  rw [hl]

/-- What the statements that start an ambient loop do. -/
theorem S_UpdateAmbientSounds_start_spec (β : Backend) (s : State) (i snd : Nat) (vol : ℚ) :
    (S_UpdateAmbientSounds_start β s i snd vol).ambient_vol = s.ambient_vol ∧
    (S_UpdateAmbientSounds_start β s i snd vol).ambient_sfx = s.ambient_sfx ∧
    (S_UpdateAmbientSounds_start β s i snd vol).fmod_channels = s.fmod_channels ∧
    (S_UpdateAmbientSounds_start β s i snd vol).fmod_initialized = s.fmod_initialized ∧
    (β.System_PlaySound s.trace.clock snd = none →
      (S_UpdateAmbientSounds_start β s i snd vol).ambient_fmod_channels =
        s.ambient_fmod_channels.set i none ∧
      (S_UpdateAmbientSounds_start β s i snd vol).trace.calls =
        s.trace.calls ++ [.System_PlaySound snd true none]) ∧
    (∀ ch, β.System_PlaySound s.trace.clock snd = some ch →
      (S_UpdateAmbientSounds_start β s i snd vol).ambient_fmod_channels =
        s.ambient_fmod_channels.set i (some ch) ∧
      (S_UpdateAmbientSounds_start β s i snd vol).trace.calls =
        s.trace.calls ++ ambientStartCalls snd ch vol) := by
  unfold S_UpdateAmbientSounds_start
  cases h : β.System_PlaySound s.trace.clock snd with
  | none =>
    simp only [State.emit, State.query, Trace.emit, Trace.query, true_and, forall_true_left,
      false_implies, implies_true, and_true, and_self]
    intro ch hc
    cases hc
  | some ch =>
    simp only [State.emit, State.query, Trace.emit, Trace.query, true_and, Option.some.injEq,
      false_implies, forall_eq', ambientStartCalls, and_self, List.append_assoc,
      List.singleton_append, List.cons_append, List.nil_append, and_true]
    intro hc
    cases hc

theorem ChannelIsPlaying_calls (β : Backend) (t : Trace) (ch : Option Nat) :
    ∃ extra, (ChannelIsPlaying β t ch).2.calls = t.calls ++ extra ∧
      ∀ a ∈ extra, ∃ c ans, a = FmodCall.Channel_IsPlaying c ans := by
  cases ch with
  | none => exact ⟨[], by simp [ChannelIsPlaying], by simp⟩
  | some c =>
    refine ⟨[.Channel_IsPlaying c (β.Channel_IsPlaying t.clock c)], rfl, ?_⟩
    intro a ha
    simp only [List.mem_singleton] at ha
    exact ⟨_, _, ha⟩

/-- What the loop body of `S_UpdateAmbientSounds` leaves alone: the sounds of
the slots, the pool, the volumes and channels of the other slots; it only adds
calls, none of them a stop; the volume of its slot makes the fade step when
the slot has a sound. -/
theorem S_UpdateAmbientSounds_slot_frame (β : Backend) (env : Engine) (leaf : Nat) (s : State)
    (i : Nat) :
    (S_UpdateAmbientSounds_slot β env leaf s i).ambient_sfx = s.ambient_sfx ∧
    (S_UpdateAmbientSounds_slot β env leaf s i).fmod_channels = s.fmod_channels ∧
    (S_UpdateAmbientSounds_slot β env leaf s i).fmod_initialized = s.fmod_initialized ∧
    (∀ j, j ≠ i →
      (S_UpdateAmbientSounds_slot β env leaf s i).ambient_vol[j]? = s.ambient_vol[j]? ∧
      (S_UpdateAmbientSounds_slot β env leaf s i).ambient_fmod_channels[j]? =
        s.ambient_fmod_channels[j]?) ∧
    (∃ extra, (S_UpdateAmbientSounds_slot β env leaf s i).trace.calls = s.trace.calls ++ extra ∧
      ∀ ch, FmodCall.Channel_Stop ch ∉ extra) ∧
    (∀ sfx, s.ambient_sfx.getD i none = some sfx →
      (S_UpdateAmbientSounds_slot β env leaf s i).ambient_vol =
        s.ambient_vol.set i (S_UpdateAmbientSounds_fade env (s.ambient_vol.getD i 0)
          (S_UpdateAmbientSounds_target env leaf i))) := by
  cases hsfx : s.ambient_sfx.getD i none with
  | none =>
    rw [S_UpdateAmbientSounds_slot_none β env leaf s i hsfx]
    exact ⟨rfl, rfl, rfl, fun _ _ => ⟨rfl, rfl⟩, ⟨[], by simp, by simp⟩, fun _ h => by cases h⟩
  | some sfx =>
    obtain ⟨exP, hexP, hkP⟩ := ChannelIsPlaying_calls β s.trace (s.ambient_fmod_channels.getD i none)
    have hfcalls : (S_UpdateAmbientSounds_faded β env leaf s i).trace.calls =
        s.trace.calls ++ exP := hexP
    have hvset : ∀ j, j ≠ i → (s.ambient_vol.set i (S_UpdateAmbientSounds_fade env
        (s.ambient_vol.getD i 0) (S_UpdateAmbientSounds_target env leaf i)))[j]? =
        s.ambient_vol[j]? := fun j hj => by
      rw [List.getElem?_set_ne (Ne.symm hj)]
    cases hp : (ChannelIsPlaying β s.trace (s.ambient_fmod_channels.getD i none)).1 with
    | true =>
      obtain ⟨ch, hch, heq⟩ := S_UpdateAmbientSounds_slot_playing β env leaf s i sfx hsfx hp
      rw [heq]
      refine ⟨rfl, rfl, rfl, fun j hj => ⟨hvset j hj, rfl⟩,
        ⟨exP ++ [.Channel_SetVolume ch (S_UpdateAmbientSounds_fade env (s.ambient_vol.getD i 0)
          (S_UpdateAmbientSounds_target env leaf i) / 255)], ?_, ?_⟩, fun _ _ => rfl⟩
      · rw [State.emit_trace, Trace.emit_calls, hfcalls, List.append_assoc]
      · intro c hc
        rcases List.mem_append.mp hc with h | h
        · obtain ⟨_, _, h2⟩ := hkP _ h
          cases h2
        · simp at h
    | false =>
      obtain ⟨sounds, t, exL, hL, hLcalls, hkL⟩ :=
        FMOD_LoadSfx_only β (S_UpdateAmbientSounds_faded β env leaf s i) (some sfx)
      have hnoStopL : ∀ c, FmodCall.Channel_Stop c ∉ exP ++ exL := by
        intro c hc
        rcases List.mem_append.mp hc with h | h
        · obtain ⟨_, _, h2⟩ := hkP _ h
          cases h2
        · have := hkL _ h
          simp [isLoadCall] at this
      cases hl : (FMOD_LoadSfx β (S_UpdateAmbientSounds_faded β env leaf s i) (some sfx)).1 with
      | none =>
        rw [S_UpdateAmbientSounds_slot_noload β env leaf s i sfx hsfx hp hl, hL]
        refine ⟨rfl, rfl, rfl, fun j hj => ⟨hvset j hj, rfl⟩, ⟨exP ++ exL, ?_, hnoStopL⟩,
          fun _ _ => rfl⟩
        show t.calls = _
        rw [hLcalls, hfcalls, List.append_assoc]
      | some snd =>
        rw [S_UpdateAmbientSounds_slot_load β env leaf s i sfx snd hsfx hp hl]
        obtain ⟨h1, h2, h3, h4, h5, h6⟩ := S_UpdateAmbientSounds_start_spec β
          (FMOD_LoadSfx β (S_UpdateAmbientSounds_faded β env leaf s i) (some sfx)).2 i snd
          (S_UpdateAmbientSounds_fade env (s.ambient_vol.getD i 0)
            (S_UpdateAmbientSounds_target env leaf i))
        have hLt : (FMOD_LoadSfx β (S_UpdateAmbientSounds_faded β env leaf s i)
            (some sfx)).2.trace.calls = s.trace.calls ++ (exP ++ exL) := by
          rw [hL]
          show t.calls = _
          rw [hLcalls, hfcalls, List.append_assoc]
        have hLv : (FMOD_LoadSfx β (S_UpdateAmbientSounds_faded β env leaf s i)
            (some sfx)).2.ambient_vol = s.ambient_vol.set i (S_UpdateAmbientSounds_fade env
              (s.ambient_vol.getD i 0) (S_UpdateAmbientSounds_target env leaf i)) := by
          rw [hL]; rfl
        have hLc : (FMOD_LoadSfx β (S_UpdateAmbientSounds_faded β env leaf s i)
            (some sfx)).2.ambient_fmod_channels = s.ambient_fmod_channels := by
          rw [hL]; rfl
        refine ⟨by rw [h2, hL]; rfl, by rw [h3, hL]; rfl, by rw [h4, hL]; rfl, ?_, ?_,
          fun _ _ => by rw [h1, hLv]⟩
        · intro j hj
          refine ⟨by rw [h1, hLv]; exact hvset j hj, ?_⟩
          cases hplay : β.System_PlaySound (FMOD_LoadSfx β
              (S_UpdateAmbientSounds_faded β env leaf s i) (some sfx)).2.trace.clock snd with
          | none => rw [(h5 hplay).1, hLc, List.getElem?_set_ne (Ne.symm hj)]
          | some ch => rw [(h6 ch hplay).1, hLc, List.getElem?_set_ne (Ne.symm hj)]
        · cases hplay : β.System_PlaySound (FMOD_LoadSfx β
              (S_UpdateAmbientSounds_faded β env leaf s i) (some sfx)).2.trace.clock snd with
          | none =>
            refine ⟨exP ++ exL ++ [.System_PlaySound snd true none], ?_, ?_⟩
            · rw [(h5 hplay).2, hLt, List.append_assoc]
            · intro c hc
              rcases List.mem_append.mp hc with h | h
              · exact hnoStopL c h
              · simp at h
          | some ch =>
            refine ⟨exP ++ exL ++ ambientStartCalls snd ch (S_UpdateAmbientSounds_fade env
              (s.ambient_vol.getD i 0) (S_UpdateAmbientSounds_target env leaf i)), ?_, ?_⟩
            · rw [(h6 ch hplay).2, hLt, List.append_assoc]
            · intro c hc
              rcases List.mem_append.mp hc with h | h
              · exact hnoStopL c h
              · simp [ambientStartCalls] at h

/-- What the main loop of `S_UpdateAmbientSounds`, run for the `n` slots from
`i` on, leaves alone: the sounds of the slots, the pool, and the volumes and
channels of the slots outside the range; it only adds calls, none a stop. -/
theorem S_UpdateAmbientSounds_loop_frame (β : Backend) (env : Engine) (leaf : Nat) :
    ∀ (n i : Nat) (s : State),
      (S_UpdateAmbientSounds_loop β env leaf n i s).ambient_sfx = s.ambient_sfx ∧
      (S_UpdateAmbientSounds_loop β env leaf n i s).fmod_channels = s.fmod_channels ∧
      (S_UpdateAmbientSounds_loop β env leaf n i s).fmod_initialized = s.fmod_initialized ∧
      (∀ k, k < i ∨ i + n ≤ k →
        (S_UpdateAmbientSounds_loop β env leaf n i s).ambient_vol[k]? = s.ambient_vol[k]? ∧
        (S_UpdateAmbientSounds_loop β env leaf n i s).ambient_fmod_channels[k]? =
          s.ambient_fmod_channels[k]?) ∧
      (∃ extra, (S_UpdateAmbientSounds_loop β env leaf n i s).trace.calls =
        s.trace.calls ++ extra ∧ ∀ ch, FmodCall.Channel_Stop ch ∉ extra) := by
  intro n
  induction n with
  | zero =>
    intro i s
    exact ⟨rfl, rfl, rfl, fun _ _ => ⟨rfl, rfl⟩, [], by simp [S_UpdateAmbientSounds_loop],
      by simp⟩
  | succ n ih =>
    intro i s
    obtain ⟨a1, a2, a3, a4, ⟨ex1, a5, a6⟩, _⟩ := S_UpdateAmbientSounds_slot_frame β env leaf s i
    obtain ⟨b1, b2, b3, b4, ⟨ex2, b5, b6⟩⟩ :=
      ih (i + 1) (S_UpdateAmbientSounds_slot β env leaf s i)
    simp only [S_UpdateAmbientSounds_loop]
    refine ⟨b1.trans a1, b2.trans a2, b3.trans a3, ?_, ex1 ++ ex2, ?_, ?_⟩
    · intro k hk
      have hb := b4 k (by omega)
      have ha := a4 k (by omega)
      exact ⟨hb.1.trans ha.1, hb.2.trans ha.2⟩
    · rw [b5, a5, List.append_assoc]
    · intro ch hc
      rcases List.mem_append.mp hc with h | h
      · exact a6 ch h
      · exact b6 ch h

theorem S_UpdateAmbientSounds_loop_split (β : Backend) (env : Engine) (leaf : Nat) :
    ∀ (a b i : Nat) (s : State),
      S_UpdateAmbientSounds_loop β env leaf (a + b) i s =
        S_UpdateAmbientSounds_loop β env leaf b (i + a)
          (S_UpdateAmbientSounds_loop β env leaf a i s) := by
  intro a
  induction a with
  | zero =>
    intro b i s
    simp [S_UpdateAmbientSounds_loop]
  | succ a ih =>
    intro b i s
    have h : a + 1 + b = (a + b) + 1 := by omega
    rw [h]
    simp only [S_UpdateAmbientSounds_loop]
    rw [ih b (i + 1) _]
    have h2 : i + 1 + a = i + (a + 1) := by omega
    rw [h2]

/-- The main loop of `S_UpdateAmbientSounds` run from slot 0 for `n` slots
reaches slot `k < n` in the state the first `k` iterations leave, runs the
body on it, and goes on with the slots behind. -/
theorem S_UpdateAmbientSounds_loop_at (β : Backend) (env : Engine) (leaf : Nat) (n k : Nat)
    (s : State) (hk : k < n) :
    S_UpdateAmbientSounds_loop β env leaf n 0 s =
      S_UpdateAmbientSounds_loop β env leaf (n - (k + 1)) (k + 1)
        (S_UpdateAmbientSounds_slot β env leaf (S_UpdateAmbientSounds_loop β env leaf k 0 s) k) := by
  have h : n = k + (1 + (n - (k + 1))) := by omega
  conv_lhs => rw [h]
  rw [S_UpdateAmbientSounds_loop_split, S_UpdateAmbientSounds_loop_split]
  simp only [S_UpdateAmbientSounds_loop, Nat.zero_add]

/-! ### The fade step of the ambient volume -/

theorem S_UpdateAmbientSounds_main (β : Backend) (env : Engine) (s : State)
    (hactive : env.cls_state = env.ca_active)
    (hleaf : env.CM_Leafnum (env.CM_PointInLeaf s.listener_origin) ≠ 0)
    (hlevel : env.s_ambientlevel ≠ 0) :
    S_UpdateAmbientSounds β env s =
      S_UpdateAmbientSounds_loop β env (env.CM_PointInLeaf s.listener_origin)
        s.ambient_sfx.length 0 s := by
  unfold S_UpdateAmbientSounds
  rw [if_neg (by simp [hactive]), if_neg (by simp [hleaf, hlevel])]

/-- In the main loop of `S_UpdateAmbientSounds`, the slot `k` that has a sound
ends the frame with the volume the fade step gives from its volume at the
start of the frame; the first `k` iterations leave the sound, the volume and
the channel of slot `k` as they were. -/
theorem S_UpdateAmbientSounds_loop_vol (β : Backend) (env : Engine) (leaf : Nat) (s : State)
    (k sfx : Nat) (V : ℚ) (hsfx : s.ambient_sfx[k]? = some (some sfx))
    (hvol : s.ambient_vol[k]? = some V) :
    (S_UpdateAmbientSounds_loop β env leaf k 0 s).ambient_sfx.getD k none = some sfx ∧
    (S_UpdateAmbientSounds_loop β env leaf k 0 s).ambient_vol.getD k 0 = V ∧
    (S_UpdateAmbientSounds_loop β env leaf k 0 s).ambient_fmod_channels[k]? =
      s.ambient_fmod_channels[k]? ∧
    (S_UpdateAmbientSounds_loop β env leaf s.ambient_sfx.length 0 s).ambient_vol[k]? =
      some (S_UpdateAmbientSounds_fade env V (S_UpdateAmbientSounds_target env leaf k)) ∧
    (S_UpdateAmbientSounds_loop β env leaf s.ambient_sfx.length 0 s).ambient_fmod_channels[k]? =
      (S_UpdateAmbientSounds_slot β env leaf
        (S_UpdateAmbientSounds_loop β env leaf k 0 s) k).ambient_fmod_channels[k]? := by
  have hk : k < s.ambient_sfx.length := by
    by_contra h
    rw [List.getElem?_eq_none (by omega)] at hsfx
    cases hsfx
  obtain ⟨p1, _, _, p4, _⟩ := S_UpdateAmbientSounds_loop_frame β env leaf k 0 s
  have hp := p4 k (Or.inr (by omega))
  have hsk : (S_UpdateAmbientSounds_loop β env leaf k 0 s).ambient_sfx.getD k none = some sfx := by
    rw [p1, List.getD_eq_getElem?_getD, hsfx]
    rfl
  have hvk : (S_UpdateAmbientSounds_loop β env leaf k 0 s).ambient_vol.getD k 0 = V := by
    rw [List.getD_eq_getElem?_getD, hp.1, hvol]
    rfl
  obtain ⟨_, _, _, _, _, q6⟩ := S_UpdateAmbientSounds_slot_frame β env leaf
    (S_UpdateAmbientSounds_loop β env leaf k 0 s) k
  obtain ⟨_, _, _, r4, _⟩ := S_UpdateAmbientSounds_loop_frame β env leaf
    (s.ambient_sfx.length - (k + 1)) (k + 1)
    (S_UpdateAmbientSounds_slot β env leaf (S_UpdateAmbientSounds_loop β env leaf k 0 s) k)
  have hr := r4 k (Or.inl (by omega))
  refine ⟨hsk, hvk, hp.2, ?_, ?_⟩
  · rw [S_UpdateAmbientSounds_loop_at β env leaf _ k s hk, hr.1, q6 sfx hsk, hvk]
    exact getElem?_set_self_of_some _ k V _ (by rw [hp.1, hvol])
  · rw [S_UpdateAmbientSounds_loop_at β env leaf _ k s hk, hr.2]

theorem S_UpdateAmbientSounds_fade_cases (env : Engine) (V T : ℚ) :
    (V < T → S_UpdateAmbientSounds_fade env V T =
      min T (V + env.cls_frametime * env.s_ambientfade)) ∧
    (T < V → S_UpdateAmbientSounds_fade env V T =
      max T (V - env.cls_frametime * env.s_ambientfade)) ∧
    (V = T → S_UpdateAmbientSounds_fade env V T = V) := by
  unfold S_UpdateAmbientSounds_fade
  refine ⟨fun h => ?_, fun h => ?_, fun h => ?_⟩
  · rw [if_pos h]
    split_ifs with h2
    · exact (min_eq_left (le_of_lt h2)).symm
    · exact (min_eq_right (not_lt.mp h2)).symm
  · rw [if_neg (not_lt.mpr (le_of_lt h)), if_pos h]
    split_ifs with h2
    · exact (max_eq_left (le_of_lt h2)).symm
    · exact (max_eq_right (not_lt.mp h2)).symm
  · subst h
    simp

/-- C13: in `S_UpdateAmbientSounds`, while the client is active, the listener
is in a leaf of non-zero number and `s_ambientlevel` is non-zero, for every
ambient slot `k` that has a sound, with `V` the volume of the slot before the
call and `T` its target of the frame (`s_ambientlevel` times the ambient level
of the leaf, or 0 when that is below 8): the volume after the call is
`min T (V + dt * fade)` when `V < T`, `max T (V - dt * fade)` when `V > T`,
and `V` when `V = T`; it is never on the other side of `T` than `V`. -/
theorem S_UpdateAmbientSounds_fade_step (β : Backend) (env : Engine) (s : State) (k sfx : Nat)
    (V : ℚ) (hactive : env.cls_state = env.ca_active)
    (hleaf : env.CM_Leafnum (env.CM_PointInLeaf s.listener_origin) ≠ 0)
    (hlevel : env.s_ambientlevel ≠ 0)
    (hsfx : s.ambient_sfx[k]? = some (some sfx))
    (hvol : s.ambient_vol[k]? = some V) :
    ∃ T V', T = S_UpdateAmbientSounds_target env (env.CM_PointInLeaf s.listener_origin) k ∧
      T = (if env.s_ambientlevel *
            env.CM_LeafAmbientLevel (env.CM_PointInLeaf s.listener_origin) k < 8 then 0
          else env.s_ambientlevel *
            env.CM_LeafAmbientLevel (env.CM_PointInLeaf s.listener_origin) k) ∧
      (S_UpdateAmbientSounds β env s).ambient_vol[k]? = some V' ∧
      (V < T → V' = min T (V + env.cls_frametime * env.s_ambientfade)) ∧
      (T < V → V' = max T (V - env.cls_frametime * env.s_ambientfade)) ∧
      (V = T → V' = V) ∧
      (V ≤ T → V' ≤ T) ∧
      (T ≤ V → T ≤ V') := by
  obtain ⟨_, _, _, h4, _⟩ := S_UpdateAmbientSounds_loop_vol β env
    (env.CM_PointInLeaf s.listener_origin) s k sfx V hsfx hvol
  obtain ⟨c1, c2, c3⟩ := S_UpdateAmbientSounds_fade_cases env V
    (S_UpdateAmbientSounds_target env (env.CM_PointInLeaf s.listener_origin) k)
  refine ⟨_, _, rfl, rfl, ?_, c1, c2, c3, ?_, ?_⟩
  · rw [S_UpdateAmbientSounds_main β env s hactive hleaf hlevel]
    exact h4
  · intro h
    rcases lt_or_eq_of_le h with h | h
    · rw [c1 h]
      exact min_le_left _ _
    · rw [c3 h]
      exact le_of_eq h
  · intro h
    rcases lt_or_eq_of_le h with h | h
    · rw [c2 h]
      exact le_max_left _ _
    · rw [c3 h.symm]
      exact le_of_eq h

/-- C13 at a concrete state: in `stateBusy` the water ambience is at volume 40
and its target is 30 (level 100 at `s_ambientlevel` 0.3); a frame of a tenth
of a second at fade rate 100 brings it to 30. -/
theorem S_UpdateAmbientSounds_fade_step_witness :
    engineQuake.cls_state = engineQuake.ca_active ∧
    engineQuake.CM_Leafnum (engineQuake.CM_PointInLeaf stateBusy.listener_origin) ≠ 0 ∧
    engineQuake.s_ambientlevel ≠ 0 ∧
    stateBusy.ambient_sfx[0]? = some (some 0) ∧
    stateBusy.ambient_vol[0]? = some 40 ∧
    (S_UpdateAmbientSounds backendLive engineQuake stateBusy).ambient_vol[0]? = some 30 := by
  have hleaf : engineQuake.CM_Leafnum (engineQuake.CM_PointInLeaf stateBusy.listener_origin) ≠ 0 := by
    decide
  have hlevel : engineQuake.s_ambientlevel ≠ 0 := by
    norm_num [engineQuake]
  obtain ⟨T, V', hT, _, hv, _, hgt, _⟩ :=
    S_UpdateAmbientSounds_fade_step backendLive engineQuake stateBusy 0 0 40 rfl hleaf hlevel
      rfl rfl
  have hT30 : T = 30 := by
    rw [hT]
    norm_num [S_UpdateAmbientSounds_target, engineQuake]
  have hV : V' = 30 := by
    rw [hgt (by rw [hT30]; norm_num), hT30]
    norm_num [engineQuake]
  exact ⟨rfl, hleaf, hlevel, rfl, rfl, by rw [hv, hV]⟩

/-! ### Ambient sounds outside the game, outside the map, or switched off -/

theorem S_UpdateAmbientSounds_mute_calls (t : Trace) (l : List (Option Nat)) :
    ∃ extra, (S_UpdateAmbientSounds_mute t l).calls = t.calls ++ extra ∧
      (S_UpdateAmbientSounds_mute t l).clock = t.clock ∧
      (∀ ch, some ch ∈ l → FmodCall.Channel_SetVolume ch 0 ∈ extra) ∧
      (∀ a ∈ extra, ∃ ch, a = FmodCall.Channel_SetVolume ch 0 ∧ some ch ∈ l) := by
  induction l generalizing t with
  | nil => exact ⟨[], by simp [S_UpdateAmbientSounds_mute], rfl, by simp, by simp⟩
  | cons a rest ih =>
    cases a with
    | none =>
      obtain ⟨ex, h1, h2, h3, h4⟩ := ih t
      refine ⟨ex, h1, h2, ?_, ?_⟩
      · intro ch hc
        rcases List.mem_cons.mp hc with h | h
        · cases h
        · exact h3 ch h
      · intro a ha
        obtain ⟨ch, hc1, hc2⟩ := h4 a ha
        exact ⟨ch, hc1, List.mem_cons_of_mem _ hc2⟩
    | some c =>
      obtain ⟨ex, h1, h2, h3, h4⟩ := ih (t.emit (.Channel_SetVolume c 0))
      refine ⟨.Channel_SetVolume c 0 :: ex, ?_, ?_, ?_, ?_⟩
      · simp only [S_UpdateAmbientSounds_mute, h1, Trace.emit_calls, List.append_assoc,
          List.singleton_append]
      · simp only [S_UpdateAmbientSounds_mute, h2, Trace.emit_clock]
      · intro ch hc
        rcases List.mem_cons.mp hc with h | h
        · simp only [Option.some.injEq] at h
          subst h
          exact List.mem_cons_self _ _
        · exact List.mem_cons_of_mem _ (h3 ch h)
      · intro a ha
        rcases List.mem_cons.mp ha with h | h
        · exact ⟨c, h, List.mem_cons_self _ _⟩
        · obtain ⟨ch, hc1, hc2⟩ := h4 a h
          exact ⟨ch, hc1, List.mem_cons_of_mem _ hc2⟩

/-- C19, as the code has it.  When the client is not active,
`S_UpdateAmbientSounds` is `StopAmbientChannels`: every ambient channel is
stopped and its handle cleared, and every volume is set to 0 at once.  When
the client is active and the listener is in leaf 0 or `s_ambientlevel` is 0,
no channel is stopped or started: every slot keeps its channel, each channel
is given the volume 0 and nothing else is called, and every smoothed volume is
set to 0 at once, without a fade step. -/
theorem S_UpdateAmbientSounds_silenced (β : Backend) (env : Engine) (s : State) :
    (env.cls_state ≠ env.ca_active →
      S_UpdateAmbientSounds β env s = StopAmbientChannels s ∧
      (S_UpdateAmbientSounds β env s).ambient_fmod_channels =
        s.ambient_fmod_channels.map (fun _ => none) ∧
      (S_UpdateAmbientSounds β env s).ambient_vol = s.ambient_vol.map (fun _ => 0) ∧
      ∃ extra, (S_UpdateAmbientSounds β env s).trace.calls = s.trace.calls ++ extra ∧
        ∀ ch, some ch ∈ s.ambient_fmod_channels → FmodCall.Channel_Stop ch ∈ extra) ∧
    (env.cls_state = env.ca_active →
      env.CM_Leafnum (env.CM_PointInLeaf s.listener_origin) = 0 ∨ env.s_ambientlevel = 0 →
      (S_UpdateAmbientSounds β env s).ambient_fmod_channels = s.ambient_fmod_channels ∧
      (S_UpdateAmbientSounds β env s).ambient_vol = s.ambient_vol.map (fun _ => 0) ∧
      ∃ extra, (S_UpdateAmbientSounds β env s).trace.calls = s.trace.calls ++ extra ∧
        (∀ ch, some ch ∈ s.ambient_fmod_channels → FmodCall.Channel_SetVolume ch 0 ∈ extra) ∧
        (∀ a ∈ extra, ∃ ch, a = FmodCall.Channel_SetVolume ch 0 ∧
          some ch ∈ s.ambient_fmod_channels)) := by
  refine ⟨fun h => ?_, fun h1 h2 => ?_⟩
  · have heq : S_UpdateAmbientSounds β env s = StopAmbientChannels s := by
      unfold S_UpdateAmbientSounds
      rw [if_pos h]
    obtain ⟨ex, hex, _, hstop⟩ := StopAmbientChannels_scan_calls s.trace s.ambient_fmod_channels
    rw [heq]
    exact ⟨rfl, rfl, rfl, ex, hex, hstop⟩
  · have heq : S_UpdateAmbientSounds β env s = { s with
        trace := S_UpdateAmbientSounds_mute s.trace s.ambient_fmod_channels
        ambient_vol := s.ambient_vol.map (fun _ => 0) } := by
      unfold S_UpdateAmbientSounds
      rw [if_neg (by simp [h1]), if_pos h2]
    obtain ⟨ex, hex, _, hset, honly⟩ :=
      S_UpdateAmbientSounds_mute_calls s.trace s.ambient_fmod_channels
    rw [heq]
    exact ⟨rfl, rfl, ex, hex, hset, honly⟩

/-- C19 as stated fails.  In `stateBusy` the water ambience plays on channel
201 at volume 40, and the fade step towards 0 would give 30.  With the client
not active the call stops channel 201, clears the slot and sets the volume to
0 at once; with the listener in leaf 0 the slot keeps channel 201 but the
volume is 0 at once as well. -/
theorem S_UpdateAmbientSounds_hard_stop_counterexample :
    stateBusy.ambient_fmod_channels = [some 201, none, none, none] ∧
    stateBusy.ambient_vol = [40, 0, 0, 0] ∧
    S_UpdateAmbientSounds_fade engineMenu 40 0 = 30 ∧
    engineMenu.cls_state ≠ engineMenu.ca_active ∧
    (S_UpdateAmbientSounds backendLive engineMenu stateBusy).ambient_fmod_channels =
      [none, none, none, none] ∧
    (S_UpdateAmbientSounds backendLive engineMenu stateBusy).ambient_vol = [0, 0, 0, 0] ∧
    (S_UpdateAmbientSounds backendLive engineMenu stateBusy).trace.calls =
      [.Channel_Stop 201] ∧
    engineVoid.cls_state = engineVoid.ca_active ∧
    engineVoid.CM_Leafnum (engineVoid.CM_PointInLeaf stateBusy.listener_origin) = 0 ∧
    (S_UpdateAmbientSounds backendLive engineVoid stateBusy).ambient_fmod_channels =
      [some 201, none, none, none] ∧
    (S_UpdateAmbientSounds backendLive engineVoid stateBusy).ambient_vol = [0, 0, 0, 0] ∧
    (S_UpdateAmbientSounds backendLive engineVoid stateBusy).trace.calls =
      [.Channel_SetVolume 201 0] := by
  have hmenu : engineMenu.cls_state ≠ engineMenu.ca_active := by decide
  have hvoid : engineVoid.CM_Leafnum (engineVoid.CM_PointInLeaf stateBusy.listener_origin) = 0 :=
    rfl
  have h1 : S_UpdateAmbientSounds backendLive engineMenu stateBusy =
      StopAmbientChannels stateBusy := by
    unfold S_UpdateAmbientSounds
    rw [if_pos hmenu]
  have h2 : S_UpdateAmbientSounds backendLive engineVoid stateBusy = { stateBusy with
      trace := S_UpdateAmbientSounds_mute stateBusy.trace stateBusy.ambient_fmod_channels
      ambient_vol := stateBusy.ambient_vol.map (fun _ => 0) } := by
    unfold S_UpdateAmbientSounds
    rw [if_neg (by decide), if_pos (Or.inl hvoid)]
  have hfade : S_UpdateAmbientSounds_fade engineMenu 40 0 = 30 := by
    norm_num [S_UpdateAmbientSounds_fade, engineMenu, engineQuake]
  rw [h1, h2]
  exact ⟨rfl, rfl, hfade, hmenu, rfl, rfl, rfl, rfl, hvoid, rfl, rfl, rfl⟩

/-! ### The start of an ambient loop -/

/-- C20, as the code has it.  In the main loop of `S_UpdateAmbientSounds`
(client active, leaf of non-zero number, `s_ambientlevel` non-zero), for every
ambient slot `k` that has a sound, with `sk` the state in which the loop
reaches the slot and `V'` the volume of the slot after the fade step: the
first `k` iterations have left the channel of the slot as it was, and what
the iteration does is the channel of the slot and the calls at the end of the
frame.  When the channel reports playing, it is kept, given the volume
`V' / 255`, and no channel is started.  When it does not report playing (or
there is none), a channel is started exactly when the sound loads and the play
call succeeds, whatever `V'` is, zero included: the new channel is stored in
the slot, set to loop without end, unpaused and given the volume `V' / 255`;
when the sound does not load the slot is left as it is, when the play call
fails the slot is cleared. -/
theorem S_UpdateAmbientSounds_starts (β : Backend) (env : Engine) (s : State) (k sfx : Nat)
    (V : ℚ) (hactive : env.cls_state = env.ca_active)
    (hleaf : env.CM_Leafnum (env.CM_PointInLeaf s.listener_origin) ≠ 0)
    (hlevel : env.s_ambientlevel ≠ 0)
    (hsfx : s.ambient_sfx[k]? = some (some sfx))
    (hvol : s.ambient_vol[k]? = some V) :
    ∃ sk V' after,
      sk = S_UpdateAmbientSounds_loop β env (env.CM_PointInLeaf s.listener_origin) k 0 s ∧
      V' = S_UpdateAmbientSounds_fade env V
        (S_UpdateAmbientSounds_target env (env.CM_PointInLeaf s.listener_origin) k) ∧
      after = S_UpdateAmbientSounds_slot β env (env.CM_PointInLeaf s.listener_origin) sk k ∧
      sk.ambient_fmod_channels[k]? = s.ambient_fmod_channels[k]? ∧
      (S_UpdateAmbientSounds β env s).ambient_vol[k]? = some V' ∧
      (S_UpdateAmbientSounds β env s).ambient_fmod_channels[k]? =
        after.ambient_fmod_channels[k]? ∧
      (∃ post, (S_UpdateAmbientSounds β env s).trace.calls = after.trace.calls ++ post) ∧
      ((ChannelIsPlaying β sk.trace (sk.ambient_fmod_channels.getD k none)).1 = true →
        ∃ ch, sk.ambient_fmod_channels.getD k none = some ch ∧
          after.ambient_fmod_channels = sk.ambient_fmod_channels ∧
          after.trace.calls = sk.trace.calls ++
            [.Channel_IsPlaying ch (β.Channel_IsPlaying sk.trace.clock ch),
              .Channel_SetVolume ch (V' / 255)]) ∧
      ((ChannelIsPlaying β sk.trace (sk.ambient_fmod_channels.getD k none)).1 = false →
        ((FMOD_LoadSfx β (S_UpdateAmbientSounds_faded β env
            (env.CM_PointInLeaf s.listener_origin) sk k) (some sfx)).1 = none →
          after.ambient_fmod_channels = sk.ambient_fmod_channels ∧
          ∃ extra, after.trace.calls = sk.trace.calls ++ extra ∧
            ∀ snd p r, FmodCall.System_PlaySound snd p r ∉ extra) ∧
        (∀ snd, (FMOD_LoadSfx β (S_UpdateAmbientSounds_faded β env
            (env.CM_PointInLeaf s.listener_origin) sk k) (some sfx)).1 = some snd →
          (β.System_PlaySound (FMOD_LoadSfx β (S_UpdateAmbientSounds_faded β env
              (env.CM_PointInLeaf s.listener_origin) sk k) (some sfx)).2.trace.clock snd = none →
            after.ambient_fmod_channels = sk.ambient_fmod_channels.set k none ∧
            after.trace.calls = (FMOD_LoadSfx β (S_UpdateAmbientSounds_faded β env
              (env.CM_PointInLeaf s.listener_origin) sk k) (some sfx)).2.trace.calls ++
              [.System_PlaySound snd true none]) ∧
          (∀ ch, β.System_PlaySound (FMOD_LoadSfx β (S_UpdateAmbientSounds_faded β env
              (env.CM_PointInLeaf s.listener_origin) sk k) (some sfx)).2.trace.clock snd = some ch →
            after.ambient_fmod_channels = sk.ambient_fmod_channels.set k (some ch) ∧
            after.trace.calls = (FMOD_LoadSfx β (S_UpdateAmbientSounds_faded β env
              (env.CM_PointInLeaf s.listener_origin) sk k) (some sfx)).2.trace.calls ++
              ambientStartCalls snd ch V'))) := by
  obtain ⟨hsk, hvk, hck, hfv, hfc⟩ := S_UpdateAmbientSounds_loop_vol β env
    (env.CM_PointInLeaf s.listener_origin) s k sfx V hsfx hvol
  have hk : k < s.ambient_sfx.length := by
    by_contra h
    rw [List.getElem?_eq_none (by omega)] at hsfx
    cases hsfx
  have hmain := S_UpdateAmbientSounds_main β env s hactive hleaf hlevel
  obtain ⟨_, _, _, _, post, hpost, _⟩ := S_UpdateAmbientSounds_loop_frame β env
    (env.CM_PointInLeaf s.listener_origin) (s.ambient_sfx.length - (k + 1)) (k + 1)
    (S_UpdateAmbientSounds_slot β env (env.CM_PointInLeaf s.listener_origin)
      (S_UpdateAmbientSounds_loop β env (env.CM_PointInLeaf s.listener_origin) k 0 s) k)
  refine ⟨_, _, _, rfl, rfl, rfl, hck, by rw [hmain]; exact hfv, by rw [hmain]; exact hfc,
    ⟨post, ?_⟩, ?_, ?_⟩
  · rw [hmain, S_UpdateAmbientSounds_loop_at β env _ _ k s hk]
    exact hpost
  · intro hp
    obtain ⟨ch, hch, heq⟩ := S_UpdateAmbientSounds_slot_playing β env _ _ k sfx hsk hp
    refine ⟨ch, hch, by rw [heq]; rfl, ?_⟩
    rw [heq, hvk, State.emit_trace, Trace.emit_calls]
    show (ChannelIsPlaying β _ _).2.calls ++ _ = _
    rw [hch, ChannelIsPlaying_some, Trace.query_calls, List.append_assoc]
    rfl
  · intro hp
    obtain ⟨sounds, t, exL, hL, hLcalls, hkL⟩ := FMOD_LoadSfx_only β
      (S_UpdateAmbientSounds_faded β env (env.CM_PointInLeaf s.listener_origin)
        (S_UpdateAmbientSounds_loop β env (env.CM_PointInLeaf s.listener_origin) k 0 s) k)
      (some sfx)
    obtain ⟨exP, hexP, hkP⟩ := ChannelIsPlaying_calls β
      (S_UpdateAmbientSounds_loop β env (env.CM_PointInLeaf s.listener_origin) k 0 s).trace
      ((S_UpdateAmbientSounds_loop β env (env.CM_PointInLeaf s.listener_origin) k
        0 s).ambient_fmod_channels.getD k none)
    refine ⟨fun hl => ?_, fun snd hl => ?_⟩
    · rw [S_UpdateAmbientSounds_slot_noload β env _ _ k sfx hsk hp hl, hL]
      refine ⟨rfl, exP ++ exL, ?_, ?_⟩
      · show t.calls = _
        rw [hLcalls, ← List.append_assoc]
        exact congrArg (· ++ exL) hexP
      · intro snd p r hmem
        rcases List.mem_append.mp hmem with h | h
        · obtain ⟨_, _, h2⟩ := hkP _ h
          cases h2
        · have := hkL _ h
          simp [isLoadCall] at this
    · rw [S_UpdateAmbientSounds_slot_load β env _ _ k sfx snd hsk hp hl, hvk]
      obtain ⟨_, _, _, _, h5, h6⟩ := S_UpdateAmbientSounds_start_spec β
        (FMOD_LoadSfx β (S_UpdateAmbientSounds_faded β env (env.CM_PointInLeaf s.listener_origin)
          (S_UpdateAmbientSounds_loop β env (env.CM_PointInLeaf s.listener_origin) k 0 s) k)
          (some sfx)).2 k snd (S_UpdateAmbientSounds_fade env V
            (S_UpdateAmbientSounds_target env (env.CM_PointInLeaf s.listener_origin) k))
      have hLc : (FMOD_LoadSfx β (S_UpdateAmbientSounds_faded β env
          (env.CM_PointInLeaf s.listener_origin)
          (S_UpdateAmbientSounds_loop β env (env.CM_PointInLeaf s.listener_origin) k 0 s) k)
          (some sfx)).2.ambient_fmod_channels =
          (S_UpdateAmbientSounds_loop β env (env.CM_PointInLeaf s.listener_origin) k
            0 s).ambient_fmod_channels := by
        rw [hL]; rfl
      refine ⟨fun hplay => ?_, fun ch hplay => ?_⟩
      · rw [← hLc]
        exact h5 hplay
      · rw [← hLc]
        exact h6 ch hplay

theorem engineQuiet_fade_zero (leaf k : Nat) :
    S_UpdateAmbientSounds_fade engineQuiet 0 (S_UpdateAmbientSounds_target engineQuiet leaf k) = 0 := by
  norm_num [S_UpdateAmbientSounds_fade, S_UpdateAmbientSounds_target, engineQuiet, engineQuake]

theorem stateReady_quiet_silent :
    (ChannelIsPlaying backendLive stateReady.trace
      (stateReady.ambient_fmod_channels.getD 0 none)).1 = false := rfl

/-- In `stateReady` the sound of ambient slot 0 is loaded: `FMOD_LoadSfx`
returns sound 11 and changes nothing. -/
theorem stateReady_quiet_load :
    FMOD_LoadSfx backendLive (S_UpdateAmbientSounds_faded backendLive engineQuiet 3 stateReady 0)
      (some 0) =
      (some 11, S_UpdateAmbientSounds_faded backendLive engineQuiet 3 stateReady 0) := by
  refine FMOD_LoadSfx_cached backendLive _ 0 ⟨some 11, true⟩ (Option.some_ne_none _) (by decide)
    ?_ rfl
  show (_ :: _ :: List.replicate 254 fmod_sfx_zero)[0]? = _
  rw [List.getElem?_cons_zero]

/-- The iteration of the main loop of `S_UpdateAmbientSounds` on slot 0 of
`stateReady`, in a leaf without ambient sound: the slot has no channel, its
volume stays 0, and channel 5000 is started for it. -/
theorem stateReady_quiet_slot :
    (S_UpdateAmbientSounds_slot backendLive engineQuiet 3 stateReady 0).ambient_fmod_channels =
      [some 5000, none, none, none] ∧
    (S_UpdateAmbientSounds_slot backendLive engineQuiet 3 stateReady 0).trace.calls =
      ambientStartCalls 11 5000 0 := by
  have hl := congrArg Prod.fst stateReady_quiet_load
  have hl2 := congrArg Prod.snd stateReady_quiet_load
  simp only at hl hl2
  rw [S_UpdateAmbientSounds_slot_load backendLive engineQuiet 3 stateReady 0 0 11 rfl
    stateReady_quiet_silent hl, hl2]
  obtain ⟨_, _, _, _, _, h6⟩ := S_UpdateAmbientSounds_start_spec backendLive
    (S_UpdateAmbientSounds_faded backendLive engineQuiet 3 stateReady 0) 0 11
    (S_UpdateAmbientSounds_fade engineQuiet (stateReady.ambient_vol.getD 0 0)
      (S_UpdateAmbientSounds_target engineQuiet 3 0))
  obtain ⟨h7, h8⟩ := h6 5000 rfl
  refine ⟨h7.trans rfl, h8.trans ?_⟩
  have hv : S_UpdateAmbientSounds_fade engineQuiet (stateReady.ambient_vol.getD 0 0)
      (S_UpdateAmbientSounds_target engineQuiet 3 0) = 0 := engineQuiet_fade_zero 3 0
  rw [hv]
  rfl

/-- C20 at a concrete state: slot 0 of `stateReady` has the loaded sound 11
and no channel; in a leaf whose ambient levels are all 0 the target is 0 and
the volume stays 0, the sound is loaded and the play call gives channel 5000:
the slot ends the frame with channel 5000 and volume 0. -/
theorem S_UpdateAmbientSounds_starts_witness :
    engineQuiet.cls_state = engineQuiet.ca_active ∧
    engineQuiet.CM_Leafnum (engineQuiet.CM_PointInLeaf stateReady.listener_origin) ≠ 0 ∧
    engineQuiet.s_ambientlevel ≠ 0 ∧
    stateReady.ambient_sfx[0]? = some (some 0) ∧
    stateReady.ambient_vol[0]? = some 0 ∧
    (S_UpdateAmbientSounds backendLive engineQuiet stateReady).ambient_vol[0]? = some 0 ∧
    (S_UpdateAmbientSounds backendLive engineQuiet stateReady).ambient_fmod_channels[0]? =
      some (some 5000) := by
  have hleaf : engineQuiet.CM_Leafnum (engineQuiet.CM_PointInLeaf stateReady.listener_origin) ≠ 0 := by
    decide
  have hlevel : engineQuiet.s_ambientlevel ≠ 0 := by
    norm_num [engineQuiet, engineQuake]
  obtain ⟨sk, V', after, hsk, hV', hafter, _, hvol, hchan, _, _, hsilent⟩ :=
    S_UpdateAmbientSounds_starts backendLive engineQuiet stateReady 0 0 0 rfl hleaf hlevel rfl rfl
  have hsk2 : sk = stateReady := hsk
  subst hsk2
  have hV0 : V' = 0 := hV'.trans (engineQuiet_fade_zero _ 0)
  have hl := congrArg Prod.fst stateReady_quiet_load
  have hstart := ((hsilent stateReady_quiet_silent).2 11 hl).2 5000 rfl
  refine ⟨rfl, hleaf, hlevel, rfl, rfl, by rw [hvol, hV0], ?_⟩
  rw [hchan, hstart.1]
  rfl

/-- C20 as stated fails.  Slot 0 of `stateReady` has no channel and volume 0;
in a leaf whose ambient levels are all 0 its target is 0, so its volume after
the fade step is 0; a slot in that state should not be started, yet
`S_UpdateAmbientSounds` plays its sound: the slot ends the frame with channel
5000, looping, unpaused, at volume 0. -/
theorem S_UpdateAmbientSounds_zero_volume_counterexample :
    stateReady.ambient_fmod_channels = [none, none, none, none] ∧
    stateReady.ambient_vol = [0, 0, 0, 0] ∧
    S_UpdateAmbientSounds_target engineQuiet (engineQuiet.CM_PointInLeaf stateReady.listener_origin)
      0 = 0 ∧
    (S_UpdateAmbientSounds backendLive engineQuiet stateReady).ambient_vol[0]? = some 0 ∧
    (S_UpdateAmbientSounds backendLive engineQuiet stateReady).ambient_fmod_channels[0]? =
      some (some 5000) ∧
    (∃ post, (S_UpdateAmbientSounds backendLive engineQuiet stateReady).trace.calls =
      [.System_PlaySound 11 true (some 5000),
        .Channel_SetMode 5000 [.FMOD_2D, .FMOD_LOOP_NORMAL], .Channel_SetLoopCount 5000 (-1),
        .Channel_SetPaused 5000 false, .Channel_SetVolume 5000 (0 / 255)] ++ post) := by
  have hleaf : engineQuiet.CM_Leafnum (engineQuiet.CM_PointInLeaf stateReady.listener_origin) ≠ 0 := by
    decide
  have hlevel : engineQuiet.s_ambientlevel ≠ 0 := by
    norm_num [engineQuiet, engineQuake]
  have hmain := S_UpdateAmbientSounds_main backendLive engineQuiet stateReady rfl hleaf hlevel
  obtain ⟨_, _, _, hfv, hfc⟩ := S_UpdateAmbientSounds_loop_vol backendLive engineQuiet 3
    stateReady 0 0 0 rfl rfl
  obtain ⟨hslotc, hslott⟩ := stateReady_quiet_slot
  obtain ⟨_, _, _, _, post, hpost, _⟩ := S_UpdateAmbientSounds_loop_frame backendLive engineQuiet
    3 3 1 (S_UpdateAmbientSounds_slot backendLive engineQuiet 3 stateReady 0)
  have hat := S_UpdateAmbientSounds_loop_at backendLive engineQuiet 3 4 0 stateReady (by decide)
  refine ⟨rfl, rfl, ?_, ?_, ?_, post, ?_⟩
  · norm_num [S_UpdateAmbientSounds_target, engineQuiet, engineQuake]
  · rw [hmain]
    exact hfv.trans (congrArg some (engineQuiet_fade_zero 3 0))
  · rw [hmain]
    have h0 : S_UpdateAmbientSounds_loop backendLive engineQuiet 3 0 0 stateReady = stateReady :=
      rfl
    rw [h0] at hfc
    rw [show engineQuiet.CM_PointInLeaf stateReady.listener_origin = 3 from rfl, hfc, hslotc]
    rfl
  · rw [hmain]
    have h0 : S_UpdateAmbientSounds_loop backendLive engineQuiet 3 0 0 stateReady = stateReady :=
      rfl
    rw [h0] at hat
    have h4 : stateReady.ambient_sfx.length = 4 := rfl
    rw [show engineQuiet.CM_PointInLeaf stateReady.listener_origin = 3 from rfl, h4, hat]
    rw [hslott] at hpost
    exact hpost

/-! ### The per-frame sweeps -/

theorem sweepStore_have_prev_origin (fch : fmod_channel_t) (cur : vec3_t) (flag : Bool) :
    (sweepStore fch cur flag).have_prev_origin = true := rfl

theorem sweepStore_prev_origin_qu (fch : fmod_channel_t) (cur : vec3_t) (flag : Bool) :
    (sweepStore fch cur flag).prev_origin_qu = cur := rfl

theorem S_UpdateMovingSounds_scan_free (β : Backend) (env : Engine) (t : Trace)
    (l : List fmod_channel_t) (h : ∀ f ∈ l, f.channel = none) :
    S_UpdateMovingSounds_scan β env t l = (t, l) := by
  induction l with
  | nil => rfl
  | cons f rest ih =>
    have hf : f.channel = none := h f (List.mem_cons_self _ _)
    simp only [S_UpdateMovingSounds_scan, hf, sweepNext,
      ih (fun g hg => h g (List.mem_cons_of_mem _ hg))]

/-- The iteration of `S_UpdateMovingSounds` on a slot that is swept: in use
without spatializer, reported playing, not static, of a valid entity other
than the local player, in 3D mode, the position update being accepted. -/
theorem S_UpdateMovingSounds_scan_swept (β : Backend) (env : Engine) (t : Trace)
    (fch : fmod_channel_t) (rest : List fmod_channel_t) (ch : Nat) (ch_mode : List FMOD_MODE_FLAG)
    (hch : fch.channel = some ch) (hsp : fch.spatializer = none)
    (hplay : reportsPlaying β t.clock ch = true) (hstatic : fch.is_static = false)
    (hlo : 0 < fch.entnum) (hhi : fch.entnum < env.MAX_EDICTS)
    (hplayer : fch.entnum ≠ env.cl_playernum + 1)
    (hmode : β.Channel_GetMode (t.clock + 1) ch = some ch_mode)
    (h3d : FMOD_MODE_FLAG.FMOD_3D ∈ ch_mode)
    (hset : β.Channel_Set3DAttributes (t.clock + 2) ch = true) :
    S_UpdateMovingSounds_scan β env t (fch :: rest) =
      sweepNext
        (sweepStore fch (VectorAdd (env.cl_entities_lerp_origin fch.entnum) fch.origin_offset)
          (S_UpdateMovingSounds_velocity env.sqrtf fch.have_prev_origin env.cls_frametime
            (VectorAdd (env.cl_entities_lerp_origin fch.entnum) fch.origin_offset)
            fch.prev_origin_qu).2)
        (S_UpdateMovingSounds_scan β env
          { clock := t.clock + 3
            calls := t.calls ++
              [.Channel_IsPlaying ch (β.Channel_IsPlaying t.clock ch),
                .Channel_GetMode ch (some ch_mode),
                .Channel_Set3DAttributes ch
                  (VectorAdd (env.cl_entities_lerp_origin fch.entnum) fch.origin_offset)
                  (S_UpdateMovingSounds_velocity env.sqrtf fch.have_prev_origin env.cls_frametime
                    (VectorAdd (env.cl_entities_lerp_origin fch.entnum) fch.origin_offset)
                    fch.prev_origin_qu).1] }
          rest) := by
  have h1 : ¬ (fch.entnum ≤ 0 ∨ fch.entnum ≥ env.MAX_EDICTS) := by
    intro h
    rcases h with h | h <;> omega
  simp only [S_UpdateMovingSounds_scan, hch, hsp, ChannelIsPlaying_some, hplay, hstatic, h1,
    hplayer, Trace.query_clock, hmode, h3d, hset, Trace.query, ne_eq, not_true_eq_false,
    if_false, Bool.true_eq_false, Bool.false_eq_true, not_false_eq_true, if_true,
    List.append_assoc, List.singleton_append, List.cons_append, List.nil_append]

theorem Atmoky_UpdateSpatializers_scan_free (β : Backend) (env : Engine) (s : State) (t : Trace)
    (l : List fmod_channel_t) (h : ∀ f ∈ l, f.channel = none) :
    Atmoky_UpdateSpatializers_scan β env s t l = (t, l) := by
  induction l with
  | nil => rfl
  | cons f rest ih =>
    have hf : f.channel = none := h f (List.mem_cons_self _ _)
    simp only [Atmoky_UpdateSpatializers_scan, hf, sweepNext,
      ih (fun g hg => h g (List.mem_cons_of_mem _ hg))]

/-- The iteration of `Atmoky_UpdateSpatializers` on a slot that is swept: in
use with a spatializer and reported playing. -/
theorem Atmoky_UpdateSpatializers_scan_swept (β : Backend) (env : Engine) (s : State) (t : Trace)
    (fch : fmod_channel_t) (rest : List fmod_channel_t) (ch dsp : Nat) (cur_origin : vec3_t)
    (hch : fch.channel = some ch) (hsp : fch.spatializer = some dsp)
    (hplay : reportsPlaying β t.clock ch = true)
    (hcur : cur_origin =
      if fch.is_static = false ∧ VALID_ENTITY env fch.entnum = true then
        VectorAdd (env.cl_entities_lerp_origin fch.entnum) fch.origin_offset
      else fch.origin_qu) :
    Atmoky_UpdateSpatializers_scan β env s t (fch :: rest) =
      sweepNext
        (sweepStore fch cur_origin
          (Atmoky_UpdateSpatializers_velocity env.sqrtf fch.have_prev_origin env.cls_frametime
            cur_origin fch.prev_origin_qu).2)
        (Atmoky_UpdateSpatializers_scan β env s
          { clock := t.clock + 1
            calls := t.calls ++
              [.Channel_IsPlaying ch (β.Channel_IsPlaying t.clock ch),
                .DSP_SetParameterData dsp ATMOKY_PARAMETER_ATTRIBUTES3D
                  (Atmoky_UpdateSpatializers_attributes s cur_origin
                    (Atmoky_UpdateSpatializers_velocity env.sqrtf fch.have_prev_origin
                      env.cls_frametime cur_origin fch.prev_origin_qu).1)] }
          rest) := by
  subst hcur
  simp only [Atmoky_UpdateSpatializers_scan, hch, hsp, ChannelIsPlaying_some, hplay,
    Trace.query, Trace.emit, Bool.true_eq_false, if_false, List.append_assoc,
    List.singleton_append, List.cons_append, List.nil_append]

/-! ### The velocity of a swept sound -/

theorem DotProduct_self_nonneg {K : Type} [LinearOrderedField K] (a : Vec3 K) :
    0 ≤ DotProduct a a := by
  unfold DotProduct
  have h1 := mul_self_nonneg a.x
  have h2 := mul_self_nonneg a.y
  have h3 := mul_self_nonneg a.z
  linarith

theorem DotProduct_VectorScale {K : Type} [LinearOrderedField K] (a : Vec3 K) (k : K) :
    DotProduct (VectorScale a k) (VectorScale a k) = DotProduct a a * (k * k) := by
  simp only [DotProduct, VectorScale]
  ring

theorem VectorScale_VectorScale {K : Type} [LinearOrderedField K] (a : Vec3 K) (k m : K) :
    VectorScale (VectorScale a k) m = VectorScale a (k * m) := by
  simp only [VectorScale, mul_assoc]

/-- An exact square root is determined by its square. -/
theorem sqrtf_unique {K : Type} [LinearOrderedField K] (sqrtf : K → K)
    (hsqrt : ∀ x : K, 0 ≤ x → 0 ≤ sqrtf x ∧ sqrtf x * sqrtf x = x) (r : K) (hr : 0 ≤ r) :
    sqrtf (r * r) = r := by
  obtain ⟨h1, h2⟩ := hsqrt (r * r) (mul_self_nonneg r)
  rcases mul_self_eq_mul_self_iff.mp h2 with h | h
  · exact h
  · have : r = 0 := by linarith
    rw [h, this]
    simp

/-- The two velocity blocks are the same function: their constants are the
same numbers. -/
theorem Atmoky_UpdateSpatializers_velocity_eq {K : Type} [LinearOrderedField K] (sqrtf : K → K)
    (flag : Bool) (dt : K) (cur prev : Vec3 K) :
    Atmoky_UpdateSpatializers_velocity sqrtf flag dt cur prev =
      S_UpdateMovingSounds_velocity sqrtf flag dt cur prev := by
  unfold Atmoky_UpdateSpatializers_velocity S_UpdateMovingSounds_velocity TELEPORT_DIST_QU
    MAX_SOUND_VELOCITY_QU
  rfl

/-- The velocity block on a displacement that is not a teleport. -/
theorem S_UpdateMovingSounds_velocity_near {K : Type} [LinearOrderedField K] (sqrtf : K → K)
    (hsqrt : ∀ x : K, 0 ≤ x → 0 ≤ sqrtf x ∧ sqrtf x * sqrtf x = x)
    (dt : K) (cur prev : Vec3 K) (hdt : 0 < dt)
    (hnear : sqrtf (DotProduct (VectorSubtract cur prev) (VectorSubtract cur prev)) ≤ 1000) :
    (3000 < sqrtf (DotProduct (VectorSubtract cur prev) (VectorSubtract cur prev)) / dt →
      (S_UpdateMovingSounds_velocity sqrtf true dt cur prev).1 =
        VectorScale (VectorSubtract cur prev)
          (3000 / sqrtf (DotProduct (VectorSubtract cur prev) (VectorSubtract cur prev)))) ∧
    (sqrtf (DotProduct (VectorSubtract cur prev) (VectorSubtract cur prev)) / dt ≤ 3000 →
      (S_UpdateMovingSounds_velocity sqrtf true dt cur prev).1 =
        VectorScale (VectorSubtract cur prev) (1 / dt)) := by
  obtain ⟨hs0, hss⟩ := hsqrt _ (DotProduct_self_nonneg (VectorSubtract cur prev))
  set d := VectorSubtract cur prev with hd
  set s := sqrtf (DotProduct d d) with hs
  have hdist : ¬ (DotProduct d d > 1000 * 1000) := by
    rw [← hss]
    have := mul_le_mul hnear hnear hs0 (by norm_num : (0 : K) ≤ 1000)
    exact not_lt.mpr this
  have hspeed : DotProduct (VectorScale d (1 / dt)) (VectorScale d (1 / dt)) =
      (s / dt) * (s / dt) := by
    rw [DotProduct_VectorScale, ← hss]
    field_simp
  have hq0 : 0 ≤ s / dt := div_nonneg hs0 (le_of_lt hdt)
  have hroot : sqrtf (DotProduct (VectorScale d (1 / dt)) (VectorScale d (1 / dt))) = s / dt := by
    rw [hspeed]
    exact sqrtf_unique sqrtf hsqrt _ hq0
  have hunf : S_UpdateMovingSounds_velocity sqrtf true dt cur prev =
      if DotProduct (VectorScale d (1 / dt)) (VectorScale d (1 / dt)) > 3000 * 3000 then
        (VectorScale (VectorScale d (1 / dt))
          (3000 / sqrtf (DotProduct (VectorScale d (1 / dt)) (VectorScale d (1 / dt)))), true)
      else (VectorScale d (1 / dt), true) := by
    unfold S_UpdateMovingSounds_velocity
    rw [if_pos ⟨rfl, hdt⟩]
    simp only [← hd]
    rw [if_neg hdist]
  refine ⟨fun hfast => ?_, fun hslow => ?_⟩
  · have hgt : DotProduct (VectorScale d (1 / dt)) (VectorScale d (1 / dt)) > 3000 * 3000 := by
      rw [hspeed]
      exact mul_lt_mul'' hfast hfast (by norm_num) (by norm_num)
    have hspos : 0 < s := by
      have h1 : 0 < s / dt := lt_trans (by norm_num) hfast
      by_contra hn
      have hs00 : s = 0 := le_antisymm (not_lt.mp hn) hs0
      rw [hs00] at h1
      simp at h1
    rw [hunf, if_pos hgt, hroot, VectorScale_VectorScale]
    field_simp
  · have hle : ¬ (DotProduct (VectorScale d (1 / dt)) (VectorScale d (1 / dt)) > 3000 * 3000) := by
      rw [hspeed]
      exact not_lt.mpr (mul_le_mul hslow hslow hq0 (by norm_num))
    rw [hunf, if_neg hle]

/-- C12: in exact arithmetic (any ordered field of scalars in which `sqrtf` is
the exact square root, the reals with the real square root among them), for a
slot with a previous position, `dt > 0` and a displacement `d = cur - prev`
with `|d| <= 1000`: when `|d| / dt > 3000`, the velocity computed by the sweep
of `S_UpdateMovingSounds` and by the sweep of `Atmoky_UpdateSpatializers` has
magnitude exactly 3000 and is a positive multiple of `d`; when
`|d| / dt <= 3000` it is exactly `d / dt`.  Magnitudes are `sqrtf` of the dot
product of a vector with itself. -/
theorem S_UpdateMovingSounds_velocity_clamp {K : Type} [LinearOrderedField K] (sqrtf : K → K)
    (hsqrt : ∀ x : K, 0 ≤ x → 0 ≤ sqrtf x ∧ sqrtf x * sqrtf x = x)
    (dt : K) (cur prev : Vec3 K) (hdt : 0 < dt)
    (hnear : sqrtf (DotProduct (VectorSubtract cur prev) (VectorSubtract cur prev)) ≤ 1000) :
    (3000 < sqrtf (DotProduct (VectorSubtract cur prev) (VectorSubtract cur prev)) / dt →
      ∀ v, v = (S_UpdateMovingSounds_velocity sqrtf true dt cur prev).1 ∨
          v = (Atmoky_UpdateSpatializers_velocity sqrtf true dt cur prev).1 →
        sqrtf (DotProduct v v) = 3000 ∧ DotProduct v v = 3000 * 3000 ∧
        ∃ k, 0 < k ∧ v = VectorScale (VectorSubtract cur prev) k) ∧
    (sqrtf (DotProduct (VectorSubtract cur prev) (VectorSubtract cur prev)) / dt ≤ 3000 →
      ∀ v, v = (S_UpdateMovingSounds_velocity sqrtf true dt cur prev).1 ∨
          v = (Atmoky_UpdateSpatializers_velocity sqrtf true dt cur prev).1 →
        v = VectorScale (VectorSubtract cur prev) (1 / dt)) := by
  obtain ⟨hfast, hslow⟩ := S_UpdateMovingSounds_velocity_near sqrtf hsqrt dt cur prev hdt hnear
  obtain ⟨hs0, hss⟩ := hsqrt _ (DotProduct_self_nonneg (VectorSubtract cur prev))
  refine ⟨fun h v hv => ?_, fun h v hv => ?_⟩
  · have hv2 : v = VectorScale (VectorSubtract cur prev)
        (3000 / sqrtf (DotProduct (VectorSubtract cur prev) (VectorSubtract cur prev))) := by
      rcases hv with hv | hv
      · rw [hv, hfast h]
      · rw [hv, Atmoky_UpdateSpatializers_velocity_eq, hfast h]
    have hspos : 0 < sqrtf (DotProduct (VectorSubtract cur prev) (VectorSubtract cur prev)) := by
      have h1 : 0 < sqrtf (DotProduct (VectorSubtract cur prev) (VectorSubtract cur prev)) / dt :=
        lt_trans (by norm_num) h
      by_contra hn
      have hs00 := le_antisymm (not_lt.mp hn) hs0
      rw [hs00] at h1
      simp at h1
    have hsq : DotProduct v v = 3000 * 3000 := by
      rw [hv2, DotProduct_VectorScale]
      nth_rewrite 1 [← hss]
      field_simp
    refine ⟨?_, hsq, _, div_pos (by norm_num) hspos, hv2⟩
    rw [hsq]
    exact sqrtf_unique sqrtf hsqrt 3000 (by norm_num)
  · rcases hv with hv | hv
    · rw [hv, hslow h]
    · rw [hv, Atmoky_UpdateSpatializers_velocity_eq, hslow h]

/-- C12 over the reals: the displacement `(400, 400, 0)` has length
`400 √2 <= 1000`, and in a tenth of a second it implies a speed above 3000;
the velocity of both sweeps has magnitude exactly 3000. -/
theorem S_UpdateMovingSounds_velocity_clamp_witness :
    (∀ x : ℝ, 0 ≤ x → 0 ≤ Real.sqrt x ∧ Real.sqrt x * Real.sqrt x = x) ∧
    (0 : ℝ) < 1 / 10 ∧
    Real.sqrt (DotProduct (VectorSubtract (⟨400, 400, 0⟩ : Vec3 ℝ) ⟨0, 0, 0⟩)
      (VectorSubtract ⟨400, 400, 0⟩ ⟨0, 0, 0⟩)) ≤ 1000 ∧
    3000 < Real.sqrt (DotProduct (VectorSubtract (⟨400, 400, 0⟩ : Vec3 ℝ) ⟨0, 0, 0⟩)
      (VectorSubtract ⟨400, 400, 0⟩ ⟨0, 0, 0⟩)) / (1 / 10) ∧
    Real.sqrt (DotProduct
      (S_UpdateMovingSounds_velocity Real.sqrt true (1 / 10) (⟨400, 400, 0⟩ : Vec3 ℝ) ⟨0, 0, 0⟩).1
      (S_UpdateMovingSounds_velocity Real.sqrt true (1 / 10) (⟨400, 400, 0⟩ : Vec3 ℝ)
        ⟨0, 0, 0⟩).1) = 3000 ∧
    Real.sqrt (DotProduct
      (Atmoky_UpdateSpatializers_velocity Real.sqrt true (1 / 10) (⟨400, 400, 0⟩ : Vec3 ℝ)
        ⟨0, 0, 0⟩).1
      (Atmoky_UpdateSpatializers_velocity Real.sqrt true (1 / 10) (⟨400, 400, 0⟩ : Vec3 ℝ)
        ⟨0, 0, 0⟩).1) = 3000 := by
  have hsqrt : ∀ x : ℝ, 0 ≤ x → 0 ≤ Real.sqrt x ∧ Real.sqrt x * Real.sqrt x = x :=
    fun x hx => ⟨Real.sqrt_nonneg x, Real.mul_self_sqrt hx⟩
  have hdd : DotProduct (VectorSubtract (⟨400, 400, 0⟩ : Vec3 ℝ) ⟨0, 0, 0⟩)
      (VectorSubtract ⟨400, 400, 0⟩ ⟨0, 0, 0⟩) = 320000 := by
    norm_num [DotProduct, VectorSubtract]
  have hnear : Real.sqrt (DotProduct (VectorSubtract (⟨400, 400, 0⟩ : Vec3 ℝ) ⟨0, 0, 0⟩)
      (VectorSubtract ⟨400, 400, 0⟩ ⟨0, 0, 0⟩)) ≤ 1000 := by
    rw [hdd]
    exact Real.sqrt_le_iff.mpr ⟨by norm_num, by norm_num⟩
  have hfast : 3000 < Real.sqrt (DotProduct (VectorSubtract (⟨400, 400, 0⟩ : Vec3 ℝ) ⟨0, 0, 0⟩)
      (VectorSubtract ⟨400, 400, 0⟩ ⟨0, 0, 0⟩)) / (1 / 10) := by
    rw [hdd]
    have h300 : (300 : ℝ) < Real.sqrt 320000 :=
      (Real.lt_sqrt (by norm_num)).mpr (by norm_num)
    linarith
  have key := (S_UpdateMovingSounds_velocity_clamp Real.sqrt hsqrt (1 / 10)
    (⟨400, 400, 0⟩ : Vec3 ℝ) ⟨0, 0, 0⟩ (by norm_num) hnear).1 hfast
  exact ⟨hsqrt, by norm_num, hnear, hfast, (key _ (Or.inl rfl)).1, (key _ (Or.inr rfl)).1⟩

/-! ### A teleport seen by the sweeps -/

theorem velocity_jump (sqrtf : ℚ → ℚ) :
    S_UpdateMovingSounds_velocity sqrtf true (1 / 10) (⟨2000, 0, 0⟩ : vec3_t) ⟨0, 0, 0⟩ =
      (⟨0, 0, 0⟩, false) := by
  norm_num [S_UpdateMovingSounds_velocity, VectorSubtract, DotProduct]

theorem velocity_step (sqrtf : ℚ → ℚ) :
    S_UpdateMovingSounds_velocity sqrtf true (1 / 10) (⟨2010, 0, 0⟩ : vec3_t) ⟨2000, 0, 0⟩ =
      (⟨100, 0, 0⟩, true) := by
  norm_num [S_UpdateMovingSounds_velocity, VectorSubtract, DotProduct, VectorScale]

theorem replicate_free (n : Nat) : ∀ f ∈ List.replicate n fmod_channel_zero, f.channel = none := by
  intro f hf
  rw [(List.mem_replicate.mp hf).2]
  rfl

/-- The sweep of `S_UpdateMovingSounds` over a pool whose slot 0 holds a
sound of entity 5 that is swept and whose other slots are free, with every
entity at `pos` and a frame of a tenth of a second. -/
theorem S_UpdateMovingSounds_one (pos : vec3_t) (fch : fmod_channel_t) (n : Nat) (s : State)
    (hpool : s.fmod_channels = fch :: List.replicate n fmod_channel_zero)
    (hch : fch.channel = some 1) (hsp : fch.spatializer = none) (hstatic : fch.is_static = false)
    (hent : fch.entnum = 5) (hoff : fch.origin_offset = ⟨0, 0, 0⟩) :
    S_UpdateMovingSounds backendLive
        { engineQuake with cl_entities_lerp_origin := fun _ => pos } s =
      { s with
        trace :=
          { clock := s.trace.clock + 3
            calls := s.trace.calls ++
              [.Channel_IsPlaying 1 (some true), .Channel_GetMode 1 (some [.FMOD_3D]),
                .Channel_Set3DAttributes 1 pos
                  (S_UpdateMovingSounds_velocity engineQuake.sqrtf fch.have_prev_origin (1 / 10)
                    pos fch.prev_origin_qu).1] }
        fmod_channels :=
          sweepStore fch pos (S_UpdateMovingSounds_velocity engineQuake.sqrtf
            fch.have_prev_origin (1 / 10) pos fch.prev_origin_qu).2 ::
            List.replicate n fmod_channel_zero } := by
  have hcur : VectorAdd pos fch.origin_offset = pos := by
    rw [hoff]
    simp [VectorAdd]
  have hlo : 0 < fch.entnum := by rw [hent]; decide
  have hhi : fch.entnum <
      ({ engineQuake with cl_entities_lerp_origin := fun _ => pos } : Engine).MAX_EDICTS := by
    rw [hent]
    show (5 : Int) < 512
    decide
  have hpl : fch.entnum ≠
      ({ engineQuake with cl_entities_lerp_origin := fun _ => pos } : Engine).cl_playernum + 1 := by
    rw [hent]
    show (5 : Int) ≠ 0 + 1
    decide
  unfold S_UpdateMovingSounds
  rw [hpool, S_UpdateMovingSounds_scan_swept backendLive
    { engineQuake with cl_entities_lerp_origin := fun _ => pos } s.trace fch _ 1 [.FMOD_3D]
    hch hsp rfl hstatic hlo hhi hpl rfl (List.mem_singleton.mpr rfl) rfl,
    S_UpdateMovingSounds_scan_free _ _ _ _ (replicate_free n)]
  simp only [sweepNext, hcur]
  rfl

/-- The sweep of `Atmoky_UpdateSpatializers` over a pool whose slot 0 holds a
spatialized sound of entity 5 and whose other slots are free, with every
entity at `pos` and a frame of a tenth of a second. -/
theorem Atmoky_UpdateSpatializers_one (pos : vec3_t) (fch : fmod_channel_t) (n : Nat) (s : State)
    (havail : s.atmoky_available = true)
    (hpool : s.fmod_channels = fch :: List.replicate n fmod_channel_zero)
    (hch : fch.channel = some 1) (hsp : fch.spatializer = some 900)
    (hstatic : fch.is_static = false)
    (hent : fch.entnum = 5) (hoff : fch.origin_offset = ⟨0, 0, 0⟩) :
    Atmoky_UpdateSpatializers backendLive
        { engineQuake with cl_entities_lerp_origin := fun _ => pos } s =
      { s with
        trace :=
          { clock := s.trace.clock + 1
            calls := s.trace.calls ++
              [.Channel_IsPlaying 1 (some true),
                .DSP_SetParameterData 900 ATMOKY_PARAMETER_ATTRIBUTES3D
                  (Atmoky_UpdateSpatializers_attributes s pos
                    (Atmoky_UpdateSpatializers_velocity engineQuake.sqrtf fch.have_prev_origin
                      (1 / 10) pos fch.prev_origin_qu).1)] }
        fmod_channels :=
          sweepStore fch pos (Atmoky_UpdateSpatializers_velocity engineQuake.sqrtf
            fch.have_prev_origin (1 / 10) pos fch.prev_origin_qu).2 ::
            List.replicate n fmod_channel_zero } := by
  have hcur : pos =
      if fch.is_static = false ∧
          VALID_ENTITY { engineQuake with cl_entities_lerp_origin := fun _ => pos } fch.entnum
            = true then
        VectorAdd (({ engineQuake with cl_entities_lerp_origin := fun _ => pos } :
          Engine).cl_entities_lerp_origin fch.entnum) fch.origin_offset
      else fch.origin_qu := by
    have hv : VALID_ENTITY { engineQuake with cl_entities_lerp_origin := fun _ => pos } fch.entnum
        = true := by
      rw [hent]
      show decide ((5 : Int) > 0 ∧ (5 : Int) < 512) = true
      decide
    rw [if_pos ⟨hstatic, hv⟩, hoff]
    simp [VectorAdd]
  unfold Atmoky_UpdateSpatializers
  rw [if_neg (by rw [havail]; simp), hpool,
    Atmoky_UpdateSpatializers_scan_swept backendLive
      { engineQuake with cl_entities_lerp_origin := fun _ => pos } s s.trace fch _ 1 900 pos
      hch hsp rfl hcur,
    Atmoky_UpdateSpatializers_scan_free _ _ _ _ _ (replicate_free n)]
  rfl

/-- C11 on the code: a sound of entity 5 tracked with previous position
`(0, 0, 0)`; frames last a tenth of a second.  In the first frame the entity
is at `(2000, 0, 0)`, a teleport: both sweeps send the zero velocity, and
leave the slot with `have_prev_origin` true (the `false` stored by the
teleport branch is overwritten at the end of the iteration).  In the next
frame the entity is at `(2010, 0, 0)`: both sweeps compute the velocity
`(100, 0, 0)` from the displacement, not zero. -/
theorem sweep_teleport_flag_overwritten :
    (S_UpdateMovingSounds backendLive engineJump stateMoving).trace.calls =
      [.Channel_IsPlaying 1 (some true), .Channel_GetMode 1 (some [.FMOD_3D]),
        .Channel_Set3DAttributes 1 ⟨2000, 0, 0⟩ ⟨0, 0, 0⟩] ∧
    (S_UpdateMovingSounds backendLive engineJump stateMoving).fmod_channels[0]? =
      some { slotMoving with
        origin_qu := ⟨2000, 0, 0⟩, prev_origin_qu := ⟨2000, 0, 0⟩, have_prev_origin := true } ∧
    (S_UpdateMovingSounds backendLive engineStep
      (S_UpdateMovingSounds backendLive engineJump stateMoving)).trace.calls =
      [.Channel_IsPlaying 1 (some true), .Channel_GetMode 1 (some [.FMOD_3D]),
        .Channel_Set3DAttributes 1 ⟨2000, 0, 0⟩ ⟨0, 0, 0⟩,
        .Channel_IsPlaying 1 (some true), .Channel_GetMode 1 (some [.FMOD_3D]),
        .Channel_Set3DAttributes 1 ⟨2010, 0, 0⟩ ⟨100, 0, 0⟩] ∧
    (Atmoky_UpdateSpatializers backendLive engineJump stateSpatial).trace.calls =
      [.Channel_IsPlaying 1 (some true),
        .DSP_SetParameterData 900 ATMOKY_PARAMETER_ATTRIBUTES3D
          (Atmoky_UpdateSpatializers_attributes stateSpatial ⟨2000, 0, 0⟩ ⟨0, 0, 0⟩)] ∧
    (Atmoky_UpdateSpatializers backendLive engineJump stateSpatial).fmod_channels[0]? =
      some { slotMoving with
        spatializer := some 900
        origin_qu := ⟨2000, 0, 0⟩, prev_origin_qu := ⟨2000, 0, 0⟩, have_prev_origin := true } ∧
    (Atmoky_UpdateSpatializers backendLive engineStep
      (Atmoky_UpdateSpatializers backendLive engineJump stateSpatial)).trace.calls =
      [.Channel_IsPlaying 1 (some true),
        .DSP_SetParameterData 900 ATMOKY_PARAMETER_ATTRIBUTES3D
          (Atmoky_UpdateSpatializers_attributes stateSpatial ⟨2000, 0, 0⟩ ⟨0, 0, 0⟩),
        .Channel_IsPlaying 1 (some true),
        .DSP_SetParameterData 900 ATMOKY_PARAMETER_ATTRIBUTES3D
          (Atmoky_UpdateSpatializers_attributes stateSpatial ⟨2010, 0, 0⟩ ⟨100, 0, 0⟩)] := by
  have hv1 : S_UpdateMovingSounds_velocity engineQuake.sqrtf slotMoving.have_prev_origin (1 / 10)
      (⟨2000, 0, 0⟩ : vec3_t) slotMoving.prev_origin_qu = (⟨0, 0, 0⟩, false) :=
    velocity_jump _
  have hv2 : S_UpdateMovingSounds_velocity engineQuake.sqrtf
      (sweepStore slotMoving ⟨2000, 0, 0⟩ false).have_prev_origin (1 / 10)
      (⟨2010, 0, 0⟩ : vec3_t) (sweepStore slotMoving ⟨2000, 0, 0⟩ false).prev_origin_qu =
      (⟨100, 0, 0⟩, true) := velocity_step _
  have hw1 : Atmoky_UpdateSpatializers_velocity engineQuake.sqrtf
      ({ slotMoving with spatializer := some 900 } : fmod_channel_t).have_prev_origin (1 / 10)
      (⟨2000, 0, 0⟩ : vec3_t)
      ({ slotMoving with spatializer := some 900 } : fmod_channel_t).prev_origin_qu =
      (⟨0, 0, 0⟩, false) :=
    (Atmoky_UpdateSpatializers_velocity_eq _ _ _ _ _).trans (velocity_jump _)
  have hw2 : Atmoky_UpdateSpatializers_velocity engineQuake.sqrtf
      (sweepStore { slotMoving with spatializer := some 900 } ⟨2000, 0, 0⟩
        false).have_prev_origin (1 / 10) (⟨2010, 0, 0⟩ : vec3_t)
      (sweepStore { slotMoving with spatializer := some 900 } ⟨2000, 0, 0⟩
        false).prev_origin_qu = (⟨100, 0, 0⟩, true) :=
    (Atmoky_UpdateSpatializers_velocity_eq _ _ _ _ _).trans (velocity_step _)
  have h1 := S_UpdateMovingSounds_one ⟨2000, 0, 0⟩ slotMoving 4094 stateMoving rfl rfl rfl rfl
    rfl rfl
  rw [hv1] at h1
  change S_UpdateMovingSounds backendLive engineJump stateMoving = _ at h1
  have h2 := S_UpdateMovingSounds_one ⟨2010, 0, 0⟩ (sweepStore slotMoving ⟨2000, 0, 0⟩ false) 4094
    (S_UpdateMovingSounds backendLive engineJump stateMoving) (by rw [h1]) rfl rfl rfl rfl rfl
  rw [hv2] at h2
  change S_UpdateMovingSounds backendLive engineStep _ = _ at h2
  have h3 := Atmoky_UpdateSpatializers_one ⟨2000, 0, 0⟩ { slotMoving with spatializer := some 900 }
    4094 stateSpatial rfl rfl rfl rfl rfl rfl rfl
  rw [hw1] at h3
  change Atmoky_UpdateSpatializers backendLive engineJump stateSpatial = _ at h3
  have h4 := Atmoky_UpdateSpatializers_one ⟨2010, 0, 0⟩
    (sweepStore { slotMoving with spatializer := some 900 } ⟨2000, 0, 0⟩ false) 4094
    (Atmoky_UpdateSpatializers backendLive engineJump stateSpatial) (by rw [h3]; rfl) (by rw [h3])
    rfl rfl rfl rfl rfl
  rw [hw2] at h4
  change Atmoky_UpdateSpatializers backendLive engineStep _ = _ at h4
  refine ⟨?_, ?_, ?_, ?_, ?_, ?_⟩
  · rw [h1]
    rfl
  · rw [h1]
    show (_ :: List.replicate 4094 fmod_channel_zero)[0]? = _
    rw [List.getElem?_cons_zero]
    rfl
  · rw [h2]
    show (S_UpdateMovingSounds backendLive engineJump stateMoving).trace.calls ++ _ = _
    rw [h1]
    rfl
  · rw [h3]
    rfl
  · rw [h3]
    show (_ :: List.replicate 4094 fmod_channel_zero)[0]? = _
    rw [List.getElem?_cons_zero]
    rfl
  · rw [h4]
    show (Atmoky_UpdateSpatializers backendLive engineJump stateSpatial).trace.calls ++ _ = _
    rw [h3]
    rfl

/-! ### The size of the pool -/

theorem AllocChannel_length (β : Backend) (s : State) :
    (AllocChannel β s).2.fmod_channels.length = s.fmod_channels.length := by
  obtain ⟨_, hsome, hnone⟩ := AllocChannel_frame β s
  cases h : (AllocChannel β s).1 with
  | none => rw [hnone h]
  | some i =>
    obtain ⟨_, _, _, _, heq⟩ := hsome i h
    rw [heq, List.length_set]

theorem FindChannel_length (β : Backend) (s : State) (e c : Int) :
    (FindChannel β s e c).2.fmod_channels.length = s.fmod_channels.length :=
  ((FindChannel_scan_spec β e c s.trace s.fmod_channels).2.1.length_eq).symm

theorem S_StartSound_beforePlay_length (β : Backend) (s : State) (e c : Int) :
    (S_StartSound_beforePlay β s e c).fmod_channels.length = s.fmod_channels.length := by
  unfold S_StartSound_beforePlay
  split
  · exact ((S_StartSound_stopExisting_spec β e c (s.fmod_channels.length + 1) s
      (Nat.lt_succ_of_le (inUseCount_le_length _))).2.1.length_eq).symm
  · rfl

theorem S_StartSound_afterPlay_length (β : Backend) (env : Engine) (s : State) (ch : Nat)
    (e c : Int) (sfx : Option Nat) (origin : vec3_t) (fvol att : ℚ) :
    (S_StartSound_afterPlay β env s ch e c sfx origin fvol att).1.fmod_channels.length =
      s.fmod_channels.length := by
  obtain ⟨_, _, hnone, hsome⟩ := S_StartSound_afterPlay_spec β env s ch e c sfx origin fvol att
  cases h : (AllocChannel β s).1 with
  | none => rw [hnone h, AllocChannel_length]
  | some i =>
    obtain ⟨_, _, _, _, heq⟩ := hsome i h
    rw [heq, List.length_set, AllocChannel_length]

theorem S_StartSound_length (β : Backend) (env : Engine) (s : State) (e c : Int)
    (sfx : Option Nat) (origin : vec3_t) (fvol att : ℚ) :
    (S_StartSound β env s e c sfx origin fvol att).fmod_channels.length =
      s.fmod_channels.length := by
  have hload : (FMOD_LoadSfx β s sfx).2.fmod_channels.length = s.fmod_channels.length := by
    rw [(FMOD_LoadSfx_frame β s sfx).1]
  unfold S_StartSound S_StartSound_run
  split
  · rfl
  · split
    · exact hload
    · simp only
      split
      · rw [State.query_fmod_channels, S_StartSound_beforePlay_length, hload]
      · rw [S_StartSound_afterPlay_length, State.query_fmod_channels,
          S_StartSound_beforePlay_length, hload]

theorem Atmoky_AttachSpatializer_length (β : Backend) (s : State) (i ch : Nat)
    (origin : vec3_t) (mn mx : ℚ) :
    (Atmoky_AttachSpatializer β s (some i) (some ch) origin mn mx).fmod_channels.length =
      s.fmod_channels.length := by
  rcases (Atmoky_AttachSpatializer_frame β s i ch origin mn mx).2 with h | ⟨_, _, _, h⟩
  · rw [h]
  · rw [h, List.length_set]

theorem S_StaticSound_afterPlay_length (β : Backend) (s : State) (ch : Nat) (sfx : Option Nat)
    (origin : vec3_t) (vol att : ℚ) :
    (S_StaticSound_afterPlay β s ch sfx origin vol att).fmod_channels.length =
      s.fmod_channels.length := by
  unfold S_StaticSound_afterPlay
  split
  · simp only [State.emit_fmod_channels]
    split
    · rw [Atmoky_AttachSpatializer_length, State.setSlot_fmod_channels, List.length_set,
        AllocChannel_length]
      simp only [State.emit_fmod_channels]
    · rw [AllocChannel_length]
      simp only [State.emit_fmod_channels]
  · simp only
    split
    · rw [State.setSlot_fmod_channels, List.length_set, AllocChannel_length]
      simp only [State.emit_fmod_channels]
    · rw [AllocChannel_length]
      simp only [State.emit_fmod_channels]

theorem S_StaticSound_length (β : Backend) (s : State) (sfx : Option Nat) (origin : vec3_t)
    (vol att : ℚ) :
    (S_StaticSound β s sfx origin vol att).fmod_channels.length = s.fmod_channels.length := by
  have hload : (FMOD_LoadSfx β s sfx).2.fmod_channels.length = s.fmod_channels.length := by
    rw [(FMOD_LoadSfx_frame β s sfx).1]
  unfold S_StaticSound
  split
  · rfl
  · split
    · exact hload
    · simp only
      split
      · rw [State.query_fmod_channels, hload]
      · rw [S_StaticSound_afterPlay_length, State.query_fmod_channels, hload]

theorem S_StopSound_length (s : State) (e c : Int) :
    (S_StopSound s e c).fmod_channels.length = s.fmod_channels.length :=
  S_StopSound_scan_length e c s.trace s.fmod_channels

theorem S_StopAllSounds_length (s : State) :
    (S_StopAllSounds s).fmod_channels.length = s.fmod_channels.length := by
  unfold S_StopAllSounds
  split
  · rfl
  · simp [StopAmbientChannels, StopAllTrackedChannels]

theorem S_UpdateMovingSounds_scan_length (β : Backend) (env : Engine) (t : Trace)
    (l : List fmod_channel_t) :
    (S_UpdateMovingSounds_scan β env t l).2.length = l.length := by
  induction l generalizing t with
  | nil => rfl
  | cons fch rest ih =>
    unfold S_UpdateMovingSounds_scan
    split
    · simp [sweepNext, ih]
    · split
      · simp [sweepNext, ih]
      · simp only
        split
        · simp [sweepNext, ih]
        · split
          · simp [sweepNext, ih]
          · split
            · simp [sweepNext, ih]
            · split
              · simp [sweepNext, ih]
              · split
                · simp
                · split
                  · simp [sweepNext, ih]
                  · split
                    · simp
                    · simp [sweepNext, ih]

theorem Atmoky_UpdateSpatializers_scan_length (β : Backend) (env : Engine) (s : State)
    (t : Trace) (l : List fmod_channel_t) :
    (Atmoky_UpdateSpatializers_scan β env s t l).2.length = l.length := by
  induction l generalizing t with
  | nil => rfl
  | cons fch rest ih =>
    unfold Atmoky_UpdateSpatializers_scan
    split
    · simp only
      split
      · simp [sweepNext, ih]
      · simp [sweepNext, ih]
    · simp [sweepNext, ih]

theorem S_UpdateMovingSounds_length (β : Backend) (env : Engine) (s : State) :
    (S_UpdateMovingSounds β env s).fmod_channels.length = s.fmod_channels.length :=
  S_UpdateMovingSounds_scan_length β env s.trace s.fmod_channels

theorem Atmoky_UpdateSpatializers_length (β : Backend) (env : Engine) (s : State) :
    (Atmoky_UpdateSpatializers β env s).fmod_channels.length = s.fmod_channels.length := by
  unfold Atmoky_UpdateSpatializers
  split
  · rfl
  · exact Atmoky_UpdateSpatializers_scan_length β env s s.trace s.fmod_channels

theorem S_UpdateAmbientSounds_fmod_channels (β : Backend) (env : Engine) (s : State) :
    (S_UpdateAmbientSounds β env s).fmod_channels = s.fmod_channels := by
  unfold S_UpdateAmbientSounds
  split
  · rfl
  · split
    · rfl
    · exact (S_UpdateAmbientSounds_loop_frame β env _ _ 0 s).2.1

theorem Atmoky_AttachExternalizer_fmod_channels (β : Backend) (env : Engine) (s : State) :
    (Atmoky_AttachExternalizer β env s).fmod_channels = s.fmod_channels := by
  unfold Atmoky_AttachExternalizer
  split
  · rfl
  · split
    · rfl
    · split
      · rfl
      · simp only
        split
        · rfl
        · split
          · rfl
          · split
            · simp only [State.emit, State.query]
            · simp only [State.emit, State.query]

theorem Atmoky_DetachExternalizer_fmod_channels (β : Backend) (s : State) :
    (Atmoky_DetachExternalizer β s).fmod_channels = s.fmod_channels := by
  unfold Atmoky_DetachExternalizer
  split
  · rfl
  · simp only
    split
    · rfl
    · split
      · rfl
      · rfl

theorem Atmoky_UpdateExternalizer_fmod_channels (β : Backend) (env : Engine) (s : State) :
    (Atmoky_UpdateExternalizer β env s).fmod_channels = s.fmod_channels := by
  have h1 : (if env.s_externalizer ≠ 0 ∧ s.atmoky_master_externalizer = none then
      Atmoky_AttachExternalizer β env s else s).fmod_channels = s.fmod_channels := by
    split
    · exact Atmoky_AttachExternalizer_fmod_channels β env s
    · rfl
  unfold Atmoky_UpdateExternalizer
  split
  · exact Atmoky_DetachExternalizer_fmod_channels β s
  · simp only
    split
    · exact h1
    · exact h1

theorem S_Update_listener_fmod_channels (β : Backend) (env : Engine) (s : State)
    (origin forward right up : vec3_t) :
    (S_Update_listener β env s origin forward right up).fmod_channels = s.fmod_channels := by
  unfold S_Update_listener
  simp only
  split <;> split <;> simp only [State.emit, State.query]

theorem S_Update_length (β : Backend) (env : Engine) (s : State)
    (origin forward right up : vec3_t) :
    (S_Update β env s origin forward right up).fmod_channels.length =
      s.fmod_channels.length := by
  have hm : (S_UpdateMovingSounds β env (S_UpdateAmbientSounds β env
      (S_Update_listener β env s origin forward right up))).fmod_channels.length
      = s.fmod_channels.length := by
    rw [S_UpdateMovingSounds_length, S_UpdateAmbientSounds_fmod_channels,
      S_Update_listener_fmod_channels]
  unfold S_Update
  split
  · rfl
  · simp only [State.emit_fmod_channels]
    split
    · split
      · rw [State.emit_fmod_channels, Atmoky_UpdateExternalizer_fmod_channels,
          Atmoky_UpdateSpatializers_length, hm]
      · rw [State.emit_fmod_channels, hm]
    · split
      · rw [Atmoky_UpdateExternalizer_fmod_channels, Atmoky_UpdateSpatializers_length, hm]
      · exact hm

/-- C14: in every state reached from the empty pool by any sequence of
`AllocChannel` (alone, or followed by the caller writing the slot it
returned), `FindChannel`, `S_StartSound`, `S_StaticSound`, `S_StopSound`,
`S_StopAllSounds`, the two per-frame sweeps and `S_Update`, with any backend
answers and any arguments, the pool still has `MAX_FMOD_CHANNELS` slots and
the number of slots in use is at most `MAX_FMOD_CHANNELS`. -/
theorem pool_capacity (s : State) (h : PoolReachable s) :
    s.fmod_channels.length = MAX_FMOD_CHANNELS ∧
    inUseCount s.fmod_channels ≤ MAX_FMOD_CHANNELS := by
  have hlen : s.fmod_channels.length = MAX_FMOD_CHANNELS := by
    induction h with
    | empty s h => rw [h, List.length_replicate]
    | alloc β s _ ih => rw [AllocChannel_length, ih]
    | fill β s i fch _ _ ih =>
      rw [State.setSlot_fmod_channels, List.length_set, AllocChannel_length, ih]
    | find β s e c _ ih => rw [FindChannel_length, ih]
    | start β env s e c sfx origin fvol att _ ih => rw [S_StartSound_length, ih]
    | static β s sfx origin vol att _ ih => rw [S_StaticSound_length, ih]
    | stop s e c _ ih => rw [S_StopSound_length, ih]
    | stopAll s _ ih => rw [S_StopAllSounds_length, ih]
    | moving β env s _ ih => rw [S_UpdateMovingSounds_length, ih]
    | spatializers β env s _ ih => rw [Atmoky_UpdateSpatializers_length, ih]
    | update β env s origin forward right up _ ih => rw [S_Update_length, ih]
  exact ⟨hlen, hlen ▸ inUseCount_le_length s.fmod_channels⟩

/-- C14 at a concrete sequence: from the ready state, whose pool is empty, a
sound is started for entity 5, a static sound is added, a frame is run and
entity 5 is stopped. -/
theorem pool_capacity_witness :
    PoolReachable (S_StopSound (S_Update backendLive engineQuake
      (S_StaticSound backendLive
        (S_StartSound backendLive engineQuake stateReady 5 1 (some 0) vec3_origin 1 1)
        (some 1) vec3_origin 255 1) vec3_origin ⟨1, 0, 0⟩ ⟨0, -1, 0⟩ ⟨0, 0, 1⟩) 5 1) ∧
    inUseCount (S_StopSound (S_Update backendLive engineQuake
      (S_StaticSound backendLive
        (S_StartSound backendLive engineQuake stateReady 5 1 (some 0) vec3_origin 1 1)
        (some 1) vec3_origin 255 1) vec3_origin ⟨1, 0, 0⟩ ⟨0, -1, 0⟩
        ⟨0, 0, 1⟩) 5 1).fmod_channels ≤ MAX_FMOD_CHANNELS :=
  have hr : PoolReachable (S_StopSound (S_Update backendLive engineQuake
      (S_StaticSound backendLive
        (S_StartSound backendLive engineQuake stateReady 5 1 (some 0) vec3_origin 1 1)
        (some 1) vec3_origin 255 1) vec3_origin ⟨1, 0, 0⟩ ⟨0, -1, 0⟩ ⟨0, 0, 1⟩) 5 1) :=
    .stop _ 5 1 (.update backendLive engineQuake _ _ _ _ _
      (.static backendLive _ _ _ _ _
        (.start backendLive engineQuake _ 5 1 _ _ _ _ (.empty stateReady rfl))))
  ⟨hr, (pool_capacity _ hr).2⟩

/-! ### The subsystem while it is not initialised -/

theorem Uninitialised_stateCold : Uninitialised stateCold :=
  ⟨rfl, replicate_free MAX_FMOD_CHANNELS⟩

/-- `S_Shutdown` on an initialised subsystem leaves it uninitialised, with the
pool zeroed. -/
theorem S_Shutdown_Uninitialised (β : Backend) (s : State) (h : s.fmod_initialized = true) :
    Uninitialised (S_Shutdown β s) := by
  have hpool : (S_Shutdown β s).fmod_channels =
      s.fmod_channels.map (fun _ => fmod_channel_zero) := by
    unfold S_Shutdown
    rw [if_neg (by rw [h]; simp)]
    simp only
    split <;> split <;> split <;> split <;>
      simp only [State.emit, Atmoky_DetachExternalizer_fmod_channels] <;> rfl
  have hflag : (S_Shutdown β s).fmod_initialized = false := by
    unfold S_Shutdown
    rw [if_neg (by rw [h]; simp)]
  refine ⟨hflag, fun fch hf => ?_⟩
  rw [hpool] at hf
  obtain ⟨_, _, rfl⟩ := List.mem_map.mp hf
  rfl

/-- C15: while the subsystem is not initialised (`fmod_initialized` false and
no slot of the pool in use, as before `S_Init`, after a failed `S_Init` and
after `S_Shutdown`), each public operation returns the state it was given,
transcript included: nothing of the pool, the registry, the ambient state or
the listener changes and no call is made to the backend.  `S_PrecacheSound`
returns `NULL`. -/
theorem uninitialised_noop (β : Backend) (env : Engine) (s : State) (h : Uninitialised s)
    (name : Option String) (entnum entchannel : Int) (sfx : Option Nat)
    (origin forward right up : vec3_t) (vol attenuation : ℚ) :
    S_PrecacheSound β env s name = .ok (none, s) ∧
    S_TouchSound β env s name = .ok s ∧
    S_StartSound β env s entnum entchannel sfx origin vol attenuation = s ∧
    S_StaticSound β s sfx origin vol attenuation = s ∧
    S_StopSound s entnum entchannel = s ∧
    S_StopAllSounds s = s ∧
    S_Update β env s origin forward right up = s ∧
    S_ExtraUpdate env s = s := by
  obtain ⟨hinit, hpool⟩ := h
  refine ⟨?_, ?_, ?_, ?_, ?_, ?_, ?_, ?_⟩
  · unfold S_PrecacheSound
    rw [if_pos (Or.inl hinit)]
  · unfold S_TouchSound
    rw [if_pos hinit]
  · unfold S_StartSound S_StartSound_run
    rw [if_pos (Or.inl hinit)]
  · unfold S_StaticSound
    rw [if_pos (Or.inl hinit)]
  · unfold S_StopSound
    rw [S_StopSound_scan_noop entnum entchannel s.trace s.fmod_channels
      (fun fch hf hne => absurd (hpool fch hf) hne)]
  · unfold S_StopAllSounds
    rw [if_pos hinit]
  · unfold S_Update
    rw [if_pos (Or.inl hinit)]
  · unfold S_ExtraUpdate
    rw [if_pos (Or.inl hinit)]

/-- C15 at concrete states: before `S_Init` (`stateCold`), and after
`S_Shutdown` of the busy state. -/
theorem uninitialised_noop_witness :
    Uninitialised stateCold ∧
    S_StartSound backendLive engineQuake stateCold 5 1 (some 0) vec3_origin 1 1 = stateCold ∧
    S_StopSound stateCold 5 (-1) = stateCold ∧
    S_Update backendLive engineQuake stateCold vec3_origin ⟨1, 0, 0⟩ ⟨0, -1, 0⟩ ⟨0, 0, 1⟩ =
      stateCold ∧
    Uninitialised (S_Shutdown backendLive stateBusy) ∧
    S_StopSound (S_Shutdown backendLive stateBusy) 5 (-1) = S_Shutdown backendLive stateBusy ∧
    S_PrecacheSound backendLive engineQuake (S_Shutdown backendLive stateBusy)
      (some "misc/menu1.wav") = .ok (none, S_Shutdown backendLive stateBusy) :=
  have h1 := uninitialised_noop backendLive engineQuake stateCold Uninitialised_stateCold
    (some "misc/menu1.wav") 5 1 (some 0) vec3_origin ⟨1, 0, 0⟩ ⟨0, -1, 0⟩ ⟨0, 0, 1⟩ 1 1
  have h2 := uninitialised_noop backendLive engineQuake stateCold Uninitialised_stateCold
    (some "misc/menu1.wav") 5 (-1) (some 0) vec3_origin ⟨1, 0, 0⟩ ⟨0, -1, 0⟩ ⟨0, 0, 1⟩ 1 1
  have h3 := uninitialised_noop backendLive engineQuake (S_Shutdown backendLive stateBusy)
    (S_Shutdown_Uninitialised backendLive stateBusy rfl)
    (some "misc/menu1.wav") 5 (-1) (some 0) vec3_origin ⟨1, 0, 0⟩ ⟨0, -1, 0⟩ ⟨0, 0, 1⟩ 1 1
  ⟨Uninitialised_stateCold, h1.2.2.1, h2.2.2.2.2.1, h1.2.2.2.2.2.2.1,
    S_Shutdown_Uninitialised backendLive stateBusy rfl, h3.2.2.2.2.1, h3.1⟩

/-! ### Sub-channel 0 and the other sub-channels -/

theorem AllocChannel_scan1_live_free (β : Backend)
    (hplaying : ∀ clock ch, β.Channel_IsPlaying clock ch = some true) :
    ∀ (t : Trace) (l : List fmod_channel_t), (∃ f ∈ l, f.channel = none) →
      ∃ i f, (AllocChannel_scan1 β t l).1 = some i ∧ l[i]? = some f ∧ f.channel = none ∧
        (AllocChannel_scan1 β t l).2.2 = l ∧
        ∃ extra, (AllocChannel_scan1 β t l).2.1.calls = t.calls ++ extra ∧
          ∀ ch, FmodCall.Channel_Stop ch ∉ extra := by
  intro t l
  induction l generalizing t with
  | nil =>
    rintro ⟨f, hf, _⟩
    cases hf
  | cons fch rest ih =>
    intro hfree
    cases hch : fch.channel with
    | none =>
      rw [AllocChannel_scan1_free β t fch rest hch]
      exact ⟨0, fch, rfl, by simp, hch, rfl, [], by simp, by simp⟩
    | some ch =>
      have hp : reportsPlaying β t.clock ch = true := by
        unfold reportsPlaying
        rw [hplaying]
      rw [AllocChannel_scan1_live β t fch rest ch hch hp]
      have hrest : ∃ f ∈ rest, f.channel = none := by
        obtain ⟨f, hf, hnone⟩ := hfree
        rcases List.mem_cons.mp hf with rfl | hf
        · rw [hch] at hnone
          cases hnone
        · exact ⟨f, hf, hnone⟩
      obtain ⟨i, f, h1, h2, h3, h4, ex, h5, h6⟩ :=
        ih (t.query (.Channel_IsPlaying ch (β.Channel_IsPlaying t.clock ch))) hrest
      refine ⟨i + 1, f, by simp [scanNext, h1], by simpa using h2, h3, by simp [scanNext, h4],
        .Channel_IsPlaying ch (β.Channel_IsPlaying t.clock ch) :: ex, ?_, ?_⟩
      · simp only [scanNext, h5, Trace.query_calls, List.append_assoc, List.singleton_append]
      · intro c hc
        rcases List.mem_cons.mp hc with h | h
        · cases h
        · exact h6 c h

/-- While every channel reports playing and a slot is free, `AllocChannel`
returns a free slot, changes no slot and stops nothing. -/
theorem AllocChannel_live_free (β : Backend) (s : State)
    (hplaying : ∀ clock ch, β.Channel_IsPlaying clock ch = some true)
    (hfree : ∃ f ∈ s.fmod_channels, f.channel = none) :
    ∃ i f, (AllocChannel β s).1 = some i ∧ s.fmod_channels[i]? = some f ∧ f.channel = none ∧
      (AllocChannel β s).2.fmod_channels = s.fmod_channels ∧
      ∃ extra, (AllocChannel β s).2.trace.calls = s.trace.calls ++ extra ∧
        ∀ ch, FmodCall.Channel_Stop ch ∉ extra := by
  obtain ⟨i, f, h1, h2, h3, h4, ex, h5, h6⟩ :=
    AllocChannel_scan1_live_free β hplaying s.trace s.fmod_channels hfree
  refine ⟨i, f, AllocChannel_fst_of_scan1 β s i h1, h2, h3, ?_, ex, ?_, h6⟩
  · unfold AllocChannel
    simp only [h1]
    exact h4
  · unfold AllocChannel
    simp only [h1]
    exact h5

/-- A successful play on sub-channel 0 while every channel reports playing and
a slot is free: the new channel takes a slot that was free, no other slot
changes and nothing is stopped. -/
theorem S_StartSound_run_fire (β : Backend) (env : Engine) (s s1 : State) (e : Int)
    (sfx : Option Nat) (origin : vec3_t) (fvol att : ℚ) (ch : Nat) (fch : Option Nat)
    (hplaying : ∀ clock k, β.Channel_IsPlaying clock k = some true)
    (hfree : ∃ f ∈ s.fmod_channels, f.channel = none)
    (hrun : S_StartSound_run β env s e 0 sfx origin fvol att = (s1, some (ch, fch))) :
    ∃ i f y, fch = some i ∧ s.fmod_channels[i]? = some f ∧ f.channel = none ∧
      y.channel = some ch ∧ y.entnum = e ∧ y.entchannel = 0 ∧
      s1.fmod_channels = s.fmod_channels.set i y ∧
      ∃ extra, s1.trace.calls = s.trace.calls ++ extra ∧
        ∀ k, FmodCall.Channel_Stop k ∉ extra := by
  obtain ⟨snd, _, _, _, _, hafter⟩ :=
    S_StartSound_run_started β env s s1 e 0 sfx origin fvol att ch fch hrun
  obtain ⟨hLpool, exL, hexL, hstopL⟩ := FMOD_LoadSfx_frame β s sfx
  have hB : S_StartSound_beforePlay β (FMOD_LoadSfx β s sfx).2 e 0 = (FMOD_LoadSfx β s sfx).2 := by
    unfold S_StartSound_beforePlay
    rw [if_neg (by simp)]
  rw [hB] at hafter
  obtain ⟨hfch, ⟨exP, hexP, hstopP⟩, _, hsome⟩ := S_StartSound_afterPlay_spec β env
    ((FMOD_LoadSfx β s sfx).2.query (.System_PlaySound snd true (some ch))) ch e 0 sfx origin
    fvol att
  rw [hafter] at hfch hexP hsome
  simp only at hfch hexP hsome
  obtain ⟨i, f, hA1, hA2, hA3, hA4, exA, hA5, hA6⟩ := AllocChannel_live_free β
    ((FMOD_LoadSfx β s sfx).2.query (.System_PlaySound snd true (some ch))) hplaying
    (by rw [State.query_fmod_channels, hLpool]; exact hfree)
  obtain ⟨y, hy1, hy2, hy3, hpool⟩ := hsome i hA1
  rw [State.query_fmod_channels, hLpool] at hA2 hA4
  rw [hA4] at hpool
  refine ⟨i, f, y, hfch.trans hA1, hA2, hA3, hy1, hy2, hy3, hpool,
    exL ++ [.System_PlaySound snd true (some ch)] ++ exA ++ exP ++ [.Channel_SetPaused ch false],
    ?_, ?_⟩
  · rw [hexP, hA5, State.query_trace, Trace.query_calls, hexL]
    simp only [List.append_assoc]
  · intro k hk
    simp only [List.mem_append, List.mem_singleton] at hk
    rcases hk with (((hk | hk) | hk) | hk) | hk
    · exact hstopL k hk
    · cases hk
    · exact hA6 k hk
    · exact hstopP k hk
    · cases hk

/-- C16: `S_StartSound` with sub-channel 0 stops nothing.  While every channel
reports playing and a slot is free before each of them, two successive
successful plays on `(e, 0)` get two different slots, both in use for `(e, 0)`
after the second play, holding the two channels, and neither play stops any
channel.  With a sub-channel `c` other than 0, in the transcript of a
successful play every slot that was in use for `(e, c)` has its channel
stopped (`FMOD_Channel_Stop`, or the backend had just answered that it was not
playing any more) before the `FMOD_System_PlaySound` call that starts the new
sound. -/
theorem S_StartSound_subchannel_zero (β : Backend) (env : Engine) (e : Int) :
    (∀ (s s1 s2 : State) (sfx1 sfx2 : Option Nat) (o1 o2 : vec3_t) (v1 v2 a1 a2 : ℚ)
        (ch1 ch2 : Nat) (fch1 fch2 : Option Nat),
      (∀ clock k, β.Channel_IsPlaying clock k = some true) →
      (∃ f ∈ s.fmod_channels, f.channel = none) →
      S_StartSound_run β env s e 0 sfx1 o1 v1 a1 = (s1, some (ch1, fch1)) →
      (∃ f ∈ s1.fmod_channels, f.channel = none) →
      S_StartSound_run β env s1 e 0 sfx2 o2 v2 a2 = (s2, some (ch2, fch2)) →
      ∃ i1 i2 f1 f2, fch1 = some i1 ∧ fch2 = some i2 ∧ i1 ≠ i2 ∧
        s2.fmod_channels[i1]? = some f1 ∧ f1.channel = some ch1 ∧ f1.entnum = e ∧
        f1.entchannel = 0 ∧
        s2.fmod_channels[i2]? = some f2 ∧ f2.channel = some ch2 ∧ f2.entnum = e ∧
        f2.entchannel = 0 ∧
        (∃ extra, s1.trace.calls = s.trace.calls ++ extra ∧
          ∀ k, FmodCall.Channel_Stop k ∉ extra) ∧
        (∃ extra, s2.trace.calls = s1.trace.calls ++ extra ∧
          ∀ k, FmodCall.Channel_Stop k ∉ extra)) ∧
    (∀ (c : Int) (s s2 : State) (sfx : Option Nat) (origin : vec3_t) (fvol att : ℚ) (ch : Nat)
        (fch : Option Nat),
      c ≠ 0 →
      S_StartSound_run β env s e c sfx origin fvol att = (s2, some (ch, fch)) →
      ∃ pre post snd,
        s2.trace.calls = pre ++ [.System_PlaySound snd true (some ch)] ++ post ∧
        (∃ extra, pre = s.trace.calls ++ extra) ∧
        ∀ old ∈ s.fmod_channels, ∀ och, old.channel = some och → old.entnum = e →
          old.entchannel = c →
          (FmodCall.Channel_Stop och ∈ pre ∨ ∃ a ∈ pre, answeredNotPlaying a och)) := by
  constructor
  · intro s s1 s2 sfx1 sfx2 o1 o2 v1 v2 a1 a2 ch1 ch2 fch1 fch2 hplaying hfree1 hrun1 hfree2 hrun2
    obtain ⟨i1, g1, y1, hf1, hg1, _, hy1c, hy1e, hy1s, hpool1, hcalls1⟩ :=
      S_StartSound_run_fire β env s s1 e sfx1 o1 v1 a1 ch1 fch1 hplaying hfree1 hrun1
    obtain ⟨i2, g2, y2, hf2, hg2, hg2free, hy2c, hy2e, hy2s, hpool2, hcalls2⟩ :=
      S_StartSound_run_fire β env s1 s2 e sfx2 o2 v2 a2 ch2 fch2 hplaying hfree2 hrun2
    have hi1 : s1.fmod_channels[i1]? = some y1 := by
      rw [hpool1]
      exact getElem?_set_self_of_some _ i1 g1 y1 hg1
    have hne : i1 ≠ i2 := by
      intro h
      rw [← h, hi1] at hg2
      simp only [Option.some.injEq] at hg2
      rw [← hg2, hy1c] at hg2free
      cases hg2free
    refine ⟨i1, i2, y1, y2, hf1, hf2, hne, ?_, hy1c, hy1e, hy1s, ?_, hy2c, hy2e, hy2s,
      hcalls1, hcalls2⟩
    · rw [hpool2, List.getElem?_set_ne (Ne.symm hne)]
      exact hi1
    · rw [hpool2]
      exact getElem?_set_self_of_some _ i2 g2 y2 hg2
  · intro c s s2 sfx origin fvol att ch fch hc hrun
    obtain ⟨snd, _, _, _, _, hafter⟩ :=
      S_StartSound_run_started β env s s2 e c sfx origin fvol att ch fch hrun
    obtain ⟨hLpool, exL, hexL, _⟩ := FMOD_LoadSfx_frame β s sfx
    have hB : S_StartSound_beforePlay β (FMOD_LoadSfx β s sfx).2 e c =
        S_StartSound_stopExisting β e c ((FMOD_LoadSfx β s sfx).2.fmod_channels.length + 1)
          (FMOD_LoadSfx β s sfx).2 := by
      unfold S_StartSound_beforePlay
      rw [if_pos hc]
    obtain ⟨⟨exB, hexB⟩, hrel, hnomatch⟩ := S_StartSound_stopExisting_spec β e c
      ((FMOD_LoadSfx β s sfx).2.fmod_channels.length + 1) (FMOD_LoadSfx β s sfx).2
      (Nat.lt_succ_of_le (inUseCount_le_length _))
    rw [← hB] at hexB hrel hnomatch
    generalize S_StartSound_beforePlay β (FMOD_LoadSfx β s sfx).2 e c = sB
      at hexB hrel hnomatch hafter
    rw [hLpool] at hrel
    obtain ⟨_, ⟨exP, hexP, _⟩, _, _⟩ := S_StartSound_afterPlay_spec β env
      (sB.query (.System_PlaySound snd true (some ch))) ch e c sfx origin fvol att
    rw [hafter] at hexP
    simp only at hexP
    obtain ⟨⟨exA, hexA⟩, _, _⟩ :=
      AllocChannel_frame β (sB.query (.System_PlaySound snd true (some ch)))
    refine ⟨sB.trace.calls, exA ++ exP ++ [.Channel_SetPaused ch false], snd, ?_,
      ⟨exL ++ exB, ?_⟩, ?_⟩
    · rw [hexP, hexA, State.query_trace, Trace.query_calls]
      simp only [List.append_assoc]
    · rw [hexB, hexL, List.append_assoc]
    · intro old hold och hoch he hcc
      obtain ⟨j, hj⟩ := List.mem_iff_getElem?.mp hold
      obtain ⟨new, hnew, hkr⟩ := Forall₂_getElem? hrel j old hj
      have holdm : slotMatches e c old = true := (slotMatches_iff e c old).mpr ⟨he, Or.inr hcc⟩
      rcases hkr with hkept | ⟨och2, h1, _, _, h4, _⟩
      · exfalso
        subst hkept
        have := hnomatch new (List.mem_iff_getElem?.mpr ⟨j, hnew⟩) (by simp [hoch])
        rw [holdm] at this
        cases this
      · rw [hoch] at h1
        cases h1
        exact h4

/-- C16 at concrete states.  From the ready state with a live backend, two
plays for entity 5 on sub-channel 0 take slots 0 and 1.  In `stateOne`, where
slot 0 tracks channel 1 for entity 5 on sub-channel 1, a play on `(5, 1)` has
`FMOD_Channel_Stop` for channel 1 in the transcript before its
`FMOD_System_PlaySound`. -/
theorem S_StartSound_subchannel_zero_witness :
    (∃ (i1 i2 : Nat) (f1 f2 : fmod_channel_t), i1 ≠ i2 ∧
      (S_StartSound backendLive engineQuake
        (S_StartSound backendLive engineQuake stateReady 5 0 (some 0) vec3_origin 1 1)
        5 0 (some 1) vec3_origin 1 1).fmod_channels[i1]? = some f1 ∧
      f1.channel = some 5000 ∧ f1.entnum = 5 ∧ f1.entchannel = 0 ∧
      (S_StartSound backendLive engineQuake
        (S_StartSound backendLive engineQuake stateReady 5 0 (some 0) vec3_origin 1 1)
        5 0 (some 1) vec3_origin 1 1).fmod_channels[i2]? = some f2 ∧
      f2.channel = some 5000 ∧ f2.entnum = 5 ∧ f2.entchannel = 0) ∧
    (∃ pre post snd,
      (S_StartSound backendLive engineQuake stateOne 5 1 (some 0) vec3_origin 1 1).trace.calls =
        pre ++ [.System_PlaySound snd true (some 5000)] ++ post ∧
      (FmodCall.Channel_Stop 1 ∈ pre ∨ ∃ a ∈ pre, answeredNotPlaying a 1)) := by
  have key := S_StartSound_subchannel_zero backendLive engineQuake 5
  have hfree1 : ∃ f ∈ stateReady.fmod_channels, f.channel = none :=
    ⟨fmod_channel_zero, List.mem_replicate.mpr ⟨by decide, rfl⟩, rfl⟩
  have hrun1 : S_StartSound_run backendLive engineQuake stateReady 5 0 (some 0) vec3_origin 1 1 =
      (S_StartSound backendLive engineQuake stateReady 5 0 (some 0) vec3_origin 1 1,
        some (5000, some 0)) := Prod.ext rfl rfl
  have hrun2 : S_StartSound_run backendLive engineQuake
      (S_StartSound backendLive engineQuake stateReady 5 0 (some 0) vec3_origin 1 1)
      5 0 (some 1) vec3_origin 1 1 =
      (S_StartSound backendLive engineQuake
        (S_StartSound backendLive engineQuake stateReady 5 0 (some 0) vec3_origin 1 1)
        5 0 (some 1) vec3_origin 1 1, some (5000, some 1)) := Prod.ext rfl rfl
  have hfree2 : ∃ f ∈ (S_StartSound backendLive engineQuake stateReady 5 0 (some 0)
      vec3_origin 1 1).fmod_channels, f.channel = none := by
    obtain ⟨i, _, _, hi, _, _, _, _, _, hpool, _⟩ := S_StartSound_run_fire backendLive engineQuake
      stateReady _ 5 (some 0) vec3_origin 1 1 5000 (some 0) (fun _ _ => rfl) hfree1 hrun1
    have hi0 : i = 0 := by
      simp only [Option.some.injEq] at hi
      exact hi.symm
    refine ⟨fmod_channel_zero, ?_, rfl⟩
    rw [hpool]
    refine List.mem_iff_getElem?.mpr ⟨4000, ?_⟩
    rw [List.getElem?_set_ne (by omega)]
    show (List.replicate MAX_FMOD_CHANNELS fmod_channel_zero)[4000]? = _
    rw [List.getElem?_replicate, if_pos (by decide)]
  obtain ⟨i1, i2, f1, f2, _, _, hne, h1, h2, h3, h4, h5, h6, h7, h8, _, _⟩ :=
    key.1 stateReady _ _ (some 0) (some 1) vec3_origin vec3_origin 1 1 1 1 5000 5000 (some 0)
      (some 1) (fun _ _ => rfl) hfree1 hrun1 hfree2 hrun2
  have hrun3 : S_StartSound_run backendLive engineQuake stateOne 5 1 (some 0) vec3_origin 1 1 =
      (S_StartSound backendLive engineQuake stateOne 5 1 (some 0) vec3_origin 1 1,
        (S_StartSound_run backendLive engineQuake stateOne 5 1 (some 0) vec3_origin 1 1).2) :=
    rfl
  rw [stateOne_run] at hrun3
  obtain ⟨pre, post, snd, hcalls, _, hstop⟩ :=
    key.2 1 stateOne _ (some 0) vec3_origin 1 1 5000 (some 0) (by decide) hrun3
  have hold : slotOf 1 5 1 ∈ stateOne.fmod_channels := by
    show slotOf 1 5 1 ∈ slotOf 1 5 1 :: List.replicate 4094 fmod_channel_zero
    exact List.mem_cons_self _ _
  exact ⟨⟨i1, i2, f1, f2, hne, h1, h2, h3, h4, h5, h6, h7, h8⟩, pre, post, snd, hcalls,
    hstop (slotOf 1 5 1) hold 1 rfl rfl rfl⟩

/-! ### The slot of a started sound -/

/-- The slot that `S_StartSound` writes, as the call leaves it: the one of
`S_StartSound_slot`, with the spatializer when one was attached. -/
theorem S_StartSound_afterPlay_slot (β : Backend) (env : Engine) (s : State) (ch : Nat)
    (e c : Int) (sfx : Option Nat) (origin : vec3_t) (fvol att : ℚ) (i : Nat)
    (hi : (AllocChannel β s).1 = some i) :
    ∃ y, (y = S_StartSound_slot env ch e c sfx origin ∨
        ∃ dsp, y = { S_StartSound_slot env ch e c sfx origin with spatializer := some dsp }) ∧
      (S_StartSound_afterPlay β env s ch e c sfx origin fvol att).1.fmod_channels[i]? = some y := by
  obtain ⟨_, hsome, _⟩ := AllocChannel_frame β s
  obtain ⟨a, x, hai, _, hset⟩ := hsome i hi
  have hlen : i < (AllocChannel β s).2.fmod_channels.length := by
    rw [hset, List.length_set]
    by_contra hn
    rw [List.getElem?_eq_none (by omega)] at hai
    cases hai
  unfold S_StartSound_afterPlay
  simp only [hi, Option.isSome_some, and_true]
  split
  · exact ⟨_, Or.inl rfl, by
      simp only [State.emit_fmod_channels, State.setSlot_fmod_channels, List.getElem?_set, hlen,
        if_true]⟩
  · split
    · obtain ⟨_, hpool⟩ := Atmoky_AttachSpatializer_frame β
        ((AllocChannel β s).2.setSlot i (S_StartSound_slot env ch e c sfx origin)) i ch origin
        MIN_3D_DIST (S_StartSound_max_dist att)
      rcases hpool with hpool | ⟨slot, dsp, hslot, hpool⟩
      · exact ⟨_, Or.inl rfl, by
          simp only [State.emit_fmod_channels, hpool, State.setSlot_fmod_channels,
            List.getElem?_set, hlen, if_true]⟩
      · simp only [State.setSlot_fmod_channels, List.getElem?_set, hlen, if_true,
          Option.some.injEq] at hslot
        subst hslot
        refine ⟨_, Or.inr ⟨dsp, rfl⟩, ?_⟩
        simp only [State.emit_fmod_channels, hpool, State.setSlot_fmod_channels,
          List.getElem?_set, List.length_set, hlen, if_true]
    · exact ⟨_, Or.inl rfl, by
        simp only [State.emit_fmod_channels, State.setSlot_fmod_channels, List.getElem?_set,
          hlen, if_true]⟩

/-- The slot of a sound that `S_StartSound` started and tracked. -/
theorem S_StartSound_run_slot (β : Backend) (env : Engine) (s s1 : State) (e c : Int)
    (sfx : Option Nat) (origin : vec3_t) (fvol att : ℚ) (ch i : Nat)
    (h : S_StartSound_run β env s e c sfx origin fvol att = (s1, some (ch, some i))) :
    ∃ y, (y = S_StartSound_slot env ch e c sfx origin ∨
        ∃ dsp, y = { S_StartSound_slot env ch e c sfx origin with spatializer := some dsp }) ∧
      s1.fmod_channels[i]? = some y := by
  obtain ⟨snd, _, _, _, _, hafter⟩ := S_StartSound_run_started β env s s1 e c sfx origin fvol att
    ch (some i) h
  have h2 := (S_StartSound_afterPlay_spec β env
    ((S_StartSound_beforePlay β (FMOD_LoadSfx β s sfx).2 e c).query
      (.System_PlaySound snd true (some ch))) ch e c sfx origin fvol att).1
  rw [hafter] at h2
  have h3 := S_StartSound_afterPlay_slot β env
    ((S_StartSound_beforePlay β (FMOD_LoadSfx β s sfx).2 e c).query
      (.System_PlaySound snd true (some ch))) ch e c sfx origin fvol att i h2.symm
  rw [hafter] at h3
  exact h3

/-! ### The velocity blocks of the two sweeps -/

/-- C25: in both per-frame sweeps the velocity of a slot is the zero vector
when the slot has no previous position or the frame time is not positive;
the slot that `S_StartSound` writes has `have_prev_origin = false`, so its
velocity is zero in the first sweep that reaches it, whatever the frame time.
When a previous position exists, the frame time is positive, the squared
displacement is not above `1000 * 1000` (no teleport) and the squared speed is
not above `3000 * 3000` (no clamp), the velocity is
`(current - previous) / dt` in each component. -/
theorem sweep_velocity_zero_or_exact {K : Type} [LinearOrderedField K] (sqrtf : K → K)
    (flag : Bool) (dt : K) (cur prev : Vec3 K) :
    (flag = false ∨ dt ≤ 0 →
      (S_UpdateMovingSounds_velocity sqrtf flag dt cur prev).1 = ⟨0, 0, 0⟩ ∧
      (Atmoky_UpdateSpatializers_velocity sqrtf flag dt cur prev).1 = ⟨0, 0, 0⟩) ∧
    (flag = true → 0 < dt →
      DotProduct (VectorSubtract cur prev) (VectorSubtract cur prev) ≤ 1000 * 1000 →
      DotProduct (VectorScale (VectorSubtract cur prev) (1 / dt))
        (VectorScale (VectorSubtract cur prev) (1 / dt)) ≤ 3000 * 3000 →
      (S_UpdateMovingSounds_velocity sqrtf flag dt cur prev).1 =
        ⟨(cur.x - prev.x) / dt, (cur.y - prev.y) / dt, (cur.z - prev.z) / dt⟩ ∧
      (Atmoky_UpdateSpatializers_velocity sqrtf flag dt cur prev).1 =
        ⟨(cur.x - prev.x) / dt, (cur.y - prev.y) / dt, (cur.z - prev.z) / dt⟩) ∧
    (∀ (β : Backend) (env : Engine) (s s1 : State) (e c : Int) (sfx : Option Nat)
      (origin : vec3_t) (fvol att : ℚ) (ch i : Nat),
      S_StartSound_run β env s e c sfx origin fvol att = (s1, some (ch, some i)) →
      ∃ y, s1.fmod_channels[i]? = some y ∧ y.have_prev_origin = false ∧
        ∀ (now : vec3_t),
          (S_UpdateMovingSounds_velocity env.sqrtf y.have_prev_origin env.cls_frametime now
            y.prev_origin_qu).1 = ⟨0, 0, 0⟩ ∧
          (Atmoky_UpdateSpatializers_velocity env.sqrtf y.have_prev_origin env.cls_frametime now
            y.prev_origin_qu).1 = ⟨0, 0, 0⟩) := by
  have hzero : ∀ (K2 : Type) [LinearOrderedField K2] (sq : K2 → K2) (fl : Bool) (d : K2)
      (a b : Vec3 K2), fl = false ∨ d ≤ 0 →
      (S_UpdateMovingSounds_velocity sq fl d a b).1 = ⟨0, 0, 0⟩ := by
    intro K2 _ sq fl d a b h
    have hn : ¬ (fl = true ∧ d > 0) := by
      rintro ⟨h1, h2⟩
      rcases h with h | h
      · rw [h] at h1
        cases h1
      · exact absurd h2 (not_lt.mpr h)
    unfold S_UpdateMovingSounds_velocity
    rw [if_neg hn]
  refine ⟨fun h => ⟨hzero K sqrtf flag dt cur prev h, ?_⟩, fun hf hdt hd hs => ?_, ?_⟩
  · rw [Atmoky_UpdateSpatializers_velocity_eq]
    exact hzero K sqrtf flag dt cur prev h
  · have hv : (S_UpdateMovingSounds_velocity sqrtf flag dt cur prev).1 =
        ⟨(cur.x - prev.x) / dt, (cur.y - prev.y) / dt, (cur.z - prev.z) / dt⟩ := by
      unfold S_UpdateMovingSounds_velocity
      rw [if_pos ⟨hf, hdt⟩]
      simp only
      rw [if_neg (not_lt.mpr hd), if_neg (not_lt.mpr hs)]
      simp only [VectorScale, VectorSubtract, mul_one_div]
    refine ⟨hv, ?_⟩
    rw [Atmoky_UpdateSpatializers_velocity_eq]
    exact hv
  · intro β env s s1 e c sfx origin fvol att ch i h
    obtain ⟨y, hy, hslot⟩ := S_StartSound_run_slot β env s s1 e c sfx origin fvol att ch i h
    have hflag : y.have_prev_origin = false := by
      rcases hy with hy | ⟨dsp, hy⟩
      · rw [hy]
        rfl
      · rw [hy]
        rfl
    refine ⟨y, hslot, hflag, fun now => ⟨?_, ?_⟩⟩
    · exact hzero ℚ env.sqrtf _ _ _ _ (Or.inl hflag)
    · rw [Atmoky_UpdateSpatializers_velocity_eq]
      exact hzero ℚ env.sqrtf _ _ _ _ (Or.inl hflag)

/-- C28: the velocity block of `Atmoky_UpdateSpatializers` (thresholds
`TELEPORT_DIST_QU` and `MAX_SOUND_VELOCITY_QU`) and the velocity block of
`S_UpdateMovingSounds` (literals 1000 and 3000) are the same function: for
every square-root function, `have_prev_origin` flag, frame time, current and
previous position they give the same velocity and leave the same flag, and
the slot either sweep then stores for the same current position is the same:
`origin_qu` and `prev_origin_qu` are the current position and
`have_prev_origin` is true. -/
theorem sweep_velocity_blocks_agree {K : Type} [LinearOrderedField K] (sqrtf : K → K)
    (flag : Bool) (dt : K) (cur prev : Vec3 K) :
    (Atmoky_UpdateSpatializers_velocity sqrtf flag dt cur prev).1 =
      (S_UpdateMovingSounds_velocity sqrtf flag dt cur prev).1 ∧
    (Atmoky_UpdateSpatializers_velocity sqrtf flag dt cur prev).2 =
      (S_UpdateMovingSounds_velocity sqrtf flag dt cur prev).2 ∧
    (TELEPORT_DIST_QU : K) = 1000 ∧ (MAX_SOUND_VELOCITY_QU : K) = 3000 ∧
    ∀ (env : Engine) (fch : fmod_channel_t) (cur_origin : vec3_t),
      sweepStore fch cur_origin
          (Atmoky_UpdateSpatializers_velocity env.sqrtf fch.have_prev_origin env.cls_frametime
            cur_origin fch.prev_origin_qu).2 =
        sweepStore fch cur_origin
          (S_UpdateMovingSounds_velocity env.sqrtf fch.have_prev_origin env.cls_frametime
            cur_origin fch.prev_origin_qu).2 ∧
      (sweepStore fch cur_origin
          (S_UpdateMovingSounds_velocity env.sqrtf fch.have_prev_origin env.cls_frametime
            cur_origin fch.prev_origin_qu).2).origin_qu = cur_origin ∧
      (sweepStore fch cur_origin
          (S_UpdateMovingSounds_velocity env.sqrtf fch.have_prev_origin env.cls_frametime
            cur_origin fch.prev_origin_qu).2).prev_origin_qu = cur_origin ∧
      (sweepStore fch cur_origin
          (S_UpdateMovingSounds_velocity env.sqrtf fch.have_prev_origin env.cls_frametime
            cur_origin fch.prev_origin_qu).2).have_prev_origin = true := by
  refine ⟨by rw [Atmoky_UpdateSpatializers_velocity_eq],
    by rw [Atmoky_UpdateSpatializers_velocity_eq], rfl, rfl, fun env fch cur_origin => ?_⟩
  exact ⟨by rw [Atmoky_UpdateSpatializers_velocity_eq], rfl, rfl, rfl⟩

/-! ### The sweeps, slot by slot -/

theorem MovingSwept_grow (env : Engine) (pre : List FmodCall) {extra : List FmodCall}
    (post : List FmodCall) {f g : fmod_channel_t} (h : MovingSwept env extra f g) :
    MovingSwept env (pre ++ extra ++ post) f g := by
  have hm : ∀ a, a ∈ extra → a ∈ pre ++ extra ++ post := fun a ha =>
    List.mem_append_left _ (List.mem_append_right _ ha)
  rcases h with h | ⟨ch, a, h1, h2, h3, h4, h5⟩ | ⟨ch, h1, h2, h3, h4, h5, h6, h7⟩
  · exact Or.inl h
  · exact Or.inr (Or.inl ⟨ch, a, h1, h2, hm a h3, h4, h5⟩)
  · exact Or.inr (Or.inr ⟨ch, h1, h2, h3, h4, h5, hm _ h6, h7⟩)

theorem SpatialSwept_grow (env : Engine) (s : State) (pre : List FmodCall)
    {extra : List FmodCall} (post : List FmodCall) {f g : fmod_channel_t}
    (h : SpatialSwept env s extra f g) : SpatialSwept env s (pre ++ extra ++ post) f g := by
  have hm : ∀ a, a ∈ extra → a ∈ pre ++ extra ++ post := fun a ha =>
    List.mem_append_left _ (List.mem_append_right _ ha)
  rcases h with h | ⟨ch, dsp, a, h1, h2, h3, h4, h5, h6⟩ | ⟨ch, dsp, h1, h2, h3, h4⟩
  · exact Or.inl h
  · exact Or.inr (Or.inl ⟨ch, dsp, a, h1, h2, hm a h3, h4, hm _ h5, h6⟩)
  · exact Or.inr (Or.inr ⟨ch, dsp, h1, h2, hm _ h3, h4⟩)

theorem Forall₂_self {α : Type} {R : α → α → Prop} (hrefl : ∀ a, R a a) (l : List α) :
    List.Forall₂ R l l := by
  induction l with
  | nil => exact List.Forall₂.nil
  | cons a l ih => exact List.Forall₂.cons (hrefl a) ih

/-- A sweep that stops changes nothing behind the slot it stopped at. -/
theorem SweepSpec_rest {R : List FmodCall → fmod_channel_t → fmod_channel_t → Prop}
    (hrefl : ∀ f, R [] f f) (t : Trace) (l : List fmod_channel_t) : SweepSpec R t l (t, l) :=
  ⟨[], by simp, Forall₂_self hrefl l, fun a ch ha => by cases ha⟩

/-- One iteration of a sweep in front of the rest of it. -/
theorem SweepSpec_next {R : List FmodCall → fmod_channel_t → fmod_channel_t → Prop}
    (hgrow : ∀ (pre : List FmodCall) (extra : List FmodCall) (post : List FmodCall)
      (f g : fmod_channel_t), R extra f g → R (pre ++ extra ++ post) f g)
    (t t1 : Trace) (hx : List FmodCall) (f g : fmod_channel_t) (rest : List fmod_channel_t)
    (r : Trace × List fmod_channel_t)
    (ht1 : t1.calls = t.calls ++ hx) (hhead : R hx f g)
    (hrep : ∀ a ch, a ∈ hx → answeredNotPlaying a ch →
      f.channel = some ch ∧ g.channel = none ∧ g.spatializer = none)
    (ih : SweepSpec R t1 rest r) : SweepSpec R t (f :: rest) (sweepNext g r) := by
  obtain ⟨ex, hex, hall, hans⟩ := ih
  refine ⟨hx ++ ex, ?_, ?_, ?_⟩
  · simp only [sweepNext, hex, ht1, List.append_assoc]
  · refine List.Forall₂.cons ?_ ?_
    · have := hgrow [] hx ex f g hhead
      simpa using this
    · refine List.Forall₂.imp (fun a b hab => ?_) hall
      have := hgrow hx ex [] a b hab
      simpa using this
  · intro a ch ha hnp
    rcases List.mem_append.mp ha with h | h
    · obtain ⟨h1, h2, h3⟩ := hrep a ch h hnp
      exact ⟨0, f, g, List.getElem?_cons_zero, h1, by simp [sweepNext], h2, h3⟩
    · obtain ⟨k, f1, g1, h1, h2, h3, h4, h5⟩ := hans a ch h hnp
      exact ⟨k + 1, f1, g1, by simpa using h1, h2, by simpa [sweepNext] using h3, h4, h5⟩

theorem reportsPlaying_true_answer (β : Backend) (clock ch ch2 : Nat)
    (h : reportsPlaying β clock ch = true) :
    ¬ answeredNotPlaying (.Channel_IsPlaying ch (β.Channel_IsPlaying clock ch)) ch2 := by
  unfold reportsPlaying at h
  unfold answeredNotPlaying
  cases hq : β.Channel_IsPlaying clock ch with
  | none =>
    rw [hq] at h
    cases h
  | some p =>
    rw [hq] at h
    simp only at h
    subst h
    simp

theorem answeredNotPlaying_channel (c ans : _) (ch : Nat)
    (h : answeredNotPlaying (.Channel_IsPlaying c ans) ch) : c = ch := by
  unfold answeredNotPlaying at h
  rcases h with h | h
  · injection h
  · injection h

/-- The sweep of `S_UpdateMovingSounds`, slot by slot. -/
theorem S_UpdateMovingSounds_scan_step (β : Backend) (env : Engine) :
    ∀ (l : List fmod_channel_t) (t : Trace),
      SweepSpec (MovingSwept env) t l (S_UpdateMovingSounds_scan β env t l) := by
  intro l
  induction l with
  | nil =>
    intro t
    exact SweepSpec_rest (fun f => Or.inl rfl) t []
  | cons f rest ih =>
    intro t
    have hgrow : ∀ (pre : List FmodCall) (extra : List FmodCall) (post : List FmodCall)
        (f g : fmod_channel_t), MovingSwept env extra f g →
        MovingSwept env (pre ++ extra ++ post) f g :=
      fun pre extra post f g h => MovingSwept_grow env pre post h
    have hrefl : ∀ g, MovingSwept env [] g g := fun g => Or.inl rfl
    unfold S_UpdateMovingSounds_scan
    split
    · exact SweepSpec_next hgrow t t [] f f rest _ (by simp) (Or.inl rfl)
        (fun a ch ha => by cases ha) (ih t)
    · rename_i ch hch
      split
      · exact SweepSpec_next hgrow t t [] f f rest _ (by simp) (Or.inl rfl)
          (fun a ch ha => by cases ha) (ih t)
      · rename_i hsp
        have hsp2 : f.spatializer = none := by
          by_contra hn
          exact hsp hn
        simp only [ChannelIsPlaying_some]
        split
        · rename_i hplay
          refine SweepSpec_next hgrow t _ [.Channel_IsPlaying ch (β.Channel_IsPlaying t.clock ch)]
            f _ rest _ rfl ?_ ?_ (ih _)
          · exact Or.inr (Or.inl ⟨ch, _, hch, hsp2, List.mem_singleton.mpr rfl,
              reportsPlaying_false_answer β t.clock ch hplay, rfl⟩)
          · intro a c ha hnp
            rw [List.mem_singleton] at ha
            subst ha
            have := answeredNotPlaying_channel _ _ _ hnp
            subst this
            exact ⟨hch, rfl, hsp2⟩
        · rename_i hplay
          have hplay2 : reportsPlaying β t.clock ch = true := by
            cases h : reportsPlaying β t.clock ch with
            | true => rfl
            | false => exact absurd h hplay
          have hno : ∀ a c, a ∈ [FmodCall.Channel_IsPlaying ch (β.Channel_IsPlaying t.clock ch)] →
              answeredNotPlaying a c →
              f.channel = some c ∧ f.channel = none ∧ f.spatializer = none := by
            intro a c ha hnp
            rw [List.mem_singleton] at ha
            subst ha
            exact absurd hnp (reportsPlaying_true_answer β t.clock ch c hplay2)
          split
          · exact SweepSpec_next hgrow t _ _ f f rest _ rfl (Or.inl rfl) hno (ih _)
          · rename_i hstatic
            split
            · exact SweepSpec_next hgrow t _ _ f f rest _ rfl (Or.inl rfl) hno (ih _)
            · rename_i hent
              split
              · exact SweepSpec_next hgrow t _ _ f f rest _ rfl (Or.inl rfl) hno (ih _)
              · rename_i hplayer
                have hno2 : ∀ (g : fmod_channel_t) (tail : List FmodCall),
                    (∀ a ∈ tail, ∀ c, ¬ answeredNotPlaying a c) → ∀ a c,
                    a ∈ FmodCall.Channel_IsPlaying ch (β.Channel_IsPlaying t.clock ch) :: tail →
                    answeredNotPlaying a c →
                    f.channel = some c ∧ g.channel = none ∧ g.spatializer = none := by
                  intro g tail htail a c ha hnp
                  rcases List.mem_cons.mp ha with h | h
                  · subst h
                    exact absurd hnp (reportsPlaying_true_answer β t.clock ch c hplay2)
                  · exact absurd hnp (htail a h c)
                split
                · rename_i hmode
                  have hs := SweepSpec_rest hrefl
                    ((t.query (.Channel_IsPlaying ch (β.Channel_IsPlaying t.clock ch))).query
                      (.Channel_GetMode ch none)) rest
                  have := SweepSpec_next hgrow t _
                    [.Channel_IsPlaying ch (β.Channel_IsPlaying t.clock ch),
                      .Channel_GetMode ch none] f f rest _ (by simp [Trace.query_calls]) (Or.inl rfl)
                    (hno2 f _ (by
                      intro a ha c hnp
                      rw [List.mem_singleton] at ha
                      subst ha
                      rcases hnp with h | h <;> cases h)) hs
                  rw [hmode]
                  simpa [sweepNext] using this
                · rename_i ch_mode hmode
                  split
                  · refine SweepSpec_next hgrow t _
                      [.Channel_IsPlaying ch (β.Channel_IsPlaying t.clock ch),
                        .Channel_GetMode ch (β.Channel_GetMode (t.query (.Channel_IsPlaying ch
                        (β.Channel_IsPlaying t.clock ch))).clock ch)] f f rest _
                      (by simp [Trace.query_calls]) (Or.inl rfl)
                      (hno2 f _ (by
                        intro a ha c hnp
                        rw [List.mem_singleton] at ha
                        subst ha
                        rcases hnp with h | h <;> cases h)) (ih _)
                  · have hvalid : VALID_ENTITY env f.entnum = true := by
                      unfold VALID_ENTITY
                      simp only [decide_eq_true_eq]
                      push_neg at hent
                      exact ⟨hent.1, hent.2⟩
                    have hswept : MovingSwept env
                        [.Channel_IsPlaying ch (β.Channel_IsPlaying t.clock ch),
                          .Channel_GetMode ch (β.Channel_GetMode (t.query (.Channel_IsPlaying ch
                            (β.Channel_IsPlaying t.clock ch))).clock ch),
                          .Channel_Set3DAttributes ch
                            (VectorAdd (env.cl_entities_lerp_origin f.entnum) f.origin_offset)
                            (S_UpdateMovingSounds_velocity env.sqrtf f.have_prev_origin
                              env.cls_frametime
                              (VectorAdd (env.cl_entities_lerp_origin f.entnum) f.origin_offset)
                              f.prev_origin_qu).1] f
                        (sweepStore f
                          (VectorAdd (env.cl_entities_lerp_origin f.entnum) f.origin_offset)
                          (S_UpdateMovingSounds_velocity env.sqrtf f.have_prev_origin
                            env.cls_frametime
                            (VectorAdd (env.cl_entities_lerp_origin f.entnum) f.origin_offset)
                            f.prev_origin_qu).2) :=
                      Or.inr (Or.inr ⟨ch, hch, hsp2, by simpa using hstatic, hvalid, hplayer,
                        by simp, rfl⟩)
                    have htail : ∀ a ∈
                        [FmodCall.Channel_GetMode ch (β.Channel_GetMode (t.query
                            (.Channel_IsPlaying ch (β.Channel_IsPlaying t.clock ch))).clock ch),
                          FmodCall.Channel_Set3DAttributes ch
                            (VectorAdd (env.cl_entities_lerp_origin f.entnum) f.origin_offset)
                            (S_UpdateMovingSounds_velocity env.sqrtf f.have_prev_origin
                              env.cls_frametime
                              (VectorAdd (env.cl_entities_lerp_origin f.entnum) f.origin_offset)
                              f.prev_origin_qu).1], ∀ c, ¬ answeredNotPlaying a c := by
                      intro a ha c hnp
                      simp only [List.mem_cons, List.mem_singleton, List.not_mem_nil,
                        or_false] at ha
                      rcases ha with h | h <;> subst h <;> rcases hnp with h | h <;> cases h
                    split
                    · have hs := SweepSpec_rest hrefl
                        (((t.query (.Channel_IsPlaying ch (β.Channel_IsPlaying t.clock ch))).query
                          (.Channel_GetMode ch (β.Channel_GetMode (t.query (.Channel_IsPlaying ch
                            (β.Channel_IsPlaying t.clock ch))).clock ch))).query
                          (.Channel_Set3DAttributes ch
                            (VectorAdd (env.cl_entities_lerp_origin f.entnum) f.origin_offset)
                            (S_UpdateMovingSounds_velocity env.sqrtf f.have_prev_origin
                              env.cls_frametime
                              (VectorAdd (env.cl_entities_lerp_origin f.entnum) f.origin_offset)
                              f.prev_origin_qu).1)) rest
                      have := SweepSpec_next hgrow t _ _ f _ rest _
                        (by simp [Trace.query_calls]) hswept (hno2 _ _ htail) hs
                      simpa [sweepNext] using this
                    · exact SweepSpec_next hgrow t _ _ f _ rest _
                        (by simp [Trace.query_calls]) hswept (hno2 _ _ htail) (ih _)

/-- The sweep of `Atmoky_UpdateSpatializers`, slot by slot. -/
theorem Atmoky_UpdateSpatializers_scan_step (β : Backend) (env : Engine) (s : State) :
    ∀ (l : List fmod_channel_t) (t : Trace),
      SweepSpec (SpatialSwept env s) t l (Atmoky_UpdateSpatializers_scan β env s t l) := by
  intro l
  induction l with
  | nil =>
    intro t
    exact SweepSpec_rest (fun f => Or.inl rfl) t []
  | cons f rest ih =>
    intro t
    have hgrow : ∀ (pre : List FmodCall) (extra : List FmodCall) (post : List FmodCall)
        (f g : fmod_channel_t), SpatialSwept env s extra f g →
        SpatialSwept env s (pre ++ extra ++ post) f g :=
      fun pre extra post f g h => SpatialSwept_grow env s pre post h
    unfold Atmoky_UpdateSpatializers_scan
    split
    · rename_i ch dsp hch hsp
      simp only [ChannelIsPlaying_some]
      split
      · rename_i hplay
        have hrel : Atmoky_ReleaseSpatializer
            (t.query (.Channel_IsPlaying ch (β.Channel_IsPlaying t.clock ch))) f =
            (((t.query (.Channel_IsPlaying ch (β.Channel_IsPlaying t.clock ch))).emit
              (.Channel_RemoveDSP ch dsp)).emit (.DSP_Release dsp),
              { f with spatializer := none }) := by
          simp only [Atmoky_ReleaseSpatializer, hsp, hch]
        rw [hrel]
        refine SweepSpec_next hgrow t _
          [.Channel_IsPlaying ch (β.Channel_IsPlaying t.clock ch), .Channel_RemoveDSP ch dsp,
            .DSP_Release dsp] f _ rest _ (by simp [Trace.query_calls, Trace.emit_calls]) ?_ ?_
          (ih _)
        · exact Or.inr (Or.inl ⟨ch, dsp, _, hch, hsp, List.mem_cons_self _ _,
            reportsPlaying_false_answer β t.clock ch hplay, by simp, rfl⟩)
        · intro a c ha hnp
          simp only [List.mem_cons, List.mem_singleton, List.not_mem_nil, or_false] at ha
          rcases ha with h | h | h
          · subst h
            have := answeredNotPlaying_channel _ _ _ hnp
            subst this
            exact ⟨hch, rfl, rfl⟩
          · subst h
            rcases hnp with h | h <;> cases h
          · subst h
            rcases hnp with h | h <;> cases h
      · rename_i hplay
        have hplay2 : reportsPlaying β t.clock ch = true := by
          cases h : reportsPlaying β t.clock ch with
          | true => rfl
          | false => exact absurd h hplay
        refine SweepSpec_next hgrow t _
          [.Channel_IsPlaying ch (β.Channel_IsPlaying t.clock ch),
            .DSP_SetParameterData dsp ATMOKY_PARAMETER_ATTRIBUTES3D
              (Atmoky_UpdateSpatializers_attributes s (Atmoky_UpdateSpatializers_origin env f)
                (Atmoky_UpdateSpatializers_velocity env.sqrtf f.have_prev_origin
                  env.cls_frametime (Atmoky_UpdateSpatializers_origin env f)
                  f.prev_origin_qu).1)] f _ rest _
          (by simp [Trace.query_calls, Trace.emit_calls, Atmoky_UpdateSpatializers_origin]) ?_ ?_
          (ih _)
        · exact Or.inr (Or.inr ⟨ch, dsp, hch, hsp, by simp, rfl⟩)
        · intro a c ha hnp
          simp only [List.mem_cons, List.mem_singleton, List.not_mem_nil, or_false] at ha
          rcases ha with h | h
          · subst h
            exact absurd hnp (reportsPlaying_true_answer β t.clock ch c hplay2)
          · subst h
            rcases hnp with h | h <;> cases h
    · exact SweepSpec_next hgrow t t [] f f rest _ (by simp) (Or.inl rfl)
        (fun a ch ha => by cases ha) (ih t)

/-! ### The sweeps on the pool -/

theorem S_UpdateMovingSounds_step (β : Backend) (env : Engine) (s : State) :
    SweepSpec (MovingSwept env) s.trace s.fmod_channels
      ((S_UpdateMovingSounds β env s).trace, (S_UpdateMovingSounds β env s).fmod_channels) :=
  S_UpdateMovingSounds_scan_step β env s.fmod_channels s.trace

theorem Atmoky_UpdateSpatializers_step (β : Backend) (env : Engine) (s : State) :
    SweepSpec (SpatialSwept env s) s.trace s.fmod_channels
      ((Atmoky_UpdateSpatializers β env s).trace,
        (Atmoky_UpdateSpatializers β env s).fmod_channels) := by
  unfold Atmoky_UpdateSpatializers
  split
  · exact SweepSpec_rest (fun f => Or.inl rfl) s.trace s.fmod_channels
  · exact Atmoky_UpdateSpatializers_scan_step β env s s.fmod_channels s.trace

/-- The slot that an iteration of `S_UpdateMovingSounds` leaves when it gets
to the position update, whether the backend accepts the update or not. -/
theorem S_UpdateMovingSounds_scan_head (β : Backend) (env : Engine) (t : Trace)
    (fch : fmod_channel_t) (rest : List fmod_channel_t) (ch : Nat) (ch_mode : List FMOD_MODE_FLAG)
    (hch : fch.channel = some ch) (hsp : fch.spatializer = none)
    (hplay : reportsPlaying β t.clock ch = true) (hstatic : fch.is_static = false)
    (hvalid : VALID_ENTITY env fch.entnum = true)
    (hplayer : fch.entnum ≠ env.cl_playernum + 1)
    (hmode : β.Channel_GetMode (t.clock + 1) ch = some ch_mode)
    (h3d : FMOD_MODE_FLAG.FMOD_3D ∈ ch_mode) :
    (S_UpdateMovingSounds_scan β env t (fch :: rest)).2.head? = some
      (sweepStore fch (VectorAdd (env.cl_entities_lerp_origin fch.entnum) fch.origin_offset)
        (S_UpdateMovingSounds_velocity env.sqrtf fch.have_prev_origin env.cls_frametime
          (VectorAdd (env.cl_entities_lerp_origin fch.entnum) fch.origin_offset)
          fch.prev_origin_qu).2) := by
  have h1 : ¬ (fch.entnum ≤ 0 ∨ fch.entnum ≥ env.MAX_EDICTS) := by
    unfold VALID_ENTITY at hvalid
    simp only [decide_eq_true_eq] at hvalid
    intro h
    rcases h with h | h <;> omega
  cases hset : β.Channel_Set3DAttributes (t.clock + 2) ch with
  | true =>
    simp only [S_UpdateMovingSounds_scan, hch, hsp, ChannelIsPlaying_some, hplay, hstatic, h1,
      hplayer, Trace.query_clock, hmode, h3d, hset, Trace.query, ne_eq, not_true_eq_false,
      if_false, Bool.true_eq_false, Bool.false_eq_true, not_false_eq_true, if_true, sweepNext,
      List.head?_cons]
  | false =>
    simp only [S_UpdateMovingSounds_scan, hch, hsp, ChannelIsPlaying_some, hplay, hstatic, h1,
      hplayer, Trace.query_clock, hmode, h3d, hset, Trace.query, ne_eq, not_true_eq_false,
      if_false, Bool.true_eq_false, Bool.false_eq_true, not_false_eq_true, if_true, sweepNext,
      List.head?_cons]

/-- The iteration of `S_UpdateMovingSounds` on a slot whose channel is not in
3D mode: the slot is left as it is. -/
theorem S_UpdateMovingSounds_scan_flat (β : Backend) (env : Engine) (t : Trace)
    (fch : fmod_channel_t) (rest : List fmod_channel_t) (ch : Nat) (ch_mode : List FMOD_MODE_FLAG)
    (hch : fch.channel = some ch) (hsp : fch.spatializer = none)
    (hplay : reportsPlaying β t.clock ch = true) (hstatic : fch.is_static = false)
    (hvalid : VALID_ENTITY env fch.entnum = true)
    (hplayer : fch.entnum ≠ env.cl_playernum + 1)
    (hmode : β.Channel_GetMode (t.clock + 1) ch = some ch_mode)
    (h3d : FMOD_MODE_FLAG.FMOD_3D ∉ ch_mode) :
    S_UpdateMovingSounds_scan β env t (fch :: rest) =
      sweepNext fch (S_UpdateMovingSounds_scan β env
        { clock := t.clock + 2
          calls := t.calls ++
            [.Channel_IsPlaying ch (β.Channel_IsPlaying t.clock ch),
              .Channel_GetMode ch (some ch_mode)] }
        rest) := by
  have h1 : ¬ (fch.entnum ≤ 0 ∨ fch.entnum ≥ env.MAX_EDICTS) := by
    unfold VALID_ENTITY at hvalid
    simp only [decide_eq_true_eq] at hvalid
    intro h
    rcases h with h | h <;> omega
  simp only [S_UpdateMovingSounds_scan, hch, hsp, ChannelIsPlaying_some, hplay, hstatic, h1,
    hplayer, Trace.query_clock, hmode, h3d, Trace.query, ne_eq, not_true_eq_false,
    if_false, Bool.true_eq_false, Bool.false_eq_true, not_false_eq_true, if_true,
    List.append_assoc, List.singleton_append, List.cons_append, List.nil_append]

/-- The slot that an iteration of `Atmoky_UpdateSpatializers` leaves for a
slot with a spatializer whose channel reports playing. -/
theorem Atmoky_UpdateSpatializers_scan_head (β : Backend) (env : Engine) (s : State) (t : Trace)
    (fch : fmod_channel_t) (rest : List fmod_channel_t) (ch dsp : Nat)
    (hch : fch.channel = some ch) (hsp : fch.spatializer = some dsp)
    (hplay : reportsPlaying β t.clock ch = true) :
    (Atmoky_UpdateSpatializers_scan β env s t (fch :: rest)).2.head? = some
      (sweepStore fch (Atmoky_UpdateSpatializers_origin env fch)
        (Atmoky_UpdateSpatializers_velocity env.sqrtf fch.have_prev_origin env.cls_frametime
          (Atmoky_UpdateSpatializers_origin env fch) fch.prev_origin_qu).2) := by
  rw [Atmoky_UpdateSpatializers_scan_swept β env s t fch rest ch dsp
    (Atmoky_UpdateSpatializers_origin env fch) hch hsp hplay rfl]
  rfl

theorem VectorAdd_VectorSubtract {K : Type} [Field K] (p r : Vec3 K) :
    VectorAdd r (VectorSubtract p r) = p := by
  cases p
  cases r
  simp [VectorAdd, VectorSubtract]

/-- A play that `S_StartSound` makes in 2D mode (the local player, or no
attenuation): a slot it tracks holds the slot of `S_StartSound_slot`, without
spatializer, and the channel was set to 2D mode. -/
theorem S_StartSound_run_flat (β : Backend) (env : Engine) (s s1 : State) (e c : Int)
    (sfx : Option Nat) (origin : vec3_t) (fvol att : ℚ) (ch i : Nat)
    (h : S_StartSound_run β env s e c sfx origin fvol att = (s1, some (ch, some i)))
    (hflat : e = env.cl_playernum + 1 ∨ att ≤ 0) :
    s1.fmod_channels[i]? = some (S_StartSound_slot env ch e c sfx origin) ∧
      FmodCall.Channel_SetMode ch [.FMOD_2D] ∈ s1.trace.calls := by
  obtain ⟨snd, _, _, _, _, hafter⟩ := S_StartSound_run_started β env s s1 e c sfx origin fvol att
    ch (some i) h
  have h2 := (S_StartSound_afterPlay_spec β env
    ((S_StartSound_beforePlay β (FMOD_LoadSfx β s sfx).2 e c).query
      (.System_PlaySound snd true (some ch))) ch e c sfx origin fvol att).1
  rw [hafter] at h2
  simp only at h2
  obtain ⟨_, hsome, _⟩ := AllocChannel_frame β
    ((S_StartSound_beforePlay β (FMOD_LoadSfx β s sfx).2 e c).query
      (.System_PlaySound snd true (some ch)))
  obtain ⟨a, x, hai, _, hset⟩ := hsome i h2.symm
  have hlen : i < (AllocChannel β ((S_StartSound_beforePlay β (FMOD_LoadSfx β s sfx).2 e c).query
      (.System_PlaySound snd true (some ch)))).2.fmod_channels.length := by
    rw [hset, List.length_set]
    by_contra hn
    rw [List.getElem?_eq_none (by omega)] at hai
    cases hai
  unfold S_StartSound_afterPlay at hafter
  simp only [← h2, if_pos hflat, Prod.mk.injEq, and_true] at hafter
  rw [← hafter]
  refine ⟨?_, ?_⟩
  · simp only [State.emit_fmod_channels, State.setSlot_fmod_channels, List.getElem?_set, hlen,
      if_true]
  · simp only [State.emit_trace, Trace.emit_calls, List.mem_append, List.mem_singleton,
      reduceCtorEq, or_false, or_true]

/-- C23: a slot that a per-frame sweep sweeps is stored with the position
computed in that frame as its current and as its previous position, and with
`have_prev_origin` true.  Every slot of the pool after `S_UpdateMovingSounds`
is the slot as it was, or that slot with its channel handle null, or it holds
the position given to the backend in this sweep in `origin_qu` and
`prev_origin_qu`, with `have_prev_origin = true`; the same for
`Atmoky_UpdateSpatializers` and the position given to the spatializer.  An
iteration that gets to the position update of a slot leaves it so, whether
the backend accepts the update or not. -/
theorem sweep_stores_position (β : Backend) (env : Engine) (s : State) :
    (∀ (i : Nat) (old new : fmod_channel_t), s.fmod_channels[i]? = some old →
      (S_UpdateMovingSounds β env s).fmod_channels[i]? = some new →
      new = old ∨ new = { old with channel := none } ∨
      ∃ (ch : Nat) (cur vel : vec3_t), old.channel = some ch ∧
        FmodCall.Channel_Set3DAttributes ch cur vel ∈
          (S_UpdateMovingSounds β env s).trace.calls ∧
        new.origin_qu = cur ∧ new.prev_origin_qu = cur ∧ new.have_prev_origin = true) ∧
    (∀ (i : Nat) (old new : fmod_channel_t), s.fmod_channels[i]? = some old →
      (Atmoky_UpdateSpatializers β env s).fmod_channels[i]? = some new →
      new = old ∨ new = { old with channel := none, spatializer := none } ∨
      ∃ (dsp : Nat) (cur vel : vec3_t), old.spatializer = some dsp ∧
        FmodCall.DSP_SetParameterData dsp ATMOKY_PARAMETER_ATTRIBUTES3D
            (Atmoky_UpdateSpatializers_attributes s cur vel) ∈
          (Atmoky_UpdateSpatializers β env s).trace.calls ∧
        new.origin_qu = cur ∧ new.prev_origin_qu = cur ∧ new.have_prev_origin = true) ∧
    (∀ (t : Trace) (f : fmod_channel_t) (rest : List fmod_channel_t) (ch : Nat)
      (ch_mode : List FMOD_MODE_FLAG),
      f.channel = some ch → f.spatializer = none → reportsPlaying β t.clock ch = true →
      f.is_static = false → VALID_ENTITY env f.entnum = true →
      f.entnum ≠ env.cl_playernum + 1 →
      β.Channel_GetMode (t.clock + 1) ch = some ch_mode → FMOD_MODE_FLAG.FMOD_3D ∈ ch_mode →
      ∃ g, (S_UpdateMovingSounds_scan β env t (f :: rest)).2.head? = some g ∧
        g.origin_qu = VectorAdd (env.cl_entities_lerp_origin f.entnum) f.origin_offset ∧
        g.prev_origin_qu = VectorAdd (env.cl_entities_lerp_origin f.entnum) f.origin_offset ∧
        g.have_prev_origin = true) ∧
    (∀ (t : Trace) (f : fmod_channel_t) (rest : List fmod_channel_t) (ch dsp : Nat),
      f.channel = some ch → f.spatializer = some dsp → reportsPlaying β t.clock ch = true →
      ∃ g, (Atmoky_UpdateSpatializers_scan β env s t (f :: rest)).2.head? = some g ∧
        g.origin_qu = Atmoky_UpdateSpatializers_origin env f ∧
        g.prev_origin_qu = Atmoky_UpdateSpatializers_origin env f ∧
        g.have_prev_origin = true) := by
  refine ⟨fun i old new hold hnew => ?_, fun i old new hold hnew => ?_,
    fun t f rest ch ch_mode h1 h2 h3 h4 h5 h6 h7 h8 => ?_,
    fun t f rest ch dsp h1 h2 h3 => ?_⟩
  · obtain ⟨extra, hex, hall, _⟩ := S_UpdateMovingSounds_step β env s
    obtain ⟨b, hb, hrel⟩ := Forall₂_getElem? hall i old hold
    simp only at hb hex
    rw [hnew] at hb
    simp only [Option.some.injEq] at hb
    subst hb
    rcases hrel with h | ⟨ch, a, _, _, _, _, h⟩ | ⟨ch, hch, _, _, _, _, hcall, h⟩
    · exact Or.inl h
    · exact Or.inr (Or.inl h)
    · refine Or.inr (Or.inr ⟨ch,
        VectorAdd (env.cl_entities_lerp_origin old.entnum) old.origin_offset,
        (S_UpdateMovingSounds_velocity env.sqrtf old.have_prev_origin env.cls_frametime
          (VectorAdd (env.cl_entities_lerp_origin old.entnum) old.origin_offset)
          old.prev_origin_qu).1, hch, ?_, ?_, ?_, ?_⟩)
      · rw [hex]
        exact List.mem_append_right _ hcall
      · rw [h]
        rfl
      · rw [h]
        rfl
      · rw [h]
        rfl
  · obtain ⟨extra, hex, hall, _⟩ := Atmoky_UpdateSpatializers_step β env s
    obtain ⟨b, hb, hrel⟩ := Forall₂_getElem? hall i old hold
    simp only at hb hex
    rw [hnew] at hb
    simp only [Option.some.injEq] at hb
    subst hb
    rcases hrel with h | ⟨ch, dsp, a, _, _, _, _, _, h⟩ | ⟨ch, dsp, _, hsp, hcall, h⟩
    · exact Or.inl h
    · exact Or.inr (Or.inl h)
    · refine Or.inr (Or.inr ⟨dsp, Atmoky_UpdateSpatializers_origin env old,
        (Atmoky_UpdateSpatializers_velocity env.sqrtf old.have_prev_origin env.cls_frametime
          (Atmoky_UpdateSpatializers_origin env old) old.prev_origin_qu).1, hsp, ?_, ?_, ?_, ?_⟩)
      · rw [hex]
        exact List.mem_append_right _ hcall
      · rw [h]
        rfl
      · rw [h]
        rfl
      · rw [h]
        rfl
  · exact ⟨_, S_UpdateMovingSounds_scan_head β env t f rest ch ch_mode h1 h2 h3 h4 h5 h6 h7 h8,
      rfl, rfl, rfl⟩
  · exact ⟨_, Atmoky_UpdateSpatializers_scan_head β env s t f rest ch dsp h1 h2 h3,
      rfl, rfl, rfl⟩

/-- C22 (amended): a tracked sound keeps its emission point relative to its
entity.  A play `S_StartSound(e, c, sfx, p, ..)` that tracks its sound, on a
valid entity other than the local player, stores the position `p` and the
offset `p - r`, `r` being the reference point of the entity.  An iteration of
`S_UpdateMovingSounds` that gets to the position update of a slot (in use
without spatializer, reported playing, not static, of a valid entity other
than the local player, its channel reported in 3D mode) stores the position
`r' + origin_offset`, `r'` being the reference point of the entity in that
frame, and keeps the offset, the entity and the handles; so does an iteration
of `Atmoky_UpdateSpatializers` on a slot with a spatializer that is reported
playing, not static and of a valid entity.  `r + (p - r)` is `p`.  Static
slots and slots of the local player keep their position through
`S_UpdateMovingSounds`. -/
theorem S_StartSound_offset_tracks (β β2 : Backend) (env env2 : Engine) :
    (∀ (s s1 : State) (e c : Int) (sfx : Option Nat) (p : vec3_t) (fvol att : ℚ) (ch i : Nat),
      S_StartSound_run β env s e c sfx p fvol att = (s1, some (ch, some i)) →
      VALID_ENTITY env e = true → e ≠ env.cl_playernum + 1 →
      ∃ y, s1.fmod_channels[i]? = some y ∧ y.channel = some ch ∧ y.entnum = e ∧
        y.is_static = false ∧ y.origin_qu = p ∧
        y.origin_offset = VectorSubtract p (env.cl_entities_lerp_origin e)) ∧
    (∀ (t : Trace) (f : fmod_channel_t) (rest : List fmod_channel_t) (ch : Nat)
      (ch_mode : List FMOD_MODE_FLAG),
      f.channel = some ch → f.spatializer = none → reportsPlaying β2 t.clock ch = true →
      f.is_static = false → VALID_ENTITY env2 f.entnum = true →
      f.entnum ≠ env2.cl_playernum + 1 →
      β2.Channel_GetMode (t.clock + 1) ch = some ch_mode → FMOD_MODE_FLAG.FMOD_3D ∈ ch_mode →
      ∃ g, (S_UpdateMovingSounds_scan β2 env2 t (f :: rest)).2.head? = some g ∧
        g.origin_qu = VectorAdd (env2.cl_entities_lerp_origin f.entnum) f.origin_offset ∧
        g.origin_offset = f.origin_offset ∧ g.entnum = f.entnum ∧
        g.is_static = f.is_static ∧ g.channel = f.channel ∧ g.spatializer = f.spatializer) ∧
    (∀ (s : State) (t : Trace) (f : fmod_channel_t) (rest : List fmod_channel_t) (ch dsp : Nat),
      f.channel = some ch → f.spatializer = some dsp → reportsPlaying β2 t.clock ch = true →
      f.is_static = false → VALID_ENTITY env2 f.entnum = true →
      ∃ g, (Atmoky_UpdateSpatializers_scan β2 env2 s t (f :: rest)).2.head? = some g ∧
        g.origin_qu = VectorAdd (env2.cl_entities_lerp_origin f.entnum) f.origin_offset ∧
        g.origin_offset = f.origin_offset ∧ g.entnum = f.entnum ∧
        g.is_static = f.is_static ∧ g.channel = f.channel ∧ g.spatializer = f.spatializer) ∧
    (∀ p r : vec3_t, VectorAdd r (VectorSubtract p r) = p) ∧
    (∀ (s : State) (i : Nat) (old : fmod_channel_t), s.fmod_channels[i]? = some old →
      old.is_static = true ∨ old.entnum = env2.cl_playernum + 1 →
      ∃ new, (S_UpdateMovingSounds β2 env2 s).fmod_channels[i]? = some new ∧
        new.origin_qu = old.origin_qu) := by
  refine ⟨fun s s1 e c sfx p fvol att ch i hrun hvalid hplayer => ?_,
    fun t f rest ch ch_mode h1 h2 h3 h4 h5 h6 h7 h8 => ?_,
    fun s t f rest ch dsp h1 h2 h3 h4 h5 => ?_, fun p r => VectorAdd_VectorSubtract p r,
    fun s i old hold hkind => ?_⟩
  · obtain ⟨y, hy, hslot⟩ := S_StartSound_run_slot β env s s1 e c sfx p fvol att ch i hrun
    have hoff : (S_StartSound_slot env ch e c sfx p).origin_offset =
        VectorSubtract p (env.cl_entities_lerp_origin e) := by
      unfold S_StartSound_slot
      simp only [hvalid, hplayer, ne_eq, not_false_eq_true, and_self, if_true]
    refine ⟨y, hslot, ?_⟩
    rcases hy with hy | ⟨dsp, hy⟩
    · rw [hy]
      exact ⟨rfl, rfl, rfl, rfl, hoff⟩
    · rw [hy]
      exact ⟨rfl, rfl, rfl, rfl, hoff⟩
  · exact ⟨_, S_UpdateMovingSounds_scan_head β2 env2 t f rest ch ch_mode h1 h2 h3 h4 h5 h6 h7 h8,
      rfl, rfl, rfl, rfl, rfl, rfl⟩
  · refine ⟨_, Atmoky_UpdateSpatializers_scan_head β2 env2 s t f rest ch dsp h1 h2 h3,
      ?_, rfl, rfl, rfl, rfl, rfl⟩
    show Atmoky_UpdateSpatializers_origin env2 f = _
    unfold Atmoky_UpdateSpatializers_origin
    rw [if_pos ⟨h4, h5⟩]
  · obtain ⟨extra, _, hall, _⟩ := S_UpdateMovingSounds_step β2 env2 s
    obtain ⟨b, hb, hrel⟩ := Forall₂_getElem? hall i old hold
    refine ⟨b, hb, ?_⟩
    rcases hrel with h | ⟨ch, a, _, _, _, _, h⟩ | ⟨ch, _, _, hst, _, hpl, _, _⟩
    · rw [h]
    · rw [h]
    · rcases hkind with hk | hk
      · rw [hk] at hst
        cases hst
      · exact absurd hk hpl


/-- C22 as stated fails for a sound whose channel is not in 3D mode: a play
with attenuation 0 on entity 5, sub-channel 0, at `(10, 0, 0)`, the entity being at the
origin, is tracked in slot 0 with the offset `(10, 0, 0)` and its channel is
set to 2D mode; in a later frame with the entity at `(2000, 0, 0)` and the
channel playing, `S_UpdateMovingSounds` leaves the position of the slot at
`(10, 0, 0)`, which is not `(2000, 0, 0) + (10, 0, 0)`. -/
theorem S_UpdateMovingSounds_flat_counterexample :
    ∃ (s1 : State) (y g : fmod_channel_t),
      S_StartSound_run backendFlat engineQuake stateReady 5 0 (some 0) ⟨10, 0, 0⟩ 1 0 =
        (s1, some (5000, some 0)) ∧
      FmodCall.Channel_SetMode 5000 [.FMOD_2D] ∈ s1.trace.calls ∧
      VALID_ENTITY engineQuake 5 = true ∧ (5 : Int) ≠ engineQuake.cl_playernum + 1 ∧
      s1.fmod_channels[0]? = some y ∧ y.channel = some 5000 ∧ y.is_static = false ∧
      y.origin_offset = VectorSubtract ⟨10, 0, 0⟩ (engineQuake.cl_entities_lerp_origin 5) ∧
      reportsPlaying backendFlat s1.trace.clock 5000 = true ∧
      (S_UpdateMovingSounds backendFlat engineJump s1).fmod_channels[0]? = some g ∧
      g.origin_qu = ⟨10, 0, 0⟩ ∧
      g.origin_qu ≠ VectorAdd (engineJump.cl_entities_lerp_origin 5)
        (VectorSubtract ⟨10, 0, 0⟩ (engineQuake.cl_entities_lerp_origin 5)) := by
  have hrun : S_StartSound_run backendFlat engineQuake stateReady 5 0 (some 0) ⟨10, 0, 0⟩ 1 0 =
      ((S_StartSound_run backendFlat engineQuake stateReady 5 0 (some 0) ⟨10, 0, 0⟩ 1 0).1,
        some (5000, some 0)) := Prod.ext rfl rfl
  obtain ⟨hslot, hmode⟩ := S_StartSound_run_flat backendFlat engineQuake stateReady _ 5 0
    (some 0) ⟨10, 0, 0⟩ 1 0 5000 0 hrun (Or.inr (le_refl 0))
  obtain ⟨tail, hpool⟩ : ∃ tail, (S_StartSound_run backendFlat engineQuake stateReady 5 0 (some 0)
      ⟨10, 0, 0⟩ 1 0).1.fmod_channels =
      S_StartSound_slot engineQuake 5000 5 0 (some 0) ⟨10, 0, 0⟩ :: tail := by
    cases hl : (S_StartSound_run backendFlat engineQuake stateReady 5 0 (some 0)
      ⟨10, 0, 0⟩ 1 0).1.fmod_channels with
    | nil =>
      rw [hl] at hslot
      cases hslot
    | cons a tail =>
      rw [hl, List.getElem?_cons_zero, Option.some.injEq] at hslot
      rw [hslot]
      exact ⟨tail, rfl⟩
  have hsweep : (S_UpdateMovingSounds backendFlat engineJump
      (S_StartSound_run backendFlat engineQuake stateReady 5 0 (some 0)
        ⟨10, 0, 0⟩ 1 0).1).fmod_channels[0]? =
      some (S_StartSound_slot engineQuake 5000 5 0 (some 0) ⟨10, 0, 0⟩) := by
    unfold S_UpdateMovingSounds
    simp only
    rw [hpool, S_UpdateMovingSounds_scan_flat backendFlat engineJump _
      (S_StartSound_slot engineQuake 5000 5 0 (some 0) ⟨10, 0, 0⟩) tail 5000 [.FMOD_2D]
      rfl rfl rfl rfl (by decide) (by decide) rfl (by decide)]
    simp only [sweepNext, List.getElem?_cons_zero]
  refine ⟨_, _, _, hrun, hmode, by decide, by decide, hslot, rfl, rfl, ?_, rfl, hsweep, rfl, ?_⟩
  · simp [S_StartSound_slot, VALID_ENTITY, engineQuake]
  · simp [S_StartSound_slot, VectorAdd, VectorSubtract, engineJump, engineQuake, vec3_origin]

/-! ### The parts of `S_Update` -/

theorem StopAmbientChannels_scan_kinds (t : Trace) (l : List (Option Nat)) :
    ∃ extra, (StopAmbientChannels_scan t l).calls = t.calls ++ extra ∧
      ∀ a ∈ extra, ∃ ch, a = FmodCall.Channel_Stop ch := by
  induction l generalizing t with
  | nil => exact ⟨[], by simp [StopAmbientChannels_scan], by simp⟩
  | cons c rest ih =>
    cases c with
    | none =>
      obtain ⟨extra, h1, h2⟩ := ih t
      exact ⟨extra, by simpa [StopAmbientChannels_scan] using h1, h2⟩
    | some ch =>
      obtain ⟨extra, h1, h2⟩ := ih (t.emit (.Channel_Stop ch))
      refine ⟨.Channel_Stop ch :: extra, ?_, ?_⟩
      · simp only [StopAmbientChannels_scan, h1, Trace.emit_calls, List.append_assoc,
          List.singleton_append]
      · intro a ha
        rcases List.mem_cons.mp ha with h | h
        · exact ⟨ch, h⟩
        · exact h2 a h

/-- The loop body of `S_UpdateAmbientSounds` for slot `i` changes only the
sound table, the transcript and the volume and channel of slot `i`; the only
channel it asks the backend about is the channel of slot `i`. -/
theorem S_UpdateAmbientSounds_slot_shape (β : Backend) (env : Engine) (leaf : Nat) (s : State)
    (i : Nat) :
    ∃ (fs : Option (List fmod_sfx_t)) (t : Trace) (av : List ℚ) (ac : List (Option Nat))
      (extra : List FmodCall),
      S_UpdateAmbientSounds_slot β env leaf s i =
        { s with fmod_sounds := fs, trace := t, ambient_vol := av, ambient_fmod_channels := ac } ∧
      t.calls = s.trace.calls ++ extra ∧
      (∀ c ans, FmodCall.Channel_IsPlaying c ans ∈ extra →
        s.ambient_fmod_channels.getD i none = some c) ∧
      (∀ j, j ≠ i → ac[j]? = s.ambient_fmod_channels[j]?) := by
  have hq : ∀ (a : FmodCall), a ∈ (match s.ambient_fmod_channels.getD i none with
        | some c => [FmodCall.Channel_IsPlaying c (β.Channel_IsPlaying s.trace.clock c)]
        | none => []) →
      ∀ c ans, a = FmodCall.Channel_IsPlaying c ans →
        s.ambient_fmod_channels.getD i none = some c := by
    intro a ha c ans hc
    cases hg : s.ambient_fmod_channels.getD i none with
    | none =>
      rw [hg] at ha
      cases ha
    | some c2 =>
      rw [hg] at ha
      simp only [List.mem_singleton] at ha
      rw [hc] at ha
      injection ha with h1 _
      rw [h1]
  have hfaded : (S_UpdateAmbientSounds_faded β env leaf s i).trace.calls = s.trace.calls ++
      (match s.ambient_fmod_channels.getD i none with
        | some c => [FmodCall.Channel_IsPlaying c (β.Channel_IsPlaying s.trace.clock c)]
        | none => []) := by
    unfold S_UpdateAmbientSounds_faded
    cases hg : s.ambient_fmod_channels.getD i none with
    | none => simp [ChannelIsPlaying]
    | some c => simp [ChannelIsPlaying, Trace.query_calls]
  cases hsfx : s.ambient_sfx.getD i none with
  | none =>
    rw [S_UpdateAmbientSounds_slot_none β env leaf s i hsfx]
    exact ⟨_, _, _, _, [], rfl, by simp, fun c ans h => (List.not_mem_nil _ h).elim,
      fun j _ => rfl⟩
  | some sfx =>
    cases hp : (ChannelIsPlaying β s.trace (s.ambient_fmod_channels.getD i none)).1 with
    | true =>
      obtain ⟨ch, hch, heq⟩ := S_UpdateAmbientSounds_slot_playing β env leaf s i sfx hsfx hp
      rw [heq]
      refine ⟨_, _, _, _, ?_, rfl, ?_, ?_, ?_⟩
      · exact (match s.ambient_fmod_channels.getD i none with
          | some c => [FmodCall.Channel_IsPlaying c (β.Channel_IsPlaying s.trace.clock c)]
          | none => []) ++ [.Channel_SetVolume ch (S_UpdateAmbientSounds_fade env
            (s.ambient_vol.getD i 0) (S_UpdateAmbientSounds_target env leaf i) / 255)]
      · simp only [State.emit_trace, Trace.emit_calls, hfaded, List.append_assoc]
      · intro c ans hc
        rcases List.mem_append.mp hc with h | h
        · exact hq _ h c ans rfl
        · simp at h
      · intro j _
        rfl
    | false =>
      obtain ⟨fs, t, exL, hL, hLc, hLk⟩ := FMOD_LoadSfx_only β
        (S_UpdateAmbientSounds_faded β env leaf s i) (some sfx)
      have hnoP : ∀ c ans, FmodCall.Channel_IsPlaying c ans ∉ exL := by
        intro c ans h
        have := hLk _ h
        simp [isLoadCall] at this
      cases hl : (FMOD_LoadSfx β (S_UpdateAmbientSounds_faded β env leaf s i) (some sfx)).1 with
      | none =>
        rw [S_UpdateAmbientSounds_slot_noload β env leaf s i sfx hsfx hp hl, hL]
        refine ⟨_, _, _, _, ?_, rfl, ?_, ?_, ?_⟩
        · exact (match s.ambient_fmod_channels.getD i none with
            | some c => [FmodCall.Channel_IsPlaying c (β.Channel_IsPlaying s.trace.clock c)]
            | none => []) ++ exL
        · rw [hLc, hfaded, List.append_assoc]
        · intro c ans hc
          rcases List.mem_append.mp hc with h | h
          · exact hq _ h c ans rfl
          · exact absurd h (hnoP c ans)
        · intro j _
          rfl
      | some snd =>
        rw [S_UpdateAmbientSounds_slot_load β env leaf s i sfx snd hsfx hp hl, hL]
        unfold S_UpdateAmbientSounds_start
        split
        · refine ⟨_, _, _, _, ?_, rfl, ?_, ?_, ?_⟩
          · exact (match s.ambient_fmod_channels.getD i none with
              | some c => [FmodCall.Channel_IsPlaying c (β.Channel_IsPlaying s.trace.clock c)]
              | none => []) ++ exL ++ [.System_PlaySound snd true none]
          · simp only [State.query_trace, Trace.query_calls, hLc, hfaded, List.append_assoc]
          · intro c ans hc
            rcases List.mem_append.mp hc with h | h
            · rcases List.mem_append.mp h with h | h
              · exact hq _ h c ans rfl
              · exact absurd h (hnoP c ans)
            · simp at h
          · intro j hj
            show (List.set _ i none)[j]? = _
            rw [List.getElem?_set_ne (Ne.symm hj)]
            rfl
        · rename_i ch hch
          simp only [State.emit, State.query]
          refine ⟨_, _, _, _, ?_, rfl, ?_, ?_, ?_⟩
          · exact (match s.ambient_fmod_channels.getD i none with
              | some c => [FmodCall.Channel_IsPlaying c (β.Channel_IsPlaying s.trace.clock c)]
              | none => []) ++ exL ++ ambientStartCalls snd ch (S_UpdateAmbientSounds_fade env
                (s.ambient_vol.getD i 0) (S_UpdateAmbientSounds_target env leaf i))
          · simp only [Trace.emit, Trace.query, hLc, hfaded,
              List.append_assoc, ambientStartCalls, List.singleton_append, List.cons_append,
              List.nil_append]
          · intro c ans hc
            rcases List.mem_append.mp hc with h | h
            · rcases List.mem_append.mp h with h | h
              · exact hq _ h c ans rfl
              · exact absurd h (hnoP c ans)
            · simp [ambientStartCalls] at h
          · intro j hj
            show (List.set _ i (some ch))[j]? = _
            rw [List.getElem?_set_ne (Ne.symm hj)]
            rfl

theorem S_UpdateAmbientSounds_loop_shape (β : Backend) (env : Engine) (leaf : Nat) :
    ∀ (n i : Nat) (s : State),
      ∃ (fs : Option (List fmod_sfx_t)) (t : Trace) (av : List ℚ) (ac : List (Option Nat))
        (extra : List FmodCall),
        S_UpdateAmbientSounds_loop β env leaf n i s =
          { s with
            fmod_sounds := fs, trace := t, ambient_vol := av, ambient_fmod_channels := ac } ∧
        t.calls = s.trace.calls ++ extra ∧
        ∀ c ans, FmodCall.Channel_IsPlaying c ans ∈ extra →
          ∃ j, i ≤ j ∧ s.ambient_fmod_channels[j]? = some (some c) := by
  intro n
  induction n with
  | zero =>
    intro i s
    exact ⟨_, _, _, _, [], rfl, by simp, fun c ans h => (List.not_mem_nil _ h).elim⟩
  | succ n ih =>
    intro i s
    obtain ⟨fs1, t1, av1, ac1, ex1, h1, hc1, hp1, hf1⟩ :=
      S_UpdateAmbientSounds_slot_shape β env leaf s i
    obtain ⟨fs2, t2, av2, ac2, ex2, h2, hc2, hp2⟩ :=
      ih (i + 1) (S_UpdateAmbientSounds_slot β env leaf s i)
    simp only [S_UpdateAmbientSounds_loop]
    rw [h2, h1]
    refine ⟨fs2, t2, av2, ac2, ex1 ++ ex2, rfl, ?_, ?_⟩
    · rw [hc2, h1]
      simp only [hc1, List.append_assoc]
    · intro c ans hc
      rcases List.mem_append.mp hc with h | h
      · have hg := hp1 c ans h
        refine ⟨i, le_refl i, ?_⟩
        rw [List.getD_eq_getElem?_getD] at hg
        cases hx : s.ambient_fmod_channels[i]? with
        | none =>
          rw [hx] at hg
          cases hg
        | some x =>
          rw [hx] at hg
          simp only [Option.getD_some] at hg
          rw [hg]
      · obtain ⟨j, hj, hjc⟩ := hp2 c ans h
        refine ⟨j, by omega, ?_⟩
        rw [h1] at hjc
        simp only at hjc
        rw [← hf1 j (by omega)]
        exact hjc

/-- `S_UpdateAmbientSounds` changes only the sound table, the transcript and
the volumes and channels of the ambient slots; the only channels it asks the
backend about are the channels of the ambient slots. -/
theorem S_UpdateAmbientSounds_shape (β : Backend) (env : Engine) (s : State) :
    ∃ (fs : Option (List fmod_sfx_t)) (t : Trace) (av : List ℚ) (ac : List (Option Nat))
      (extra : List FmodCall),
      S_UpdateAmbientSounds β env s =
        { s with fmod_sounds := fs, trace := t, ambient_vol := av, ambient_fmod_channels := ac } ∧
      t.calls = s.trace.calls ++ extra ∧
      ∀ c ans, FmodCall.Channel_IsPlaying c ans ∈ extra → some c ∈ s.ambient_fmod_channels := by
  unfold S_UpdateAmbientSounds
  split
  · obtain ⟨ex, h1, h2⟩ := StopAmbientChannels_scan_kinds s.trace s.ambient_fmod_channels
    refine ⟨_, _, _, _, ex, rfl, h1, ?_⟩
    intro c ans hc
    obtain ⟨ch, h⟩ := h2 _ hc
    cases h
  · split
    · obtain ⟨ex, h1, _, _, h4⟩ := S_UpdateAmbientSounds_mute_calls s.trace s.ambient_fmod_channels
      refine ⟨_, _, _, _, ex, rfl, h1, ?_⟩
      intro c ans hc
      obtain ⟨ch, h, _⟩ := h4 _ hc
      cases h
    · obtain ⟨fs, t, av, ac, ex, h1, h2, h3⟩ := S_UpdateAmbientSounds_loop_shape β env
        (env.CM_PointInLeaf s.listener_origin) s.ambient_sfx.length 0 s
      refine ⟨fs, t, av, ac, ex, h1, h2, ?_⟩
      intro c ans hc
      obtain ⟨j, _, hj⟩ := h3 c ans hc
      exact List.mem_iff_getElem?.mpr ⟨j, hj⟩

theorem AsksNothing_rfl (t : Trace) : AsksNothing t.calls t :=
  ⟨[], by simp, by simp⟩

theorem AsksNothing_emit {base : List FmodCall} {t : Trace} (h : AsksNothing base t)
    (a : FmodCall) (ha : ∀ c ans, a ≠ FmodCall.Channel_IsPlaying c ans) :
    AsksNothing base (t.emit a) := by
  obtain ⟨ex, h1, h2⟩ := h
  refine ⟨ex ++ [a], by simp [Trace.emit_calls, h1], ?_⟩
  intro c ans hm
  rcases List.mem_append.mp hm with h | h
  · exact h2 c ans h
  · rw [List.mem_singleton] at h
    exact ha c ans h.symm

theorem AsksNothing_query {base : List FmodCall} {t : Trace} (h : AsksNothing base t)
    (a : FmodCall) (ha : ∀ c ans, a ≠ FmodCall.Channel_IsPlaying c ans) :
    AsksNothing base (t.query a) := by
  obtain ⟨ex, h1, h2⟩ := h
  refine ⟨ex ++ [a], by simp [Trace.query_calls, h1], ?_⟩
  intro c ans hm
  rcases List.mem_append.mp hm with h | h
  · exact h2 c ans h
  · rw [List.mem_singleton] at h
    exact ha c ans h.symm

theorem Atmoky_AttachExternalizer_shape (β : Backend) (env : Engine) (s : State) :
    ∃ (t : Trace) (m : Option Nat),
      Atmoky_AttachExternalizer β env s =
        { s with trace := t, atmoky_master_externalizer := m } ∧
      AsksNothing s.trace.calls t := by
  unfold Atmoky_AttachExternalizer
  split
  · exact ⟨_, _, rfl, AsksNothing_rfl _⟩
  · split
    · exact ⟨_, _, rfl, AsksNothing_rfl _⟩
    · split
      · exact ⟨_, _, rfl, AsksNothing_rfl _⟩
      · simp only
        split
        · exact ⟨_, _, rfl, AsksNothing_query (AsksNothing_rfl _) _ (by simp)⟩
        · split
          · simp only [State.emit, State.query]
            exact ⟨_, _, rfl, AsksNothing_emit (AsksNothing_query (AsksNothing_query
              (AsksNothing_rfl _) _ (by simp)) _ (by simp)) _ (by simp)⟩
          · split
            · simp only [State.emit, State.query]
              exact ⟨_, _, rfl, AsksNothing_emit (AsksNothing_query (AsksNothing_query
                (AsksNothing_query (AsksNothing_rfl _) _ (by simp)) _ (by simp)) _ (by simp)) _
                (by simp)⟩
            · simp only [State.emit, State.query]
              exact ⟨_, _, rfl, AsksNothing_emit (AsksNothing_emit (AsksNothing_query
                (AsksNothing_query (AsksNothing_query (AsksNothing_rfl _) _ (by simp)) _
                (by simp)) _ (by simp)) _ (by simp)) _ (by simp)⟩

theorem Atmoky_DetachExternalizer_shape (β : Backend) (s : State) :
    ∃ (t : Trace) (m : Option Nat),
      Atmoky_DetachExternalizer β s =
        { s with trace := t, atmoky_master_externalizer := m } ∧
      AsksNothing s.trace.calls t := by
  unfold Atmoky_DetachExternalizer
  split
  · exact ⟨_, _, rfl, AsksNothing_rfl _⟩
  · simp only
    split
    · simp only [State.emit, State.query]
      exact ⟨_, _, rfl, AsksNothing_emit (AsksNothing_rfl _) _ (by simp)⟩
    · split
      · simp only [State.emit, State.query]
        exact ⟨_, _, rfl, AsksNothing_emit (AsksNothing_emit (AsksNothing_query
          (AsksNothing_rfl _) _ (by simp)) _ (by simp)) _ (by simp)⟩
      · simp only [State.emit, State.query]
        exact ⟨_, _, rfl, AsksNothing_emit (AsksNothing_query
          (AsksNothing_rfl _) _ (by simp)) _ (by simp)⟩

theorem Atmoky_UpdateExternalizer_shape (β : Backend) (env : Engine) (s : State) :
    ∃ (t : Trace) (m : Option Nat),
      Atmoky_UpdateExternalizer β env s =
        { s with trace := t, atmoky_master_externalizer := m } ∧
      AsksNothing s.trace.calls t := by
  have h1 : ∃ (t : Trace) (m : Option Nat),
      (if env.s_externalizer ≠ 0 ∧ s.atmoky_master_externalizer = none then
        Atmoky_AttachExternalizer β env s else s) =
        { s with trace := t, atmoky_master_externalizer := m } ∧
      AsksNothing s.trace.calls t := by
    split
    · exact Atmoky_AttachExternalizer_shape β env s
    · exact ⟨_, _, rfl, AsksNothing_rfl _⟩
  unfold Atmoky_UpdateExternalizer
  split
  · exact Atmoky_DetachExternalizer_shape β s
  · obtain ⟨t, m, h, hq⟩ := h1
    simp only
    rw [h]
    split
    · exact ⟨t, m, rfl, hq⟩
    · simp only [State.emit]
      exact ⟨_, _, rfl, AsksNothing_emit (AsksNothing_emit hq _ (by simp)) _ (by simp)⟩

/-- The first part of `S_Update` changes only the listener and the
transcript; it gives the backend the listener with the basis of
`S_Update_basis`, and asks about no channel. -/
theorem S_Update_listener_shape (β : Backend) (env : Engine) (s : State)
    (origin forward right up : vec3_t) :
    ∃ (t : Trace),
      S_Update_listener β env s origin forward right up =
        { s with
          trace := t
          listener_origin := origin
          listener_forward := forward
          listener_right := right
          listener_up := up
          listener_atmoky :=
            if s.atmoky_available = true then
              { position := QToAtmokyPosMeters origin
                velocity :=
                  if env.cls_state = env.ca_active then QToAtmokyVelMeters env.cl_simvel
                  else ⟨0, 0, 0⟩
                forward :=
                  (S_Update_basis env.sqrtf (QToAtmokyDir forward) (QToAtmokyDir up)).1
                up := (S_Update_basis env.sqrtf (QToAtmokyDir forward) (QToAtmokyDir up)).2 }
            else s.listener_atmoky
          listener_atmoky_right :=
            if s.atmoky_available = true then
              FMOD_Cross (S_Update_basis env.sqrtf (QToAtmokyDir forward) (QToAtmokyDir up)).2
                (S_Update_basis env.sqrtf (QToAtmokyDir forward) (QToAtmokyDir up)).1
            else s.listener_atmoky_right } ∧
      AsksNothing s.trace.calls t ∧
      FmodCall.System_Set3DListenerAttributes origin
        (if env.cls_state = env.ca_active then env.cl_simvel else ⟨0, 0, 0⟩)
        (S_Update_basis env.sqrtf forward up).1 (S_Update_basis env.sqrtf forward up).2 ∈
          t.calls := by
  unfold S_Update_listener
  simp only
  cases hav : s.atmoky_available with
  | true =>
    simp only [if_true]
    split
    · simp only [State.emit, State.query]
      exact ⟨_, rfl, AsksNothing_emit (AsksNothing_query (AsksNothing_emit (AsksNothing_emit
        (AsksNothing_rfl _) _ (by simp)) _ (by simp)) _ (by simp)) _ (by simp),
        by simp [Trace.emit, Trace.query]⟩
    · simp only [State.emit, State.query]
      exact ⟨_, rfl, AsksNothing_query (AsksNothing_emit (AsksNothing_emit
        (AsksNothing_rfl _) _ (by simp)) _ (by simp)) _ (by simp),
        by simp [Trace.emit, Trace.query]⟩
  | false =>
    simp only [Bool.false_eq_true, if_false]
    split
    · simp only [State.emit, State.query]
      exact ⟨_, rfl, AsksNothing_emit (AsksNothing_query (AsksNothing_emit (AsksNothing_emit
        (AsksNothing_rfl _) _ (by simp)) _ (by simp)) _ (by simp)) _ (by simp),
        by simp [Trace.emit, Trace.query]⟩
    · simp only [State.emit, State.query]
      exact ⟨_, rfl, AsksNothing_query (AsksNothing_emit (AsksNothing_emit
        (AsksNothing_rfl _) _ (by simp)) _ (by simp)) _ (by simp),
        by simp [Trace.emit, Trace.query]⟩

theorem AsksNothing_trans {base : List FmodCall} {t1 t2 : Trace} (h1 : AsksNothing base t1)
    (h2 : AsksNothing t1.calls t2) : AsksNothing base t2 := by
  obtain ⟨e1, h1a, h1b⟩ := h1
  obtain ⟨e2, h2a, h2b⟩ := h2
  refine ⟨e1 ++ e2, by rw [h2a, h1a, List.append_assoc], ?_⟩
  intro c ans hm
  rcases List.mem_append.mp hm with h | h
  · exact h1b c ans h
  · exact h2b c ans h

/-- `S_Update` behind its guard: the pool is the pool after the two sweeps,
which run on the state the listener and ambient parts left; what follows the
sweeps asks about no channel and leaves the listener alone. -/
theorem S_Update_parts (β : Backend) (env : Engine) (s : State)
    (origin forward right up : vec3_t)
    (hinit : s.fmod_initialized = true) (hblk : s.snd_blocked ≤ 0) :
    (S_Update β env s origin forward right up).fmod_channels =
      (Atmoky_UpdateSpatializers β env (S_UpdateMovingSounds β env (S_UpdateAmbientSounds β env
        (S_Update_listener β env s origin forward right up)))).fmod_channels ∧
    AsksNothing
      (Atmoky_UpdateSpatializers β env (S_UpdateMovingSounds β env (S_UpdateAmbientSounds β env
        (S_Update_listener β env s origin forward right up)))).trace.calls
      (S_Update β env s origin forward right up).trace ∧
    (S_Update β env s origin forward right up).listener_atmoky =
      (S_Update_listener β env s origin forward right up).listener_atmoky ∧
    (S_Update β env s origin forward right up).listener_atmoky_right =
      (S_Update_listener β env s origin forward right up).listener_atmoky_right := by
  have hg : ¬ (s.fmod_initialized = false ∨ s.snd_blocked > 0) := by
    rw [hinit]
    simp only [Bool.true_eq_false, false_or, not_lt]
    exact hblk
  obtain ⟨fsA, tA, avA, acA, exA, hA, _, _⟩ := S_UpdateAmbientSounds_shape β env
    (S_Update_listener β env s origin forward right up)
  have hMl : (S_UpdateMovingSounds β env (S_UpdateAmbientSounds β env
      (S_Update_listener β env s origin forward right up))).listener_atmoky =
      (S_Update_listener β env s origin forward right up).listener_atmoky := by
    rw [hA]
    rfl
  have hMr : (S_UpdateMovingSounds β env (S_UpdateAmbientSounds β env
      (S_Update_listener β env s origin forward right up))).listener_atmoky_right =
      (S_Update_listener β env s origin forward right up).listener_atmoky_right := by
    rw [hA]
    rfl
  have hS : ∀ x : State, (Atmoky_UpdateSpatializers β env x).listener_atmoky = x.listener_atmoky ∧
      (Atmoky_UpdateSpatializers β env x).listener_atmoky_right = x.listener_atmoky_right := by
    intro x
    unfold Atmoky_UpdateSpatializers
    split
    · exact ⟨rfl, rfl⟩
    · exact ⟨rfl, rfl⟩
  have hSoff : ∀ x : State, x.atmoky_available ≠ true → Atmoky_UpdateSpatializers β env x = x := by
    intro x hx
    unfold Atmoky_UpdateSpatializers
    rw [if_pos (by simpa using hx)]
  obtain ⟨tE, mE, hE, hEq⟩ := Atmoky_UpdateExternalizer_shape β env
    (Atmoky_UpdateSpatializers β env (S_UpdateMovingSounds β env (S_UpdateAmbientSounds β env
      (S_Update_listener β env s origin forward right up))))
  unfold S_Update
  rw [if_neg hg]
  simp only
  by_cases hav : (S_UpdateMovingSounds β env (S_UpdateAmbientSounds β env
      (S_Update_listener β env s origin forward right up))).atmoky_available = true
  · simp only [if_pos hav]
    rw [hE]
    by_cases hshow : env.s_show ≠ 0
    · simp only [if_pos hshow, State.emit]
      exact ⟨trivial, AsksNothing_emit (AsksNothing_emit hEq _ (by simp)) _ (by simp),
        (hS _).1.trans hMl, (hS _).2.trans hMr⟩
    · simp only [if_neg hshow, State.emit]
      exact ⟨trivial, AsksNothing_emit hEq _ (by simp), (hS _).1.trans hMl, (hS _).2.trans hMr⟩
  · simp only [if_neg hav]
    rw [hSoff _ hav]
    by_cases hshow : env.s_show ≠ 0
    · simp only [if_pos hshow, State.emit]
      exact ⟨trivial, AsksNothing_emit (AsksNothing_emit (AsksNothing_rfl _) _ (by simp)) _ (by simp),
        hMl, hMr⟩
    · simp only [if_neg hshow, State.emit]
      exact ⟨trivial, AsksNothing_emit (AsksNothing_rfl _) _ (by simp), hMl, hMr⟩

/-! ### The listener basis -/

theorem NormalizeInPlace_small {K : Type} [LinearOrderedField K] (sqrtf : K → K) (v : Vec3 K)
    (h : DotProduct v v < 1 / 1000000) : NormalizeInPlace sqrtf v = (false, v) := by
  unfold DotProduct at h
  unfold NormalizeInPlace
  rw [if_pos h]

/-- `NormalizeInPlace` on a vector that is not degenerate, with an exact
square root: the vector is scaled to unit length. -/
theorem NormalizeInPlace_unit {K : Type} [LinearOrderedField K] (sqrtf : K → K)
    (hsqrt : ∀ x : K, 0 ≤ x → 0 ≤ sqrtf x ∧ sqrtf x * sqrtf x = x) (v : Vec3 K)
    (h : ¬ DotProduct v v < 1 / 1000000) :
    NormalizeInPlace sqrtf v = (true, VectorScale v (1 / sqrtf (DotProduct v v))) ∧
    DotProduct (VectorScale v (1 / sqrtf (DotProduct v v)))
      (VectorScale v (1 / sqrtf (DotProduct v v))) = 1 := by
  obtain ⟨hs0, hss⟩ := hsqrt _ (DotProduct_self_nonneg v)
  have hpos : 0 < DotProduct v v := lt_of_lt_of_le (by norm_num) (not_lt.mp h)
  have hsne : sqrtf (DotProduct v v) ≠ 0 := by
    intro h0
    rw [h0] at hss
    simp only [mul_zero] at hss
    exact absurd hss.symm (ne_of_gt hpos)
  refine ⟨?_, ?_⟩
  · have h2 := h
    unfold DotProduct at h2
    unfold NormalizeInPlace
    rw [if_neg h2]
    rfl
  · rw [DotProduct_VectorScale]
    nth_rewrite 1 [← hss]
    field_simp

/-- The basis of `S_Update` with an exact square root.  Degenerate inputs
give the defaults.  Otherwise forward is the input scaled to unit length, and
up is the residual `r` of the scaled up vector after its forward component is
removed, scaled to unit length when `r . r >= 1e-6` and left as it is when
`r . r < 1e-6`.  Forward has unit length and up is orthogonal to it in every
case; up has unit length in every case but the last. -/
theorem S_Update_basis_exact {K : Type} [LinearOrderedField K] (sqrtf : K → K)
    (hsqrt : ∀ x : K, 0 ≤ x → 0 ≤ sqrtf x ∧ sqrtf x * sqrtf x = x) (fwd up : Vec3 K) :
    (DotProduct fwd fwd < 1 / 1000000 ∨ DotProduct up up < 1 / 1000000 →
      S_Update_basis sqrtf fwd up = (⟨0, 0, 1⟩, ⟨0, 1, 0⟩)) ∧
    (¬ DotProduct fwd fwd < 1 / 1000000 → ¬ DotProduct up up < 1 / 1000000 →
      ∀ f u r : Vec3 K, f = VectorScale fwd (1 / sqrtf (DotProduct fwd fwd)) →
        u = VectorScale up (1 / sqrtf (DotProduct up up)) →
        r = ⟨u.x - DotProduct f u * f.x, u.y - DotProduct f u * f.y,
          u.z - DotProduct f u * f.z⟩ →
        (S_Update_basis sqrtf fwd up).1 = f ∧
        DotProduct r r = 1 - DotProduct f u * DotProduct f u ∧
        (¬ DotProduct r r < 1 / 1000000 →
          (S_Update_basis sqrtf fwd up).2 = VectorScale r (1 / sqrtf (DotProduct r r)) ∧
          DotProduct (S_Update_basis sqrtf fwd up).2 (S_Update_basis sqrtf fwd up).2 = 1) ∧
        (DotProduct r r < 1 / 1000000 →
          (S_Update_basis sqrtf fwd up).2 = r ∧
          DotProduct (S_Update_basis sqrtf fwd up).2 (S_Update_basis sqrtf fwd up).2
            < 1 / 1000000)) ∧
    DotProduct (S_Update_basis sqrtf fwd up).1 (S_Update_basis sqrtf fwd up).1 = 1 ∧
    DotProduct (S_Update_basis sqrtf fwd up).1 (S_Update_basis sqrtf fwd up).2 = 0 := by
  by_cases hf : DotProduct fwd fwd < 1 / 1000000
  · have hb : S_Update_basis sqrtf fwd up = (⟨0, 0, 1⟩, ⟨0, 1, 0⟩) := by
      unfold S_Update_basis
      rw [NormalizeInPlace_small sqrtf fwd hf]
      simp
    refine ⟨fun _ => hb, fun h => absurd hf h, ?_, ?_⟩
    · rw [hb]
      simp [DotProduct]
    · rw [hb]
      simp [DotProduct]
  · obtain ⟨hnf, hff⟩ := NormalizeInPlace_unit sqrtf hsqrt fwd hf
    by_cases hu : DotProduct up up < 1 / 1000000
    · have hb : S_Update_basis sqrtf fwd up = (⟨0, 0, 1⟩, ⟨0, 1, 0⟩) := by
        unfold S_Update_basis
        rw [hnf, NormalizeInPlace_small sqrtf up hu]
        simp
      refine ⟨fun _ => hb, fun _ h => absurd hu h, ?_, ?_⟩
      · rw [hb]
        simp [DotProduct]
      · rw [hb]
        simp [DotProduct]
    · obtain ⟨hnu, huu⟩ := NormalizeInPlace_unit sqrtf hsqrt up hu
      set f := VectorScale fwd (1 / sqrtf (DotProduct fwd fwd)) with hfdef
      set u := VectorScale up (1 / sqrtf (DotProduct up up)) with hudef
      have hb : S_Update_basis sqrtf fwd up = (f, (NormalizeInPlace sqrtf
          ⟨u.x - DotProduct f u * f.x, u.y - DotProduct f u * f.y,
            u.z - DotProduct f u * f.z⟩).2) := by
        unfold S_Update_basis OrthonormalizeFmodVectors
        rw [hnf, hnu]
        simp only [Bool.true_eq_false, if_false]
        rfl
      have hrr : DotProduct (⟨u.x - DotProduct f u * f.x, u.y - DotProduct f u * f.y,
          u.z - DotProduct f u * f.z⟩ : Vec3 K) ⟨u.x - DotProduct f u * f.x,
          u.y - DotProduct f u * f.y, u.z - DotProduct f u * f.z⟩ =
          1 - DotProduct f u * DotProduct f u := by
        have e1 : DotProduct (⟨u.x - DotProduct f u * f.x, u.y - DotProduct f u * f.y,
            u.z - DotProduct f u * f.z⟩ : Vec3 K) ⟨u.x - DotProduct f u * f.x,
            u.y - DotProduct f u * f.y, u.z - DotProduct f u * f.z⟩ =
            DotProduct u u - 2 * (DotProduct f u * DotProduct f u) +
              DotProduct f u * DotProduct f u * DotProduct f f := by
          simp only [DotProduct]
          ring
        rw [e1, hff, huu]
        ring
      have hfr : DotProduct f (⟨u.x - DotProduct f u * f.x, u.y - DotProduct f u * f.y,
          u.z - DotProduct f u * f.z⟩ : Vec3 K) = 0 := by
        have e1 : DotProduct f (⟨u.x - DotProduct f u * f.x, u.y - DotProduct f u * f.y,
            u.z - DotProduct f u * f.z⟩ : Vec3 K) =
            DotProduct f u - DotProduct f u * DotProduct f f := by
          simp only [DotProduct]
          ring
        rw [e1, hff]
        ring
      have hscale : ∀ (a b : Vec3 K) (k : K),
          DotProduct a (VectorScale b k) = DotProduct a b * k := by
        intro a b k
        simp only [DotProduct, VectorScale]
        ring
      refine ⟨fun h => ?_, fun _ _ f2 u2 r2 hf2 hu2 hr2 => ?_, ?_, ?_⟩
      · rcases h with h | h
        · exact absurd h hf
        · exact absurd h hu
      · subst hf2
        subst hu2
        subst hr2
        refine ⟨by rw [hb], hrr, fun hr => ?_, fun hr => ?_⟩
        · obtain ⟨hnr, hrr1⟩ := NormalizeInPlace_unit sqrtf hsqrt _ hr
          rw [hb]
          simp only
          rw [hnr]
          exact ⟨rfl, hrr1⟩
        · rw [hb]
          simp only
          rw [NormalizeInPlace_small sqrtf _ hr]
          exact ⟨rfl, hr⟩
      · rw [hb]
        exact hff
      · rw [hb]
        simp only
        by_cases hr : DotProduct (⟨u.x - DotProduct f u * f.x, u.y - DotProduct f u * f.y,
            u.z - DotProduct f u * f.z⟩ : Vec3 K) ⟨u.x - DotProduct f u * f.x,
            u.y - DotProduct f u * f.y, u.z - DotProduct f u * f.z⟩ < 1 / 1000000
        · rw [NormalizeInPlace_small sqrtf _ hr]
          exact hfr
        · rw [(NormalizeInPlace_unit sqrtf hsqrt _ hr).1]
          simp only
          rw [hscale, hfr, zero_mul]

/-- What `S_Update` hands to the backend and stores for the spatializers: the
basis of `S_Update_basis` for the forward and up vectors it is given, and for
the spatializers the basis of the converted vectors, with the cross product
of up and forward as the right vector. -/
theorem S_Update_hands_basis (β : Backend) (env : Engine) (s : State)
    (origin forward right up : vec3_t)
    (hinit : s.fmod_initialized = true) (hblk : s.snd_blocked ≤ 0) :
    FmodCall.System_Set3DListenerAttributes origin
        (if env.cls_state = env.ca_active then env.cl_simvel else ⟨0, 0, 0⟩)
        (S_Update_basis env.sqrtf forward up).1 (S_Update_basis env.sqrtf forward up).2 ∈
      (S_Update β env s origin forward right up).trace.calls ∧
    (s.atmoky_available = true →
      (S_Update β env s origin forward right up).listener_atmoky.forward =
        (S_Update_basis env.sqrtf (QToAtmokyDir forward) (QToAtmokyDir up)).1 ∧
      (S_Update β env s origin forward right up).listener_atmoky.up =
        (S_Update_basis env.sqrtf (QToAtmokyDir forward) (QToAtmokyDir up)).2 ∧
      (S_Update β env s origin forward right up).listener_atmoky_right =
        FMOD_Cross (S_Update β env s origin forward right up).listener_atmoky.up
          (S_Update β env s origin forward right up).listener_atmoky.forward) := by
  obtain ⟨hpool, ⟨exP, hP, _⟩, hla, hlr⟩ := S_Update_parts β env s origin forward right up
    hinit hblk
  obtain ⟨tL, hL, _, hmem⟩ := S_Update_listener_shape β env s origin forward right up
  obtain ⟨fsA, tA, avA, acA, exA, hA, hAc, _⟩ := S_UpdateAmbientSounds_shape β env
    (S_Update_listener β env s origin forward right up)
  obtain ⟨exM, hM, _, _⟩ := S_UpdateMovingSounds_step β env (S_UpdateAmbientSounds β env
    (S_Update_listener β env s origin forward right up))
  obtain ⟨exS, hS, _, _⟩ := Atmoky_UpdateSpatializers_step β env (S_UpdateMovingSounds β env
    (S_UpdateAmbientSounds β env (S_Update_listener β env s origin forward right up)))
  simp only at hM hS
  refine ⟨?_, fun hav => ?_⟩
  · rw [hP, hS, hM, hA]
    simp only
    rw [hAc, hL]
    simp only [List.mem_append]
    exact Or.inl (Or.inl (Or.inl (Or.inl hmem)))
  · rw [hla, hlr, hL]
    simp only [hav, if_true, and_self]

theorem S_Update_basis_parallel_real :
    S_Update_basis Real.sqrt (⟨1, 0, 0⟩ : Vec3 ℝ) ⟨1, 0, 0⟩ = (⟨1, 0, 0⟩, ⟨0, 0, 0⟩) := by
  have h1 : NormalizeInPlace Real.sqrt (⟨1, 0, 0⟩ : Vec3 ℝ) = (true, ⟨1, 0, 0⟩) := by
    unfold NormalizeInPlace
    norm_num
  have h2 : NormalizeInPlace Real.sqrt (⟨0, 0, 0⟩ : Vec3 ℝ) = (false, ⟨0, 0, 0⟩) := by
    unfold NormalizeInPlace
    norm_num
  unfold S_Update_basis OrthonormalizeFmodVectors
  rw [h1]
  norm_num
  exact congrArg Prod.snd h2

theorem engineQuake_sqrtf_one : engineQuake.sqrtf 1 = 1 := by
  show ((Nat.sqrt (1 : ℚ).floor.toNat : ℕ) : ℚ) = 1
  have : (1 : ℚ).floor = 1 := by simp [Rat.floor]
  rw [this]
  norm_num [Nat.sqrt]

theorem S_Update_basis_parallel_engine :
    S_Update_basis engineQuake.sqrtf (⟨1, 0, 0⟩ : vec3_t) ⟨1, 0, 0⟩ = (⟨1, 0, 0⟩, ⟨0, 0, 0⟩) ∧
    S_Update_basis engineQuake.sqrtf (QToAtmokyDir ⟨1, 0, 0⟩) (QToAtmokyDir ⟨1, 0, 0⟩) =
      (⟨0, 0, 1⟩, ⟨0, 0, 0⟩) := by
  have h1 : NormalizeInPlace engineQuake.sqrtf (⟨1, 0, 0⟩ : vec3_t) = (true, ⟨1, 0, 0⟩) := by
    unfold NormalizeInPlace
    norm_num [engineQuake_sqrtf_one]
  have h3 : NormalizeInPlace engineQuake.sqrtf (⟨0, 0, 1⟩ : vec3_t) = (true, ⟨0, 0, 1⟩) := by
    unfold NormalizeInPlace
    norm_num [engineQuake_sqrtf_one]
  have h2 : NormalizeInPlace engineQuake.sqrtf (⟨0, 0, 0⟩ : vec3_t) = (false, ⟨0, 0, 0⟩) := by
    unfold NormalizeInPlace
    norm_num
  have hq : QToAtmokyDir ⟨1, 0, 0⟩ = (⟨0, 0, 1⟩ : vec3_t) := by
    unfold QToAtmokyDir
    norm_num
  refine ⟨?_, ?_⟩
  · unfold S_Update_basis OrthonormalizeFmodVectors
    rw [h1]
    norm_num
    exact congrArg Prod.snd h2
  · rw [hq]
    unfold S_Update_basis OrthonormalizeFmodVectors
    rw [h3]
    norm_num
    exact congrArg Prod.snd h2

/-- C21 on the code: the listener basis is not orthonormal for every pose.
For forward = up = `(1, 0, 0)`, in exact real arithmetic, the basis of
`S_Update` is forward `(1, 0, 0)` and up `(0, 0, 0)`: the up vector left after
its forward component is removed is degenerate, `NormalizeInPlace` returns
false without touching it and `OrthonormalizeFmodVectors` does not read that
result.  `S_Update` hands this basis to the backend, and with the spatializer
plugin it stores the up vector `(0, 0, 0)` and the right vector `(0, 0, 0)`.
This is the only way the basis fails: with an exact square root, forward has
unit length and up is orthogonal to it for all inputs, and up has unit length
unless its squared length is below `1e-6`. -/
theorem S_Update_parallel_up_not_unit :
    S_Update_basis Real.sqrt (⟨1, 0, 0⟩ : Vec3 ℝ) ⟨1, 0, 0⟩ = (⟨1, 0, 0⟩, ⟨0, 0, 0⟩) ∧
    DotProduct (S_Update_basis Real.sqrt (⟨1, 0, 0⟩ : Vec3 ℝ) ⟨1, 0, 0⟩).2
      (S_Update_basis Real.sqrt (⟨1, 0, 0⟩ : Vec3 ℝ) ⟨1, 0, 0⟩).2 ≠ 1 ∧
    FmodCall.System_Set3DListenerAttributes vec3_origin vec3_origin ⟨1, 0, 0⟩ ⟨0, 0, 0⟩ ∈
      (S_Update backendLive engineQuake stateReady vec3_origin ⟨1, 0, 0⟩ ⟨0, -1, 0⟩
        ⟨1, 0, 0⟩).trace.calls ∧
    (S_Update backendLive engineQuake stateSpatial vec3_origin ⟨1, 0, 0⟩ ⟨0, -1, 0⟩
      ⟨1, 0, 0⟩).listener_atmoky.forward = ⟨0, 0, 1⟩ ∧
    (S_Update backendLive engineQuake stateSpatial vec3_origin ⟨1, 0, 0⟩ ⟨0, -1, 0⟩
      ⟨1, 0, 0⟩).listener_atmoky.up = ⟨0, 0, 0⟩ ∧
    (S_Update backendLive engineQuake stateSpatial vec3_origin ⟨1, 0, 0⟩ ⟨0, -1, 0⟩
      ⟨1, 0, 0⟩).listener_atmoky_right = ⟨0, 0, 0⟩ ∧
    (∀ (K : Type) [LinearOrderedField K] (sqrtf : K → K),
      (∀ x : K, 0 ≤ x → 0 ≤ sqrtf x ∧ sqrtf x * sqrtf x = x) → ∀ fwd up : Vec3 K,
      DotProduct (S_Update_basis sqrtf fwd up).1 (S_Update_basis sqrtf fwd up).1 = 1 ∧
      DotProduct (S_Update_basis sqrtf fwd up).1 (S_Update_basis sqrtf fwd up).2 = 0 ∧
      (DotProduct (S_Update_basis sqrtf fwd up).2 (S_Update_basis sqrtf fwd up).2 = 1 ∨
        DotProduct (S_Update_basis sqrtf fwd up).2 (S_Update_basis sqrtf fwd up).2
          < 1 / 1000000)) := by
  obtain ⟨he1, he2⟩ := S_Update_basis_parallel_engine
  have hA := S_Update_hands_basis backendLive engineQuake stateReady vec3_origin ⟨1, 0, 0⟩
    ⟨0, -1, 0⟩ ⟨1, 0, 0⟩ rfl (le_refl _)
  have hB := (S_Update_hands_basis backendLive engineQuake stateSpatial vec3_origin ⟨1, 0, 0⟩
    ⟨0, -1, 0⟩ ⟨1, 0, 0⟩ rfl (le_refl _)).2 rfl
  rw [he2] at hB
  obtain ⟨hB1, hB2, hB3⟩ := hB
  refine ⟨S_Update_basis_parallel_real, ?_, ?_, hB1, hB2, ?_, ?_⟩
  · rw [S_Update_basis_parallel_real]
    norm_num [DotProduct]
  · have h := hA.1
    rw [he1] at h
    exact h
  · rw [hB3, hB1, hB2]
    norm_num [FMOD_Cross]
  · intro K _ sqrtf hsqrt fwd up
    obtain ⟨hdeg, hreg, h1, h2⟩ := S_Update_basis_exact sqrtf hsqrt fwd up
    refine ⟨h1, h2, ?_⟩
    by_cases hf : DotProduct fwd fwd < 1 / 1000000
    · rw [hdeg (Or.inl hf)]
      left
      simp [DotProduct]
    · by_cases hu : DotProduct up up < 1 / 1000000
      · rw [hdeg (Or.inr hu)]
        left
        simp [DotProduct]
      · obtain ⟨_, _, hbig, hsmall⟩ := hreg hf hu _ _ _ rfl rfl rfl
        exact (Classical.em _).elim (fun h => Or.inr (hsmall h).2) (fun h => Or.inl (hbig h).2)

/-! ### Termination of the stop-existing loop -/

theorem matchCount_le_inUseCount (e c : Int) (l : List fmod_channel_t) :
    matchCount e c l ≤ inUseCount l := by
  unfold matchCount inUseCount
  apply List.countP_mono_left
  intro f _ h
  simp only [Bool.and_eq_true] at h
  exact h.1

theorem matchCount_le_of_Forall₂ {e c : Int} {calls : List FmodCall}
    {l l2 : List fmod_channel_t} (h : List.Forall₂ (KeptOrReleased e c calls) l l2) :
    matchCount e c l2 ≤ matchCount e c l := by
  unfold matchCount
  induction h with
  | nil => simp
  | @cons a b l l2 hab _ ih =>
    rcases hab with hab | ⟨och, h1, _, h3, _⟩
    · subst hab
      simp only [List.countP_cons]
      omega
    · have hb : b.channel = none := by rw [h3]
      simp only [List.countP_cons, hb, Option.isSome_none, Bool.false_and]
      simp only [Bool.false_eq_true, if_false]
      omega

theorem matchCount_set_free (e c : Int) (l : List fmod_channel_t) (i : Nat)
    (a x : fmod_channel_t) (ha : l[i]? = some a) (hin : a.channel ≠ none)
    (hm : slotMatches e c a = true) (hx : x.channel = none) :
    matchCount e c (l.set i x) + 1 = matchCount e c l := by
  unfold matchCount
  induction l generalizing i with
  | nil => simp at ha
  | cons b l ih =>
    cases i with
    | zero =>
      simp only [List.getElem?_cons_zero, Option.some.injEq] at ha
      subst ha
      obtain ⟨ch, hch⟩ := Option.ne_none_iff_exists'.mp hin
      simp [List.countP_cons, hx, hch, hm]
    | succ i =>
      simp only [List.getElem?_cons_succ] at ha
      simp only [List.set_cons_succ, List.countP_cons]
      have := ih i ha
      omega

/-- One iteration of the stop-existing loop: `FindChannel` puts no slot in
use, and the body frees a slot in use that matches `(e, c)`. -/
theorem S_StartSound_stopExisting_progress (β : Backend) (e c : Int) (s : State) (i : Nat)
    (hi : (FindChannel β s e c).1 = some i) :
    matchCount e c (S_StartSound_stopFound (FindChannel β s e c).2 i).fmod_channels + 1 ≤
      matchCount e c s.fmod_channels ∧
    inUseCount (S_StartSound_stopFound (FindChannel β s e c).2 i).fmod_channels + 1 ≤
      inUseCount s.fmod_channels := by
  obtain ⟨_, hrel, _, hsome⟩ := FindChannel_scan_spec β e c s.trace s.fmod_channels
  obtain ⟨f, ch, hf, hch, hm⟩ := hsome i hi
  have h1 := matchCount_le_of_Forall₂ hrel
  have h2 := inUseCount_le_of_Forall₂ hrel
  have hf2 : (FindChannel β s e c).2.fmod_channels[i]? = some f := hf
  have hst : (S_StartSound_stopFound (FindChannel β s e c).2 i).fmod_channels =
      (FindChannel β s e c).2.fmod_channels.set i { f with channel := none, spatializer := none } := by
    unfold S_StartSound_stopFound
    simp only [hf2, hch, Atmoky_ReleaseSpatializer_snd]
  have h3 := matchCount_set_free e c _ i f { f with channel := none, spatializer := none } hf2
    (by simp [hch]) hm rfl
  have h4 := inUseCount_set_free _ i f { f with channel := none, spatializer := none } hf2
    (by simp [hch]) rfl
  rw [hst]
  have h1' : matchCount e c (FindChannel β s e c).2.fmod_channels ≤
      matchCount e c s.fmod_channels := h1
  have h2' : inUseCount (FindChannel β s e c).2.fmod_channels ≤ inUseCount s.fmod_channels := h2
  omega

/-- The stop-existing loop ends within as many iterations as slots in use
match, and more fuel does not change what it does. -/
theorem S_StartSound_stopExisting_ends (β : Backend) (e c : Int) :
    ∀ (fuel : Nat) (s : State), matchCount e c s.fmod_channels < fuel →
      ∃ k, S_StartSound_stopExisting_iterations β e c fuel s = some k ∧
        k ≤ matchCount e c s.fmod_channels ∧
        ∀ fuel2, k < fuel2 →
          S_StartSound_stopExisting_iterations β e c fuel2 s = some k ∧
          S_StartSound_stopExisting β e c fuel2 s = S_StartSound_stopExisting β e c fuel s := by
  intro fuel
  induction fuel with
  | zero => intro s h; exact absurd h (Nat.not_lt_zero _)
  | succ fuel ih =>
    intro s hfuel
    cases hr : (FindChannel β s e c).1 with
    | none =>
      refine ⟨0, by simp only [S_StartSound_stopExisting_iterations, hr], Nat.zero_le _, ?_⟩
      intro fuel2 h2
      cases fuel2 with
      | zero => exact absurd h2 (Nat.lt_irrefl _)
      | succ n =>
        simp only [S_StartSound_stopExisting_iterations, S_StartSound_stopExisting, hr, and_self]
    | some i =>
      obtain ⟨hprog, _⟩ := S_StartSound_stopExisting_progress β e c s i hr
      obtain ⟨k, hk1, hk2, hk3⟩ := ih (S_StartSound_stopFound (FindChannel β s e c).2 i)
        (by omega)
      refine ⟨k + 1, by simp only [S_StartSound_stopExisting_iterations, hr, hk1, Option.map_some'],
        by omega, ?_⟩
      intro fuel2 h2
      cases fuel2 with
      | zero => exact absurd h2 (Nat.not_lt_zero _)
      | succ n =>
        obtain ⟨h3, h4⟩ := hk3 n (by omega)
        simp only [S_StartSound_stopExisting_iterations, S_StartSound_stopExisting, hr, h3,
          Option.map_some', h4, and_self]

/-- C27: the stop-existing loop of `S_StartSound` terminates for every pool
and every backend.  In any state the loop leaves through `FindChannel`
returning null after `k` iterations of its body, `k` being at most the number
of slots in use that match `(e, c)`, hence at most the number of slots of the
pool, which is `MAX_FMOD_CHANNELS`; the run of `S_StartSound_beforePlay`, which
allows one iteration more than the pool has slots, is such a run, and any
larger allowance gives the same state.  Each iteration lowers the number of
matching slots in use: `FindChannel` puts no slot in use and the body frees
the matching slot found. -/
theorem S_StartSound_stopExisting_terminates (β : Backend) (e c : Int) (s : State) :
    (∃ k, S_StartSound_stopExisting_iterations β e c (s.fmod_channels.length + 1) s = some k ∧
      k ≤ matchCount e c s.fmod_channels ∧ k ≤ s.fmod_channels.length ∧
      (s.fmod_channels.length = MAX_FMOD_CHANNELS → k ≤ MAX_FMOD_CHANNELS) ∧
      ∀ fuel, k < fuel →
        S_StartSound_stopExisting_iterations β e c fuel s = some k ∧
        S_StartSound_stopExisting β e c fuel s =
          S_StartSound_stopExisting β e c (s.fmod_channels.length + 1) s) ∧
    (∀ i, (FindChannel β s e c).1 = some i →
      matchCount e c (S_StartSound_stopFound (FindChannel β s e c).2 i).fmod_channels <
        matchCount e c s.fmod_channels ∧
      inUseCount (S_StartSound_stopFound (FindChannel β s e c).2 i).fmod_channels <
        inUseCount s.fmod_channels) ∧
    (∀ f ∈ (S_StartSound_stopExisting β e c (s.fmod_channels.length + 1) s).fmod_channels,
      f.channel ≠ none → slotMatches e c f = false) := by
  have hlen : matchCount e c s.fmod_channels ≤ s.fmod_channels.length :=
    le_trans (matchCount_le_inUseCount e c _) (inUseCount_le_length _)
  obtain ⟨k, hk1, hk2, hk3⟩ := S_StartSound_stopExisting_ends β e c
    (s.fmod_channels.length + 1) s (by omega)
  refine ⟨⟨k, hk1, hk2, by omega, fun h => by omega, hk3⟩, fun i hi => ?_, ?_⟩
  · obtain ⟨h1, h2⟩ := S_StartSound_stopExisting_progress β e c s i hi
    exact ⟨by omega, by omega⟩
  · exact (S_StartSound_stopExisting_spec β e c (s.fmod_channels.length + 1) s
      (by have := inUseCount_le_length s.fmod_channels; omega)).2.2

/-! ### The registry invariant -/

/-- A successful `S_FindName`, taken apart: the name was interned already and
nothing changed, or it was not and the entry `num_sfx` was written with it,
after the table had grown by 256 entries when it was full. -/
theorem S_FindName_ok_inv (β : Backend) (env : Engine) (s s1 : State) (name : Option String)
    (i : Nat) (hwf : RegistryWF s) (h : S_FindName β env s name = .ok (i, s1)) :
    ∃ nm, name = some nm ∧ nm.length < env.MAX_QPATH ∧
      ((S_FindName_scan nm s.num_sfx.toNat (s.known_sfx.getD []) = some i ∧ s1 = s) ∨
        (S_FindName_scan nm s.num_sfx.toNat (s.known_sfx.getD []) = none ∧
          i = s.num_sfx.toNat ∧
          ∃ (kl : List sfx_t) (sl : List fmod_sfx_t), s1.known_sfx = some (kl.set s.num_sfx.toNat { name := nm, cache := none }) ∧
            s1.fmod_sounds = some (sl.set s.num_sfx.toNat { sound := none, loaded := false }) ∧
            s1.num_sfx = s.num_sfx + 1 ∧
            ((s1.max_sfx = s.max_sfx ∧ s.num_sfx < s.max_sfx) ∨
              (s1.max_sfx = s.max_sfx + 256 ∧ s.max_sfx + 256 < INT_MAX ∧
                s.max_sfx ≤ s.num_sfx)) ∧
            kl.length = s1.max_sfx.toNat ∧ sl.length = s1.max_sfx.toNat ∧
            s.num_sfx.toNat < kl.length ∧
            ∀ j : Nat, j < s.num_sfx.toNat → kl[j]? = (s.known_sfx.getD [])[j]?)) := by
  cases name with
  | none =>
    simp [S_FindName] at h
  | some nm =>
    have hlen : nm.length < env.MAX_QPATH := by
      by_contra hn
      unfold S_FindName at h
      simp only [ge_iff_le, Nat.not_lt.mp hn, if_true] at h
      cases h
    refine ⟨nm, rfl, hlen, ?_⟩
    cases hscan : S_FindName_scan nm s.num_sfx.toNat (s.known_sfx.getD []) with
    | some k =>
      unfold S_FindName at h
      simp only [ge_iff_le, Nat.not_le.mpr hlen, if_false, hscan, Except.ok.injEq,
        Prod.mk.injEq] at h
      exact Or.inl ⟨by rw [h.1], h.2.symm⟩
    | none =>
      have hg : ∃ sg, (s.num_sfx < s.max_sfx ∧ sg = s) ∨
          (s.max_sfx ≤ s.num_sfx ∧ GrowSfxArrays β s = .ok (true, sg)) := by
        by_cases hlt : s.num_sfx < s.max_sfx
        · exact ⟨s, Or.inl ⟨hlt, rfl⟩⟩
        · have hge : s.num_sfx ≥ s.max_sfx := by omega
          unfold S_FindName at h
          simp only [ge_iff_le, Nat.not_le.mpr hlen, if_false, hscan] at h
          have hge2 : s.max_sfx ≤ s.num_sfx := hge
          simp only [hge2, if_true] at h
          cases hgr : GrowSfxArrays β s with
          | error e =>
            rw [hgr] at h
            cases h
          | ok r =>
            obtain ⟨b, sg⟩ := r
            cases b with
            | false =>
              rw [hgr] at h
              cases h
            | true => exact ⟨sg, Or.inr ⟨hge2, rfl⟩⟩
      obtain ⟨sg, hg⟩ := hg
      obtain ⟨kl, sl, hkl, hsl, hk, hs, hnum, hmax, hkeep, _⟩ := S_FindName_room β s sg hwf hg
      have h0 := hwf.num_nonneg
      have hw : wrapInt32 (sg.num_sfx + 1) = s.num_sfx + 1 := by
        rw [hnum]
        unfold INT_MAX at hmax
        exact wrapInt32_of_range _ (by omega) (by omega)
      have hcall := S_FindName_new β env s sg nm hlen hscan hg
      rw [hw, hnum, hkl, hsl] at hcall
      simp only [Option.map_some'] at hcall
      rw [hcall] at h
      simp only [Except.ok.injEq, Prod.mk.injEq] at h
      obtain ⟨hi, hs1⟩ := h
      refine Or.inr ⟨rfl, hi.symm, kl, sl, by rw [← hs1], by rw [← hs1], by rw [← hs1], ?_, ?_, ?_,
        hk, hkeep⟩
      · rcases hg with ⟨hlt, hsg⟩ | ⟨hge, hgrow⟩
        · left
          rw [← hs1, hsg]
          exact ⟨rfl, hlt⟩
        · obtain ⟨_, _, g3, _, g5⟩ := GrowSfxArrays_ok β s sg hwf hgrow
          right
          rw [← hs1]
          exact ⟨g3, g5, hge⟩
      · rw [← hs1]
        show kl.length = sg.max_sfx.toNat
        rcases hg with ⟨hlt, hsg⟩ | ⟨hge, hgrow⟩
        · subst hsg
          have := hwf.known_length
          rw [hkl] at this
          exact this
        · obtain ⟨g1, _, g3, _, _⟩ := GrowSfxArrays_ok β s sg hwf hgrow
          rw [hkl] at g1
          simp only [Option.some.injEq] at g1
          rw [g1, g3, List.length_append, List.length_replicate, hwf.known_length]
          have := le_trans hwf.num_nonneg hwf.num_le_max
          omega
      · rw [← hs1]
        show sl.length = sg.max_sfx.toNat
        rcases hg with ⟨hlt, hsg⟩ | ⟨hge, hgrow⟩
        · subst hsg
          have := hwf.sounds_length
          rw [hsl] at this
          exact this
        · obtain ⟨_, g2, g3, _, _⟩ := GrowSfxArrays_ok β s sg hwf hgrow
          rw [hsl] at g2
          simp only [Option.some.injEq] at g2
          rw [g2, g3, List.length_append, List.length_replicate, hwf.sounds_length]
          have := le_trans hwf.num_nonneg hwf.num_le_max
          omega

/-- The registry of a reachable state is well formed, `max_sfx` is a positive
multiple of 256 and the names of the interned entries are pairwise distinct. -/
theorem RegistryReachable_inv (s : State) (h : RegistryReachable s) :
    RegistryWF s ∧ 0 < s.max_sfx ∧ (256 : Int) ∣ s.max_sfx ∧
    ∀ (j k : Nat) (e1 e2 : sfx_t), j < s.num_sfx.toNat → k < s.num_sfx.toNat →
      (s.known_sfx.getD [])[j]? = some e1 → (s.known_sfx.getD [])[k]? = some e2 →
      e1.name = e2.name → j = k := by
  induction h with
  | init β s0 s hnone hinit =>
    unfold S_Init_registry at hinit
    simp only [hnone] at hinit
    split at hinit
    · cases hinit
    · simp only [Except.ok.injEq] at hinit
      subst hinit
      refine ⟨?_, ?_, ?_, ?_⟩
      · exact
          { num_nonneg := le_refl _
            num_le_max := by
              show (0 : Int) ≤ SFX_INITIAL
              decide
            max_le := by
              show SFX_INITIAL ≤ INT_MAX
              decide
            known_length := List.length_replicate _ _
            sounds_length := List.length_replicate _ _
            known_some := fun _ h => Option.noConfusion h
            sounds_some := fun _ h => Option.noConfusion h }
      · show (0 : Int) < SFX_INITIAL
        decide
      · show (256 : Int) ∣ SFX_INITIAL
        exact dvd_refl _
      · intro j k e1 e2 hj
        exact absurd hj (Nat.not_lt_zero _)
  | find β env s s1 name i _ hstep ih =>
    obtain ⟨hwf, hpos, hdvd, hdist⟩ := ih
    obtain ⟨nm, _, _, hcase⟩ := S_FindName_ok_inv β env s s1 name i hwf hstep
    rcases hcase with ⟨_, hs⟩ | ⟨hscan, _, kl, sl, hk1, hs1, hn1, hmax, hkl, hsl, hlt, hkeep⟩
    · subst hs
      exact ⟨hwf, hpos, hdvd, hdist⟩
    · have h0 := hwf.num_nonneg
      have h1 := hwf.num_le_max
      have h2 := hwf.max_le
      have hmax1 : s1.max_sfx = s.max_sfx ∨ s1.max_sfx = s.max_sfx + 256 := by
        rcases hmax with h | h
        · exact Or.inl h.1
        · exact Or.inr h.1
      refine ⟨?_, ?_, ?_, ?_⟩
      · exact
          { num_nonneg := by rw [hn1]; omega
            num_le_max := by
              rw [hn1]
              rcases hmax with h | h
              · rw [h.1]; omega
              · rw [h.1]; omega
            max_le := by
              rcases hmax with h | h
              · rw [h.1]; exact h2
              · rw [h.1]; exact le_of_lt h.2.1
            known_length := by rw [hk1]; simp [hkl]
            sounds_length := by rw [hs1]; simp [hsl]
            known_some := fun _ => by rw [hk1]; simp
            sounds_some := fun _ => by rw [hs1]; simp }
      · rcases hmax1 with h | h <;> rw [h] <;> omega
      · rcases hmax1 with h | h
        · rw [h]; exact hdvd
        · rw [h]; exact Dvd.dvd.add hdvd (dvd_refl _)
      · have hnum : s1.num_sfx.toNat = s.num_sfx.toNat + 1 := by rw [hn1]; omega
        have hget : ∀ (j : Nat) (e : sfx_t), j < s.num_sfx.toNat + 1 →
            (s1.known_sfx.getD [])[j]? = some e →
            (j < s.num_sfx.toNat ∧ (s.known_sfx.getD [])[j]? = some e) ∨
              (j = s.num_sfx.toNat ∧ e.name = nm) := by
          intro j e hj he
          rw [hk1] at he
          simp only [Option.getD_some] at he
          by_cases hjn : j = s.num_sfx.toNat
          · subst hjn
            rw [List.getElem?_set_self hlt] at he
            simp only [Option.some.injEq] at he
            right
            exact ⟨rfl, by rw [← he]⟩
          · rw [List.getElem?_set_ne (Ne.symm hjn), hkeep j (by omega)] at he
            left
            exact ⟨by omega, he⟩
        have hnew := (S_FindName_scan_none_iff nm _ _).mp hscan
        intro j k e1 e2 hj hk he1 he2 hname
        rw [hnum] at hj hk
        rcases hget j e1 hj he1 with ⟨hj1, hj2⟩ | ⟨hj1, hj2⟩
        · rcases hget k e2 hk he2 with ⟨hk1', hk2⟩ | ⟨hk1', hk2⟩
          · exact hdist j k e1 e2 hj1 hk1' hj2 hk2 hname
          · exact absurd (hname.trans hk2) (hnew j e1 hj1 hj2)
        · rcases hget k e2 hk he2 with ⟨hk1', hk2⟩ | ⟨hk1', hk2⟩
          · exact absurd (hname.symm.trans hj2) (hnew k e2 hk1' hk2)
          · rw [hj1, hk1']

/-- A later state of a reachable state is reachable. -/
theorem RegistryLater_reachable (s s1 : State) (h : RegistryReachable s)
    (hl : RegistryLater s s1) : RegistryReachable s1 := by
  induction hl with
  | here => exact h
  | find β env s1 s2 name i _ hstep ih => exact RegistryReachable.find β env s1 s2 name i ih hstep

/-- Later states keep the interned entries where they are. -/
theorem RegistryLater_keeps (s s1 : State) (h : RegistryReachable s)
    (hl : RegistryLater s s1) :
    s.num_sfx ≤ s1.num_sfx ∧
    ∀ j : Nat, j < s.num_sfx.toNat → (s1.known_sfx.getD [])[j]? = (s.known_sfx.getD [])[j]? := by
  induction hl with
  | here => exact ⟨le_refl _, fun _ _ => rfl⟩
  | find β env s1 s2 name i hl1 hstep ih =>
    obtain ⟨hle, hkeep1⟩ := ih
    have hwf1 := (RegistryReachable_inv s1 (RegistryLater_reachable s s1 h hl1)).1
    have h0 := (RegistryReachable_inv s h).1.num_nonneg
    obtain ⟨nm, _, _, hcase⟩ := S_FindName_ok_inv β env s1 s2 name i hwf1 hstep
    rcases hcase with ⟨_, hs⟩ | ⟨_, _, kl, sl, hk1, _, hn1, _, _, _, _, hkeep⟩
    · subst hs
      exact ⟨hle, hkeep1⟩
    · refine ⟨by rw [hn1]; omega, fun j hj => ?_⟩
      rw [hk1]
      simp only [Option.getD_some]
      rw [List.getElem?_set_ne (by omega), hkeep j (by omega), hkeep1 j hj]

/-- C29: the registry invariant.  In every state reached from a successful
`S_Init` by successful `S_FindName` calls, `0 <= num_sfx <= max_sfx`,
`max_sfx` is a positive multiple of 256, and no two of the first `num_sfx`
entries have the same name.  In every state reached from there by further
`S_FindName` calls, `num_sfx` has not shrunk, each of those entries is still
at its index, unchanged, and `S_FindName` on its name returns that index and
changes nothing. -/
theorem registry_invariant (s : State) (h : RegistryReachable s) :
    0 ≤ s.num_sfx ∧ s.num_sfx ≤ s.max_sfx ∧ 0 < s.max_sfx ∧ (256 : Int) ∣ s.max_sfx ∧
    (∀ (j k : Nat) (e1 e2 : sfx_t), j < s.num_sfx.toNat → k < s.num_sfx.toNat →
      (s.known_sfx.getD [])[j]? = some e1 → (s.known_sfx.getD [])[k]? = some e2 →
      e1.name = e2.name → j = k) ∧
    (∀ s1, RegistryLater s s1 →
      s.num_sfx ≤ s1.num_sfx ∧
      ∀ (j : Nat) (e : sfx_t), j < s.num_sfx.toNat → (s.known_sfx.getD [])[j]? = some e →
        (s1.known_sfx.getD [])[j]? = some e ∧
        ∀ (β : Backend) (env : Engine), e.name.length < env.MAX_QPATH →
          S_FindName β env s1 (some e.name) = .ok (j, s1)) := by
  obtain ⟨hwf, hpos, hdvd, hdist⟩ := RegistryReachable_inv s h
  refine ⟨hwf.num_nonneg, hwf.num_le_max, hpos, hdvd, hdist, fun s1 hl => ?_⟩
  obtain ⟨hle, hkeep⟩ := RegistryLater_keeps s s1 h hl
  obtain ⟨hwf1, _, _, hdist1⟩ := RegistryReachable_inv s1 (RegistryLater_reachable s s1 h hl)
  refine ⟨hle, fun j e hj he => ?_⟩
  have he1 : (s1.known_sfx.getD [])[j]? = some e := by rw [hkeep j hj, he]
  refine ⟨he1, fun β env hlen => ?_⟩
  have h0 := hwf.num_nonneg
  have hj1 : j < s1.num_sfx.toNat := by omega
  have hscan : S_FindName_scan e.name s1.num_sfx.toNat (s1.known_sfx.getD []) = some j := by
    rw [S_FindName_scan_some_iff]
    refine ⟨hj1, ⟨e, he1, rfl⟩, fun k e2 hk hk2 hname => ?_⟩
    have := hdist1 k j e2 e (by omega) hj1 hk2 he1 hname
    omega
  unfold S_FindName
  simp only [ge_iff_le, Nat.not_le.mpr hlen, if_false, hscan]

theorem RegistryReachable_stateInit : RegistryReachable stateInit :=
  RegistryReachable.init backendLive stateCold stateInit rfl rfl

/-- C29 on the state `S_Init` leaves and on the state after one name is
interned in it. -/
theorem registry_invariant_witness :
    RegistryReachable stateInit ∧
    (0 ≤ stateInit.num_sfx ∧ stateInit.num_sfx ≤ stateInit.max_sfx ∧ 0 < stateInit.max_sfx ∧
      (256 : Int) ∣ stateInit.max_sfx) ∧
    ∃ i s1, S_FindName backendLive engineQuake stateInit (some "misc/menu1.wav") = .ok (i, s1) ∧
      RegistryReachable s1 ∧ stateInit.num_sfx ≤ s1.num_sfx ∧
      0 ≤ s1.num_sfx ∧ s1.num_sfx ≤ s1.max_sfx ∧ 0 < s1.max_sfx ∧ (256 : Int) ∣ s1.max_sfx := by
  have hr := RegistryReachable_stateInit
  have key := registry_invariant stateInit hr
  obtain ⟨i, s1, hcall, _⟩ := S_FindName_dedup backendLive engineQuake stateInit "misc/menu1.wav"
    (RegistryReachable_inv stateInit hr).1 (by decide)
    (Or.inr (Or.inl (by show (0 : Int) < 256; decide)))
  have hr1 : RegistryReachable s1 :=
    RegistryReachable.find backendLive engineQuake stateInit s1 _ i hr hcall
  have key1 := registry_invariant s1 hr1
  have hlater : RegistryLater stateInit s1 :=
    RegistryLater.find backendLive engineQuake stateInit s1 _ i (RegistryLater.here) hcall
  exact ⟨hr, ⟨key.1, key.2.1, key.2.2.1, key.2.2.2.1⟩, i, s1, hcall, hr1,
    (key.2.2.2.2.2 s1 hlater).1, key1.1, key1.2.1, key1.2.2.1, key1.2.2.2.1⟩

/-! ### No spatializer is orphaned -/

theorem SlotTidy_rfl (calls : List FmodCall) (f : fmod_channel_t) : SlotTidy calls f f :=
  ⟨fun h => h, fun _ h1 h2 => absurd h1 h2⟩

theorem SlotTidy_grow (pre : List FmodCall) {extra : List FmodCall} (post : List FmodCall)
    {f g : fmod_channel_t} (h : SlotTidy extra f g) : SlotTidy (pre ++ extra ++ post) f g :=
  ⟨h.1, fun dsp h1 h2 =>
    List.mem_append_left _ (List.mem_append_right _ (h.2 dsp h1 h2))⟩

theorem SlotTidy_trans {ex1 ex2 : List FmodCall} {f g k : fmod_channel_t}
    (h1 : SlotTidy ex1 f g) (h2 : SlotTidy ex2 g k) : SlotTidy (ex1 ++ ex2) f k := by
  refine ⟨fun h => h2.1 (h1.1 h), fun dsp hf hk => ?_⟩
  by_cases hg : g.spatializer = some dsp
  · exact List.mem_append_right _ (h2.2 dsp hg hk)
  · exact List.mem_append_left _ (h1.2 dsp hf hg)

/-- A slot that is released: its spatializer, if any, released in the calls,
and both handles null afterwards. -/
theorem SlotTidy_released (calls : List FmodCall) (f g : fmod_channel_t)
    (hsp : g.spatializer = none)
    (hrel : ∀ dsp, f.spatializer = some dsp → FmodCall.DSP_Release dsp ∈ calls) :
    SlotTidy calls f g :=
  ⟨fun _ _ => hsp, fun dsp h1 _ => hrel dsp h1⟩

/-- A slot written over a slot that had no spatializer, with a slot in use. -/
theorem SlotTidy_written (calls : List FmodCall) (f g : fmod_channel_t)
    (hf : f.spatializer = none) (hg : g.channel ≠ none) : SlotTidy calls f g :=
  ⟨fun _ h => absurd h hg, fun dsp h1 _ => by rw [hf] at h1; cases h1⟩

theorem Tidy_rfl (t : Trace) (l : List fmod_channel_t) : Tidy t l t l :=
  ⟨[], by simp, Forall₂_self (SlotTidy_rfl []) l⟩

/-- More calls and the same pool. -/
theorem Tidy_calls (t t1 : Trace) (l : List fmod_channel_t) (extra : List FmodCall)
    (h : t1.calls = t.calls ++ extra) : Tidy t l t1 l :=
  ⟨extra, h, Forall₂_self (SlotTidy_rfl extra) l⟩

theorem Tidy_trans {t t1 t2 : Trace} {l l1 l2 : List fmod_channel_t}
    (h1 : Tidy t l t1 l1) (h2 : Tidy t1 l1 t2 l2) : Tidy t l t2 l2 := by
  obtain ⟨e1, hc1, hf1⟩ := h1
  obtain ⟨e2, hc2, hf2⟩ := h2
  refine ⟨e1 ++ e2, by rw [hc2, hc1, List.append_assoc], ?_⟩
  clear hc1 hc2
  induction hf1 generalizing l2 with
  | nil =>
    cases hf2
    exact List.Forall₂.nil
  | cons hab _ ih =>
    cases hf2 with
    | cons hbc htl => exact List.Forall₂.cons (SlotTidy_trans hab hbc) (ih htl)

/-- One slot in front of the rest of a scan. -/
theorem Tidy_next (t t1 t2 : Trace) (hx : List FmodCall) (f g : fmod_channel_t)
    (rest l2 : List fmod_channel_t) (ht1 : t1.calls = t.calls ++ hx) (hhead : SlotTidy hx f g)
    (ih : Tidy t1 rest t2 l2) : Tidy t (f :: rest) t2 (g :: l2) := by
  obtain ⟨ex, hex, hall⟩ := ih
  refine ⟨hx ++ ex, by rw [hex, ht1, List.append_assoc], List.Forall₂.cons ?_ ?_⟩
  · have := SlotTidy_grow [] ex hhead
    simpa using this
  · refine List.Forall₂.imp (fun a b hab => ?_) hall
    have := SlotTidy_grow hx [] hab
    simpa using this

/-- A slot of the pool overwritten. -/
theorem Tidy_set (t : Trace) (l : List fmod_channel_t) (i : Nat) (f g : fmod_channel_t)
    (hi : l[i]? = some f) (h : SlotTidy [] f g) : Tidy t l t (l.set i g) :=
  ⟨[], by simp, Forall₂_set (SlotTidy_rfl []) l i f g hi h⟩

/-- The pool after a tidy step orphans no spatializer if the pool before did
not. -/
theorem Tidy_invariant {t t1 : Trace} {l l1 : List fmod_channel_t} (h : Tidy t l t1 l1)
    (hinv : ∀ f ∈ l, f.channel = none → f.spatializer = none) :
    ∀ f ∈ l1, f.channel = none → f.spatializer = none := by
  obtain ⟨ex, _, hall⟩ := h
  clear * - hall hinv
  induction hall with
  | nil => intro f hf; cases hf
  | cons hab _ ih =>
    intro f hf
    rcases List.mem_cons.mp hf with h | h
    · subst h
      exact hab.1 (hinv _ (List.mem_cons_self _ _))
    · exact ih (fun g hg => hinv g (List.mem_cons_of_mem _ hg)) f h

/-- What a tidy step says about the slot at an index. -/
theorem Tidy_at {t t1 : Trace} {l l1 : List fmod_channel_t} (h : Tidy t l t1 l1) :
    ∃ extra, t1.calls = t.calls ++ extra ∧
      ∀ (j : Nat) (old new : fmod_channel_t) (dsp : Nat), l[j]? = some old → l1[j]? = some new →
        old.spatializer = some dsp → new.spatializer ≠ some dsp →
        FmodCall.DSP_Release dsp ∈ extra := by
  obtain ⟨ex, hex, hall⟩ := h
  refine ⟨ex, hex, fun j old new dsp hold hnew h1 h2 => ?_⟩
  obtain ⟨b, hb, hrel⟩ := Forall₂_getElem? hall j old hold
  rw [hnew] at hb
  simp only [Option.some.injEq] at hb
  subst hb
  exact hrel.2 dsp h1 h2

theorem Atmoky_ReleaseSpatializer_tidy (t : Trace) (fch : fmod_channel_t) :
    ∃ extra, (Atmoky_ReleaseSpatializer t fch).1.calls = t.calls ++ extra ∧
      ∀ dsp, fch.spatializer = some dsp → FmodCall.DSP_Release dsp ∈ extra := by
  obtain ⟨ex, h1, h2, _⟩ := Atmoky_ReleaseSpatializer_calls t fch
  exact ⟨ex, h1, h2⟩

/-- Calls of a release after one more call. -/
theorem Atmoky_ReleaseSpatializer_after (t t0 : Trace) (hx : List FmodCall)
    (fch : fmod_channel_t) (h : t.calls = t0.calls ++ hx) :
    ∃ extra, (Atmoky_ReleaseSpatializer t fch).1.calls = t0.calls ++ extra ∧
      ∀ dsp, fch.spatializer = some dsp → FmodCall.DSP_Release dsp ∈ extra := by
  obtain ⟨ex, h1, h2⟩ := Atmoky_ReleaseSpatializer_tidy t fch
  exact ⟨hx ++ ex, by rw [h1, h, List.append_assoc],
    fun dsp hd => List.mem_append_right _ (h2 dsp hd)⟩

theorem FindChannel_scan_tidy (β : Backend) (e c : Int) :
    ∀ (l : List fmod_channel_t) (t : Trace),
      Tidy t l (FindChannel_scan β e c t l).2.1 (FindChannel_scan β e c t l).2.2 := by
  intro l
  induction l with
  | nil =>
    intro t
    exact Tidy_rfl t []
  | cons f rest ih =>
    intro t
    by_cases hskip : f.channel = none ∨ slotMatches e c f = false
    · rw [FindChannel_scan_skip β e c t f rest hskip]
      exact Tidy_next t t _ [] f f rest _ (by simp) (SlotTidy_rfl _ _) (ih t)
    · push_neg at hskip
      obtain ⟨ch, hch⟩ := Option.ne_none_iff_exists'.mp hskip.1
      have hm : slotMatches e c f = true := by simpa using hskip.2
      cases hp : reportsPlaying β t.clock ch with
      | false =>
        rw [FindChannel_scan_gc β e c t f rest ch hch hm hp]
        obtain ⟨ex, hex, hrel⟩ := Atmoky_ReleaseSpatializer_after
          (t.query (.Channel_IsPlaying ch (β.Channel_IsPlaying t.clock ch))) t [_] f
          (Trace.query_calls _ _)
        exact Tidy_next t _ _ ex f _ rest _ hex (SlotTidy_released _ _ _ rfl hrel) (ih _)
      | true =>
        rw [FindChannel_scan_hit β e c t f rest ch hch hm hp]
        exact Tidy_calls t _ _ [_] (Trace.query_calls _ _)

theorem AllocChannel_scan1_tidy (β : Backend) :
    ∀ (l : List fmod_channel_t) (t : Trace),
      Tidy t l (AllocChannel_scan1 β t l).2.1 (AllocChannel_scan1 β t l).2.2 := by
  intro l
  induction l with
  | nil =>
    intro t
    exact Tidy_rfl t []
  | cons f rest ih =>
    intro t
    cases hch : f.channel with
    | none =>
      rw [AllocChannel_scan1_free β t f rest hch]
      exact Tidy_rfl t _
    | some ch =>
      cases hp : reportsPlaying β t.clock ch with
      | false =>
        rw [AllocChannel_scan1_stale β t f rest ch hch hp]
        obtain ⟨ex, hex, hrel⟩ := Atmoky_ReleaseSpatializer_after
          (t.query (.Channel_IsPlaying ch (β.Channel_IsPlaying t.clock ch))) t [_] f
          (Trace.query_calls _ _)
        exact Tidy_next t _ _ ex f _ rest _ hex (SlotTidy_released _ _ _ rfl hrel) (Tidy_rfl _ _)
      | true =>
        rw [AllocChannel_scan1_live β t f rest ch hch hp]
        exact Tidy_next t _ _ [_] f f rest _ (Trace.query_calls _ _) (SlotTidy_rfl _ _) (ih _)

theorem AllocChannel_scan2_tidy (β : Backend) :
    ∀ (l : List fmod_channel_t) (t : Trace),
      Tidy t l (AllocChannel_scan2 β t l).2.1 (AllocChannel_scan2 β t l).2.2 := by
  intro l
  induction l with
  | nil =>
    intro t
    exact Tidy_rfl t []
  | cons f rest ih =>
    intro t
    cases hch : f.channel with
    | none =>
      rw [AllocChannel_scan2_free β t f rest hch]
      exact Tidy_next t t _ [] f f rest _ (by simp) (SlotTidy_rfl _ _) (ih t)
    | some ch =>
      cases hv : reportsVirtual β t.clock ch with
      | false =>
        rw [AllocChannel_scan2_audible β t f rest ch hch hv]
        exact Tidy_next t _ _ [_] f f rest _ (Trace.query_calls _ _) (SlotTidy_rfl _ _) (ih _)
      | true =>
        rw [AllocChannel_scan2_virtual β t f rest ch hch hv]
        obtain ⟨ex, hex, hrel⟩ := Atmoky_ReleaseSpatializer_after
          ((t.query (.Channel_IsVirtual ch (β.Channel_IsVirtual t.clock ch))).emit
            (.Channel_Stop ch)) t
          [.Channel_IsVirtual ch (β.Channel_IsVirtual t.clock ch), .Channel_Stop ch] f
          (by simp [Trace.query_calls, Trace.emit_calls])
        exact Tidy_next t _ _ ex f _ rest _ hex (SlotTidy_released _ _ _ rfl hrel) (Tidy_rfl _ _)

theorem AllocChannel_tidy (β : Backend) (s : State) :
    Tidy s.trace s.fmod_channels (AllocChannel β s).2.trace (AllocChannel β s).2.fmod_channels := by
  unfold AllocChannel
  simp only
  split
  · exact AllocChannel_scan1_tidy β s.fmod_channels s.trace
  · exact Tidy_trans (AllocChannel_scan1_tidy β s.fmod_channels s.trace)
      (AllocChannel_scan2_tidy β _ _)

theorem FindChannel_tidy (β : Backend) (s : State) (e c : Int) :
    Tidy s.trace s.fmod_channels (FindChannel β s e c).2.trace
      (FindChannel β s e c).2.fmod_channels :=
  FindChannel_scan_tidy β e c s.fmod_channels s.trace

theorem S_StopSound_scan_tidy (e c : Int) :
    ∀ (l : List fmod_channel_t) (t : Trace),
      Tidy t l (S_StopSound_scan e c t l).1 (S_StopSound_scan e c t l).2 := by
  intro l
  induction l with
  | nil =>
    intro t
    exact Tidy_rfl t []
  | cons f rest ih =>
    intro t
    by_cases hskip : f.channel = none ∨ slotMatches e c f = false
    · rw [S_StopSound_scan_skip e c t f rest hskip]
      exact Tidy_next t t _ [] f f rest _ (by simp) (SlotTidy_rfl _ _) (ih t)
    · push_neg at hskip
      obtain ⟨ch, hch⟩ := Option.ne_none_iff_exists'.mp hskip.1
      have hm : slotMatches e c f = true := by simpa using hskip.2
      rw [S_StopSound_scan_hit e c t f rest ch hch hm]
      obtain ⟨ex, hex, hrel⟩ := Atmoky_ReleaseSpatializer_after
        (t.emit (.Channel_Stop ch)) t [_] f (Trace.emit_calls _ _)
      refine Tidy_next t _ _ ex f _ rest _ hex (SlotTidy_released _ _ _ ?_ hrel) (ih _)
      rw [Atmoky_ReleaseSpatializer_snd]

theorem S_StopSound_tidy (s : State) (e c : Int) :
    Tidy s.trace s.fmod_channels (S_StopSound s e c).trace (S_StopSound s e c).fmod_channels :=
  S_StopSound_scan_tidy e c s.fmod_channels s.trace

theorem StopAllTrackedChannels_scan_tidy :
    ∀ (l : List fmod_channel_t) (t : Trace),
      Tidy t l (StopAllTrackedChannels_scan t l) (l.map (fun _ => fmod_channel_zero)) := by
  intro l
  induction l with
  | nil =>
    intro t
    exact Tidy_rfl t []
  | cons f rest ih =>
    intro t
    simp only [StopAllTrackedChannels_scan, List.map_cons]
    have hpre : ∃ hx, (match f.channel with
        | some ch => t.emit (.Channel_Stop ch)
        | none => t).calls = t.calls ++ hx := by
      cases f.channel with
      | none => exact ⟨[], by simp⟩
      | some ch => exact ⟨[_], Trace.emit_calls _ _⟩
    obtain ⟨hx, hpre⟩ := hpre
    obtain ⟨ex, hex, hrel⟩ := Atmoky_ReleaseSpatializer_after _ t hx f hpre
    exact Tidy_next t _ _ ex f _ rest _ hex (SlotTidy_released _ _ _ rfl hrel) (ih _)

theorem StopAllTrackedChannels_tidy (s : State) :
    Tidy s.trace s.fmod_channels (StopAllTrackedChannels s).trace
      (StopAllTrackedChannels s).fmod_channels :=
  StopAllTrackedChannels_scan_tidy s.fmod_channels s.trace

theorem MovingSwept_tidy (env : Engine) (extra : List FmodCall) (f g : fmod_channel_t)
    (h : MovingSwept env extra f g) : SlotTidy extra f g := by
  rcases h with h | ⟨ch, a, _, hsp, _, _, h⟩ | ⟨ch, hch, hsp, _, _, _, _, h⟩
  · rw [h]
    exact SlotTidy_rfl _ _
  · rw [h]
    exact ⟨fun _ _ => hsp, fun dsp h1 _ => by rw [hsp] at h1; cases h1⟩
  · rw [h]
    refine ⟨fun _ hn => ?_, fun dsp h1 _ => by rw [hsp] at h1; cases h1⟩
    have : (sweepStore f (VectorAdd (env.cl_entities_lerp_origin f.entnum) f.origin_offset)
      (S_UpdateMovingSounds_velocity env.sqrtf f.have_prev_origin env.cls_frametime
        (VectorAdd (env.cl_entities_lerp_origin f.entnum) f.origin_offset)
        f.prev_origin_qu).2).channel = f.channel := rfl
    rw [this, hch] at hn
    cases hn

theorem SpatialSwept_tidy (env : Engine) (s : State) (extra : List FmodCall)
    (f g : fmod_channel_t) (h : SpatialSwept env s extra f g) : SlotTidy extra f g := by
  rcases h with h | ⟨ch, dsp, a, _, hsp, _, _, hrel, h⟩ | ⟨ch, dsp, hch, hsp, _, h⟩
  · rw [h]
    exact SlotTidy_rfl _ _
  · rw [h]
    refine ⟨fun _ _ => rfl, fun d h1 _ => ?_⟩
    rw [hsp] at h1
    simp only [Option.some.injEq] at h1
    rw [← h1]
    exact hrel
  · rw [h]
    refine ⟨fun _ hn => ?_, fun d h1 h2 => absurd h1 h2⟩
    have : (sweepStore f (Atmoky_UpdateSpatializers_origin env f)
      (Atmoky_UpdateSpatializers_velocity env.sqrtf f.have_prev_origin env.cls_frametime
        (Atmoky_UpdateSpatializers_origin env f) f.prev_origin_qu).2).channel = f.channel := rfl
    rw [this, hch] at hn
    cases hn

theorem S_UpdateMovingSounds_tidy (β : Backend) (env : Engine) (s : State) :
    Tidy s.trace s.fmod_channels (S_UpdateMovingSounds β env s).trace
      (S_UpdateMovingSounds β env s).fmod_channels := by
  obtain ⟨ex, hex, hall, _⟩ := S_UpdateMovingSounds_step β env s
  exact ⟨ex, hex, hall.imp (fun a b hab => MovingSwept_tidy env ex a b hab)⟩

theorem Atmoky_UpdateSpatializers_tidy (β : Backend) (env : Engine) (s : State) :
    Tidy s.trace s.fmod_channels (Atmoky_UpdateSpatializers β env s).trace
      (Atmoky_UpdateSpatializers β env s).fmod_channels := by
  obtain ⟨ex, hex, hall, _⟩ := Atmoky_UpdateSpatializers_step β env s
  exact ⟨ex, hex, hall.imp (fun a b hab => SpatialSwept_tidy env s ex a b hab)⟩

theorem TidyStep_rfl (s : State) : TidyStep s s := Tidy_rfl _ _

theorem TidyStep_trans {s s1 s2 : State} (h1 : TidyStep s s1) (h2 : TidyStep s1 s2) :
    TidyStep s s2 := Tidy_trans h1 h2

theorem TidyStep_invariant {s s1 : State} (h : TidyStep s s1) (hinv : NoOrphan s.fmod_channels) :
    NoOrphan s1.fmod_channels := Tidy_invariant h hinv

/-- A state with the same pool and a transcript that continues. -/
theorem TidyStep_calls (s s1 : State) (extra : List FmodCall)
    (hpool : s1.fmod_channels = s.fmod_channels)
    (hcalls : s1.trace.calls = s.trace.calls ++ extra) : TidyStep s s1 := by
  unfold TidyStep
  rw [hpool]
  exact Tidy_calls _ _ _ extra hcalls

theorem TidyStep_emit (s : State) (c : FmodCall) : TidyStep s (s.emit c) :=
  TidyStep_calls s _ [c] rfl (Trace.emit_calls _ _)

theorem TidyStep_query (s : State) (c : FmodCall) : TidyStep s (s.query c) :=
  TidyStep_calls s _ [c] rfl (Trace.query_calls _ _)

theorem TidyStep_asks (s s1 : State) (hpool : s1.fmod_channels = s.fmod_channels)
    (h : AsksNothing s.trace.calls s1.trace) : TidyStep s s1 := by
  obtain ⟨ex, hex, _⟩ := h
  exact TidyStep_calls s s1 ex hpool hex

theorem FMOD_LoadSfx_tidy (β : Backend) (s : State) (sfx : Option Nat) :
    TidyStep s (FMOD_LoadSfx β s sfx).2 := by
  obtain ⟨hpool, ex, hex, _⟩ := FMOD_LoadSfx_frame β s sfx
  exact TidyStep_calls s _ ex hpool hex

theorem setSlot_tidy (s : State) (i : Nat) (f g : fmod_channel_t)
    (hi : s.fmod_channels[i]? = some f) (hf : f.spatializer = none) (hg : g.channel ≠ none) :
    TidyStep s (s.setSlot i g) :=
  Tidy_set s.trace s.fmod_channels i f g hi (SlotTidy_written [] f g hf hg)

theorem Atmoky_AttachSpatializer_tidy (β : Backend) (s : State) (i ch : Nat) (origin : vec3_t)
    (mn mx : ℚ) (slot : fmod_channel_t) (hi : s.fmod_channels[i]? = some slot)
    (hsp : slot.spatializer = none) (hch : slot.channel ≠ none) :
    TidyStep s (Atmoky_AttachSpatializer β s (some i) (some ch) origin mn mx) := by
  obtain ⟨⟨ex, hex, _⟩, hpool⟩ := Atmoky_AttachSpatializer_frame β s i ch origin mn mx
  rcases hpool with hpool | ⟨slot2, dsp, hslot2, hpool⟩
  · exact TidyStep_calls s _ ex hpool hex
  · rw [hi] at hslot2
    simp only [Option.some.injEq] at hslot2
    subst hslot2
    refine ⟨ex, hex, ?_⟩
    rw [hpool]
    exact Forall₂_set (SlotTidy_rfl ex) _ i slot _ hi (SlotTidy_written ex _ _ hsp hch)

theorem S_StartSound_stopFound_tidy (s : State) (i : Nat) :
    TidyStep s (S_StartSound_stopFound s i) := by
  unfold S_StartSound_stopFound
  cases hi : s.fmod_channels[i]? with
  | none => exact TidyStep_rfl s
  | some fch =>
    simp only
    have hpre : ∃ hx, (match fch.channel with
        | some ch => s.trace.emit (.Channel_Stop ch)
        | none => s.trace).calls = s.trace.calls ++ hx := by
      cases fch.channel with
      | none => exact ⟨[], by simp⟩
      | some ch => exact ⟨[_], Trace.emit_calls _ _⟩
    obtain ⟨hx, hpre⟩ := hpre
    obtain ⟨ex, hex, hrel⟩ := Atmoky_ReleaseSpatializer_after _ s.trace hx fch hpre
    refine ⟨ex, hex, ?_⟩
    refine Forall₂_set (SlotTidy_rfl ex) _ i fch _ hi (SlotTidy_released ex _ _ ?_ hrel)
    rw [Atmoky_ReleaseSpatializer_snd]

theorem S_StartSound_stopExisting_tidy (β : Backend) (e c : Int) :
    ∀ (fuel : Nat) (s : State), TidyStep s (S_StartSound_stopExisting β e c fuel s) := by
  intro fuel
  induction fuel with
  | zero =>
    intro s
    exact TidyStep_rfl s
  | succ fuel ih =>
    intro s
    simp only [S_StartSound_stopExisting]
    split
    · exact FindChannel_tidy β s e c
    · exact TidyStep_trans (FindChannel_tidy β s e c)
        (TidyStep_trans (S_StartSound_stopFound_tidy _ _) (ih _))

theorem S_StartSound_beforePlay_tidy (β : Backend) (s : State) (e c : Int) :
    TidyStep s (S_StartSound_beforePlay β s e c) := by
  unfold S_StartSound_beforePlay
  split
  · exact S_StartSound_stopExisting_tidy β e c _ s
  · exact TidyStep_rfl s

/-- The slot `AllocChannel` hands out is free, and without spatializer when no
free slot of the pool had one. -/
theorem AllocChannel_slot_free (β : Backend) (s : State) (i : Nat)
    (hinv : NoOrphan s.fmod_channels) (hi : (AllocChannel β s).1 = some i) :
    ∃ x, (AllocChannel β s).2.fmod_channels[i]? = some x ∧ x.channel = none ∧
      x.spatializer = none := by
  obtain ⟨_, hsome, _⟩ := AllocChannel_frame β s
  obtain ⟨a, x, hai, hx, hset⟩ := hsome i hi
  have hlen : i < s.fmod_channels.length := by
    by_contra hn
    rw [List.getElem?_eq_none (by omega)] at hai
    cases hai
  have hget : (AllocChannel β s).2.fmod_channels[i]? = some x := by
    rw [hset, List.getElem?_set_self hlen]
  have hinv2 := TidyStep_invariant (AllocChannel_tidy β s) hinv
  exact ⟨x, hget, hx, hinv2 x (List.mem_iff_getElem?.mpr ⟨i, hget⟩) hx⟩

theorem S_StartSound_afterPlay_tidy (β : Backend) (env : Engine) (s : State) (ch : Nat)
    (e c : Int) (sfx : Option Nat) (origin : vec3_t) (fvol att : ℚ)
    (hinv : NoOrphan s.fmod_channels) :
    TidyStep s (S_StartSound_afterPlay β env s ch e c sfx origin fvol att).1 := by
  have hA := AllocChannel_tidy β s
  unfold S_StartSound_afterPlay
  simp only
  cases ha : (AllocChannel β s).1 with
  | none =>
    simp only [Option.isSome_none, Bool.false_eq_true, and_false, if_false]
    split
    · exact TidyStep_trans hA (TidyStep_trans (TidyStep_emit _ _) (TidyStep_trans
        (TidyStep_emit _ _) (TidyStep_emit _ _)))
    · exact TidyStep_trans hA (TidyStep_trans (TidyStep_emit _ _) (TidyStep_trans
        (TidyStep_emit _ _) (TidyStep_trans (TidyStep_emit _ _) (TidyStep_emit _ _))))
  | some i =>
    obtain ⟨x, hx, hxc, hxs⟩ := AllocChannel_slot_free β s i hinv ha
    have hlen : i < (AllocChannel β s).2.fmod_channels.length := by
      by_contra hn
      rw [List.getElem?_eq_none (by omega)] at hx
      cases hx
    have hW : TidyStep s ((AllocChannel β s).2.setSlot i (S_StartSound_slot env ch e c sfx origin)) :=
      TidyStep_trans hA (setSlot_tidy _ i x _ hx hxs (by simp [S_StartSound_slot]))
    simp only [Option.isSome_some, and_true]
    split
    · exact TidyStep_trans hW (TidyStep_trans (TidyStep_emit _ _) (TidyStep_trans
        (TidyStep_emit _ _) (TidyStep_emit _ _)))
    · split
      · refine TidyStep_trans hW (TidyStep_trans (Atmoky_AttachSpatializer_tidy β _ i ch origin
          MIN_3D_DIST (S_StartSound_max_dist att) (S_StartSound_slot env ch e c sfx origin) ?_ rfl
          (by simp [S_StartSound_slot])) (TidyStep_trans (TidyStep_emit _ _) (TidyStep_emit _ _)))
        rw [State.setSlot_fmod_channels, List.getElem?_set_self hlen]
      · exact TidyStep_trans hW (TidyStep_trans (TidyStep_emit _ _) (TidyStep_trans
          (TidyStep_emit _ _) (TidyStep_trans (TidyStep_emit _ _) (TidyStep_emit _ _))))

theorem S_StartSound_tidy (β : Backend) (env : Engine) (s : State) (e c : Int)
    (sfx : Option Nat) (origin : vec3_t) (fvol att : ℚ) (hinv : NoOrphan s.fmod_channels) :
    TidyStep s (S_StartSound β env s e c sfx origin fvol att) := by
  have hL := FMOD_LoadSfx_tidy β s sfx
  have hB := TidyStep_trans hL (S_StartSound_beforePlay_tidy β (FMOD_LoadSfx β s sfx).2 e c)
  unfold S_StartSound S_StartSound_run
  split
  · exact TidyStep_rfl s
  · split
    · exact hL
    · simp only
      split
      · exact TidyStep_trans hB (TidyStep_query _ _)
      · refine TidyStep_trans (TidyStep_trans hB (TidyStep_query _ _))
          (S_StartSound_afterPlay_tidy β env _ _ e c sfx origin fvol att ?_)
        exact TidyStep_invariant (TidyStep_trans hB (TidyStep_query _ _)) hinv

theorem S_StaticSound_afterPlay_tidy (β : Backend) (s : State) (ch : Nat) (sfx : Option Nat)
    (origin : vec3_t) (vol att : ℚ) (hinv : NoOrphan s.fmod_channels) :
    TidyStep s (S_StaticSound_afterPlay β s ch sfx origin vol att) := by
  unfold S_StaticSound_afterPlay
  split
  · simp only
    have h2 : TidyStep s ((s.emit (.Channel_SetMode ch [.FMOD_2D, .FMOD_LOOP_NORMAL])).emit
        (.Channel_SetLoopCount ch (-1))) :=
      TidyStep_trans (TidyStep_emit _ _) (TidyStep_emit _ _)
    have hinv2 := TidyStep_invariant h2 hinv
    have hA := TidyStep_trans h2 (AllocChannel_tidy β _)
    refine TidyStep_trans ?_ (TidyStep_trans (TidyStep_emit _ _) (TidyStep_emit _ _))
    cases ha : (AllocChannel β ((s.emit (.Channel_SetMode ch [.FMOD_2D, .FMOD_LOOP_NORMAL])).emit
        (.Channel_SetLoopCount ch (-1)))).1 with
    | none => exact hA
    | some i =>
      obtain ⟨x, hx, hxc, hxs⟩ := AllocChannel_slot_free β _ i hinv2 ha
      have hlen : i < (AllocChannel β ((s.emit (.Channel_SetMode ch
          [.FMOD_2D, .FMOD_LOOP_NORMAL])).emit
          (.Channel_SetLoopCount ch (-1)))).2.fmod_channels.length := by
        by_contra hn
        rw [List.getElem?_eq_none (by omega)] at hx
        cases hx
      refine TidyStep_trans hA (TidyStep_trans (setSlot_tidy _ i x
        (S_StaticSound_slot_atmoky ch sfx origin) hx hxs (by simp [S_StaticSound_slot_atmoky]))
        (Atmoky_AttachSpatializer_tidy β _ i ch origin MIN_3D_DIST (S_StaticSound_max_dist att)
          (S_StaticSound_slot_atmoky ch sfx origin) ?_ rfl
          (by simp [S_StaticSound_slot_atmoky])))
      rw [State.setSlot_fmod_channels, List.getElem?_set_self hlen]
  · simp only
    have h2 : TidyStep s ((((((s.emit (.Channel_SetMode ch
        [.FMOD_3D, .FMOD_3D_LINEARROLLOFF, .FMOD_LOOP_NORMAL])).emit
        (.Channel_SetLoopCount ch (-1))).emit
        (.Channel_Set3DAttributes ch origin ⟨0, 0, 0⟩)).emit
        (.Channel_Set3DMinMaxDistance ch MIN_3D_DIST (S_StaticSound_max_dist att))).emit
        (.Channel_SetVolume ch (vol / 255))).emit (.Channel_SetPaused ch false)) :=
      TidyStep_trans (TidyStep_emit _ _) (TidyStep_trans (TidyStep_emit _ _) (TidyStep_trans
        (TidyStep_emit _ _) (TidyStep_trans (TidyStep_emit _ _) (TidyStep_trans
        (TidyStep_emit _ _) (TidyStep_emit _ _)))))
    have hinv2 := TidyStep_invariant h2 hinv
    have hA := TidyStep_trans h2 (AllocChannel_tidy β _)
    cases ha : (AllocChannel β ((((((s.emit (.Channel_SetMode ch
        [.FMOD_3D, .FMOD_3D_LINEARROLLOFF, .FMOD_LOOP_NORMAL])).emit
        (.Channel_SetLoopCount ch (-1))).emit
        (.Channel_Set3DAttributes ch origin ⟨0, 0, 0⟩)).emit
        (.Channel_Set3DMinMaxDistance ch MIN_3D_DIST (S_StaticSound_max_dist att))).emit
        (.Channel_SetVolume ch (vol / 255))).emit (.Channel_SetPaused ch false))).1 with
    | none => exact hA
    | some i =>
      obtain ⟨x, hx, hxc, hxs⟩ := AllocChannel_slot_free β _ i hinv2 ha
      exact TidyStep_trans hA (setSlot_tidy _ i x (S_StaticSound_slot ch sfx) hx hxs
        (by simp [S_StaticSound_slot]))

theorem S_StaticSound_tidy (β : Backend) (s : State) (sfx : Option Nat) (origin : vec3_t)
    (vol att : ℚ) (hinv : NoOrphan s.fmod_channels) :
    TidyStep s (S_StaticSound β s sfx origin vol att) := by
  have hL := FMOD_LoadSfx_tidy β s sfx
  unfold S_StaticSound
  split
  · exact TidyStep_rfl s
  · split
    · exact hL
    · simp only
      split
      · exact TidyStep_trans hL (TidyStep_query _ _)
      · refine TidyStep_trans (TidyStep_trans hL (TidyStep_query _ _))
          (S_StaticSound_afterPlay_tidy β _ _ sfx origin vol att ?_)
        exact TidyStep_invariant (TidyStep_trans hL (TidyStep_query _ _)) hinv

theorem StopAmbientChannels_tidy (s : State) : TidyStep s (StopAmbientChannels s) := by
  obtain ⟨ex, hex, _⟩ := StopAmbientChannels_scan_kinds s.trace s.ambient_fmod_channels
  exact TidyStep_calls s _ ex rfl hex

theorem S_StopAllSounds_tidy (s : State) : TidyStep s (S_StopAllSounds s) := by
  unfold S_StopAllSounds
  split
  · exact TidyStep_rfl s
  · exact TidyStep_trans (StopAllTrackedChannels_tidy s)
      (StopAmbientChannels_tidy (StopAllTrackedChannels s))

theorem S_Shutdown_release_grows :
    ∀ (n : Nat) (t : Trace) (l : List fmod_sfx_t),
      t.calls <+: (S_Shutdown_release n t l).1.calls := by
  intro n
  induction n with
  | zero =>
    intro t l
    exact List.prefix_refl _
  | succ n ih =>
    intro t l
    cases l with
    | nil => exact List.prefix_refl _
    | cons e rest =>
      simp only [S_Shutdown_release]
      cases e.sound with
      | none => exact ih t rest
      | some snd =>
        refine List.IsPrefix.trans ?_ (ih (t.emit (.Sound_Release snd)) rest)
        rw [Trace.emit_calls]
        exact List.prefix_append _ _

theorem Atmoky_DetachExternalizer_grows (β : Backend) (s : State) :
    s.trace.calls <+: (Atmoky_DetachExternalizer β s).trace.calls := by
  obtain ⟨t, m, h, ex, hex, _⟩ := Atmoky_DetachExternalizer_shape β s
  rw [h]
  exact ⟨ex, hex.symm⟩

theorem StopAmbientChannels_grows (s : State) :
    s.trace.calls <+: (StopAmbientChannels s).trace.calls := by
  obtain ⟨ex, hex, _⟩ := StopAmbientChannels_scan_kinds s.trace s.ambient_fmod_channels
  exact ⟨ex, hex.symm⟩

theorem S_Shutdown_tidy (β : Backend) (s : State) : TidyStep s (S_Shutdown β s) := by
  by_cases hinit : s.fmod_initialized = false
  · unfold S_Shutdown
    rw [if_pos hinit]
    exact TidyStep_rfl s
  · have hpool : (S_Shutdown β s).fmod_channels =
        s.fmod_channels.map (fun _ => fmod_channel_zero) := by
      unfold S_Shutdown
      rw [if_neg hinit]
      simp only
      split <;> split <;> split <;> split <;>
        simp only [State.emit, Atmoky_DetachExternalizer_fmod_channels] <;> rfl
    have hcalls : (StopAllTrackedChannels s).trace.calls <+: (S_Shutdown β s).trace.calls := by
      unfold S_Shutdown
      rw [if_neg hinit]
      simp only
      split <;> split <;> split <;> split <;>
        simp only [State.emit, Trace.emit_calls, List.append_assoc] <;>
        (first
          | refine List.IsPrefix.trans ?_ (List.prefix_append _ _)
          | skip) <;>
        refine List.IsPrefix.trans ?_ (Atmoky_DetachExternalizer_grows β _) <;>
        refine List.IsPrefix.trans ?_ (S_Shutdown_release_grows _ _ _) <;>
        exact StopAmbientChannels_grows _
    obtain ⟨exA, hexA, hallA⟩ := StopAllTrackedChannels_tidy s
    obtain ⟨post, hpost⟩ := hcalls
    refine ⟨exA ++ post, ?_, ?_⟩
    · rw [← hpost, hexA, List.append_assoc]
    · rw [hpool]
      refine List.Forall₂.imp (fun a b hab => ?_) hallA
      have := SlotTidy_grow [] post hab
      simpa using this

theorem S_Update_tidy (β : Backend) (env : Engine) (s : State)
    (origin forward right up : vec3_t) :
    TidyStep s (S_Update β env s origin forward right up) := by
  by_cases hg : s.fmod_initialized = false ∨ s.snd_blocked > 0
  · unfold S_Update
    rw [if_pos hg]
    exact TidyStep_rfl s
  · push_neg at hg
    have hinit : s.fmod_initialized = true := by simpa using hg.1
    obtain ⟨hpool, hpost, _, _⟩ := S_Update_parts β env s origin forward right up hinit hg.2
    obtain ⟨tL, hL, hLq, _⟩ := S_Update_listener_shape β env s origin forward right up
    obtain ⟨fsA, tA, avA, acA, exA, hA, hAc, _⟩ := S_UpdateAmbientSounds_shape β env
      (S_Update_listener β env s origin forward right up)
    have h1 : TidyStep s (S_Update_listener β env s origin forward right up) :=
      TidyStep_asks _ _ (by rw [hL]) (by rw [hL]; exact hLq)
    have h2 : TidyStep (S_Update_listener β env s origin forward right up)
        (S_UpdateAmbientSounds β env (S_Update_listener β env s origin forward right up)) :=
      TidyStep_calls _ _ exA (by rw [hA]) (by rw [hA]; exact hAc)
    have h3 := S_UpdateMovingSounds_tidy β env (S_UpdateAmbientSounds β env
      (S_Update_listener β env s origin forward right up))
    have h4 := Atmoky_UpdateSpatializers_tidy β env (S_UpdateMovingSounds β env
      (S_UpdateAmbientSounds β env (S_Update_listener β env s origin forward right up)))
    have h5 : TidyStep (Atmoky_UpdateSpatializers β env (S_UpdateMovingSounds β env
        (S_UpdateAmbientSounds β env (S_Update_listener β env s origin forward right up))))
        (S_Update β env s origin forward right up) := TidyStep_asks _ _ hpool hpost
    exact TidyStep_trans h1 (TidyStep_trans h2 (TidyStep_trans h3 (TidyStep_trans h4 h5)))

/-- Every operation of the subsystem continues the transcript and takes the
pool on without orphaning a spatializer, when no free slot had one before. -/
theorem PoolStep_tidy (s s1 : State) (h : PoolStep s s1) (hinv : NoOrphan s.fmod_channels) :
    TidyStep s s1 := by
  cases h with
  | alloc β _ => exact AllocChannel_tidy β s
  | find β _ e c => exact FindChannel_tidy β s e c
  | start β env _ e c sfx origin fvol att =>
    exact S_StartSound_tidy β env s e c sfx origin fvol att hinv
  | static β _ sfx origin vol att => exact S_StaticSound_tidy β s sfx origin vol att hinv
  | stop _ e c => exact S_StopSound_tidy s e c
  | stopAll _ => exact S_StopAllSounds_tidy s
  | moving β env _ => exact S_UpdateMovingSounds_tidy β env s
  | spatializers β env _ => exact Atmoky_UpdateSpatializers_tidy β env s
  | update β env _ origin forward right up =>
    exact S_Update_tidy β env s origin forward right up
  | shutdown β _ => exact S_Shutdown_tidy β s

theorem OpsReachable_NoOrphan (s : State) (h : OpsReachable s) : NoOrphan s.fmod_channels := by
  induction h with
  | empty s hpool =>
    intro f hf _
    rw [hpool] at hf
    rw [(List.mem_replicate.mp hf).2]
    rfl
  | step s s1 _ hstep ih => exact TidyStep_invariant (PoolStep_tidy s s1 hstep ih) ih

/-- C26: in every state reached from the empty pool by the operations of the
subsystem (`AllocChannel`, `FindChannel`, `S_StartSound`, `S_StaticSound`,
`S_StopSound`, `S_StopAllSounds`, the two per-frame sweeps, `S_Update`,
`S_Shutdown`), every free slot has no spatializer; and in every operation
made from such a state, a slot that had a spatializer and does not have it
afterwards had it released by `FMOD_DSP_Release` among the calls of that
operation. -/
theorem no_orphan_spatializer (s : State) (h : OpsReachable s) :
    (∀ f ∈ s.fmod_channels, f.channel = none → f.spatializer = none) ∧
    ∀ s1, PoolStep s s1 →
      (∀ f ∈ s1.fmod_channels, f.channel = none → f.spatializer = none) ∧
      ∃ extra, s1.trace.calls = s.trace.calls ++ extra ∧
        ∀ (j : Nat) (old new : fmod_channel_t) (dsp : Nat),
          s.fmod_channels[j]? = some old → s1.fmod_channels[j]? = some new →
          old.spatializer = some dsp → new.spatializer ≠ some dsp →
          FmodCall.DSP_Release dsp ∈ extra := by
  have hinv := OpsReachable_NoOrphan s h
  refine ⟨hinv, fun s1 hstep => ?_⟩
  have ht := PoolStep_tidy s s1 hstep hinv
  exact ⟨TidyStep_invariant ht hinv, Tidy_at ht⟩

/-- C26 on the state after a play on the empty pool of `stateReady`, and on a
stop made from there. -/
theorem no_orphan_spatializer_witness :
    OpsReachable (S_StartSound backendLive engineQuake stateReady 5 1 (some 0) vec3_origin 1 1) ∧
    (∀ f ∈ (S_StartSound backendLive engineQuake stateReady 5 1 (some 0)
        vec3_origin 1 1).fmod_channels, f.channel = none → f.spatializer = none) ∧
    (∀ f ∈ (S_StopSound (S_StartSound backendLive engineQuake stateReady 5 1 (some 0)
        vec3_origin 1 1) 5 1).fmod_channels, f.channel = none → f.spatializer = none) := by
  have hr : OpsReachable (S_StartSound backendLive engineQuake stateReady 5 1 (some 0)
      vec3_origin 1 1) :=
    OpsReachable.step _ _ (OpsReachable.empty stateReady rfl) (PoolStep.start _ _ _ _ _ _ _ _ _)
  have key := no_orphan_spatializer _ hr
  exact ⟨hr, key.1, (key.2 _ (PoolStep.stop _ 5 1)).1⟩

/-! ### Slots released by the per-frame update -/

theorem MovingSwept_channel (env : Engine) (extra : List FmodCall) (f g : fmod_channel_t)
    (ch : Nat) (h : MovingSwept env extra f g) (hg : g.channel = some ch) :
    f.channel = some ch := by
  rcases h with h | ⟨c, a, _, _, _, _, h⟩ | ⟨c, _, _, _, _, _, _, h⟩
  · rw [← h]
    exact hg
  · rw [h] at hg
    cases hg
  · rw [h] at hg
    exact hg

theorem SpatialSwept_free (env : Engine) (s : State) (extra : List FmodCall)
    (f g : fmod_channel_t) (h : SpatialSwept env s extra f g) (hf : f.channel = none) :
    g = f := by
  rcases h with h | ⟨c, dsp, a, hc, _⟩ | ⟨c, dsp, hc, _⟩
  · exact h
  · rw [hf] at hc
    cases hc
  · rw [hf] at hc
    cases hc

/-- The iteration of `S_UpdateMovingSounds` on a slot without spatializer
whose channel does not report playing: the channel handle is cleared. -/
theorem S_UpdateMovingSounds_scan_stopped (β : Backend) (env : Engine) (t : Trace)
    (fch : fmod_channel_t) (rest : List fmod_channel_t) (ch : Nat)
    (hch : fch.channel = some ch) (hsp : fch.spatializer = none)
    (hplay : reportsPlaying β t.clock ch = false) :
    S_UpdateMovingSounds_scan β env t (fch :: rest) =
      sweepNext { fch with channel := none }
        (S_UpdateMovingSounds_scan β env
          (t.query (.Channel_IsPlaying ch (β.Channel_IsPlaying t.clock ch))) rest) := by
  simp only [S_UpdateMovingSounds_scan, hch, hsp, ChannelIsPlaying_some, hplay, ne_eq,
    not_true_eq_false, if_false, if_true]

/-- C24: after one per-frame update on an initialised, unblocked subsystem,
every answer "not playing" (or a failed query) the backend gave during the
frame about a channel that is not an ambient channel is the answer for a pool
slot that has been released when the update returns: the slot tracked that
channel before the frame, its channel handle is null, it has no spatializer,
and the spatializer it had was released among the calls of the frame.  This
holds for every pool and every backend.  When the handles of the slots in use
are pairwise distinct and none is the handle of an ambient channel, every
slot whose channel was reported not playing is released. -/
theorem S_Update_releases_stopped (β : Backend) (env : Engine) (s : State)
    (origin forward right up : vec3_t)
    (hinit : s.fmod_initialized = true) (hblk : s.snd_blocked ≤ 0) :
    ∃ extra, (S_Update β env s origin forward right up).trace.calls = s.trace.calls ++ extra ∧
      (∀ (a : FmodCall) (ch : Nat), a ∈ extra → answeredNotPlaying a ch →
        some ch ∈ s.ambient_fmod_channels ∨
        ∃ (k : Nat) (f g : fmod_channel_t), s.fmod_channels[k]? = some f ∧
          f.channel = some ch ∧
          (S_Update β env s origin forward right up).fmod_channels[k]? = some g ∧
          g.channel = none ∧ g.spatializer = none ∧
          ∀ dsp, f.spatializer = some dsp → FmodCall.DSP_Release dsp ∈ extra) ∧
      ((∀ (j k : Nat) (f g : fmod_channel_t) (ch : Nat),
          s.fmod_channels[j]? = some f → s.fmod_channels[k]? = some g →
          f.channel = some ch → g.channel = some ch → j = k) →
        (∀ f ∈ s.fmod_channels, ∀ ch, f.channel = some ch →
          some ch ∉ s.ambient_fmod_channels) →
        ∀ (j : Nat) (f : fmod_channel_t) (ch : Nat) (a : FmodCall),
          s.fmod_channels[j]? = some f → f.channel = some ch →
          a ∈ extra → answeredNotPlaying a ch →
          ∃ g, (S_Update β env s origin forward right up).fmod_channels[j]? = some g ∧
            g.channel = none ∧ g.spatializer = none ∧
            ∀ dsp, f.spatializer = some dsp → FmodCall.DSP_Release dsp ∈ extra) := by
  obtain ⟨hpool, ⟨exP, hexP, hnoP⟩, _, _⟩ := S_Update_parts β env s origin forward right up
    hinit hblk
  obtain ⟨tL, hL, ⟨exL, hexL, hnoL⟩, _⟩ := S_Update_listener_shape β env s origin forward right up
  obtain ⟨fsA, tA, avA, acA, exA, hA, hAc, hAask⟩ := S_UpdateAmbientSounds_shape β env
    (S_Update_listener β env s origin forward right up)
  obtain ⟨exM, hexM, hallM, hrepM⟩ := S_UpdateMovingSounds_step β env (S_UpdateAmbientSounds β env
    (S_Update_listener β env s origin forward right up))
  obtain ⟨exS, hexS, hallS, hrepS⟩ := Atmoky_UpdateSpatializers_step β env
    (S_UpdateMovingSounds β env (S_UpdateAmbientSounds β env
      (S_Update_listener β env s origin forward right up)))
  simp only at hexM hallM hrepM hexS hallS hrepS
  have hLpool : (S_Update_listener β env s origin forward right up).fmod_channels =
      s.fmod_channels := by rw [hL]
  have hLamb : (S_Update_listener β env s origin forward right up).ambient_fmod_channels =
      s.ambient_fmod_channels := by rw [hL]
  have hLcalls : (S_Update_listener β env s origin forward right up).trace.calls =
      s.trace.calls ++ exL := by rw [hL]; exact hexL
  have hApool : (S_UpdateAmbientSounds β env
      (S_Update_listener β env s origin forward right up)).fmod_channels = s.fmod_channels := by
    rw [hA]
    exact hLpool
  have hAcalls : (S_UpdateAmbientSounds β env
      (S_Update_listener β env s origin forward right up)).trace.calls =
      s.trace.calls ++ (exL ++ exA) := by
    rw [hA]
    simp only
    rw [hAc, hLcalls, List.append_assoc]
  rw [hApool] at hallM hrepM
  have hcalls : (S_Update β env s origin forward right up).trace.calls =
      s.trace.calls ++ (exL ++ exA ++ exM ++ exS ++ exP) := by
    rw [hexP, hexS, hexM, hAcalls]
    simp only [List.append_assoc]
  obtain ⟨exT, hexT, hev⟩ := Tidy_at (S_Update_tidy β env s origin forward right up)
  have hexTeq : exT = exL ++ exA ++ exM ++ exS ++ exP := by
    rw [hcalls] at hexT
    exact (List.append_cancel_left hexT).symm
  have hgen : ∀ (a : FmodCall) (ch : Nat), a ∈ exL ++ exA ++ exM ++ exS ++ exP →
      answeredNotPlaying a ch →
      some ch ∈ s.ambient_fmod_channels ∨
      ∃ (k : Nat) (f g : fmod_channel_t), s.fmod_channels[k]? = some f ∧
        f.channel = some ch ∧
        (S_Update β env s origin forward right up).fmod_channels[k]? = some g ∧
        g.channel = none ∧ g.spatializer = none ∧
        ∀ dsp, f.spatializer = some dsp →
          FmodCall.DSP_Release dsp ∈ exL ++ exA ++ exM ++ exS ++ exP := by
    intro a ch ha hnp
    have hfinal : ∀ (k : Nat) (f g : fmod_channel_t), s.fmod_channels[k]? = some f →
        f.channel = some ch →
        (Atmoky_UpdateSpatializers β env (S_UpdateMovingSounds β env
          (S_UpdateAmbientSounds β env (S_Update_listener β env s origin forward right
            up)))).fmod_channels[k]? = some g → g.channel = none → g.spatializer = none →
        some ch ∈ s.ambient_fmod_channels ∨
        ∃ (k : Nat) (f g : fmod_channel_t), s.fmod_channels[k]? = some f ∧
          f.channel = some ch ∧
          (S_Update β env s origin forward right up).fmod_channels[k]? = some g ∧
          g.channel = none ∧ g.spatializer = none ∧
          ∀ dsp, f.spatializer = some dsp →
            FmodCall.DSP_Release dsp ∈ exL ++ exA ++ exM ++ exS ++ exP := by
      intro k f g hk hch hg hgc hgs
      refine Or.inr ⟨k, f, g, hk, hch, by rw [hpool]; exact hg, hgc, hgs, fun dsp hd => ?_⟩
      rw [← hexTeq]
      refine hev k f g dsp hk (by rw [hpool]; exact hg) hd ?_
      rw [hgs]
      exact fun h => Option.noConfusion h
    have hisp : ∃ ans, a = FmodCall.Channel_IsPlaying ch ans := by
      rcases hnp with h | h
      · exact ⟨_, h⟩
      · exact ⟨_, h⟩
    obtain ⟨ans, hans⟩ := hisp
    simp only [List.mem_append] at ha
    rcases ha with (((ha | ha) | ha) | ha) | ha
    · rw [hans] at ha
      exact absurd ha (hnoL ch ans)
    · rw [hans] at ha
      have := hAask ch ans ha
      rw [hLamb] at this
      exact Or.inl this
    · obtain ⟨k, f1, g1, hk, hf1, hg1, hg1c, hg1s⟩ := hrepM a ch ha hnp
      obtain ⟨g2, hg2, hrel⟩ := Forall₂_getElem? hallS k g1 hg1
      have := SpatialSwept_free env _ exS g1 g2 hrel hg1c
      subst this
      exact hfinal k f1 g2 hk hf1 hg2 hg1c hg1s
    · obtain ⟨k, f1, g1, hk, hf1, hg1, hg1c, hg1s⟩ := hrepS a ch ha hnp
      have hlen := hallM.length_eq
      have hk2 : k < s.fmod_channels.length := by
        rw [hlen]
        by_contra hn
        rw [List.getElem?_eq_none (by omega)] at hk
        cases hk
      obtain ⟨f0, hf0⟩ : ∃ f0, s.fmod_channels[k]? = some f0 :=
        ⟨s.fmod_channels[k], List.getElem?_eq_getElem hk2⟩
      obtain ⟨b, hb, hrel⟩ := Forall₂_getElem? hallM k f0 hf0
      rw [hk] at hb
      simp only [Option.some.injEq] at hb
      subst hb
      have hf0c := MovingSwept_channel env exM f0 f1 ch hrel hf1
      exact hfinal k f0 g1 hf0 hf0c hg1 hg1c hg1s
    · rw [hans] at ha
      exact absurd ha (hnoP ch ans)
  refine ⟨_, hcalls, hgen, fun hdistinct hambient j f ch a hj hch ha hnp => ?_⟩
  rcases hgen a ch ha hnp with hamb | ⟨k, f1, g, hk, hf1, hg, hgc, hgs, hrel⟩
  · exact absurd hamb (hambient f (List.mem_iff_getElem?.mpr ⟨j, hj⟩) ch hch)
  · have hkj : j = k := hdistinct j k f f1 ch hj hk hch hf1
    subst hkj
    rw [hj] at hk
    simp only [Option.some.injEq] at hk
    subst hk
    exact ⟨g, hg, hgc, hgs, hrel⟩

/-- A frame asks about the channel of the first pool slot: when the slot has
no spatializer and the backend never reports its channel playing, the answer
is in the transcript of the frame. -/
theorem S_Update_asks_head (β : Backend) (env : Engine) (s : State)
    (origin forward right up : vec3_t) (fch : fmod_channel_t) (rest : List fmod_channel_t)
    (ch : Nat) (hinit : s.fmod_initialized = true) (hblk : s.snd_blocked ≤ 0)
    (hpool : s.fmod_channels = fch :: rest) (hch : fch.channel = some ch)
    (hsp : fch.spatializer = none) (hplay : ∀ clock, reportsPlaying β clock ch = false) :
    ∃ a, a ∈ (S_Update β env s origin forward right up).trace.calls ∧
      answeredNotPlaying a ch := by
  obtain ⟨_, ⟨exP, hexP, _⟩, _, _⟩ := S_Update_parts β env s origin forward right up hinit hblk
  obtain ⟨tL, hL, _, _⟩ := S_Update_listener_shape β env s origin forward right up
  obtain ⟨fsA, tA, avA, acA, exA, hA, _, _⟩ := S_UpdateAmbientSounds_shape β env
    (S_Update_listener β env s origin forward right up)
  obtain ⟨exS, hexS, _, _⟩ := Atmoky_UpdateSpatializers_step β env
    (S_UpdateMovingSounds β env (S_UpdateAmbientSounds β env
      (S_Update_listener β env s origin forward right up)))
  simp only at hexS
  have hApool : (S_UpdateAmbientSounds β env
      (S_Update_listener β env s origin forward right up)).fmod_channels = fch :: rest := by
    rw [hA]
    simp only
    rw [hL]
    exact hpool
  obtain ⟨exR, hexR, _, _⟩ := S_UpdateMovingSounds_scan_step β env rest
    ((S_UpdateAmbientSounds β env (S_Update_listener β env s origin forward right up)).trace.query
      (.Channel_IsPlaying ch (β.Channel_IsPlaying (S_UpdateAmbientSounds β env
        (S_Update_listener β env s origin forward right up)).trace.clock ch)))
  have hM : (S_UpdateMovingSounds β env (S_UpdateAmbientSounds β env
      (S_Update_listener β env s origin forward right up))).trace.calls =
      (S_UpdateAmbientSounds β env (S_Update_listener β env s origin forward right up)).trace.calls
        ++ [FmodCall.Channel_IsPlaying ch (β.Channel_IsPlaying (S_UpdateAmbientSounds β env
        (S_Update_listener β env s origin forward right up)).trace.clock ch)] ++ exR := by
    show (S_UpdateMovingSounds_scan β env _ _).1.calls = _
    rw [hApool, S_UpdateMovingSounds_scan_stopped β env _ fch rest ch hch hsp (hplay _)]
    simp only [sweepNext]
    rw [hexR, Trace.query_calls]
  refine ⟨FmodCall.Channel_IsPlaying ch (β.Channel_IsPlaying (S_UpdateAmbientSounds β env
        (S_Update_listener β env s origin forward right up)).trace.clock ch), ?_, ?_⟩
  · rw [hexP, hexS, hM]
    simp only [List.mem_append, List.mem_singleton, or_true, true_or]
  · have := hplay (S_UpdateAmbientSounds β env
        (S_Update_listener β env s origin forward right up)).trace.clock
    unfold reportsPlaying at this
    unfold answeredNotPlaying
    cases hans : β.Channel_IsPlaying (S_UpdateAmbientSounds β env
        (S_Update_listener β env s origin forward right up)).trace.clock ch with
    | none => exact Or.inl rfl
    | some b =>
      rw [hans] at this
      simp only at this
      rw [this]
      exact Or.inr rfl

theorem S_Update_releases_stopped_witness :
    stateOne.fmod_initialized = true ∧ stateOne.snd_blocked ≤ 0 ∧
    stateOne.fmod_channels[0]? = some (slotOf 1 5 1) ∧
    ∃ g, (S_Update backendSilent engineMenu stateOne vec3_origin ⟨1, 0, 0⟩ ⟨0, -1, 0⟩
        ⟨0, 0, 1⟩).fmod_channels[0]? = some g ∧ g.channel = none ∧ g.spatializer = none := by
  have hfree : ∀ (k : Nat) (g : fmod_channel_t) (ch : Nat),
      stateOne.fmod_channels[k]? = some g → g.channel = some ch → k = 0 := by
    intro k g ch hk hg
    cases k with
    | zero => rfl
    | succ k =>
      have hk2 : (slotOf 1 5 1 :: List.replicate 4094 fmod_channel_zero)[k + 1]? = some g := hk
      rw [List.getElem?_cons_succ] at hk2
      have hmem : g ∈ List.replicate 4094 fmod_channel_zero :=
        List.mem_iff_getElem?.mpr ⟨k, hk2⟩
      rw [(List.mem_replicate.mp hmem).2] at hg
      cases hg
  obtain ⟨extra, hcalls, _, hslot⟩ := S_Update_releases_stopped backendSilent engineMenu stateOne
    vec3_origin ⟨1, 0, 0⟩ ⟨0, -1, 0⟩ ⟨0, 0, 1⟩ rfl (by decide)
  have hrel := hslot
    (fun j k f g ch hj hk hf hg => (hfree j f ch hj hf).trans (hfree k g ch hk hg).symm)
    (fun f _ ch _ h => by
      have h2 : some ch ∈ [none, none, none, (none : Option Nat)] := h
      simp only [List.mem_cons, List.mem_singleton, or_self, List.not_mem_nil, or_false] at h2
      cases h2)
  obtain ⟨a, ha, hnp⟩ := S_Update_asks_head backendSilent engineMenu stateOne
    vec3_origin ⟨1, 0, 0⟩ ⟨0, -1, 0⟩ ⟨0, 0, 1⟩ (slotOf 1 5 1)
    (List.replicate 4094 fmod_channel_zero) 1 rfl (by decide) rfl rfl rfl (fun _ => rfl)
  rw [hcalls] at ha
  have ha2 : a ∈ extra := by
    rcases List.mem_append.mp ha with h | h
    · exact (List.not_mem_nil _ h).elim
    · exact h
  have hhead : stateOne.fmod_channels[0]? = some (slotOf 1 5 1) :=
    List.getElem?_cons_zero
  obtain ⟨g, hg, hgc, hgs, _⟩ := hrel 0 (slotOf 1 5 1) 1 a hhead rfl ha2 hnp
  exact ⟨rfl, by decide, hhead, g, hg, hgc, hgs⟩

/-! ### Growth of the registry, references as addresses -/

theorem relocateSfx_mem_entry (lay : SfxLayout) (base new_known k : Nat)
    (hbase : lay.known_sfx = some base) (hsize : 0 < lay.sizeof_sfx_t)
    (hk : (k : Int) < 2147483648) :
    relocateSfx_mem lay new_known (some (base + k * lay.sizeof_sfx_t)) =
      some (new_known + k * lay.sizeof_sfx_t) := by
  have hS : (lay.sizeof_sfx_t : Int) ≠ 0 := by omega
  have hdiv : (((base + k * lay.sizeof_sfx_t : Nat) : Int) - addressOf lay.known_sfx) /
      (lay.sizeof_sfx_t : Int) = (k : Int) := by
    rw [hbase]
    simp only [addressOf]
    push_cast
    rw [add_sub_cancel_left]
    exact Int.mul_ediv_cancel _ hS
  simp only [relocateSfx_mem]
  rw [hdiv, wrapInt32_of_range _ (by omega) hk]
  congr 1

theorem relocateSfx_mem_none (lay : SfxLayout) (new_known : Nat) :
    relocateSfx_mem lay new_known none = none := rfl

theorem indexOfSfx_entry (lay : SfxLayout) (base k : Nat)
    (hbase : lay.known_sfx = some base) (hsize : 0 < lay.sizeof_sfx_t) :
    indexOfSfx lay (some (base + k * lay.sizeof_sfx_t)) = some k := by
  have hS : (lay.sizeof_sfx_t : Int) ≠ 0 := by omega
  simp only [indexOfSfx, hbase, addressOf]
  push_cast
  rw [add_sub_cancel_left, Int.mul_ediv_cancel _ hS]
  rfl

theorem sfxAt_entry (lay : SfxLayout) (s : State) (base k : Nat) (table : List sfx_t)
    (hbase : lay.known_sfx = some base) (htable : s.known_sfx = some table)
    (hsize : 0 < lay.sizeof_sfx_t) :
    sfxAt lay s (some (base + k * lay.sizeof_sfx_t)) = table[k]? := by
  simp only [sfxAt, hbase, htable]
  rw [if_pos ⟨Nat.le_add_right _ _, by rw [Nat.add_sub_cancel_left]; exact Nat.mul_mod_left _ _⟩,
    Nat.add_sub_cancel_left, Nat.mul_div_cancel _ hsize]

/-- A pointer to an element of another block reads nothing. -/
theorem sfxAt_outside (lay : SfxLayout) (s : State) (base a : Nat) (table : List sfx_t)
    (hbase : lay.known_sfx = some base) (htable : s.known_sfx = some table)
    (hout : ∀ j : Nat, j < table.length → a ≠ base + j * lay.sizeof_sfx_t) :
    sfxAt lay s (some a) = none := by
  simp only [sfxAt, hbase, htable]
  split
  · rename_i h
    rw [List.getElem?_eq_none_iff]
    by_contra hlt
    push_neg at hlt
    refine hout _ hlt ?_
    have h1 := Nat.div_add_mod (a - base) lay.sizeof_sfx_t
    rw [h.2, Nat.add_zero, Nat.mul_comm] at h1
    omega
  · rfl

/-- The address-level function and the index-level one build the same tables
and make the same calls; they differ in the references only. -/
theorem GrowSfxArrays_mem_eq (β : Backend) (place : Nat → Nat) (lay : SfxLayout)
    (s s0 : State) (hptr : lay.known_sfx.isSome = s.known_sfx.isSome)
    (h : GrowSfxArrays β s = .ok (true, s0)) :
    GrowSfxArrays_mem β place lay s = .ok (true,
      { lay with known_sfx := some (place s.trace.clock) },
      { s0 with
        ambient_sfx := s.ambient_sfx.map (relocateSfx_mem lay (place s.trace.clock))
        fmod_channels := s.fmod_channels.map
          (fun fch => { fch with sfx := relocateSfx_mem lay (place s.trace.clock) fch.sfx }) }) := by
  unfold GrowSfxArrays at h
  unfold GrowSfxArrays_mem
  split at h
  · cases h
  · rename_i hcheck
    rw [if_neg hcheck]
    dsimp only at h ⊢
    split at h
    · cases h
    · rename_i hfail
      rw [if_neg hfail]
      simp only [Except.ok.injEq, Prod.mk.injEq, true_and] at h
      subst h
      rw [hptr]

/-- `GrowSfxArrays` does not read the references: on a state with other
ambient and pool references it builds the same tables. -/
theorem GrowSfxArrays_other_refs (β : Backend) (s s0 : State) (amb : List (Option Nat))
    (pool : List fmod_channel_t) (h : GrowSfxArrays β s = .ok (true, s0)) :
    GrowSfxArrays β { s with ambient_sfx := amb, fmod_channels := pool } =
      .ok (true, { s0 with ambient_sfx := amb, fmod_channels := pool }) := by
  unfold GrowSfxArrays at h ⊢
  split at h
  · cases h
  · rename_i hcheck
    rw [if_neg hcheck]
    dsimp only at h ⊢
    split at h
    · cases h
    · rename_i hfail
      rw [if_neg hfail]
      simp only [Except.ok.injEq, Prod.mk.injEq, true_and] at h
      subst h
      have hid : relocateSfx = id := funext relocateSfx_id
      have hid2 : (fun fch : fmod_channel_t => { fch with sfx := relocateSfx fch.sfx }) = id := by
        funext fch
        rw [relocateSfx_id]
        rfl
      rw [hid2, hid, List.map_id, List.map_id]

/-- What the fix-up makes of a pointer to entry `k`: the pointer to entry `k`
of the new block. -/
theorem relocateSfx_mem_valid (lay : SfxLayout) (s : State) (new_known : Nat)
    (p : Option Nat) (hsize : 0 < lay.sizeof_sfx_t) (hmax : s.max_sfx < 2147483648)
    (hp : ValidSfxPtr lay s p) :
    indexOfSfx { lay with known_sfx := some new_known } (relocateSfx_mem lay new_known p) =
      indexOfSfx lay p := by
  rcases hp with hp | ⟨k, hk, hbase, hp⟩
  · rw [hp]
    rfl
  · obtain ⟨base, hb⟩ := Option.ne_none_iff_exists'.mp hbase
    have hpe : p = some (base + k * lay.sizeof_sfx_t) := by
      rw [hp, entryAddress, hb]
      rfl
    rw [hpe, relocateSfx_mem_entry lay base new_known k hb hsize (by omega),
      indexOfSfx_entry lay base k hb hsize]
    exact indexOfSfx_entry { lay with known_sfx := some new_known } new_known k rfl hsize

/-- C18: registry growth with references as addresses.  On a well-formed
registry, when the new capacity stays below `INT_MAX` and both allocations
succeed, `GrowSfxArrays` returns true, `known_sfx` points to the new block and
the table has exactly `SFX_GROW` more entries: for every index below the old
capacity the entry of the new table (name, cache pointer, sound, load state)
is the entry of the old table, the entries from the old capacity on are
zeroed, and `num_sfx` is unchanged.  Every ambient slot and every pool slot
that pointed to entry `k` of the old table points to entry `k` of the new
block and reads the same entry there; a null reference stays null, and the
other fields of a pool slot are unchanged.  The fix-up is needed: when the new
block shares no element address with the old one, a pointer to an entry of the
old table reads nothing after the call.  Read through the layout, with every
valid reference replaced by the index of its entry, the call is the
index-level `GrowSfxArrays`. -/
theorem GrowSfxArrays_preserves (β : Backend) (place : Nat → Nat) (lay : SfxLayout) (s : State)
    (hwf : RegistryWF s) (hptr : lay.known_sfx.isSome = s.known_sfx.isSome)
    (hsize : 0 < lay.sizeof_sfx_t)
    (hroom : s.max_sfx + SFX_GROW < INT_MAX)
    (hknown : β.Q_malloc s.trace.clock (s.max_sfx + SFX_GROW) = true)
    (hsounds : β.Q_malloc (s.trace.clock + 1) (s.max_sfx + SFX_GROW) = true) :
    ∃ (lay1 : SfxLayout) (s1 : State) (known : List sfx_t) (sounds : List fmod_sfx_t),
      GrowSfxArrays_mem β place lay s = .ok (true, lay1, s1) ∧
      lay1.known_sfx = some (place s.trace.clock) ∧ lay1.sizeof_sfx_t = lay.sizeof_sfx_t ∧
      s1.known_sfx = some known ∧ s1.fmod_sounds = some sounds ∧
      s1.max_sfx = s.max_sfx + SFX_GROW ∧
      (known.length : Int) = s1.max_sfx ∧ (sounds.length : Int) = s1.max_sfx ∧
      (∀ i : Nat, (i : Int) < s.max_sfx →
        known[i]? = (s.known_sfx.getD [])[i]? ∧ sounds[i]? = (s.fmod_sounds.getD [])[i]? ∧
        known[i]? ≠ none ∧ sounds[i]? ≠ none) ∧
      (∀ i : Nat, s.max_sfx ≤ (i : Int) → (i : Int) < s1.max_sfx →
        known[i]? = some sfx_zero ∧ sounds[i]? = some fmod_sfx_zero) ∧
      s1.num_sfx = s.num_sfx ∧
      s1.ambient_sfx.length = s.ambient_sfx.length ∧
      s1.fmod_channels.length = s.fmod_channels.length ∧
      (∀ (j : Nat) (p : Option Nat), s.ambient_sfx[j]? = some p →
        ∃ p1, s1.ambient_sfx[j]? = some p1 ∧ (p = none → p1 = none) ∧
          ∀ k : Nat, (k : Int) < s.max_sfx → p = entryAddress lay k →
            p1 = entryAddress lay1 k ∧ p1 ≠ none ∧
            sfxAt lay1 s1 p1 = sfxAt lay s p ∧ sfxAt lay1 s1 p1 = known[k]?) ∧
      (∀ (j : Nat) (fch : fmod_channel_t), s.fmod_channels[j]? = some fch →
        ∃ p1, s1.fmod_channels[j]? = some { fch with sfx := p1 } ∧
          (fch.sfx = none → p1 = none) ∧
          ∀ k : Nat, (k : Int) < s.max_sfx → fch.sfx = entryAddress lay k →
            p1 = entryAddress lay1 k ∧ p1 ≠ none ∧
            sfxAt lay1 s1 p1 = sfxAt lay s fch.sfx ∧ sfxAt lay1 s1 p1 = known[k]?) ∧
      ((∀ (base j k : Nat), lay.known_sfx = some base →
          (j : Int) < s.max_sfx + SFX_GROW → (k : Int) < s.max_sfx →
          place s.trace.clock + j * lay.sizeof_sfx_t ≠ base + k * lay.sizeof_sfx_t) →
        ∀ k : Nat, (k : Int) < s.max_sfx →
          entryAddress lay k ≠ none ∧ sfxAt lay1 s1 (entryAddress lay k) = none) ∧
      ((∀ p ∈ s.ambient_sfx, ValidSfxPtr lay s p) →
        (∀ fch ∈ s.fmod_channels, ValidSfxPtr lay s fch.sfx) →
        GrowSfxArrays β (indexView lay s) = .ok (true, indexView lay1 s1)) := by
  obtain ⟨s0, known, sounds, h0, hk, hf, hmax, hkl, hsl, hold, hnew, hnum⟩ :=
    GrowSfxArrays_tables β s hwf hroom hknown hsounds
  have hmem := GrowSfxArrays_mem_eq β place lay s s0 hptr h0
  have hmax0 : 0 ≤ s.max_sfx := le_trans hwf.num_nonneg hwf.num_le_max
  have hmaxlt : s.max_sfx < 2147483648 := by
    unfold INT_MAX SFX_GROW at hroom
    omega
  -- the table is allocated as soon as it has an entry
  have hbase : ∀ k : Nat, (k : Int) < s.max_sfx →
      ∃ base table, lay.known_sfx = some base ∧ s.known_sfx = some table := by
    intro k hklt
    have hsome := hwf.known_some (by omega)
    obtain ⟨table, ht⟩ := Option.ne_none_iff_exists'.mp hsome
    have hl : lay.known_sfx.isSome = true := by rw [hptr, ht]; rfl
    obtain ⟨base, hb⟩ := Option.isSome_iff_exists.mp hl
    exact ⟨base, table, hb, ht⟩
  -- what the fix-up makes of a pointer to entry `k`
  have hfix : ∀ (p : Option Nat) (k : Nat), (k : Int) < s.max_sfx → p = entryAddress lay k →
      relocateSfx_mem lay (place s.trace.clock) p =
        entryAddress { lay with known_sfx := some (place s.trace.clock) } k ∧
      relocateSfx_mem lay (place s.trace.clock) p ≠ none ∧
      sfxAt { lay with known_sfx := some (place s.trace.clock) }
        { s0 with
          ambient_sfx := s.ambient_sfx.map (relocateSfx_mem lay (place s.trace.clock))
          fmod_channels := s.fmod_channels.map
            (fun fch => { fch with sfx := relocateSfx_mem lay (place s.trace.clock) fch.sfx }) }
        (relocateSfx_mem lay (place s.trace.clock) p) = sfxAt lay s p ∧
      sfxAt { lay with known_sfx := some (place s.trace.clock) }
        { s0 with
          ambient_sfx := s.ambient_sfx.map (relocateSfx_mem lay (place s.trace.clock))
          fmod_channels := s.fmod_channels.map
            (fun fch => { fch with sfx := relocateSfx_mem lay (place s.trace.clock) fch.sfx }) }
        (relocateSfx_mem lay (place s.trace.clock) p) = known[k]? := by
    intro p k hklt hp
    obtain ⟨base, table, hb, ht⟩ := hbase k hklt
    have hpe : p = some (base + k * lay.sizeof_sfx_t) := by
      rw [hp, entryAddress, hb]
      rfl
    have hrel := relocateSfx_mem_entry lay base (place s.trace.clock) k hb hsize (by omega)
    have hnewread : sfxAt { lay with known_sfx := some (place s.trace.clock) }
        { s0 with
          ambient_sfx := s.ambient_sfx.map (relocateSfx_mem lay (place s.trace.clock))
          fmod_channels := s.fmod_channels.map
            (fun fch => { fch with sfx := relocateSfx_mem lay (place s.trace.clock) fch.sfx }) }
        (some (place s.trace.clock + k * lay.sizeof_sfx_t)) = known[k]? :=
      sfxAt_entry { lay with known_sfx := some (place s.trace.clock) } _ (place s.trace.clock) k
        known rfl hk hsize
    have holdread : sfxAt lay s (some (base + k * lay.sizeof_sfx_t)) = table[k]? :=
      sfxAt_entry lay s base k table hb ht hsize
    have hsame : known[k]? = table[k]? := by
      rw [(hold k hklt).1, ht]
      rfl
    rw [hpe, hrel]
    refine ⟨rfl, Option.some_ne_none _, ?_, hnewread⟩
    rw [hnewread, holdread, hsame]
  refine ⟨_, _, known, sounds, hmem, rfl, rfl, hk, hf, hmax, hkl, hsl, hold, hnew, hnum,
    List.length_map _ _, List.length_map _ _, ?_, ?_, ?_, ?_⟩
  · intro j p hj
    refine ⟨relocateSfx_mem lay (place s.trace.clock) p, ?_, ?_, fun k hklt hp => hfix p k hklt hp⟩
    · show (s.ambient_sfx.map (relocateSfx_mem lay (place s.trace.clock)))[j]? = _
      rw [List.getElem?_map, hj]
      rfl
    · intro hp
      rw [hp]
      rfl
  · intro j fch hj
    refine ⟨relocateSfx_mem lay (place s.trace.clock) fch.sfx, ?_, ?_,
      fun k hklt hp => hfix fch.sfx k hklt hp⟩
    · show (s.fmod_channels.map
        (fun fch => { fch with sfx := relocateSfx_mem lay (place s.trace.clock) fch.sfx }))[j]? = _
      rw [List.getElem?_map, hj]
      rfl
    · intro hp
      rw [hp]
      rfl
  · intro hfresh k hklt
    obtain ⟨base, table, hb, ht⟩ := hbase k hklt
    have hpe : entryAddress lay k = some (base + k * lay.sizeof_sfx_t) := by
      rw [entryAddress, hb]
      rfl
    rw [hpe]
    refine ⟨Option.some_ne_none _, ?_⟩
    refine sfxAt_outside { lay with known_sfx := some (place s.trace.clock) } _
      (place s.trace.clock) _ known rfl hk (fun j hjlt heq => ?_)
    have hj2 : (j : Int) < s.max_sfx + SFX_GROW := by
      rw [← hmax, ← hkl]
      exact_mod_cast hjlt
    exact hfresh base j k hb hj2 hklt heq.symm
  · intro hamb hpool
    have hview := GrowSfxArrays_other_refs β s s0 (s.ambient_sfx.map (indexOfSfx lay))
      (s.fmod_channels.map (fun fch => { fch with sfx := indexOfSfx lay fch.sfx })) h0
    have h1 : (s.ambient_sfx.map (relocateSfx_mem lay (place s.trace.clock))).map
        (indexOfSfx { lay with known_sfx := some (place s.trace.clock) }) =
        s.ambient_sfx.map (indexOfSfx lay) := by
      rw [List.map_map]
      exact List.map_congr_left (fun p hp =>
        relocateSfx_mem_valid lay s (place s.trace.clock) p hsize hmaxlt (hamb p hp))
    have h2 : (s.fmod_channels.map
        (fun fch => { fch with sfx := relocateSfx_mem lay (place s.trace.clock) fch.sfx })).map
        (fun fch => { fch with
          sfx := indexOfSfx { lay with known_sfx := some (place s.trace.clock) } fch.sfx }) =
        s.fmod_channels.map (fun fch => { fch with sfx := indexOfSfx lay fch.sfx }) := by
      rw [List.map_map]
      refine List.map_congr_left (fun fch hfch => ?_)
      have hv := relocateSfx_mem_valid lay s (place s.trace.clock) fch.sfx hsize hmaxlt
        (hpool fch hfch)
      simp only [Function.comp, hv]
    show GrowSfxArrays β { s with
      ambient_sfx := s.ambient_sfx.map (indexOfSfx lay)
      fmod_channels := s.fmod_channels.map (fun fch => { fch with sfx := indexOfSfx lay fch.sfx }) }
      = _
    rw [hview]
    unfold indexView
    simp only [h1, h2]

theorem RegistryWF_stateReadyMem : RegistryWF stateReadyMem :=
  ⟨RegistryWF_stateReady.num_nonneg, RegistryWF_stateReady.num_le_max,
    RegistryWF_stateReady.max_le, RegistryWF_stateReady.known_length,
    RegistryWF_stateReady.sounds_length, RegistryWF_stateReady.known_some,
    RegistryWF_stateReady.sounds_some⟩

/-- C18 at a concrete state: the ready registry, 256 entries of 72 bytes at
address 4096, grows into a block at address 65536.  Entry 1 keeps its name,
entry 300 is zeroed; ambient slot 1 and pool slot 0, which pointed to entry 1
at address 4168, point to address 65608 and read the same entry; the old
address reads nothing; seen as indexes the call is the index-level growth. -/
theorem GrowSfxArrays_preserves_witness :
    ∃ (lay1 : SfxLayout) (s1 : State) (known : List sfx_t),
      GrowSfxArrays_mem backendLive (fun _ => 65536) layoutReady stateReadyMem =
        .ok (true, lay1, s1) ∧
      lay1.known_sfx = some 65536 ∧ s1.max_sfx = 512 ∧ s1.num_sfx = 2 ∧
      s1.known_sfx = some known ∧
      known[1]? = some ⟨"ambience/wind2.wav", none⟩ ∧ known[300]? = some sfx_zero ∧
      stateReadyMem.ambient_sfx[1]? = some (some 4168) ∧
      s1.ambient_sfx[1]? = some (some 65608) ∧
      s1.fmod_channels[0]? = some { slotOf 1 5 1 with sfx := some 65608 } ∧
      sfxAt layoutReady stateReadyMem (some 4168) = some ⟨"ambience/wind2.wav", none⟩ ∧
      sfxAt lay1 s1 (some 65608) = some ⟨"ambience/wind2.wav", none⟩ ∧
      sfxAt lay1 s1 (some 4168) = none ∧
      GrowSfxArrays backendLive (indexView layoutReady stateReadyMem) =
        .ok (true, indexView lay1 s1) := by
  obtain ⟨lay1, s1, known, sounds, h, hl1, hl2, hk, _, hmax, _, _, hold, hnew, hnum, _, _,
    hamb, hpool, hstale, hview⟩ :=
    GrowSfxArrays_preserves backendLive (fun _ => 65536) layoutReady stateReadyMem
      RegistryWF_stateReadyMem rfl (by decide) (by decide) rfl rfl
  have hone : ((1 : Nat) : Int) < stateReadyMem.max_sfx := by decide
  have hk1 : (stateReadyMem.known_sfx.getD [])[1]? = some ⟨"ambience/wind2.wav", none⟩ := by
    show (_ :: _ :: List.replicate 254 sfx_zero)[1]? = _
    rw [List.getElem?_cons_succ, List.getElem?_cons_zero]
  have hnew1 : entryAddress lay1 1 = some 65608 := by
    rw [entryAddress, hl1, hl2]
    rfl
  obtain ⟨p1, hp1, _, hp1k⟩ := hamb 1 (some 4168) rfl
  obtain ⟨hp1a, _, hp1b, hp1c⟩ := hp1k 1 hone rfl
  rw [hnew1] at hp1a
  subst hp1a
  obtain ⟨q1, hq1, _, hq1k⟩ := hpool 0 { slotOf 1 5 1 with sfx := some 4168 }
    List.getElem?_cons_zero
  obtain ⟨hq1a, _, _, _⟩ := hq1k 1 hone rfl
  rw [hnew1] at hq1a
  subst hq1a
  have hfresh : ∀ (base j k : Nat), layoutReady.known_sfx = some base →
      (j : Int) < stateReadyMem.max_sfx + SFX_GROW → (k : Int) < stateReadyMem.max_sfx →
      (fun _ => 65536) stateReadyMem.trace.clock + j * layoutReady.sizeof_sfx_t ≠
        base + k * layoutReady.sizeof_sfx_t := by
    intro base j k hb hj hk2
    have hb2 : base = 4096 := (Option.some.inj hb).symm
    have hk3 : (k : Int) < 256 := hk2
    show 65536 + j * 72 ≠ base + k * 72
    omega
  have hvalid1 : ValidSfxPtr layoutReady stateReadyMem (some 4168) :=
    Or.inr ⟨1, hone, Option.some_ne_none _, rfl⟩
  have hvalidA : ∀ p ∈ stateReadyMem.ambient_sfx, ValidSfxPtr layoutReady stateReadyMem p := by
    intro p hp
    have hp2 : p ∈ [some 4096, some 4168, none, (none : Option Nat)] := hp
    simp only [List.mem_cons, List.mem_singleton, List.not_mem_nil, or_false] at hp2
    rcases hp2 with hp2 | hp2 | hp2 | hp2
    · rw [hp2]
      exact Or.inr ⟨0, by decide, Option.some_ne_none _, rfl⟩
    · rw [hp2]
      exact hvalid1
    · exact Or.inl hp2
    · exact Or.inl hp2
  have hvalidP : ∀ fch ∈ stateReadyMem.fmod_channels,
      ValidSfxPtr layoutReady stateReadyMem fch.sfx := by
    intro fch hfch
    have hfch2 : fch ∈ { slotOf 1 5 1 with sfx := some 4168 } ::
        List.replicate 4094 fmod_channel_zero := hfch
    rcases List.mem_cons.mp hfch2 with hf | hf
    · rw [hf]
      exact hvalid1
    · rw [(List.mem_replicate.mp hf).2]
      exact Or.inl rfl
  have h300 := hnew 300 (by decide) (by rw [hmax]; decide)
  exact ⟨lay1, s1, known, h, hl1, hmax, hnum, hk, ((hold 1 hone).1).trans hk1, h300.1, rfl, hp1,
    hq1, (hp1b.symm.trans (hp1c.trans (((hold 1 hone).1).trans hk1))).symm.symm,
    hp1c.trans (((hold 1 hone).1).trans hk1), (hstale hfresh 1 hone).2,
    hview hvalidA hvalidP⟩

end SndFmod
